import Mathlib

/-!
# Telemetry alignment, geotag encoding, telemetry parsing and the pipeline

A shallow embedding of `src/gps_embed.h` and `src/pipeline.cpp`
(drone-recon-pipeline).

Conventions of the embedding:

* a C++ `std::string` is a `List Char`;
* a finite C++ `double` is the rational number (`ℚ`) that it holds, and each
  arithmetic operation rounds its exact result to binary64 (section "Binary64
  arithmetic"); NaN is not represented;
* an operation that throws a C++ exception returns `Except.error`;
* the functions of `pipeline.cpp` pass the state of the machine explicitly
  (section "The pipeline of `pipeline.cpp`").
-/

namespace GpsEmbed

/-- The record `GPSData` of `gps_embed.h`, with its default member initialisers. -/
structure GPSData where
  latitude : ℚ := 0
  longitude : ℚ := 0
  altitude : ℚ := 0
  timestamp : ℚ := 0
  valid : Bool := false
  deriving DecidableEq

/-! ## Binary64 arithmetic

A finite `double` is modelled by the rational number that it holds. An
arithmetic operation computes the exact result and rounds it to the nearest
binary64 value, ties to even (`toDouble`); a result beyond the range of the
finite values is represented by `± 2 ^ 1024`, which stands for the infinity.
An infinity can only become an operand as the capture time of a frame, in the
subtraction from a timestamp, where the rounded difference is again
`± 2 ^ 1024` for every timestamp below `2 ^ 970`. NaN is not represented: on
finite operands it can only arise in a division of zero by zero. -/

/-- Rounding of a non-negative rational to the nearest integer, ties to even. -/
def roundHalfEven (q : ℚ) : ℕ :=
  let f := ⌊q⌋.toNat
  let r := q - f
  if r < 1 / 2 then f
  else if 1 / 2 < r then f + 1
  else if f % 2 = 0 then f else f + 1

/-- The number of halvings that bring `n` below 2; `fuel` bounds the count. -/
def halvings : Nat → Nat → Nat
  | 0, _ => 0
  | fuel + 1, n => if n < 2 then 0 else halvings fuel (n / 2) + 1

/-- The binary logarithm of a positive natural number, rounded down. -/
def natLog2 (n : Nat) : Nat := halvings n n

/-- The power `2 ^ e` for an integer exponent. -/
def pow2 (e : ℤ) : ℚ :=
  if 0 ≤ e then ((2 ^ e.toNat : ℕ) : ℚ) else 1 / ((2 ^ (-e).toNat : ℕ) : ℚ)

/-- The binary exponent `e` of a positive value: `2 ^ e ≤ a < 2 ^ (e + 1)`. -/
def floorLog2 (a : ℚ) : ℤ :=
  let e : ℤ := (natLog2 a.num.natAbs : ℤ) - (natLog2 a.den : ℤ)
  if pow2 e ≤ a then e else e - 1

/-- Values of this magnitude or larger round to infinity in binary64. -/
def doubleOverflow : ℚ := 2 ^ 1024 - 2 ^ 970

/-- The spacing of the binary64 values around a positive value: 52 binary
digits below the leading one, and `2 ^ (-1074)` in the subnormal range. -/
def ulp (a : ℚ) : ℚ := pow2 (max (floorLog2 a) (-1022) - 52)

/-- The binary64 value nearest to a non-negative rational, ties to even;
`2 ^ 1024` stands for the infinity. -/
def roundMagnitude (a : ℚ) : ℚ :=
  if a = 0 then 0
  else if doubleOverflow ≤ a then 2 ^ 1024
  else (roundHalfEven (a / ulp a) : ℚ) * ulp a

/-- Rounding to binary64: the value that a `double` takes for the exact
result `q` of an operation. -/
def toDouble (q : ℚ) : ℚ := if q < 0 then -roundMagnitude (-q) else roundMagnitude q

/-- Addition of two `double` values. -/
def fadd (a b : ℚ) : ℚ := toDouble (a + b)

/-- Subtraction of two `double` values. -/
def fsub (a b : ℚ) : ℚ := toDouble (a - b)

/-- Multiplication of two `double` values. -/
def fmul (a b : ℚ) : ℚ := toDouble (a * b)

/-- Division of two `double` values, for a divisor other than zero. -/
def fdiv (a b : ℚ) : ℚ := toDouble (a / b)

/-- The function `std::abs` on `double`. -/
def fabs (x : ℚ) : ℚ := if x < 0 then -x else x

/-! ## getGPSForTimestamp -/

/-- The `for` loop of `getGPSForTimestamp`: `rest` are the frames from index `i`
on, `minDiff` and `closestIdx` are the loop variables; the result is the final
value of `closestIdx`. -/
def closestLoop (timestamp : ℚ) : List GPSData → Nat → ℚ → Nat → Nat
  | [], _, _, closestIdx => closestIdx
  | f :: rest, i, minDiff, closestIdx =>
    let diff := fabs (fsub f.timestamp timestamp)
    if diff < minDiff then closestLoop timestamp rest (i + 1) diff i
    else closestLoop timestamp rest (i + 1) minDiff closestIdx

/-- The value of `closestIdx` when `getGPSForTimestamp` reaches its final
`return` (`0` for the empty vector, where that statement is not reached). -/
def closestIndex (frames : List GPSData) (timestamp : ℚ) : Nat :=
  match frames with
  | [] => 0
  | f0 :: rest => closestLoop timestamp rest 1 (fabs (fsub f0.timestamp timestamp)) 0

/-- The function `getGPSForTimestamp` of `gps_embed.h`. -/
def getGPSForTimestamp (frames : List GPSData) (timestamp : ℚ) : GPSData :=
  if frames.isEmpty then ({} : GPSData)
  else frames.getD (closestIndex frames timestamp) {}

/-- Distance of the frame at index `j` to the query, as the loop computes it. -/
def frameDiff (frames : List GPSData) (timestamp : ℚ) (j : Nat) : ℚ :=
  fabs (fsub (frames.getD j {}).timestamp timestamp)

/-! ## Number formatting of the C++ stream library

`std::ostringstream` is a buffer plus the two formatting flags the program
sets: `std::fixed` and the precision. Inserting a `double` prints it in fixed
notation when `std::fixed` is set and in the general (`%g`) notation otherwise.
Values are rounded to the printed position to nearest, ties to even. -/

/-- The conversion `static_cast<int>` of a `double`: truncation toward zero
(the value is assumed to be in the range of `int`). -/
def truncInt (q : ℚ) : ℤ := if 0 ≤ q then ⌊q⌋ else ⌈q⌉

/-- Decimal digits of `n`, most significant first; `fuel` bounds the number of
digits. -/
def decimalDigits : Nat → Nat → List Char
  | 0, _ => []
  | fuel + 1, n =>
    if n < 10 then [Nat.digitChar n]
    else decimalDigits fuel (n / 10) ++ [Nat.digitChar (n % 10)]

/-- Decimal text of a natural number. -/
def natChars (n : Nat) : List Char := decimalDigits (n + 1) n

/-- Decimal text of an `int` (stream insertion of an `int`). -/
def intChars (z : ℤ) : List Char :=
  if z < 0 then '-' :: natChars z.natAbs else natChars z.toNat

/-- Left padding with `'0'` up to `width` characters. -/
def padZeros (width : Nat) (cs : List Char) : List Char :=
  List.replicate (width - cs.length) '0' ++ cs

/-- Fixed notation (`%.{prec}f`) of a non-negative value. -/
def fixedMagnitude (prec : Nat) (a : ℚ) : List Char :=
  let n := roundHalfEven (a * 10 ^ prec)
  natChars (n / 10 ^ prec) ++
    (if prec = 0 then [] else '.' :: padZeros prec (natChars (n % 10 ^ prec)))

/-- Fixed notation (`%.{prec}f`) of a `double`. -/
def fixedChars (prec : Nat) (v : ℚ) : List Char :=
  if v < 0 then '-' :: fixedMagnitude prec (fabs v) else fixedMagnitude prec (fabs v)

/-- Search upward for the largest `k` with `10 ^ k ≤ v` (for `1 ≤ v`). -/
def expUp : Nat → ℚ → Nat → Nat
  | 0, _, k => k
  | fuel + 1, v, k => if (10 : ℚ) ^ (k + 1) ≤ v then expUp fuel v (k + 1) else k

/-- Search upward for the least `k` with `1 ≤ v * 10 ^ k` (for `0 < v < 1`). -/
def expDown : Nat → ℚ → Nat → Nat
  | 0, _, k => k
  | fuel + 1, v, k => if 1 ≤ v * (10 : ℚ) ^ k then k else expDown fuel v (k + 1)

/-- The decimal exponent `e` of a positive value: `10 ^ e ≤ v < 10 ^ (e + 1)`. -/
def decimalExponent (v : ℚ) : ℤ :=
  if 1 ≤ v then (expUp ⌊v⌋.toNat v 0 : ℕ) else -(expDown v.den v 1 : ℕ)

/-- Multiplication by `10 ^ e` for an integer exponent. -/
def scale10 (v : ℚ) (e : ℤ) : ℚ :=
  if 0 ≤ e then v * 10 ^ e.toNat else v / 10 ^ (-e).toNat

/-- Removal of the trailing zeros of a fraction, and of the decimal point when
no fraction is left (the `%g` notation without the `#` flag). -/
def stripZeros (cs : List Char) : List Char :=
  if '.' ∈ cs then
    let r := cs.reverse.dropWhile (fun c => c == '0')
    (match r with
      | '.' :: r1 => r1
      | _ => r).reverse
  else cs

/-- General notation (`%.{prec}g`) of a non-negative value. -/
def generalMagnitude (prec : Nat) (a : ℚ) : List Char :=
  let p := if prec = 0 then 1 else prec
  if a = 0 then ['0']
  else
    let e0 := decimalExponent a
    let m0 := roundHalfEven (scale10 a ((p : ℤ) - 1 - e0))
    let x := if m0 = 10 ^ p then e0 + 1 else e0
    let m := if m0 = 10 ^ p then 10 ^ (p - 1) else m0
    if -4 ≤ x ∧ x < p then stripZeros (fixedMagnitude ((p : ℤ) - 1 - x).toNat a)
    else
      let ds := natChars m
      stripZeros (ds.take 1 ++ '.' :: ds.drop 1) ++
        'e' :: (if x < 0 then '-' else '+') :: padZeros 2 (natChars x.natAbs)

/-- General notation (`%.{prec}g`) of a `double`. -/
def generalChars (prec : Nat) (v : ℚ) : List Char :=
  if v < 0 then '-' :: generalMagnitude prec (fabs v) else generalMagnitude prec (fabs v)

/-- The state of a `std::ostringstream`: the text written so far, whether
`std::fixed` is set, and the precision (initially 6). -/
structure OStream where
  buf : List Char := []
  fixed : Bool := false
  precision : Nat := 6

namespace OStream

/-- Insertion of a string literal or `std::string`. -/
def str (s : OStream) (t : List Char) : OStream := { s with buf := s.buf ++ t }

/-- Insertion of a `char`. -/
def chr (s : OStream) (c : Char) : OStream := { s with buf := s.buf ++ [c] }

/-- Insertion of an `int`. -/
def int (s : OStream) (z : ℤ) : OStream := { s with buf := s.buf ++ intChars z }

/-- Insertion of `std::fixed`. -/
def setFixed (s : OStream) : OStream := { s with fixed := true }

/-- Insertion of `std::setprecision(n)`. -/
def setPrecision (s : OStream) (n : Nat) : OStream := { s with precision := n }

/-- Insertion of a `double`. -/
def double (s : OStream) (v : ℚ) : OStream :=
  { s with buf := s.buf ++
      (if s.fixed then fixedChars s.precision v else generalChars s.precision v) }

end OStream

/-! ## decimalToDMS and generateExiftoolCommand -/

/-- The function `decimalToDMS` of `gps_embed.h`. -/
def decimalToDMS (decimal : ℚ) : List Char :=
  let absDec := fabs decimal
  let degrees := truncInt absDec
  let minutesDecimal := fmul (fsub absDec degrees) 60
  let minutes := truncInt minutesDecimal
  let seconds := fmul (fsub minutesDecimal minutes) 60
  let oss : OStream := {}
  let oss := ((((oss.int degrees).str " ".toList).int minutes).str " ".toList)
  let oss := ((oss.setFixed).setPrecision 4).double seconds
  oss.buf

/-- The value of the local variable `minutesDecimal` of `decimalToDMS`. -/
def dmsMinutesDecimal (decimal : ℚ) : ℚ :=
  fmul (fsub (fabs decimal) (truncInt (fabs decimal))) 60

/-- The value of the local variable `seconds` of `decimalToDMS`. -/
def dmsSeconds (decimal : ℚ) : ℚ :=
  fmul (fsub (dmsMinutesDecimal decimal) (truncInt (dmsMinutesDecimal decimal))) 60

/-- The local constant `latRef` of `generateExiftoolCommand`. -/
def latRef (latitude : ℚ) : Char := if latitude ≥ 0 then 'N' else 'S'

/-- The local constant `lonRef` of `generateExiftoolCommand`. -/
def lonRef (longitude : ℚ) : Char := if longitude ≥ 0 then 'E' else 'W'

/-- The function `generateExiftoolCommand` of `gps_embed.h`. -/
def generateExiftoolCommand (exiftoolPath imagePath : List Char)
    (latitude longitude altitude : ℚ) : List Char :=
  let cmd : OStream := {}
  let cmd := ((cmd.str "\"\"".toList).str exiftoolPath).str "\" ".toList
  let latRef := latRef latitude
  let lonRef := lonRef longitude
  let cmd := ((cmd.str "-EXIF:GPSLatitude=\"".toList).str (decimalToDMS latitude)).str "\" ".toList
  let cmd := ((cmd.str "-EXIF:GPSLatitudeRef=".toList).chr latRef).str " ".toList
  let cmd := ((cmd.str "-EXIF:GPSLongitude=\"".toList).str (decimalToDMS longitude)).str "\" ".toList
  let cmd := ((cmd.str "-EXIF:GPSLongitudeRef=".toList).chr lonRef).str " ".toList
  let cmd := cmd.str "-EXIF:GPSVersionID=\"2.3.0.0\" ".toList
  let cmd := cmd.str "-EXIF:GPSMapDatum=\"WGS-84\" ".toList
  let cmd :=
    if altitude ≠ 0 then
      let cmd := ((cmd.str "-EXIF:GPSAltitude=".toList).double (fabs altitude)).str " ".toList
      ((cmd.str "-EXIF:GPSAltitudeRef=".toList).str
        (if altitude ≥ 0 then "0".toList else "1".toList)).str " ".toList
    else cmd
  let cmd := ((((cmd.str "-XMP:GPSLatitude=".toList).setFixed).setPrecision 8).double
    latitude).str " ".toList
  let cmd := ((((cmd.str "-XMP:GPSLongitude=".toList).setFixed).setPrecision 8).double
    longitude).str " ".toList
  let cmd :=
    if altitude ≠ 0 then
      ((cmd.str "-XMP:GPSAltitude=".toList).double (fabs altitude)).str " ".toList
    else cmd
  let cmd := cmd.str "-overwrite_original ".toList
  let cmd := ((cmd.str "\"".toList).str imagePath).str "\"\"".toList
  cmd.buf

/-- The tag arguments of the command: the text that `generateExiftoolCommand`
writes between the quoted path of the executable and the quoted path of the
image (theorem `generateExiftoolCommand_eq`). -/
def tagsText (latitude longitude altitude : ℚ) : List Char :=
  "-EXIF:GPSLatitude=\"".toList ++ (decimalToDMS latitude ++ ("\" ".toList ++
  ("-EXIF:GPSLatitudeRef=".toList ++ ([latRef latitude] ++ (" ".toList ++
  ("-EXIF:GPSLongitude=\"".toList ++ (decimalToDMS longitude ++ ("\" ".toList ++
  ("-EXIF:GPSLongitudeRef=".toList ++ ([lonRef longitude] ++ (" ".toList ++
  ("-EXIF:GPSVersionID=\"2.3.0.0\" ".toList ++
  ("-EXIF:GPSMapDatum=\"WGS-84\" ".toList ++
  ((if altitude ≠ 0 then
      "-EXIF:GPSAltitude=".toList ++ (generalChars 6 (fabs altitude) ++ (" ".toList ++
      ("-EXIF:GPSAltitudeRef=".toList ++
      ((if altitude ≥ 0 then "0".toList else "1".toList) ++ " ".toList))))
    else []) ++
  ("-XMP:GPSLatitude=".toList ++ (fixedChars 8 latitude ++ (" ".toList ++
  ("-XMP:GPSLongitude=".toList ++ (fixedChars 8 longitude ++ (" ".toList ++
  ((if altitude ≠ 0 then
      "-XMP:GPSAltitude=".toList ++ (fixedChars 8 (fabs altitude) ++ " ".toList)
    else []) ++
  "-overwrite_original ".toList)))))))))))))))))))))

/-! ## Reading the geotag text back

The reader of the tagging tool is not part of the program; these definitions
say what it means to read an argument of the command and a `D M S` text. -/

/-- The value of the first occurrence of `key` in a command text: the text
that follows `key`, up to the next space. -/
def valueAfter (key : List Char) : List Char → Option (List Char)
  | [] => none
  | c :: cs =>
    if key.isPrefixOf (c :: cs) then
      some (((c :: cs).drop key.length).takeWhile (fun x => x != ' '))
    else valueAfter key cs

/-- The number written by a string of decimal digits. -/
def digitsValue (cs : List Char) : ℕ :=
  cs.foldl (fun acc c => acc * 10 + (c.toNat - 48)) 0

/-- Reading of an unsigned integer: a non-empty string of decimal digits. -/
def readNat (cs : List Char) : Option ℕ :=
  if cs ≠ [] ∧ cs.all Char.isDigit then some (digitsValue cs) else none

/-- Reading of an unsigned decimal `iii.fff` (or `iii`). -/
def readDecimal (cs : List Char) : Option ℚ :=
  let ip := cs.takeWhile Char.isDigit
  match cs.dropWhile Char.isDigit with
  | [] => (readNat ip).map (fun n => (n : ℚ))
  | '.' :: fp =>
    match readNat ip, readNat fp with
    | some i, some f => some ((i : ℚ) + (f : ℚ) / 10 ^ fp.length)
    | _, _ => none
  | _ => none

/-- The fields of a text separated by single spaces. -/
def fields : List Char → List (List Char)
  | [] => [[]]
  | c :: cs =>
    if c = ' ' then [] :: fields cs
    else
      match fields cs with
      | f :: fs => (c :: f) :: fs
      | [] => [[c]]

/-- Reading of a `D M S` text: degrees, minutes and seconds. -/
def readDMS (s : List Char) : Option (ℕ × ℕ × ℚ) :=
  match fields s with
  | [d, m, sec] =>
    match readNat d, readNat m, readDecimal sec with
    | some dv, some mv, some sv => some (dv, mv, sv)
    | _, _, _ => none
  | _ => none

/-- The sign that a hemisphere letter stands for: south and west are negative. -/
def hemisphereSign (ref : Char) : ℚ := if ref = 'S' ∨ ref = 'W' then -1 else 1

/-! ## Auxiliary definitions for the search of a key in a text -/

/-- Two texts clash when neither is a prefix of the other. -/
def clash (key t : List Char) : Bool := !(key.isPrefixOf t) && !(t.isPrefixOf key)

/-- No occurrence of `key` starts inside the literal text `l`, whatever follows. -/
def noStart (key : List Char) : List Char → Bool
  | [] => true
  | c :: cs => clash key (c :: cs) && noStart key cs

/-- Characters of the printed numbers: digits, point, space, sign and exponent
mark. -/
def numChar (c : Char) : Bool :=
  c.isDigit || c == '.' || c == ' ' || c == '-' || c == 'e' || c == '+'

/-! ## Regular expressions of `parseSRT`

`std::regex` (ECMAScript grammar) is modelled for the constructs that the
patterns of `parseSRT` use: a pattern is a sequence of single-character atoms,
each with a quantifier (`{n}`, `*`, `+` or none) and possibly enclosed in a
capture group. Matching is the backtracking search of the ECMAScript grammar:
a greedy quantifier tries the longest repetition first, and `regex_search`
returns the match at the leftmost position where one exists. -/

/-- The class `\s`: the white-space characters of the `"C"` locale. -/
def isSpace (c : Char) : Bool :=
  c == ' ' || c == '\t' || c == '\n' || c == '\x0b' || c == '\x0c' || c == '\r'

/-- A single-character atom of a pattern. -/
inductive CharClass where
  /-- an ordinary or escaped character, such as `G` or `\(` -/
  | lit (c : Char)
  /-- the class `\d` -/
  | digit
  /-- the class `\s` -/
  | space
  /-- the bracket expression `[\-\d\.]` -/
  | numeric
  deriving DecidableEq

/-- Whether a character matches an atom; with `icase` letters are compared
without regard to case. -/
def CharClass.test (icase : Bool) : CharClass → Char → Bool
  | .lit c, x => if icase then x.toLower == c.toLower else x == c
  | .digit, x => x.isDigit
  | .space, x => isSpace x
  | .numeric, x => x == '-' || x.isDigit || x == '.'

/-- An atom with its quantifier. -/
inductive Piece where
  /-- the atom alone -/
  | one (c : CharClass)
  /-- the atom followed by `*` -/
  | star (c : CharClass)
  /-- the atom followed by `+` -/
  | plus (c : CharClass)
  /-- the atom followed by `{n}` -/
  | rep (n : Nat) (c : CharClass)
  deriving DecidableEq

/-- An element of a pattern: a quantified atom, or a capture group around one. -/
inductive Node where
  | piece (p : Piece)
  | group (p : Piece)
  deriving DecidableEq

/-- A compiled pattern: its elements and the flag `std::regex::icase`. -/
structure Regex where
  nodes : List Node
  icase : Bool := false

/-- The elements of a literal text. -/
def lits (s : String) : List Node := s.toList.map (fun c => Node.piece (.one (.lit c)))

/-- The ways `atom*` can match at the start of a text, longest first: each is
the matched text and the rest. -/
def starSplits (test : Char → Bool) : List Char → List (List Char × List Char)
  | [] => [([], [])]
  | c :: cs =>
    if test c then
      (starSplits test cs).map (fun ar => (c :: ar.1, ar.2)) ++ [([], c :: cs)]
    else [([], c :: cs)]

/-- The way `atom{n}` can match at the start of a text, if any. -/
def repSplit (test : Char → Bool) : Nat → List Char → Option (List Char × List Char)
  | 0, s => some ([], s)
  | _ + 1, [] => none
  | n + 1, c :: cs =>
    if test c then (repSplit test n cs).map (fun ar => (c :: ar.1, ar.2)) else none

/-- The ways a quantified atom can match at the start of a text, in the order
in which the backtracking matcher tries them. -/
def Piece.splits (icase : Bool) : Piece → List Char → List (List Char × List Char)
  | .one c, s => (repSplit (c.test icase) 1 s).toList
  | .star c, s => starSplits (c.test icase) s
  | .plus c, s =>
    match s with
    | [] => []
    | x :: xs =>
      if c.test icase x then (starSplits (c.test icase) xs).map (fun ar => (x :: ar.1, ar.2))
      else []
  | .rep n c, s => (repSplit (c.test icase) n s).toList

/-- Match of a pattern at the start of a text: the captured groups (appended to
`caps`) and the text after the match. -/
def matchNodes (icase : Bool) :
    List Node → List Char → List (List Char) → Option (List (List Char) × List Char)
  | [], s, caps => some (caps, s)
  | .piece p :: ns, s, caps =>
    (p.splits icase s).findSome? (fun ar => matchNodes icase ns ar.2 caps)
  | .group p :: ns, s, caps =>
    (p.splits icase s).findSome? (fun ar => matchNodes icase ns ar.2 (caps ++ [ar.1]))

/-- The result of a successful `std::regex_search` (`std::smatch`): the text
before the match, the captured groups 1, 2, … and the text after the match. -/
structure Match where
  pre : List Char
  groups : List (List Char)
  suf : List Char
  deriving DecidableEq

/-- The sub-match `m[i]` for `i ≥ 1`. -/
def Match.group (m : Match) (i : Nat) : List Char := m.groups.getD (i - 1) []

/-- The function `std::regex_search`: the match at the leftmost position. -/
def regexSearch (re : Regex) : List Char → Option Match
  | [] => (matchNodes re.icase re.nodes [] []).map (fun r => ⟨[], r.1, r.2⟩)
  | c :: cs =>
    match matchNodes re.icase re.nodes (c :: cs) [] with
    | some r => some ⟨[], r.1, r.2⟩
    | none => (regexSearch re cs).map (fun m => { m with pre := c :: m.pre })

/-- The pattern `\n\n+`. -/
def blockRegex : Regex :=
  { nodes := [.piece (.one (.lit '\n')), .piece (.plus (.lit '\n'))] }

/-- The pattern `(\d{2}):(\d{2}):(\d{2}),(\d{3})`. -/
def timeRegex : Regex :=
  { nodes := [.group (.rep 2 .digit)] ++ lits ":" ++ [.group (.rep 2 .digit)] ++ lits ":" ++
      [.group (.rep 2 .digit)] ++ lits "," ++ [.group (.rep 3 .digit)] }

/-- The pattern `GPS:\s*\(([\-\d\.]+)\s*,\s*([\-\d\.]+)\)`. -/
def gpsRegex : Regex :=
  { nodes := lits "GPS:" ++ [.piece (.star .space)] ++ lits "(" ++ [.group (.plus .numeric)] ++
      [.piece (.star .space)] ++ lits "," ++ [.piece (.star .space)] ++
      [.group (.plus .numeric)] ++ lits ")" }

/-- The pattern `\[latitude:\s*([\-\d\.]+)\]`, case-insensitive. -/
def latRegex : Regex :=
  { nodes := lits "[latitude:" ++ [.piece (.star .space)] ++ [.group (.plus .numeric)] ++
      lits "]",
    icase := true }

/-- The pattern `\[longtitude:\s*([\-\d\.]+)\]`, case-insensitive. -/
def lonRegex : Regex :=
  { nodes := lits "[longtitude:" ++ [.piece (.star .space)] ++ [.group (.plus .numeric)] ++
      lits "]",
    icase := true }

/-- The pattern `H:\s*([\-\d\.]+)m`. -/
def altRegex1 : Regex :=
  { nodes := lits "H:" ++ [.piece (.star .space)] ++ [.group (.plus .numeric)] ++ lits "m" }

/-- The pattern `\[altitude:\s*([\-\d\.]+)\]`, case-insensitive. -/
def altRegex2 : Regex :=
  { nodes := lits "[altitude:" ++ [.piece (.star .space)] ++ [.group (.plus .numeric)] ++
      lits "]",
    icase := true }

/-! ## Conversions of the C++ string library -/

/-- The exceptions of `std::stoi` and `std::stod`. -/
inductive Exn where
  | invalidArgument
  | outOfRange
  deriving DecidableEq

deriving instance DecidableEq for Except

/-- The function `std::stoi`: leading white space, an optional sign and the
longest run of decimal digits; `std::invalid_argument` when there is no digit,
`std::out_of_range` when the value does not fit a 32-bit `int`. -/
def stoi (s : List Char) : Except Exn ℤ :=
  let s := s.dropWhile isSpace
  let neg := s.head? == some '-'
  let s := if s.head? == some '-' || s.head? == some '+' then s.drop 1 else s
  let ds := s.takeWhile Char.isDigit
  if ds.isEmpty then .error .invalidArgument
  else
    let v : ℤ := if neg then -(digitsValue ds : ℤ) else (digitsValue ds : ℤ)
    if v < -2147483648 ∨ 2147483647 < v then .error .outOfRange else .ok v

/-- The function `std::stod` on a text without exponent part, hexadecimal
digits or letters (all that the patterns of `parseSRT` can capture): leading
white space, an optional sign, decimal digits with an optional point. The
result is the binary64 value nearest to the decimal value.
`std::invalid_argument` when no digit is present; `std::out_of_range` when
`strtod` reports a range error: on overflow, and on underflow, taken here as
every non-zero value below the least normal number `2 ^ (-1022)` (whether a
subnormal result is reported depends on the library). The sign of a zero is
not represented. -/
def stod (s : List Char) : Except Exn ℚ :=
  let s := s.dropWhile isSpace
  let neg := s.head? == some '-'
  let s := if s.head? == some '-' || s.head? == some '+' then s.drop 1 else s
  let ip := s.takeWhile Char.isDigit
  let fp := match s.dropWhile Char.isDigit with
    | '.' :: r => r.takeWhile Char.isDigit
    | _ => []
  if ip.isEmpty && fp.isEmpty then .error .invalidArgument
  else
    let a : ℚ := (digitsValue ip : ℚ) + (digitsValue fp : ℚ) / 10 ^ fp.length
    if doubleOverflow ≤ a then .error .outOfRange
    else if a ≠ 0 ∧ a < pow2 (-1022) then .error .outOfRange
    else .ok (toDouble (if neg then -a else a))

/-! ## parseSRT

The content of the telemetry file is the text that the input stream delivers.
`parseSRT` throws when `std::stod` throws; the other steps cannot fail. -/

/-- The tokens that `std::sregex_token_iterator` yields for sub-match `-1` once
a first match was found: `s` is the text after the previous match. Each match
of `\n\n+` consumes at least two characters, so `fuel = length` suffices. -/
def tokensAfter : Nat → List Char → List (List Char)
  | 0, _ => []
  | fuel + 1, s =>
    match regexSearch blockRegex s with
    | none => if s.isEmpty then [] else [s]
    | some m => m.pre :: tokensAfter fuel m.suf

/-- The blocks of the file: the tokens of
`std::sregex_token_iterator(content.begin(), content.end(), blockRegex, -1)`. -/
def blocks (content : List Char) : List (List Char) :=
  match regexSearch blockRegex content with
  | none => [content]
  | some m => m.pre :: tokensAfter content.length m.suf

/-- The lines that the loop `while (std::getline(iss, line))` reads. -/
def getLines : List Char → List (List Char)
  | [] => []
  | c :: cs =>
    if c = '\n' then [] :: getLines cs
    else
      match getLines cs with
      | [] => [[c]]
      | l :: ls => (c :: l) :: ls

/-- The vector `lines` of a block: the lines that pass the test
`!line.empty() && line != "\\r"`. The literal `"\\r"` of the source is the
two-character text backslash, `r`. -/
def blockLines (block : List Char) : List (List Char) :=
  (getLines block).filter (fun line => !line.isEmpty && line != ['\\', 'r'])

/-- The section "Parse timestamp": the start time of `lines[1]` in seconds, or
`none` when `timeRegex` does not match. -/
def parseTimestamp (line : List Char) : Except Exn (Option ℚ) :=
  match regexSearch timeRegex line with
  | none => pure none
  | some timeMatch => do
    let hours ← stoi (timeMatch.group 1)
    let minutes ← stoi (timeMatch.group 2)
    let seconds ← stoi (timeMatch.group 3)
    let ms ← stoi (timeMatch.group 4)
    pure (some (fadd ((hours * 3600 + minutes * 60 + seconds : ℤ) : ℚ) (fdiv (ms : ℚ) 1000)))

/-- The section "Join metadata lines": `lines[2]`, `lines[3]`, … each followed
by a space. -/
def joinMetadata (lines : List (List Char)) : List Char :=
  (lines.drop 2).foldl (fun metadata line => metadata ++ (line ++ [' '])) []

/-- The section "Try to parse GPS coordinates". -/
def parseCoordinates (metadata : List Char) (data : GPSData) : Except Exn GPSData :=
  match regexSearch gpsRegex metadata with
  | some gpsMatch => do
    let longitude ← stod (gpsMatch.group 1)
    let latitude ← stod (gpsMatch.group 2)
    pure { data with longitude := longitude, latitude := latitude, valid := true }
  | none => do
    let latMatch := regexSearch latRegex metadata
    let lonMatch := regexSearch lonRegex metadata
    let data ←
      match latMatch with
      | some m => do
        let latitude ← stod (m.group 1)
        pure { data with latitude := latitude }
      | none => pure data
    let data ←
      match lonMatch with
      | some m => do
        let longitude ← stod (m.group 1)
        pure { data with longitude := longitude }
      | none => pure data
    if latMatch.isSome && lonMatch.isSome then pure { data with valid := true }
    else pure data

/-- The section "Parse altitude". -/
def parseAltitude (metadata : List Char) (data : GPSData) : Except Exn GPSData :=
  match regexSearch altRegex1 metadata with
  | some altMatch => do
    let altitude ← stod (altMatch.group 1)
    pure { data with altitude := altitude }
  | none =>
    match regexSearch altRegex2 metadata with
    | some altMatch => do
      let altitude ← stod (altMatch.group 1)
      pure { data with altitude := altitude }
    | none => pure data

/-- The body of the loop over the blocks: the fix that the block appends to
`frames`, or `none` when the block is skipped. -/
def parseBlock (block : List Char) : Except Exn (Option GPSData) :=
  let lines := blockLines block
  if lines.length < 3 then pure none
  else do
    match ← parseTimestamp (lines.getD 1 []) with
    | none => pure none
    | some timestamp =>
      let metadata := joinMetadata lines
      let data : GPSData := { timestamp := timestamp }
      let data ← parseCoordinates metadata data
      let data ← parseAltitude metadata data
      if data.valid then pure (some data) else pure none

/-- The loop over the blocks, with the vector `frames` built so far. -/
def parseBlocks : List (List Char) → List GPSData → Except Exn (List GPSData)
  | [], frames => pure frames
  | block :: rest, frames =>
    match parseBlock block with
    | .error e => .error e
    | .ok none => parseBlocks rest frames
    | .ok (some data) => parseBlocks rest (frames ++ [data])

/-- The function `parseSRT` of `gps_embed.h`; `file` is the content of the file
at `srtPath`, or `none` when the file cannot be opened. -/
def parseSRT (file : Option (List Char)) : Except Exn (List GPSData) :=
  match file with
  | none => pure []
  | some content => parseBlocks (blocks content) []

/-- The fix that a block contributes to the output of `parseSRT`: the record
that the loop body appends to `frames`, if it appends one. -/
def blockFix (block : List Char) : Option GPSData :=
  match parseBlock block with
  | .ok (some data) => some data
  | _ => none

/-! ## Timestamps in a line

What it means for a text to carry a timestamp `HH:MM:SS,mmm`, and the number
of seconds that the timestamp denotes. -/

/-- Whether a text starts with a timestamp `HH:MM:SS,mmm`. -/
def startsWithTimestamp (s : List Char) : Bool :=
  match s with
  | h1 :: h2 :: c1 :: m1 :: m2 :: c2 :: s1 :: s2 :: c3 :: k1 :: k2 :: k3 :: _ =>
    h1.isDigit && h2.isDigit && c1 == ':' && m1.isDigit && m2.isDigit && c2 == ':' &&
      s1.isDigit && s2.isDigit && c3 == ',' && k1.isDigit && k2.isDigit && k3.isDigit
  | _ => false

/-- The seconds that the timestamp `HH:MM:SS,mmm` at the start of a text
denotes: the `double` value of the expression
`hours * 3600 + minutes * 60 + seconds + millis / 1000.0`, an integer plus a
quotient of two `double` values. -/
def timestampSeconds (s : List Char) : ℚ :=
  match s with
  | h1 :: h2 :: _ :: m1 :: m2 :: _ :: s1 :: s2 :: _ :: k1 :: k2 :: k3 :: _ =>
    fadd ((digitsValue [h1, h2] : ℚ) * 3600 + (digitsValue [m1, m2] : ℚ) * 60 +
      (digitsValue [s1, s2] : ℚ)) (fdiv (digitsValue [k1, k2, k3] : ℚ) 1000)
  | _ => 0

/-! ## Sample data -/

/-- A telemetry file of three blocks: a combined pair, separate tags, and a
block without coordinates. -/
def sampleTelemetry : List Char :=
  ("1\n00:00:00,000 --> 00:00:01,000\n<font size=\"36\">FrameCnt : 1</font>\n" ++
   "[iso : 100] GPS: (-122.5, 37.25) H: 12.5m\n\n" ++
   "2\n00:00:01,000 --> 00:00:02,000\n" ++
   "[latitude: 37.5] [longtitude: -122.25] [altitude: 20]\n\n\n" ++
   "3\n00:00:02,000 --> 00:00:03,000\nno coordinates here\n").toList

/-- The first block of `sampleTelemetry`. -/
def sampleBlock : List Char :=
  ("1\n00:00:00,000 --> 00:00:01,000\n<font size=\"36\">FrameCnt : 1</font>\n" ++
   "[iso : 100] GPS: (-122.5, 37.25) H: 12.5m").toList

/-- A block with a combined pair and separate tags. -/
def sampleMixedBlock : List Char :=
  ("7\n00:00:05,000 --> 00:00:06,000\n" ++
   "[latitude: 1.5] [longtitude: 2.5] GPS: (3.5, 4.5) [altitude: 30] H: 12.5m").toList

/-- A block with a combined pair and no altitude. -/
def sampleNoAltitudeBlock : List Char :=
  "7\n00:00:05,000 --> 00:00:06,000\nGPS: (3.5, 4.5) F/2.8".toList

/-- A block with separate tags and the bracketed altitude tag. -/
def sampleTagBlock : List Char :=
  ("2\n00:00:01,000 --> 00:00:02,000\n" ++
   "[latitude: 37.5] [longtitude: -122.25] [altitude: 20]").toList

/-- A block with a latitude tag and a tag spelled `[longitude:`. -/
def sampleLatOnlyBlock : List Char :=
  "3\n00:00:01,000 --> 00:00:02,000\n[latitude: 37.5] [longitude: -122.25]".toList

/-- The fix of the second block of `sampleTelemetry`. -/
def sampleSecondFix : GPSData :=
  { latitude := 37.5, longitude := -122.25, altitude := 20, timestamp := 1, valid := true }

/-- The fixes of `sampleTelemetry`. -/
def sampleFixes : List GPSData :=
  [{ latitude := 37.25, longitude := -122.5, altitude := 12.5, timestamp := 0, valid := true },
   sampleSecondFix]


/-- A telemetry file with fixes at 0.3 s and 1.7 s. -/
def nearTieTelemetry : List Char :=
  ("1\n00:00:00,300 --> 00:00:01,700\nGPS: (4.5, 52.0)\n\n" ++
   "2\n00:00:01,700 --> 00:00:02,000\nGPS: (4.5, 52.5)\n").toList

/-- The fixes of `nearTieTelemetry`; the timestamps are the `double` values of
`0 + 300 / 1000.0` and `1 + 700 / 1000.0`. -/
def nearTieFixes : List GPSData :=
  [{ latitude := 52, longitude := 4.5, altitude := 0, timestamp := fadd 0 (fdiv 300 1000),
     valid := true },
   { latitude := 52.5, longitude := 4.5, altitude := 0, timestamp := fadd 1 (fdiv 700 1000),
     valid := true }]

/-- A telemetry file with fixes at 0.15 s and 0.85 s. -/
def halfSecondTelemetry : List Char :=
  ("1\n00:00:00,150 --> 00:00:00,850\nGPS: (4.5, 52.0)\n\n" ++
   "2\n00:00:00,850 --> 00:00:01,000\nGPS: (4.5, 52.5)\n").toList

/-- The fixes of `halfSecondTelemetry`; the timestamps are the `double` values
of `0 + 150 / 1000.0` and `0 + 850 / 1000.0`. -/
def halfSecondFixes : List GPSData :=
  [{ latitude := 52, longitude := 4.5, altitude := 0, timestamp := fadd 0 (fdiv 150 1000),
     valid := true },
   { latitude := 52.5, longitude := 4.5, altitude := 0, timestamp := fadd 0 (fdiv 850 1000),
     valid := true }]
/-! ## Splitting on runs of blank lines

The split of a text on runs of blank lines, in the words of the specification,
to be compared with `blocks`: a run is two or more consecutive newline
characters; the text before the first run is a block, and so on after each
run; nothing follows a run that ends the text. -/

/-- The blocks of a text split on runs of two or more newlines. `skipping`
holds right after the first two newlines of a run, while the rest of the run is
passed over; `cur` is the block read so far. -/
def specSplit : Bool → List Char → List Char → List (List Char)
  | skipping, cur, [] => if skipping then [] else [cur]
  | skipping, cur, c :: rest =>
    if skipping then
      if c = '\n' then specSplit true cur rest else specSplit false (cur ++ [c]) rest
    else
      match rest with
      | [] => specSplit false (cur ++ [c]) []
      | d :: rest' =>
        if c = '\n' ∧ d = '\n' then cur :: specSplit true [] rest'
        else specSplit false (cur ++ [c]) (d :: rest')

/-- The blocks of a text split on runs of blank lines. -/
def specBlocks (content : List Char) : List (List Char) := specSplit false [] content


/-! ## The pipeline of `pipeline.cpp`

The functions of `pipeline.cpp` act on the file system, start child processes
and report through a log callback.  The embedding passes the state of the
machine explicitly: an operation takes a `PState` (the world and the
chronological trace of what the program did) and returns either a value or a
C++ exception, together with the new state.  What the operating system and the
C++ library do is a parameter `Sys W` on which no assumption is made.
-/

/-- An entry produced by `fs::directory_iterator`. -/
structure DirEntry where
  path : List Char
  isRegularFile : Bool
  deriving DecidableEq

/-- What `runCommandHidden` meets when it starts a command: `CreatePipe` fails;
`CreateProcessA` fails with `GetLastError() = error`; or the child runs,
`reads` are the chunks that the successive calls of `ReadFile` deliver until
the pipe is closed, and `exitCode` is the `DWORD` of `GetExitCodeProcess`. -/
inductive ProcResult where
  | pipeFailed
  | spawnFailed (error : Nat)
  | exited (reads : List (List Char)) (exitCode : Nat)
  deriving DecidableEq

/-- A C++ exception derived from `std::exception`, with its `what()`. -/
structure Exc where
  what : List Char
  deriving DecidableEq

/-- What the program does that can be observed from outside, in the order in
which it does it: a line given to the recording callback; a call of
`runCommandHidden` with the value that it returns; a call that changes the
file system; a message box. -/
inductive Event where
  | log (line : List Char)
  | run (command : List Char) (code : ℤ)
  | mkdir (path : List Char)
  | write (path : List Char) (content : List Char)
  | copy (source dest : List Char)
  | remove (path : List Char)
  | box (text caption : List Char)
  deriving DecidableEq

/-- The operating system and the C++ library, over worlds of type `W`.  The
status queries `fs::exists` and `fs::is_directory` are taken to answer; the
other calls of `std::filesystem` can throw. -/
structure Sys (W : Type) where
  /-- The result of `getExecutableDir()`. -/
  exeDir : List Char
  /-- The operator `/` of `fs::path`. -/
  join : List Char → List Char → List Char
  /-- The member `stem()` of `fs::path`. -/
  stem : List Char → List Char
  /-- The member `extension()` of `fs::path`. -/
  extension : List Char → List Char
  /-- The member `filename()` of `fs::path`. -/
  filename : List Char → List Char
  /-- The member `parent_path()` of `fs::path`. -/
  parentPath : List Char → List Char
  /-- The member `replace_extension(ext)` of `fs::path`. -/
  replaceExtension : List Char → List Char → List Char
  /-- The order `<` of `fs::path`, used by `std::sort`. -/
  pathLess : List Char → List Char → Bool
  /-- The `what()` of the exceptions of `std::stoi` and `std::stod`. -/
  convWhat : Exn → List Char
  /-- The query `fs::exists`. -/
  pathExists : List Char → W → Bool
  /-- The query `fs::is_directory`. -/
  isDirectory : List Char → W → Bool
  /-- The query `fs::is_empty`. -/
  isEmpty : List Char → W → Except Exc Bool
  /-- The entries that a `fs::directory_iterator` goes through. -/
  listDir : List Char → W → Except Exc (List DirEntry)
  /-- The content read through a `std::ifstream`, `none` when the file cannot be opened. -/
  readFile : List Char → W → Option (List Char)
  /-- The call `fs::create_directories`. -/
  createDirectories : List Char → W → Except Exc Unit × W
  /-- A `std::ofstream` opened on the path, written with the content and
  closed; the answer is `is_open()`. -/
  writeFile : List Char → List Char → W → Bool × W
  /-- The call `fs::copy_file` with `overwrite_existing`. -/
  copyFile : List Char → List Char → W → Except Exc Unit × W
  /-- The call `fs::remove_all`. -/
  removeAll : List Char → W → Except Exc Unit × W
  /-- The run of `cmd.exe /c command` as a hidden child process. -/
  runProcess : List Char → W → ProcResult × W
  /-- The call `MessageBoxA`, which returns when the user closes the box. -/
  messageBox : List Char → List Char → W → W

/-- The state of a run: the world and the trace of events so far. -/
structure PState (W : Type) where
  world : W
  trace : List Event

/-- An operation of the program: from a state to a value or an exception,
and the state after it. -/
def Op (W : Type) (α : Type) : Type := PState W → Except Exc α × PState W

namespace Op

variable {W : Type} {α β : Type}

/-- The operation that returns `a`. -/
def ret (a : α) : Op W α := fun s => (.ok a, s)

/-- Sequencing: an exception of the first operation skips the second. -/
def andThen (m : Op W α) (f : α → Op W β) : Op W β := fun s =>
  match m s with
  | (.ok a, s') => f a s'
  | (.error e, s') => (.error e, s')

/-- The statement `throw e`. -/
def raise (e : Exc) : Op W α := fun s => (.error e, s)

/-- A `try` block seen from its `catch` clause: the outcome of the block,
with no exception leaving it. -/
def attempt (m : Op W α) : Op W (Except Exc α) := fun s =>
  match m s with
  | (.ok a, s') => (.ok (.ok a), s')
  | (.error e, s') => (.ok (.error e), s')

/-- A query of the world. -/
def query (f : W → α) : Op W α := fun s => (.ok (f s.world), s)

/-- A query of the world that can throw. -/
def queryE (f : W → Except Exc α) : Op W α := fun s => (f s.world, s)

/-- An action on the world that can throw, recorded as `ev` in the trace when it starts. -/
def act (ev : Event) (f : W → Except Exc α × W) : Op W α := fun s =>
  ((f s.world).1, { world := (f s.world).2, trace := s.trace ++ [ev] })

end Op

instance (W : Type) : Monad (Op W) where
  pure := Op.ret
  bind := Op.andThen

/-- A log callback (`LogCallback` of `pipeline.h`). -/
abbrev LogCallback (W : Type) : Type := List Char → Op W Unit

/-- The callback that records the line it is given. -/
def logLine {W : Type} : LogCallback W := fun line s =>
  (.ok (), { s with trace := s.trace ++ [Event.log line] })

/-- The lambda of `extractFrames` that drops the line it is given. -/
def logNothing {W : Type} : LogCallback W := fun _ => Op.ret ()

/-- The conversion of a `DWORD` to the `int` that `runCommandHidden` returns. -/
def toInt32 (n : Nat) : ℤ :=
  if n % 2 ^ 32 < 2 ^ 31 then (n % 2 ^ 32 : ℕ) else (n % 2 ^ 32 : ℕ) - 2 ^ 32

/-- The inner loop of `runCommandHidden` on the accumulated `output`: while
`output` has a newline, the text `line` before the first one is given to the
callback unless it is empty or equal to `"\r"`, and erased with its newline.
The scan goes through `output` once; `line` is the text met since the last
newline, and the value is what is left in `output`. -/
def logLines {W : Type} (logCallback : LogCallback W) : List Char → List Char → Op W (List Char)
  | line, [] => pure line
  | line, c :: rest =>
    if c = '\n' then do
      if !line.isEmpty && line ≠ ['\r'] then logCallback line
      logLines logCallback [] rest
    else logLines logCallback (line ++ [c]) rest

/-- The loop of `ReadFile`: a chunk is appended to `output` as a C string
(up to its first NUL); the loop ends at an empty read or when the pipe is
closed. -/
def readLoop {W : Type} (logCallback : LogCallback W) :
    List (List Char) → List Char → Op W (List Char)
  | [], output => pure output
  | chunk :: reads, output =>
    if chunk.isEmpty then pure output
    else do
      let output ← logLines logCallback [] (output ++ chunk.takeWhile (fun c => c ≠ Char.ofNat 0))
      readLoop logCallback reads output

/-- The value that `runCommandHidden` returns for an outcome of the run. -/
def returnCode : ProcResult → ℤ
  | .pipeFailed => -1
  | .spawnFailed _ => -1
  | .exited _ exitCode => toInt32 exitCode

/-- The function `runCommandHidden` of `pipeline.cpp`.  The call is recorded
in the trace, with the value that it returns, before the lines of the child. -/
def runCommandHidden {W : Type} (sys : Sys W) (command : List Char)
    (logCallback : LogCallback W) : Op W ℤ := fun s =>
  let s' : PState W :=
    { world := (sys.runProcess command s.world).2,
      trace := s.trace ++ [Event.run command (returnCode (sys.runProcess command s.world).1)] }
  match (sys.runProcess command s.world).1 with
  | .pipeFailed =>
    (do logCallback "ERROR: Failed to create pipe".toList
        pure (-1 : ℤ)) s'
  | .spawnFailed error =>
    (do logCallback ("ERROR: Failed to start process (error code: ".toList ++ natChars error ++
          ")".toList)
        pure (-1 : ℤ)) s'
  | .exited reads exitCode =>
    (do let output ← readLoop logCallback reads []
        if !output.isEmpty then logCallback output
        pure (toInt32 exitCode)) s'

/-- The function `runCommand` of `pipeline.cpp`. -/
def runCommand {W : Type} (sys : Sys W) (command : List Char) (logCallback : LogCallback W) :
    Op W ℤ :=
  runCommandHidden sys command logCallback

/-- Calls of the callback on the lines of a list, in order. -/
def logAll {W : Type} (logCallback : LogCallback W) : List (List Char) → Op W Unit
  | [] => pure ()
  | line :: rest => do
    logCallback line
    logAll logCallback rest

/-- The call `fs::create_directories(path)`. -/
def createDirectories {W : Type} (sys : Sys W) (path : List Char) : Op W Unit :=
  Op.act (.mkdir path) (sys.createDirectories path)

/-- The call `fs::copy_file(source, dest, fs::copy_options::overwrite_existing)`. -/
def copyFile {W : Type} (sys : Sys W) (source dest : List Char) : Op W Unit :=
  Op.act (.copy source dest) (sys.copyFile source dest)

/-- A `std::ofstream` opened on `path`, written with `content` and closed; the
value is `is_open()`. -/
def writeFile {W : Type} (sys : Sys W) (path content : List Char) : Op W Bool :=
  Op.act (.write path content) (fun w => (.ok (sys.writeFile path content w).1,
    (sys.writeFile path content w).2))


/-- The calls of `runCommandHidden` of a trace, in order: the command and the
value returned. -/
def runs (trace : List Event) : List (List Char × ℤ) :=
  trace.filterMap (fun ev => match ev with
    | .run command code => some (command, code)
    | _ => none)

/-- The lines that a trace gives to the recording callback, in order. -/
def logged (trace : List Event) : List (List Char) :=
  trace.filterMap (fun ev => match ev with
    | .log line => some line
    | _ => none)

/-- The state in which a run starts: a world and an empty trace. -/
def PState.start {W : Type} (w : W) : PState W := { world := w, trace := [] }

/-- The value that a call of `runCommandHidden` with the command returns in
state `s`. -/
def runCode {W : Type} (sys : Sys W) (command : List Char) (s : PState W) : ℤ :=
  returnCode (sys.runProcess command s.world).1

/-- The state after a call of `runCommandHidden` with the recording callback. -/
def afterRun {W : Type} (sys : Sys W) (command : List Char) (s : PState W) : PState W :=
  (runCommandHidden sys command logLine s).2

/-- The outcome of an operation from state `s`, value or exception and final
state, satisfies `Q`. -/
def Op.holds {W : Type} {α : Type} (m : Op W α) (Q : Except Exc α → PState W → Prop)
    (s : PState W) : Prop :=
  Q (m s).1 (m s).2

/-- The operation only adds events to the trace. -/
def Op.Grows {W : Type} {α : Type} (m : Op W α) : Prop :=
  ∀ s : PState W, ∃ t, (m s).2.trace = s.trace ++ t

/-! ### Frame extraction and tagging -/

/-- The function `checkVendorFiles` of `pipeline.cpp`. -/
def checkVendorFiles {W : Type} (sys : Sys W) (logCallback : LogCallback W) : Op W Bool := do
  let exeDir := sys.exeDir
  let ffmpegPath :=
    sys.join (sys.join (sys.join (sys.join exeDir "vendor".toList) "ffmpeg".toList) "bin".toList)
      "ffmpeg.exe".toList
  let colmapPath :=
    sys.join (sys.join (sys.join (sys.join exeDir "vendor".toList) "colmap".toList) "bin".toList)
      "colmap.bat".toList
  if !(← Op.query (sys.pathExists ffmpegPath)) then do
    logCallback ("ERROR: FFmpeg not found at: ".toList ++ ffmpegPath)
    pure false
  else if !(← Op.query (sys.pathExists colmapPath)) then do
    logCallback ("ERROR: COLMAP not found at: ".toList ++ colmapPath)
    pure false
  else do
    logCallback "Vendor files OK: FFmpeg and COLMAP found".toList
    pure true

/-- The paths of the entries whose extension is `.jpg`, in the order of the iteration. -/
def jpgPaths {W : Type} (sys : Sys W) (entries : List DirEntry) : List (List Char) :=
  (entries.filter (fun entry => sys.extension entry.path = ".jpg".toList)).map (fun e => e.path)

/-- Insertion of a path before the first path that it precedes. -/
def insertPath (less : List Char → List Char → Bool) (p : List Char) :
    List (List Char) → List (List Char)
  | [] => [p]
  | q :: rest => if less p q then p :: q :: rest else q :: insertPath less p rest

/-- The call `std::sort(frameFiles.begin(), frameFiles.end())`: the paths in
increasing order (an insertion sort, which gives the sorted sequence when
`less` is a strict total order on the paths). -/
def sortPaths (less : List Char → List Char → Bool) (paths : List (List Char)) :
    List (List Char) :=
  paths.foldr (insertPath less) []

/-- The assumed capture time of frame `i`: the expression `i / fps`, in which
the index is converted to `double`; for a rate other than zero. -/
def frameTimestamp (i : Nat) (fps : ℚ) : ℚ := fdiv (toDouble (i : ℚ)) fps

/-- The loop `for (size_t i = 0; i < frameFiles.size(); i++)` of
`extractFrames`, from index `i` with the frames that remain; the value is the
counter `embedded`. -/
def embedLoop {W : Type} (sys : Sys W) (exiftoolPath : List Char) (gpsFrames : List GPSData)
    (fps : ℚ) : List (List Char) → Nat → Nat → Op W Nat
  | [], _, embedded => pure embedded
  | frameFile :: rest, i, embedded => do
    let timestamp := frameTimestamp i fps
    let gps := getGPSForTimestamp gpsFrames timestamp
    if gps.valid then do
      let cmd := generateExiftoolCommand exiftoolPath frameFile gps.latitude gps.longitude
        gps.altitude
      if (← runCommandHidden sys cmd logNothing) = 0 then
        embedLoop sys exiftoolPath gpsFrames fps rest (i + 1) (embedded + 1)
      else embedLoop sys exiftoolPath gpsFrames fps rest (i + 1) embedded
    else embedLoop sys exiftoolPath gpsFrames fps rest (i + 1) embedded

/-- The call `parseSRT(srtPath.string())`, whose exceptions are those of
`std::stoi` and `std::stod`. -/
def parseSRTFile {W : Type} (sys : Sys W) (srtPath : List Char) : Op W (List GPSData) := do
  match parseSRT (← Op.query (sys.readFile srtPath)) with
  | .ok gpsFrames => pure gpsFrames
  | .error e => Op.raise { what := sys.convWhat e }

/-- The `try` block of `extractFrames`, which embeds the telemetry of the
sibling SRT file into the extracted frames. -/
def embedTelemetry {W : Type} (sys : Sys W) (videoPath videoOutputDir : List Char) (fps : ℚ)
    (logCallback : LogCallback W) : Op W Unit := do
  let srtPathUpper := sys.replaceExtension videoPath ".SRT".toList
  let srtPathLower := sys.replaceExtension videoPath ".srt".toList
  let srtPath ←
    if ← Op.query (sys.pathExists srtPathUpper) then pure srtPathUpper
    else if ← Op.query (sys.pathExists srtPathLower) then pure srtPathLower
    else pure []
  if !srtPath.isEmpty then do
    let exeDir := sys.exeDir
    let exiftoolPath :=
      sys.join (sys.join (sys.join exeDir "vendor".toList) "exiftool".toList) "exiftool.exe".toList
    if ← Op.query (sys.pathExists exiftoolPath) then do
      logCallback ("Found SRT file: ".toList ++ sys.filename srtPath)
      logCallback "Parsing GPS data...".toList
      let gpsFrames ← parseSRTFile sys srtPath
      if !gpsFrames.isEmpty then do
        logCallback ("Parsed ".toList ++ natChars gpsFrames.length ++ " GPS entries from SRT".toList)
        logCallback "Embedding GPS EXIF data into frames using exiftool...".toList
        let entries ← Op.queryE (sys.listDir videoOutputDir)
        let frameFiles := sortPaths sys.pathLess (jpgPaths sys entries)
        let embedded ← embedLoop sys exiftoolPath gpsFrames fps frameFiles 0 0
        logCallback ("✅ Embedded GPS data into ".toList ++ natChars embedded ++ "/".toList ++
          natChars frameFiles.length ++ " frames".toList)
      else logCallback "⚠ WARNING: No GPS data found in SRT file".toList
    else do
      logCallback "⚠ No exiftool found - skipping GPS embedding".toList
      logCallback "  To enable GPS embedding, exiftool should be at:".toList
      logCallback ("  ".toList ++ exiftoolPath)
  else logCallback "ℹ No SRT file found for this video - skipping GPS embedding".toList

/-- The part of `extractFrames` after the extraction command has returned 0:
the frames are counted, the telemetry is embedded, and the result is whether
the count is positive. -/
def countAndEmbed {W : Type} (sys : Sys W) (videoPath videoOutputDir : List Char) (fps : ℚ)
    (logCallback : LogCallback W) : Op W Bool := do
  let entries ← Op.queryE (sys.listDir videoOutputDir)
  let frameCount := (jpgPaths sys entries).length
  logCallback ("Extracted ".toList ++ natChars frameCount ++ " frames to: ".toList ++
    videoOutputDir)
  match ← Op.attempt (embedTelemetry sys videoPath videoOutputDir fps logCallback) with
  | .error e => logCallback ("⚠ WARNING: GPS embedding failed: ".toList ++ e.what)
  | .ok _ => pure ()
  pure (decide (frameCount > 0))

/-- The function `extractFrames` of `pipeline.cpp`. -/
def extractFrames {W : Type} (sys : Sys W) (videoPath outputDir : List Char) (fps : ℚ)
    (logCallback : LogCallback W) : Op W Bool := do
  let exeDir := sys.exeDir
  let ffmpegPath :=
    sys.join (sys.join (sys.join (sys.join exeDir "vendor".toList) "ffmpeg".toList) "bin".toList)
      "ffmpeg.exe".toList
  if !(← Op.query (sys.pathExists ffmpegPath)) then do
    logCallback "ERROR: FFmpeg not found".toList
    pure false
  else do
    logCallback ("Using FFmpeg: ".toList ++ ffmpegPath)
    let videoStem := sys.stem videoPath
    let videoOutputDir := sys.join outputDir videoStem
    match ← Op.attempt (createDirectories sys videoOutputDir) with
    | .error e => do
      logCallback ("ERROR creating output directory: ".toList ++ e.what)
      pure false
    | .ok _ => do
      let outputPattern := sys.join videoOutputDir (videoStem ++ "_frame_%04d.jpg".toList)
      let cmdStream : OStream := {}
      let cmdStream := (((cmdStream.str "\"\"".toList).str ffmpegPath).str "\" -i \"".toList).str
        videoPath
      let cmdStream := ((((cmdStream.str "\" -vf fps=".toList).double fps).str
        " -q:v 2 \"".toList).str outputPattern).str "\"\"".toList
      logCallback ("Extracting frames at ".toList ++ fixedChars 6 fps ++ " fps...".toList)
      let result ← runCommand sys cmdStream.buf logCallback
      if result ≠ 0 then do
        logCallback ("ERROR: FFmpeg failed with exit code ".toList ++ intChars result)
        pure false
      else countAndEmbed sys videoPath videoOutputDir fps logCallback


/-- The path of the extraction tool that `extractFrames` looks for. -/
def ffmpegPath {W : Type} (sys : Sys W) : List Char :=
  sys.join (sys.join (sys.join (sys.join sys.exeDir "vendor".toList) "ffmpeg".toList) "bin".toList)
    "ffmpeg.exe".toList

/-- The path of the tagging tool that `extractFrames` looks for. -/
def exiftoolPath {W : Type} (sys : Sys W) : List Char :=
  sys.join (sys.join (sys.join sys.exeDir "vendor".toList) "exiftool".toList) "exiftool.exe".toList

/-- The directory `videoOutputDir` of `extractFrames`. -/
def videoOutputDir {W : Type} (sys : Sys W) (videoPath outputDir : List Char) : List Char :=
  sys.join outputDir (sys.stem videoPath)

/-- The extraction command of `extractFrames`. -/
def ffmpegCommand {W : Type} (sys : Sys W) (videoPath outputDir : List Char) (fps : ℚ) :
    List Char :=
  "\"\"".toList ++ ffmpegPath sys ++ "\" -i \"".toList ++ videoPath ++ "\" -vf fps=".toList ++
    generalChars 6 fps ++ " -q:v 2 \"".toList ++
    sys.join (videoOutputDir sys videoPath outputDir)
      (sys.stem videoPath ++ "_frame_%04d.jpg".toList) ++ "\"\"".toList

/-- The tagging commands of the frames `frameFiles`, which have the indices
from `i` on: one command for each frame whose aligned fix is valid, with the
fix that `getGPSForTimestamp` gives for the time `i / fps` of the frame. -/
def tagCommands (exiftoolPath : List Char) (gpsFrames : List GPSData) (fps : ℚ) :
    List (List Char) → Nat → List (List Char)
  | [], _ => []
  | frameFile :: rest, i =>
    if (getGPSForTimestamp gpsFrames (frameTimestamp i fps)).valid then
      generateExiftoolCommand exiftoolPath frameFile
        (getGPSForTimestamp gpsFrames (frameTimestamp i fps)).latitude
        (getGPSForTimestamp gpsFrames (frameTimestamp i fps)).longitude
        (getGPSForTimestamp gpsFrames (frameTimestamp i fps)).altitude ::
        tagCommands exiftoolPath gpsFrames fps rest (i + 1)
    else tagCommands exiftoolPath gpsFrames fps rest (i + 1)

/-- The path `srtPath` that `extractFrames` selects in world `w`: the sibling
file with extension `.SRT` when it exists, else the one with extension `.srt`
when it exists, else the empty path. -/
def siblingSrt {W : Type} (sys : Sys W) (videoPath : List Char) (w : W) : List Char :=
  if sys.pathExists (sys.replaceExtension videoPath ".SRT".toList) w then
    sys.replaceExtension videoPath ".SRT".toList
  else if sys.pathExists (sys.replaceExtension videoPath ".srt".toList) w then
    sys.replaceExtension videoPath ".srt".toList
  else []

/-- The line that reports the number of tagged frames. -/
def embeddedLine (embedded total : Nat) : List Char :=
  "✅ Embedded GPS data into ".toList ++ natChars embedded ++ "/".toList ++ natChars total ++
    " frames".toList

/-! ### The reconstruction backends -/

/-- The call `std::replace(s.begin(), s.end(), '\\', '/')`. -/
def forwardSlashes (s : List Char) : List Char := s.map (fun c => if c = '\\' then '/' else c)

/-- The function `runColmap` of `pipeline.cpp`. -/
def runColmap {W : Type} (sys : Sys W) (framesDir outputDir : List Char)
    (logCallback : LogCallback W) : Op W Bool := do
  let exeDir := sys.exeDir
  let colmapPath :=
    sys.join (sys.join (sys.join (sys.join exeDir "vendor".toList) "colmap".toList) "bin".toList)
      "colmap.bat".toList
  if !(← Op.query (sys.pathExists colmapPath)) then do
    logCallback "ERROR: COLMAP not found".toList
    pure false
  else do
    if ' ' ∈ framesDir ∨ ' ' ∈ outputDir then
      logAll logCallback [
        "".toList,
        "⚠⚠⚠ WARNING: SPACES IN PATHS DETECTED ⚠⚠⚠".toList,
        "COLMAP does not work reliably with spaces in file paths.".toList,
        "Please use paths without spaces, for example:".toList,
        "  Good: C:\\DroneOutput or C:\\Projects\\Output".toList,
        "  Bad:  C:\\Drone videos or C:\\My Projects\\Output".toList,
        "".toList,
        "Processing will likely FAIL. Please change your paths and try again.".toList,
        "".toList]
    logCallback ("Using COLMAP: ".toList ++ colmapPath)
    logCallback ("Input frames: ".toList ++ framesDir)
    logCallback ("Output: ".toList ++ outputDir)
    let fixedFramesDir := forwardSlashes framesDir
    let fixedOutputDir := forwardSlashes outputDir
    let projectDir := outputDir
    let dbPath := sys.join (sys.join projectDir "database".toList) "database.db".toList
    let sparseDir := sys.join projectDir "sparse".toList
    let imagesDir := sys.join projectDir "images".toList
    match ← Op.attempt (do
        createDirectories sys (sys.parentPath dbPath)
        createDirectories sys sparseDir
        createDirectories sys imagesDir) with
    | .error e => do
      logCallback ("ERROR creating COLMAP directories: ".toList ++ e.what)
      pure false
    | .ok _ => do
      let fixedDbPath := forwardSlashes dbPath
      let fixedSparseDir := forwardSlashes sparseDir
      logCallback "Step 1/4: Feature Extraction...".toList
      let cmd := "\"\"".toList ++ colmapPath ++ "\" feature_extractor --database_path \"".toList ++
        fixedDbPath ++ "\" --image_path \"".toList ++ fixedFramesDir ++
        "\" --ImageReader.single_camera 1\"".toList
      logCallback ("DEBUG: Full command: ".toList ++ cmd)
      if (← runCommand sys cmd logCallback) ≠ 0 then do
        logCallback "ERROR: Feature extraction failed".toList
        pure false
      else do
        logCallback "Step 2/4: Feature Matching...".toList
        let cmd := "\"\"".toList ++ colmapPath ++
          "\" exhaustive_matcher --database_path \"".toList ++ fixedDbPath ++ "\"\"".toList
        if (← runCommand sys cmd logCallback) ≠ 0 then do
          logCallback "ERROR: Feature matching failed".toList
          pure false
        else do
          logCallback "Step 3/4: Sparse Reconstruction...".toList
          let cmd := "\"\"".toList ++ colmapPath ++ "\" mapper --database_path \"".toList ++
            fixedDbPath ++ "\" --image_path \"".toList ++ fixedFramesDir ++
            "\" --output_path \"".toList ++ fixedSparseDir ++ "\"\"".toList
          if (← runCommand sys cmd logCallback) ≠ 0 then do
            logCallback "ERROR: Sparse reconstruction failed".toList
            pure false
          else do
            logCallback "Step 4/4: Image Undistortion...".toList
            let fixedSparse0 := forwardSlashes (sys.join sparseDir "0".toList)
            let cmd := "\"\"".toList ++ colmapPath ++
              "\" image_undistorter --image_path \"".toList ++ fixedFramesDir ++
              "\" --input_path \"".toList ++ fixedSparse0 ++
              "\" --output_path \"".toList ++ fixedOutputDir ++
              "\" --output_type COLMAP\"".toList
            if (← runCommand sys cmd logCallback) ≠ 0 then
              logCallback
                "WARNING: Image undistortion failed, but sparse reconstruction succeeded".toList
            logCallback "COLMAP reconstruction complete!".toList
            logCallback "Output structure:".toList
            logCallback ("  ".toList ++ outputDir ++ "/images/ - Undistorted images".toList)
            logCallback ("  ".toList ++ outputDir ++ "/sparse/0/ - Camera poses and points".toList)
            pure true

/-- The path of the COLMAP launcher that `runColmap` looks for. -/
def colmapPath {W : Type} (sys : Sys W) : List Char :=
  sys.join (sys.join (sys.join (sys.join sys.exeDir "vendor".toList) "colmap".toList) "bin".toList)
    "colmap.bat".toList

/-- The path `dbPath` of `runColmap`. -/
def colmapDbPath {W : Type} (sys : Sys W) (outputDir : List Char) : List Char :=
  sys.join (sys.join outputDir "database".toList) "database.db".toList

/-- The command of step 1 of `runColmap`. -/
def featureExtractorCommand {W : Type} (sys : Sys W) (framesDir outputDir : List Char) :
    List Char :=
  "\"\"".toList ++ colmapPath sys ++ "\" feature_extractor --database_path \"".toList ++
    forwardSlashes (colmapDbPath sys outputDir) ++ "\" --image_path \"".toList ++
    forwardSlashes framesDir ++ "\" --ImageReader.single_camera 1\"".toList

/-- The command of step 2 of `runColmap`. -/
def matcherCommand {W : Type} (sys : Sys W) (outputDir : List Char) : List Char :=
  "\"\"".toList ++ colmapPath sys ++ "\" exhaustive_matcher --database_path \"".toList ++
    forwardSlashes (colmapDbPath sys outputDir) ++ "\"\"".toList

/-- The command of step 3 of `runColmap`. -/
def mapperCommand {W : Type} (sys : Sys W) (framesDir outputDir : List Char) : List Char :=
  "\"\"".toList ++ colmapPath sys ++ "\" mapper --database_path \"".toList ++
    forwardSlashes (colmapDbPath sys outputDir) ++ "\" --image_path \"".toList ++
    forwardSlashes framesDir ++ "\" --output_path \"".toList ++
    forwardSlashes (sys.join outputDir "sparse".toList) ++ "\"\"".toList

/-- The command of step 4 of `runColmap`. -/
def undistorterCommand {W : Type} (sys : Sys W) (framesDir outputDir : List Char) : List Char :=
  "\"\"".toList ++ colmapPath sys ++ "\" image_undistorter --image_path \"".toList ++
    forwardSlashes framesDir ++ "\" --input_path \"".toList ++
    forwardSlashes (sys.join (sys.join outputDir "sparse".toList) "0".toList) ++
    "\" --output_path \"".toList ++ forwardSlashes outputDir ++
    "\" --output_type COLMAP\"".toList
/-- The text that `runMetashape` writes to `metashape_process.py`. -/
def metashapeScript (framesDir outputDir sparseDir imagesDir : List Char) : List Char :=
  "import Metashape\n".toList ++
  "import sys\n".toList ++
  "from pathlib import Path\n\n".toList ++
  "try:\n".toList ++
  "    doc = Metashape.Document()\n".toList ++
  "    chunk = doc.addChunk()\n\n".toList ++
  "    image_folder = Path(r\"".toList ++ framesDir ++ "\")\n".toList ++
  "    image_files = [str(p) for p in image_folder.glob(\"*.jpg\")]\n".toList ++
  "    print(f\"Adding \x7blen(image_files)\x7d images...\")\n".toList ++
  "    if len(image_files) == 0:\n".toList ++
  "        raise RuntimeError(f\"No images found in \x7bimage_folder\x7d\")\n".toList ++
  "    chunk.addPhotos(image_files)\n\n".toList ++
  "    print(\"Aligning photos...\")\n".toList ++
  "    chunk.matchPhotos(downscale=1, generic_preselection=True)\n".toList ++
  "    chunk.alignCameras()\n\n".toList ++
  "    # Check if alignment succeeded\n".toList ++
  "    aligned_cameras = sum(1 for camera in chunk.cameras if camera.transform)\n".toList ++
  "    print(f\"Aligned \x7baligned_cameras\x7d cameras\")\n".toList ++
  "    if aligned_cameras == 0:\n".toList ++
  "        raise RuntimeError(\"Camera alignment failed - no cameras aligned\")\n\n".toList ++
  "    # Export to COLMAP format (native Metashape export)\n".toList ++
  "    print(\"Exporting to COLMAP format...\")\n".toList ++
  "    sparse_path = Path(r\"".toList ++ sparseDir ++ "\")\n".toList ++
  "    try:\n".toList ++
  "        colmap_file = sparse_path / \x27cameras.txt\x27\n".toList ++
  ("        chunk.exportCameras(path=str(colmap_file), " ++
    "format=Metashape.CamerasFormatColmap)\n").toList ++
  "        print(\"  SUCCESS: Native COLMAP cameras export\")\n".toList ++
  "    except Exception as e:\n".toList ++
  "        print(f\"  ERROR: COLMAP export failed: \x7be\x7d\")\n".toList ++
  "        raise\n\n".toList ++
  "    # Copy images to output\n".toList ++
  "    import shutil\n".toList ++
  "    images_out = Path(r\"".toList ++ imagesDir ++ "\")\n".toList ++
  "    for img in image_files:\n".toList ++
  "        shutil.copy2(img, images_out / Path(img).name)\n".toList ++
  "    print(f\"Copied \x7blen(image_files)\x7d images to output\")\n\n".toList ++
  "    project_path = Path(r\"".toList ++ outputDir ++ "\") / \"metashape_project.psx\"\n".toList ++
  "    doc.save(str(project_path))\n".toList ++
  "    print(\"Metashape processing complete!\")\n".toList ++
  "except Exception as e:\n".toList ++
  "    print(f\"ERROR: \x7btype(e).__name__\x7d: \x7be\x7d\", file=sys.stderr)\n".toList ++
  "    import traceback\n".toList ++
  "    traceback.print_exc()\n".toList ++
  "    sys.exit(1)\n".toList

/-- The function `runMetashape` of `pipeline.cpp`. -/
def runMetashape {W : Type} (sys : Sys W) (framesDir outputDir metashapeExe : List Char)
    (logCallback : LogCallback W) : Op W Bool := do
  if metashapeExe.isEmpty || !(← Op.query (sys.pathExists metashapeExe)) then do
    logCallback ("ERROR: Metashape executable not found: ".toList ++ metashapeExe)
    pure false
  else do
    logCallback ("Using Agisoft Metashape: ".toList ++ metashapeExe)
    logCallback ("Input frames: ".toList ++ framesDir)
    logCallback ("Output: ".toList ++ outputDir)
    let outputPath := outputDir
    let sparseDir := sys.join (sys.join outputPath "sparse".toList) "0".toList
    let imagesDir := sys.join outputPath "images".toList
    match ← Op.attempt (do
        createDirectories sys sparseDir
        createDirectories sys imagesDir) with
    | .error e => do
      logCallback ("ERROR creating output directories: ".toList ++ e.what)
      pure false
    | .ok _ => do
      let scriptPath := sys.join outputPath "metashape_process.py".toList
      if !(← writeFile sys scriptPath (metashapeScript framesDir outputDir sparseDir imagesDir))
      then do
        logCallback "ERROR: Could not create Metashape script".toList
        pure false
      else do
        logCallback "Running Metashape (this may take a while)...".toList
        let logPath := sys.join outputPath "metashape_log.txt".toList
        let cmd := "\"\"".toList ++ metashapeExe ++ "\" -r \"".toList ++ scriptPath ++
          "\" > \"".toList ++ logPath ++ "\" 2>&1\"".toList
        if (← runCommand sys cmd logCallback) ≠ 0 then do
          logCallback "ERROR: Metashape processing failed".toList
          logCallback ("Check log file for details: ".toList ++ logPath)
          match ← Op.query (sys.readFile logPath) with
          | some content => do
            let lines := getLines content
            let startIdx := if lines.length > 10 then lines.length - 10 else 0
            logCallback "Last lines from Metashape log:".toList
            logAll logCallback ((lines.drop startIdx).map (fun line => "  ".toList ++ line))
          | none => pure ()
          pure false
        else do
          logCallback "Metashape reconstruction complete!".toList
          logCallback "Output structure:".toList
          logCallback ("  ".toList ++ imagesDir ++ " - Images".toList)
          logCallback ("  ".toList ++ sparseDir ++ " - Camera poses (COLMAP format)".toList)
          pure true


/-- The path `sparseDir` of `runMetashape`. -/
def msSparseDir {W : Type} (sys : Sys W) (outputDir : List Char) : List Char :=
  sys.join (sys.join outputDir "sparse".toList) "0".toList

/-- The path `imagesDir` of `runMetashape`. -/
def msImagesDir {W : Type} (sys : Sys W) (outputDir : List Char) : List Char :=
  sys.join outputDir "images".toList

/-- The path `scriptPath` of `runMetashape`. -/
def msScriptPath {W : Type} (sys : Sys W) (outputDir : List Char) : List Char :=
  sys.join outputDir "metashape_process.py".toList

/-- The path `logPath` of `runMetashape`. -/
def msLogPath {W : Type} (sys : Sys W) (outputDir : List Char) : List Char :=
  sys.join outputDir "metashape_log.txt".toList

/-- The command that `runMetashape` runs. -/
def metashapeCommand {W : Type} (sys : Sys W) (outputDir metashapeExe : List Char) : List Char :=
  "\"\"".toList ++ metashapeExe ++ "\" -r \"".toList ++ msScriptPath sys outputDir ++
    "\" > \"".toList ++ msLogPath sys outputDir ++ "\" 2>&1\"".toList

/-- The loop of `runRealityScan` over the entries of `undistorted/sparse`:
the regular files with extension `.txt` or `.bin` are copied to `imagesDir`. -/
def copyColmapFiles {W : Type} (sys : Sys W) (imagesDir : List Char)
    (logCallback : LogCallback W) : List DirEntry → Op W Unit
  | [] => pure ()
  | entry :: rest => do
    if entry.isRegularFile then do
      let filename := sys.filename entry.path
      let ext := sys.extension filename
      if ext = ".txt".toList ∨ ext = ".bin".toList then do
        let dest := sys.join imagesDir filename
        copyFile sys entry.path dest
        logCallback ("  Copied ".toList ++ filename)
    copyColmapFiles sys imagesDir logCallback rest

/-- The loop of `runRealityScan` over the entries of `sparse/0`: as
`copyColmapFiles`, for the files that `imagesDir` does not have yet. -/
def copyMissingColmapFiles {W : Type} (sys : Sys W) (imagesDir : List Char)
    (logCallback : LogCallback W) : List DirEntry → Op W Unit
  | [] => pure ()
  | entry :: rest => do
    if entry.isRegularFile then do
      let filename := sys.filename entry.path
      let ext := sys.extension filename
      if ext = ".txt".toList ∨ ext = ".bin".toList then do
        let dest := sys.join imagesDir filename
        if !(← Op.query (sys.pathExists dest)) then do
          copyFile sys entry.path dest
          logCallback ("  Copied ".toList ++ filename)
    copyMissingColmapFiles sys imagesDir logCallback rest

/-- The `try` block of `runRealityScan`, which copies the COLMAP files into
the images folder. -/
def copyExports {W : Type} (sys : Sys W)
    (undistortedDir sparseDir imagesDir registrationFile pointsFile : List Char)
    (logCallback : LogCallback W) : Op W Unit := do
  if ← Op.query (sys.pathExists registrationFile) then do
    let destReg := sys.join imagesDir "registration.txt".toList
    copyFile sys registrationFile destReg
    logCallback "  Copied registration.txt".toList
  if ← Op.query (sys.pathExists pointsFile) then do
    let destPoints := sys.join imagesDir "points3D.txt".toList
    copyFile sys pointsFile destPoints
    logCallback "  Copied points3D.txt".toList
  let entries ← Op.queryE (sys.listDir (sys.join undistortedDir "sparse".toList))
  copyColmapFiles sys imagesDir logCallback entries
  let entries ← Op.queryE (sys.listDir sparseDir)
  copyMissingColmapFiles sys imagesDir logCallback entries
  logCallback "✅ COLMAP files copied to images folder".toList

/-- The condition `fs::exists(imagesDir) && !fs::is_empty(imagesDir)`. -/
def hasExports {W : Type} (sys : Sys W) (imagesDir : List Char) : Op W Bool := do
  if ← Op.query (sys.pathExists imagesDir) then do
    let empty ← Op.queryE (sys.isEmpty imagesDir)
    pure !empty
  else pure false

/-- The part of `runRealityScan` after the external call has returned 0:
the two checks of the exports, the copies, and the final report. -/
def checkExports {W : Type} (sys : Sys W)
    (undistortedDir sparseDir imagesDir registrationFile pointsFile : List Char)
    (logCallback : LogCallback W) : Op W Bool := do
  logCallback "".toList
  logCallback "RealityScan processing complete!".toList
  logCallback "".toList
  logCallback "Checking exports...".toList
  let success := true
  let success ←
    if ← Op.query (sys.pathExists registrationFile) then do
      logCallback "✅ Registration exported successfully".toList
      pure success
    else do
      logCallback "❌ Warning: registration.txt was not created".toList
      logCallback "   Camera registration may have failed".toList
      pure false
  let success ←
    if ← hasExports sys imagesDir then do
      let imageCount := (← Op.queryE (sys.listDir imagesDir)).length
      logCallback ("✅ Exported ".toList ++ natChars imageCount ++ " undistorted images".toList)
      pure success
    else do
      logCallback "❌ Warning: No undistorted images were exported".toList
      pure false
  if success then do
    logCallback "".toList
    logCallback "Copying COLMAP files to images folder for Gaussian splatting...".toList
    match ← Op.attempt (copyExports sys undistortedDir sparseDir imagesDir registrationFile
        pointsFile logCallback) with
    | .error e =>
      logCallback ("⚠ Warning: Failed to copy some COLMAP files: ".toList ++ e.what)
    | .ok _ => pure ()
  logCallback "".toList
  logCallback ("Output directory: ".toList ++ undistortedDir)
  logCallback ("  Images + COLMAP data: ".toList ++ imagesDir)
  logCallback ("  Sparse (original): ".toList ++ sparseDir)
  if !success then do
    logCallback "".toList
    logCallback "⚠ IMPORTANT: RealityScan exports need manual verification".toList
    logCallback "   - Check that registration.txt contains camera data".toList
    logCallback "   - Verify undistorted images were exported correctly".toList
  pure success

/-- The text that `runRealityScan` writes to `points3D.txt`. -/
def pointsHeader : List Char :=
  "# 3D point list with one line of data per point:\n".toList ++
  "# POINT3D_ID, X, Y, Z, R, G, B, ERROR, TRACK[] as (IMAGE_ID, POINT2D_IDX)\n".toList ++
  "# Number of points: 0\n".toList

/-- The function `runRealityScan` of `pipeline.cpp`. -/
def runRealityScan {W : Type} (sys : Sys W) (framesDir outputDir realityscanExe : List Char)
    (logCallback : LogCallback W) : Op W Bool := do
  if realityscanExe.isEmpty || !(← Op.query (sys.pathExists realityscanExe)) then do
    logCallback ("ERROR: RealityScan executable not found: ".toList ++ realityscanExe)
    pure false
  else do
    logCallback ("Using RealityScan 2.0: ".toList ++ realityscanExe)
    logCallback ("Input frames: ".toList ++ framesDir)
    logCallback ("Output: ".toList ++ outputDir)
    let outputPath := outputDir
    let projectFile := sys.join outputPath "realityscan_project.rsproj".toList
    let undistortedDir := sys.join outputPath "undistorted".toList
    let sparseDir := sys.join (sys.join undistortedDir "sparse".toList) "0".toList
    let imagesDir := sys.join undistortedDir "images".toList
    let registrationFile :=
      sys.join (sys.join undistortedDir "sparse".toList) "registration.txt".toList
    let pointsFile := sys.join sparseDir "points3D.txt".toList
    match ← Op.attempt (do
        createDirectories sys sparseDir
        createDirectories sys imagesDir) with
    | .error e => do
      logCallback ("ERROR creating output directories: ".toList ++ e.what)
      pure false
    | .ok _ => do
      if ← writeFile sys pointsFile pointsHeader then
        logCallback "Created empty points3D.txt (RealityScan sparse export skipped)".toList
      logCallback "Running RealityScan (this may take a while)...".toList
      let cmd := "\"\"".toList ++ realityscanExe ++ "\"".toList ++
        " -headless".toList ++
        " -newScene".toList ++
        " -addFolder \"".toList ++ framesDir ++ "\"".toList ++
        " -set appIncSubdirs=false".toList ++
        " -align".toList ++
        " -selectMaximalComponent".toList ++
        " -exportRegistration \"".toList ++ registrationFile ++ "\"".toList ++
        " -exportUndistortedImages \"".toList ++ imagesDir ++ "\"".toList ++
        " -save \"".toList ++ projectFile ++ "\"".toList ++
        " -quit\"".toList
      logCallback ("Command: ".toList ++ cmd)
      if (← runCommand sys cmd logCallback) ≠ 0 then do
        logCallback "ERROR: RealityScan processing failed".toList
        pure false
      else
        checkExports sys undistortedDir sparseDir imagesDir registrationFile pointsFile
          logCallback


/-- The path `undistortedDir` of `runRealityScan`. -/
def rsUndistortedDir {W : Type} (sys : Sys W) (outputDir : List Char) : List Char :=
  sys.join outputDir "undistorted".toList

/-- The path `sparseDir` of `runRealityScan`. -/
def rsSparseDir {W : Type} (sys : Sys W) (outputDir : List Char) : List Char :=
  sys.join (sys.join (rsUndistortedDir sys outputDir) "sparse".toList) "0".toList

/-- The path `imagesDir` of `runRealityScan`. -/
def rsImagesDir {W : Type} (sys : Sys W) (outputDir : List Char) : List Char :=
  sys.join (rsUndistortedDir sys outputDir) "images".toList

/-- The path `registrationFile` of `runRealityScan`. -/
def rsRegistrationFile {W : Type} (sys : Sys W) (outputDir : List Char) : List Char :=
  sys.join (sys.join (rsUndistortedDir sys outputDir) "sparse".toList) "registration.txt".toList

/-- The path `pointsFile` of `runRealityScan`. -/
def rsPointsFile {W : Type} (sys : Sys W) (outputDir : List Char) : List Char :=
  sys.join (rsSparseDir sys outputDir) "points3D.txt".toList

/-- The command that `runRealityScan` runs. -/
def realityScanCommand {W : Type} (sys : Sys W) (framesDir outputDir realityscanExe : List Char) :
    List Char :=
  "\"\"".toList ++ realityscanExe ++ "\"".toList ++
    " -headless".toList ++
    " -newScene".toList ++
    " -addFolder \"".toList ++ framesDir ++ "\"".toList ++
    " -set appIncSubdirs=false".toList ++
    " -align".toList ++
    " -selectMaximalComponent".toList ++
    " -exportRegistration \"".toList ++ rsRegistrationFile sys outputDir ++ "\"".toList ++
    " -exportUndistortedImages \"".toList ++ rsImagesDir sys outputDir ++ "\"".toList ++
    " -save \"".toList ++ sys.join outputDir "realityscan_project.rsproj".toList ++ "\"".toList ++
    " -quit\"".toList

/-- The line that the check of the registration file logs. -/
def registrationLine (found : Bool) : List Char :=
  if found then "✅ Registration exported successfully".toList
  else "❌ Warning: registration.txt was not created".toList

/-- The line that the check of the undistorted images logs. -/
def imagesLine (found : Bool) (imageCount : Nat) : List Char :=
  if found then "✅ Exported ".toList ++ natChars imageCount ++ " undistorted images".toList
  else "❌ Warning: No undistorted images were exported".toList

/-! ### The pipeline -/

/-- The enumeration `ReconMethod` of `pipeline.h`. -/
inductive ReconMethod where
  | COLMAP
  | METASHAPE
  | REALITYSCAN
  deriving DecidableEq

/-- The record `PipelineConfig` of `pipeline.h`. -/
structure PipelineConfig where
  videoPath : List Char
  outputBaseDir : List Char
  frameRate : ℚ
  method : ReconMethod
  metashapeExePath : List Char
  realityscanExePath : List Char

/-- The rule that `runPipeline` logs around its headings: 55 times `=`. -/
def banner : List Char := List.replicate 55 '='

/-- The extensions that `runPipeline` takes for videos. -/
def extensions : List (List Char) :=
  [".mp4".toList, ".MP4".toList, ".mov".toList, ".MOV".toList, ".avi".toList, ".AVI".toList]

/-- The scan of the folder: the paths of the regular files whose extension is
one of `extensions`, in the order of the iteration. -/
def scanVideos {W : Type} (sys : Sys W) (entries : List DirEntry) : List (List Char) :=
  (entries.filter (fun entry => entry.isRegularFile &&
    extensions.contains (sys.extension entry.path))).map (fun entry => entry.path)

/-- The loop that copies the frames of one video to the combined folder; the
value is the counter `totalFrames`. -/
def copyFrames {W : Type} (sys : Sys W) (combinedFramesDir : List Char)
    (logCallback : LogCallback W) : List DirEntry → Nat → Op W Nat
  | [], totalFrames => pure totalFrames
  | frameEntry :: rest, totalFrames => do
    if sys.extension frameEntry.path = ".jpg".toList then do
      let destPath := sys.join combinedFramesDir (sys.filename frameEntry.path)
      match ← Op.attempt (copyFile sys frameEntry.path destPath) with
      | .ok _ => copyFrames sys combinedFramesDir logCallback rest (totalFrames + 1)
      | .error e => do
        logCallback ("WARNING: Failed to copy frame: ".toList ++ e.what)
        copyFrames sys combinedFramesDir logCallback rest totalFrames
    else copyFrames sys combinedFramesDir logCallback rest totalFrames

/-- The loop `for (size_t i = 0; i < videoFiles.size(); i++)` of `runPipeline`,
from index `i` with the videos `remaining`; the value is the counter
`totalFrames`. -/
def extractAll {W : Type} (sys : Sys W) (videoFiles : List (List Char))
    (framesDir combinedFramesDir : List Char) (frameRate : ℚ) (logCallback : LogCallback W) :
    List (List Char) → Nat → Nat → Op W Nat
  | [], _, totalFrames => pure totalFrames
  | video :: remaining, i, totalFrames => do
    if videoFiles.length > 1 then
      logCallback ("Processing video ".toList ++ natChars (i + 1) ++ "/".toList ++
        natChars videoFiles.length ++ ": ".toList ++ sys.filename video)
    if !(← extractFrames sys video framesDir frameRate logCallback) then do
      logCallback ("WARNING: Frame extraction failed for ".toList ++ video)
      extractAll sys videoFiles framesDir combinedFramesDir frameRate logCallback remaining
        (i + 1) totalFrames
    else if videoFiles.length > 1 then do
      let videoStem := sys.stem video
      let videoFramesDir := sys.join framesDir videoStem
      if ← Op.query (sys.pathExists videoFramesDir) then do
        let entries ← Op.queryE (sys.listDir videoFramesDir)
        let totalFrames ← copyFrames sys combinedFramesDir logCallback entries totalFrames
        let _ ← Op.attempt (Op.act (.remove videoFramesDir) (sys.removeAll videoFramesDir))
        extractAll sys videoFiles framesDir combinedFramesDir frameRate logCallback remaining
          (i + 1) totalFrames
      else
        extractAll sys videoFiles framesDir combinedFramesDir frameRate logCallback remaining
          (i + 1) totalFrames
    else do
      let videoStem := sys.stem (videoFiles.getD 0 [])
      let videoFramesDir := sys.join framesDir videoStem
      let entries ← Op.queryE (sys.listDir videoFramesDir)
      extractAll sys videoFiles framesDir combinedFramesDir frameRate logCallback remaining
        (i + 1) (totalFrames + (jpgPaths sys entries).length)

/-- The name that `runPipeline` logs for the method. -/
def methodName : ReconMethod → List Char
  | .COLMAP => "COLMAP".toList
  | .METASHAPE => "Metashape".toList
  | .REALITYSCAN => "RealityScan".toList

/-- The text of the box that warns about spaces in the paths. -/
def spaceMessage (config : PipelineConfig) : List Char :=
  "WARNING: Your paths contain SPACES!\n\n".toList ++
  "COLMAP does not work with spaces in file paths.\n\n".toList ++
  "Video: ".toList ++ config.videoPath ++ "\n".toList ++
  "Output: ".toList ++ config.outputBaseDir ++ "\n\n".toList ++
  "Please use paths WITHOUT spaces.\n\n".toList ++
  "Processing will likely FAIL!\n\n".toList ++
  "Click OK to continue anyway (not recommended).".toList

/-- The second step of `runPipeline`: the warning about spaces, the selected
backend on `actualFramesDir`, and the final report. -/
def reconstruct {W : Type} (sys : Sys W) (config : PipelineConfig) (actualFramesDir : List Char)
    (logCallback : LogCallback W) : Op W Bool := do
  logCallback banner
  logCallback "STEP 2: 3D Reconstruction".toList
  logCallback banner
  if config.method = ReconMethod.COLMAP then
    if ' ' ∈ config.videoPath ∨ ' ' ∈ config.outputBaseDir then do
      logAll logCallback [
        "".toList,
        "⚠⚠⚠ WARNING: SPACES IN PATHS DETECTED ⚠⚠⚠".toList,
        "COLMAP does not work reliably with spaces in file paths.".toList,
        "".toList,
        "Your paths:".toList,
        "  Video: ".toList ++ config.videoPath,
        "  Output: ".toList ++ config.outputBaseDir,
        "".toList,
        "Please use paths WITHOUT spaces, for example:".toList,
        "  Good: C:\\DroneOutput or C:\\Projects\\Output".toList,
        "  Bad:  C:\\Drone videos or C:\\My Projects\\Output".toList,
        "".toList,
        "Processing will likely FAIL.".toList,
        "".toList]
      let message := spaceMessage config
      Op.act (.box message "COLMAP Path Warning".toList)
        (fun w => (.ok (), sys.messageBox message "COLMAP Path Warning".toList w))
  let success ←
    match config.method with
    | .COLMAP => runColmap sys actualFramesDir config.outputBaseDir logCallback
    | .METASHAPE =>
      runMetashape sys actualFramesDir config.outputBaseDir config.metashapeExePath logCallback
    | .REALITYSCAN =>
      runRealityScan sys actualFramesDir config.outputBaseDir config.realityscanExePath
        logCallback
  if !success then do
    logCallback "ERROR: 3D reconstruction failed".toList
    pure false
  else do
    logCallback "3D reconstruction completed successfully".toList
    logCallback "".toList
    logCallback banner
    logCallback "Pipeline completed successfully!".toList
    logCallback banner
    logCallback ("Output directory: ".toList ++ config.outputBaseDir)
    logCallback "Ready for Gaussian Splatting!".toList
    pure true

/-- The first step of `runPipeline` from the list of videos on: the frames of
the videos are extracted, then the reconstruction runs on the combined folder. -/
def extractAndReconstruct {W : Type} (sys : Sys W) (config : PipelineConfig)
    (framesDir : List Char) (videoFiles : List (List Char)) (outputFolderName : List Char)
    (logCallback : LogCallback W) : Op W Bool := do
  logCallback "".toList
  let combinedFramesDir := sys.join framesDir outputFolderName
  match ← Op.attempt (createDirectories sys combinedFramesDir) with
  | .error e => do
    logCallback ("ERROR creating combined frames directory: ".toList ++ e.what)
    pure false
  | .ok _ => do
    let totalFrames ← extractAll sys videoFiles framesDir combinedFramesDir config.frameRate
      logCallback videoFiles 0 0
    logCallback "Frame extraction completed successfully".toList
    logCallback ("Total frames extracted: ".toList ++ natChars totalFrames)
    logCallback "".toList
    let actualFramesDir := combinedFramesDir
    reconstruct sys config actualFramesDir logCallback

/-- The function `runPipeline` of `pipeline.cpp`. -/
def runPipeline {W : Type} (sys : Sys W) (config : PipelineConfig) (logCallback : LogCallback W) :
    Op W Bool := do
  logCallback banner
  logCallback "   Drone Reconstruction Pipeline - GUI Edition".toList
  logCallback banner
  if !(← checkVendorFiles sys logCallback) then pure false
  else if config.videoPath.isEmpty then do
    logCallback "ERROR: Video path is required".toList
    pure false
  else if config.outputBaseDir.isEmpty then do
    logCallback "ERROR: Output directory is required".toList
    pure false
  else if !(← Op.query (sys.pathExists config.videoPath)) then do
    logCallback ("ERROR: Video path not found: ".toList ++ config.videoPath)
    pure false
  else do
    let outputBase := config.outputBaseDir
    let framesDir := sys.join outputBase "frames".toList
    match ← Op.attempt (do
        createDirectories sys framesDir
        createDirectories sys outputBase) with
    | .error e => do
      logCallback ("ERROR creating directories: ".toList ++ e.what)
      pure false
    | .ok _ => do
      let inputPath := config.videoPath
      let isFolder ← Op.query (sys.isDirectory inputPath)
      logCallback "Configuration:".toList
      if isFolder then logCallback ("  Video Folder: ".toList ++ config.videoPath)
      else logCallback ("  Video:       ".toList ++ config.videoPath)
      logCallback ("  Output:      ".toList ++ config.outputBaseDir)
      logCallback ("  Frame Rate:  ".toList ++ fixedChars 6 config.frameRate ++ " fps".toList)
      logCallback ("  Method:      ".toList ++ methodName config.method)
      logCallback "".toList
      logCallback banner
      logCallback "STEP 1: Frame Extraction".toList
      logCallback banner
      if isFolder then do
        logCallback "Scanning folder for video files...".toList
        let videoFiles := scanVideos sys (← Op.queryE (sys.listDir inputPath))
        if videoFiles.isEmpty then do
          logCallback "ERROR: No video files found in folder".toList
          pure false
        else do
          logCallback ("Found ".toList ++ natChars videoFiles.length ++ " video file(s)".toList)
          logAll logCallback (videoFiles.map (fun vf => "  - ".toList ++ sys.filename vf))
          extractAndReconstruct sys config framesDir videoFiles "combined".toList logCallback
      else
        extractAndReconstruct sys config framesDir [config.videoPath] (sys.stem inputPath)
          logCallback


/-! ### A simulated machine

A small concrete `Sys`, on which the functions of the pipeline can be
evaluated: a file system with regular files and directories, paths with `/`
as separator, and child processes that follow a table of rules.
-/

/-- A world of the simulated machine: the regular files with their content,
and the directories. -/
structure SimWorld where
  files : List (List Char × List Char)
  dirs : List (List Char)
  deriving DecidableEq

/-- What the simulated machine does for a command that contains `key`: the
outcome of the run and the files that the child leaves. -/
structure Rule where
  key : List Char
  result : ProcResult
  creates : List (List Char × List Char)

/-- Whether the text `key` occurs in `s`. -/
def containsText (key : List Char) : List Char → Bool
  | [] => key.isEmpty
  | c :: rest => key.isPrefixOf (c :: rest) || containsText key rest

namespace Sim

/-- The text after the last `/`. -/
def filename (p : List Char) : List Char :=
  (p.reverse.takeWhile (fun c => c ≠ '/')).reverse

/-- The text before the last `/`. -/
def parentPath (p : List Char) : List Char :=
  ((p.reverse.dropWhile (fun c => c ≠ '/')).drop 1).reverse

/-- The extension of the file name, from its last dot. -/
def extension (p : List Char) : List Char :=
  if '.' ∈ filename p then
    ((filename p).reverse.takeWhile (fun c => c ≠ '.')).reverse.cons '.'
  else []

/-- The file name without its extension. -/
def stem (p : List Char) : List Char :=
  if '.' ∈ filename p then
    (((filename p).reverse.dropWhile (fun c => c ≠ '.')).drop 1).reverse
  else filename p

/-- Concatenation of two paths: a separator is put between them unless the
first path is empty or ends with one. -/
def join (a b : List Char) : List Char :=
  if a.isEmpty then b
  else if a.getLast? = some '/' then a ++ b
  else a ++ '/' :: b

/-- The path and the paths above it, the topmost first. -/
def ancestors : Nat → List Char → List (List Char)
  | 0, _ => []
  | fuel + 1, p =>
    if p.isEmpty then []
    else ancestors fuel (parentPath p) ++ [p]

/-- The path with its extension replaced. -/
def replaceExtension (p ext : List Char) : List Char := join (parentPath p) (stem p ++ ext)

/-- The lexicographic order of the characters. -/
def pathLess : List Char → List Char → Bool
  | [], [] => false
  | [], _ :: _ => true
  | _ :: _, [] => false
  | a :: as, b :: bs => a.toNat < b.toNat || (a = b && pathLess as bs)

/-- The entries directly under a directory: files first, then directories. -/
def entries (p : List Char) (w : SimWorld) : List DirEntry :=
  ((w.files.filter (fun f => parentPath f.1 = p)).map
    (fun f => { path := f.1, isRegularFile := true })) ++
  ((w.dirs.filter (fun d => parentPath d = p)).map
    (fun d => { path := d, isRegularFile := false }))

/-- The world with the file written. -/
def store (path content : List Char) (w : SimWorld) : SimWorld :=
  { w with files := (w.files.filter (fun f => f.1 ≠ path)) ++ [(path, content)] }

/-- The run of a command under a table of rules: the first rule whose key the
command contains applies; a command without a rule exits with 0. -/
def runProcess (rules : List Rule) (command : List Char) (w : SimWorld) :
    ProcResult × SimWorld :=
  match rules.find? (fun r => containsText r.key command) with
  | some r => (r.result, r.creates.foldl (fun w f => store f.1 f.2 w) w)
  | none => (.exited [] 0, w)

end Sim

/-- The simulated machine with a table of rules for the child processes. -/
def simSys (rules : List Rule) : Sys SimWorld where
  exeDir := "C:/app".toList
  join := Sim.join
  stem := Sim.stem
  extension := Sim.extension
  filename := Sim.filename
  parentPath := Sim.parentPath
  replaceExtension := Sim.replaceExtension
  pathLess := Sim.pathLess
  convWhat := fun e => match e with
    | .invalidArgument => "invalid argument".toList
    | .outOfRange => "out of range".toList
  pathExists := fun p w => w.dirs.contains p || (w.files.map (fun f => f.1)).contains p
  isDirectory := fun p w => w.dirs.contains p
  isEmpty := fun p w =>
    if w.dirs.contains p then .ok (Sim.entries p w).isEmpty
    else match w.files.find? (fun f => f.1 = p) with
      | some f => .ok f.2.isEmpty
      | none => .error { what := "is_empty: no such file or directory".toList }
  listDir := fun p w =>
    if w.dirs.contains p then .ok (Sim.entries p w)
    else .error { what := "directory_iterator: no such directory".toList }
  readFile := fun p w => (w.files.find? (fun f => f.1 = p)).map (fun f => f.2)
  createDirectories := fun p w =>
    (.ok (), (Sim.ancestors p.length p).foldl
      (fun w d => if w.dirs.contains d then w else { w with dirs := w.dirs ++ [d] }) w)
  writeFile := fun p content w => (true, Sim.store p content w)
  copyFile := fun source dest w =>
    match w.files.find? (fun f => f.1 = source) with
    | some f => (.ok (), Sim.store dest f.2 w)
    | none => (.error { what := "copy_file: no such file".toList }, w)
  removeAll := fun p w =>
    (.ok (), { files := w.files.filter (fun f => !(p ++ ['/']).isPrefixOf f.1 && f.1 ≠ p),
               dirs := w.dirs.filter (fun d => !(p ++ ['/']).isPrefixOf d && d ≠ p) })
  runProcess := Sim.runProcess rules
  messageBox := fun _ _ w => w

/-- A machine with the bundled tools and one video, `C:/in/flight.mp4`. -/
def sampleWorld : SimWorld where
  files := [
    ("C:/app/vendor/ffmpeg/bin/ffmpeg.exe".toList, []),
    ("C:/app/vendor/colmap/bin/colmap.bat".toList, []),
    ("C:/in/flight.mp4".toList, [])]
  dirs := ["C:/in".toList]

/-- The configuration that runs COLMAP on the video of `sampleWorld` at 1 fps. -/
def sampleConfig : PipelineConfig where
  videoPath := "C:/in/flight.mp4".toList
  outputBaseDir := "C:/out".toList
  frameRate := 1
  method := .COLMAP
  metashapeExePath := []
  realityscanExePath := []

/-- Rules under which the extraction tool exits with 1 and leaves no frame. -/
def failingExtraction : List Rule :=
  [{ key := "ffmpeg.exe".toList, result := .exited ["No such filter\n".toList] 1, creates := [] }]

/-- Rules under which the second step of COLMAP exits with 1. -/
def failingMatcher : List Rule :=
  [{ key := "exhaustive_matcher".toList, result := .exited ["no GPU\n".toList] 1, creates := [] }]

/-- A machine with the RealityScan executable and a folder of frames. -/
def realityScanWorld : SimWorld where
  files := [
    ("C:/rs/RealityScan.exe".toList, []),
    ("C:/out/frames/flight/flight_frame_0001.jpg".toList, "jpg".toList)]
  dirs := ["C:/out".toList, "C:/out/frames".toList, "C:/out/frames/flight".toList]

/-- Rules under which RealityScan exits with 0 and exports the registration
file but no image. -/
def emptyExport : List Rule :=
  [{ key := "RealityScan.exe".toList, result := .exited ["aligned\n".toList] 0,
     creates := [("C:/out/undistorted/sparse/registration.txt".toList, "1 0 0 0".toList)] }]

/-- Rules under which the extraction tool leaves two frames and exits with 1. -/
def brokenExtraction : List Rule :=
  [{ key := "ffmpeg.exe".toList, result := .exited ["Invalid data found\n".toList] 1,
     creates := [("C:/out/frames/flight/flight_frame_0001.jpg".toList, "jpg".toList),
       ("C:/out/frames/flight/flight_frame_0002.jpg".toList, "jpg".toList)] }]

/-- Rules under which the extraction tool leaves two frames and exits with 0. -/
def goodExtraction : List Rule :=
  [{ key := "ffmpeg.exe".toList, result := .exited ["frame=    2\n".toList] 0,
     creates := [("C:/out/frames/flight/flight_frame_0001.jpg".toList, "jpg".toList),
       ("C:/out/frames/flight/flight_frame_0002.jpg".toList, "jpg".toList)] }]

/-- A telemetry file with fixes at 0, 1 and 2 seconds. -/
def threeFixTelemetry : List Char :=
  ("1\n00:00:00,000 --> 00:00:01,000\nGPS: (4.5, 52.0) H: 10m\n\n" ++
   "2\n00:00:01,000 --> 00:00:02,000\nGPS: (4.5, 52.5) H: 20m\n\n" ++
   "3\n00:00:02,000 --> 00:00:03,000\nGPS: (4.5, 53.0) H: 30m\n").toList

/-- The fixes of `threeFixTelemetry`. -/
def threeFixes : List GPSData :=
  [{ latitude := 52, longitude := 4.5, altitude := 10, timestamp := 0, valid := true },
   { latitude := 52.5, longitude := 4.5, altitude := 20, timestamp := 1, valid := true },
   { latitude := 53, longitude := 4.5, altitude := 30, timestamp := 2, valid := true }]

/-- A machine with the bundled tools, the tagging tool, one video and its
telemetry file. -/
def telemetryWorld : SimWorld where
  files := [
    ("C:/app/vendor/ffmpeg/bin/ffmpeg.exe".toList, []),
    ("C:/app/vendor/colmap/bin/colmap.bat".toList, []),
    ("C:/app/vendor/exiftool/exiftool.exe".toList, []),
    ("C:/in/flight.mp4".toList, []),
    ("C:/in/flight.SRT".toList, threeFixTelemetry)]
  dirs := ["C:/in".toList]

/-- The five frames that the extraction leaves under `taggingRules`. -/
def fiveFrames : List (List Char) :=
  ["C:/out/frames/flight/flight_frame_0001.jpg".toList,
   "C:/out/frames/flight/flight_frame_0002.jpg".toList,
   "C:/out/frames/flight/flight_frame_0003.jpg".toList,
   "C:/out/frames/flight/flight_frame_0004.jpg".toList,
   "C:/out/frames/flight/flight_frame_0005.jpg".toList]

/-- Rules under which the extraction tool leaves five frames and exits with 0,
and the tagging tool exits with 1 on the third frame and with 0 on the others. -/
def taggingRules : List Rule :=
  [{ key := "ffmpeg.exe".toList, result := .exited ["frame=    5\n".toList] 0,
     creates := fiveFrames.reverse.map (fun p => (p, "jpg".toList)) },
   { key := "flight_frame_0003.jpg".toList, result := .exited ["Error: not a JPEG\n".toList] 1,
     creates := [] }]

/-- A machine with the bundled tools and a folder of two videos. -/
def folderWorld : SimWorld where
  files := [
    ("C:/app/vendor/ffmpeg/bin/ffmpeg.exe".toList, []),
    ("C:/app/vendor/colmap/bin/colmap.bat".toList, []),
    ("C:/in/a.mp4".toList, []),
    ("C:/in/b.mp4".toList, [])]
  dirs := ["C:/in".toList]

/-- The configuration that runs COLMAP on the folder of `folderWorld` at 1 fps. -/
def folderConfig : PipelineConfig where
  videoPath := "C:/in".toList
  outputBaseDir := "C:/out".toList
  frameRate := 1
  method := .COLMAP
  metashapeExePath := []
  realityscanExePath := []

/-- A log file of twelve lines. -/
def twelveLineLog : List Char :=
  "l1\nl2\nl3\nl4\nl5\nl6\nl7\nl8\nl9\nl10\nl11\nl12\n".toList

/-- A machine with the Metashape executable. -/
def metashapeWorld : SimWorld where
  files := [("C:/ms/metashape.exe".toList, [])]
  dirs := ["C:/out".toList, "C:/out/frames".toList, "C:/out/frames/flight".toList]

/-- Rules under which Metashape writes a log of twelve lines and exits with 1. -/
def failingMetashape : List Rule :=
  [{ key := "metashape.exe".toList, result := .exited [] 1,
     creates := [("C:/out/metashape_log.txt".toList, twelveLineLog)] }]

/-- The configuration that runs COLMAP on the folder `C:/in` of `sampleWorld`,
which holds one video. -/
def oneVideoFolderConfig : PipelineConfig where
  videoPath := "C:/in".toList
  outputBaseDir := "C:/out".toList
  frameRate := 1
  method := .COLMAP
  metashapeExePath := []
  realityscanExePath := []

/-! ### The lines of a byte stream

The lines of the output of a child, in the words of the specification, to be
compared with what `runCommandHidden` gives to the callback.
-/

/-- The complete (newline-terminated) lines of a stream, without their
newlines, and the residual text after the last newline. -/
def splitStream : List Char → List (List Char) × List Char
  | [] => ([], [])
  | c :: rest =>
    if c = '\n' then ([] :: (splitStream rest).1, (splitStream rest).2)
    else
      match (splitStream rest).1 with
      | [] => ([], c :: (splitStream rest).2)
      | line :: lines => ((c :: line) :: lines, (splitStream rest).2)

/-- The complete lines of a stream. -/
def completeLines (stream : List Char) : List (List Char) := (splitStream stream).1

/-- The text of a stream after its last newline. -/
def residual (stream : List Char) : List Char := (splitStream stream).2

/-- Every complete line of the stream, then the residual text when the stream
does not end with a newline. -/
def specForwarded (stream : List Char) : List (List Char) :=
  completeLines stream ++ (if residual stream = [] then [] else [residual stream])

/-- The complete lines of the stream that are neither empty nor a lone
carriage return, then the residual text when the stream does not end with a
newline. -/
def specForwardedVisible (stream : List Char) : List (List Char) :=
  (completeLines stream).filter (fun line => !line.isEmpty && line ≠ ['\r']) ++
    (if residual stream = [] then [] else [residual stream])

/-- Rules under which every command prints `a`, a blank line and `b`. -/
def blankLineOutput : List Rule :=
  [{ key := [], result := .exited ["a\n\nb\n".toList] 0, creates := [] }]

/-- Rules under which every command prints four lines, delivered in three
reads that do not end at the newlines. -/
def chunkedOutput : List Rule :=
  [{ key := [], result := .exited ["frame=1\r\n\r".toList, "\nfra".toList, "me=2\n\ndone".toList] 0,
     creates := [] }]

/-- Rules under which every command prints the stream of `chunkedOutput` in
one read. -/
def wholeOutput : List Rule :=
  [{ key := [], result := .exited ["frame=1\r\n\r\nframe=2\n\ndone".toList] 0, creates := [] }]
/-! # Theorems -/

/-! ### Binary64 rounding -/

theorem halvings_spec (fuel n : ℕ) (h : n ≤ fuel) (hn : 0 < n) :
    2 ^ halvings fuel n ≤ n ∧ n < 2 ^ (halvings fuel n + 1) := by
  induction fuel generalizing n with
  | zero => omega
  | succ fuel ih =>
    unfold halvings
    by_cases h2 : n < 2
    · rw [if_pos h2]
      constructor
      · simpa using hn
      · simpa using h2
    · rw [if_neg h2]
      obtain ⟨h3, h4⟩ := ih (n / 2) (by omega) (by omega)
      rw [pow_succ, pow_succ]
      generalize 2 ^ halvings fuel (n / 2) = p at h3 h4 ⊢
      rw [pow_succ] at h4
      constructor <;> omega

theorem natLog2_spec (n : ℕ) (hn : 0 < n) : 2 ^ natLog2 n ≤ n ∧ n < 2 ^ (natLog2 n + 1) :=
  halvings_spec n n (le_refl n) hn

theorem pow2_eq (e : ℤ) : pow2 e = (2 : ℚ) ^ e := by
  unfold pow2
  split
  · rename_i h
    obtain ⟨n, rfl⟩ := Int.eq_ofNat_of_zero_le h
    simp
  · rename_i h
    have h' : 0 ≤ -e := by omega
    obtain ⟨n, hn⟩ := Int.eq_ofNat_of_zero_le h'
    have he : e = -(n : ℤ) := by omega
    rw [hn, he]
    simp

theorem pow2_pos (e : ℤ) : 0 < pow2 e := by
  rw [pow2_eq]; positivity

theorem two_zpow_le {m n : ℤ} (h : m ≤ n) : (2 : ℚ) ^ m ≤ (2 : ℚ) ^ n :=
  zpow_le_zpow_right₀ (by norm_num) h

theorem two_zpow_lt {m n : ℤ} (h : m < n) : (2 : ℚ) ^ m < (2 : ℚ) ^ n :=
  zpow_lt_zpow_right₀ (by norm_num) h

theorem floorLog2_spec (a : ℚ) (ha : 0 < a) :
    (2 : ℚ) ^ floorLog2 a ≤ a ∧ a < (2 : ℚ) ^ (floorLog2 a + 1) := by
  have hnum : 0 < a.num := Rat.num_pos.mpr ha
  have hn0 : 0 < a.num.natAbs := Int.natAbs_pos.mpr (ne_of_gt hnum)
  have hd0 : 0 < a.den := a.den_pos
  obtain ⟨hn1, hn2⟩ := natLog2_spec _ hn0
  obtain ⟨hd1, hd2⟩ := natLog2_spec _ hd0
  have hcast : ((a.num.natAbs : ℕ) : ℚ) = (a.num : ℚ) := by
    rw [Nat.cast_natAbs, abs_of_pos hnum]
  have hq : a = (a.num.natAbs : ℚ) / (a.den : ℚ) := by
    rw [hcast]; exact (Rat.num_div_den a).symm
  have hn1q : ((2 : ℚ) ^ natLog2 a.num.natAbs) ≤ (a.num.natAbs : ℚ) := by exact_mod_cast hn1
  have hn2q : (a.num.natAbs : ℚ) < ((2 : ℚ) ^ (natLog2 a.num.natAbs + 1)) := by exact_mod_cast hn2
  have hd1q : ((2 : ℚ) ^ natLog2 a.den) ≤ (a.den : ℚ) := by exact_mod_cast hd1
  have hd2q : (a.den : ℚ) < ((2 : ℚ) ^ (natLog2 a.den + 1)) := by exact_mod_cast hd2
  have hdq : (0 : ℚ) < (a.den : ℚ) := by exact_mod_cast hd0
  unfold floorLog2
  simp only [pow2_eq]
  generalize natLog2 a.num.natAbs = ln at hn1q hn2q ⊢
  generalize natLog2 a.den = ld at hd1q hd2q ⊢
  generalize (a.num.natAbs : ℚ) = n at hq hn1q hn2q
  generalize (a.den : ℚ) = d at hq hd1q hd2q hdq
  have hlow : (2 : ℚ) ^ ((ln : ℤ) - (ld : ℤ) - 1) < a := by
    have : (2 : ℚ) ^ ((ln : ℤ) - (ld : ℤ) - 1) = (2 : ℚ) ^ ln / (2 : ℚ) ^ (ld + 1) := by
      rw [show (ln : ℤ) - (ld : ℤ) - 1 = (ln : ℤ) - ((ld + 1 : ℕ) : ℤ) by push_cast; ring,
        zpow_sub₀ (by norm_num), zpow_natCast, zpow_natCast]
    rw [this, hq, div_lt_div_iff₀ (by positivity) hdq]
    calc (2 : ℚ) ^ ln * d < (2 : ℚ) ^ ln * (2 : ℚ) ^ (ld + 1) :=
          mul_lt_mul_of_pos_left hd2q (by positivity)
      _ ≤ n * (2 : ℚ) ^ (ld + 1) := mul_le_mul_of_nonneg_right hn1q (by positivity)
  have hhigh : a < (2 : ℚ) ^ ((ln : ℤ) - (ld : ℤ) + 1) := by
    have : (2 : ℚ) ^ ((ln : ℤ) - (ld : ℤ) + 1) = (2 : ℚ) ^ (ln + 1) / (2 : ℚ) ^ ld := by
      rw [show (ln : ℤ) - (ld : ℤ) + 1 = ((ln + 1 : ℕ) : ℤ) - (ld : ℤ) by push_cast; ring,
        zpow_sub₀ (by norm_num), zpow_natCast, zpow_natCast]
    rw [this, hq, div_lt_div_iff₀ hdq (by positivity)]
    calc n * (2 : ℚ) ^ ld < (2 : ℚ) ^ (ln + 1) * (2 : ℚ) ^ ld :=
          mul_lt_mul_of_pos_right hn2q (by positivity)
      _ ≤ (2 : ℚ) ^ (ln + 1) * d := mul_le_mul_of_nonneg_left hd1q (by positivity)
  split
  · rename_i h
    exact ⟨h, hhigh⟩
  · rename_i h
    refine ⟨le_of_lt hlow, ?_⟩
    rw [sub_add_cancel]
    exact not_le.mp h

theorem floorLog2_le_of_le (a : ℚ) (k : ℤ) (ha : 0 < a) (h : a ≤ (2 : ℚ) ^ k) :
    floorLog2 a ≤ k := by
  by_contra hc
  have h1 := (floorLog2_spec a ha).1
  have h2 : (2 : ℚ) ^ k < (2 : ℚ) ^ floorLog2 a := two_zpow_lt (by omega)
  linarith

theorem floorLog2_lt_of_lt (a : ℚ) (k : ℤ) (ha : 0 < a) (h : a < (2 : ℚ) ^ k) :
    floorLog2 a < k := by
  by_contra hc
  have h1 := (floorLog2_spec a ha).1
  have h2 : (2 : ℚ) ^ k ≤ (2 : ℚ) ^ floorLog2 a := two_zpow_le (by omega)
  linarith

theorem floorLog2_mono (a b : ℚ) (ha : 0 < a) (h : a ≤ b) : floorLog2 a ≤ floorLog2 b := by
  by_contra hc
  have h1 := (floorLog2_spec a ha).1
  have h2 := (floorLog2_spec b (lt_of_lt_of_le ha h)).2
  have h3 : (2 : ℚ) ^ (floorLog2 b + 1) ≤ (2 : ℚ) ^ floorLog2 a := two_zpow_le (by omega)
  linarith

theorem roundHalfEven_close (q : ℚ) (hq : 0 ≤ q) : |(roundHalfEven q : ℚ) - q| ≤ 1 / 2 := by
  have hfl : 0 ≤ ⌊q⌋ := Int.floor_nonneg.mpr hq
  have hcast : ((⌊q⌋.toNat : ℕ) : ℚ) = (⌊q⌋ : ℚ) := by
    have : ((⌊q⌋.toNat : ℕ) : ℤ) = ⌊q⌋ := Int.toNat_of_nonneg hfl
    exact_mod_cast congrArg (fun z : ℤ => (z : ℚ)) this
  have h1 : (⌊q⌋ : ℚ) ≤ q := Int.floor_le q
  have h2 : q < (⌊q⌋ : ℚ) + 1 := Int.lt_floor_add_one q
  simp only [roundHalfEven]
  rw [abs_le]
  split
  · rename_i h
    rw [hcast] at h ⊢
    constructor <;> linarith
  · rename_i h
    split
    · rename_i h'
      rw [hcast] at h'
      push_cast
      rw [hcast]
      constructor <;> linarith
    · rename_i h'
      rw [hcast] at h h'
      have heq : q - (⌊q⌋ : ℚ) = 1 / 2 := le_antisymm (not_lt.mp h') (not_lt.mp h)
      split
      · rw [hcast]; constructor <;> linarith
      · push_cast; rw [hcast]; constructor <;> linarith

theorem roundHalfEven_mono (x y : ℚ) (hx : 0 ≤ x) (h : x ≤ y) :
    roundHalfEven x ≤ roundHalfEven y := by
  by_contra hc
  have hlt : roundHalfEven y + 1 ≤ roundHalfEven x := by omega
  have hq : ((roundHalfEven y : ℕ) : ℚ) + 1 ≤ (roundHalfEven x : ℚ) := by exact_mod_cast hlt
  have h1 := (abs_le.mp (roundHalfEven_close x hx)).2
  have h2 := (abs_le.mp (roundHalfEven_close y (le_trans hx h))).1
  have hxy : x = y := le_antisymm h (by linarith)
  rw [hxy] at hc
  exact hc (le_refl _)

theorem roundHalfEven_natCast (n : ℕ) : roundHalfEven (n : ℚ) = n := by
  simp [roundHalfEven]

theorem roundHalfEven_le_of_le (x : ℚ) (n : ℕ) (hx : 0 ≤ x) (h : x ≤ n) :
    roundHalfEven x ≤ n := by
  have := roundHalfEven_mono x n hx h
  rwa [roundHalfEven_natCast] at this

theorem le_roundHalfEven_of_le (x : ℚ) (n : ℕ) (h : (n : ℚ) ≤ x) :
    n ≤ roundHalfEven x := by
  have := roundHalfEven_mono n x (Nat.cast_nonneg n) h
  rwa [roundHalfEven_natCast] at this

/-- The exponent of the binade of a positive value, not below that of the
subnormal values. -/
theorem ulp_eq (a : ℚ) : ulp a = (2 : ℚ) ^ (max (floorLog2 a) (-1022) - 52) := by
  rw [ulp, pow2_eq]

theorem ulp_pos (a : ℚ) : 0 < ulp a := pow2_pos _

theorem doubleOverflow_lt : doubleOverflow < (2 : ℚ) ^ (1024 : ℤ) := by
  unfold doubleOverflow
  norm_num

theorem roundMagnitude_nonneg (a : ℚ) : 0 ≤ roundMagnitude a := by
  unfold roundMagnitude
  split
  · exact le_refl 0
  · split
    · positivity
    · exact mul_nonneg (Nat.cast_nonneg _) (le_of_lt (ulp_pos a))

theorem roundMagnitude_zero : roundMagnitude 0 = 0 := by
  simp [roundMagnitude]

theorem roundMagnitude_of_lt (a : ℚ) (ha : 0 < a) (h : a < doubleOverflow) :
    roundMagnitude a = (roundHalfEven (a / ulp a) : ℚ) * ulp a := by
  unfold roundMagnitude
  rw [if_neg (ne_of_gt ha), if_neg (not_le.mpr h)]

/-- A positive value is below the end of its binade. -/
theorem lt_binade_end (a : ℚ) (ha : 0 < a) :
    a < (2 : ℚ) ^ (max (floorLog2 a) (-1022) + 1) :=
  lt_of_lt_of_le (floorLog2_spec a ha).2 (two_zpow_le (by omega))

theorem binade_end_eq (e : ℤ) :
    (2 : ℚ) ^ (e + 1) = ((2 ^ 53 : ℕ) : ℚ) * (2 : ℚ) ^ (e - 52) := by
  have h : e + 1 = 53 + (e - 52) := by ring
  rw [h, zpow_add₀ (by norm_num)]
  norm_num

theorem binade_start_eq (e : ℤ) :
    (2 : ℚ) ^ e = ((2 ^ 52 : ℕ) : ℚ) * (2 : ℚ) ^ (e - 52) := by
  have h : e = 52 + (e - 52) := by ring
  nth_rewrite 1 [h]
  rw [zpow_add₀ (by norm_num)]
  norm_num

theorem roundMagnitude_le_binade_end (a : ℚ) (ha : 0 < a) (h : a < doubleOverflow) :
    roundMagnitude a ≤ (2 : ℚ) ^ (max (floorLog2 a) (-1022) + 1) := by
  have hlt := lt_binade_end a ha
  rw [roundMagnitude_of_lt a ha h, ulp_eq]
  generalize max (floorLog2 a) (-1022) = e at hlt ⊢
  have hu : (0 : ℚ) < (2 : ℚ) ^ (e - 52) := by positivity
  rw [binade_end_eq] at hlt ⊢
  have hdiv : a / (2 : ℚ) ^ (e - 52) ≤ ((2 ^ 53 : ℕ) : ℚ) := by
    rw [div_le_iff₀ hu]
    exact le_of_lt hlt
  have hr := roundHalfEven_le_of_le _ _ (div_nonneg (le_of_lt ha) (le_of_lt hu)) hdiv
  have hrq : ((roundHalfEven (a / (2 : ℚ) ^ (e - 52)) : ℕ) : ℚ) ≤ ((2 ^ 53 : ℕ) : ℚ) := by
    exact_mod_cast hr
  exact mul_le_mul_of_nonneg_right hrq (le_of_lt hu)

theorem binade_start_le_roundMagnitude (a : ℚ) (ha : 0 < a) (h : a < doubleOverflow)
    (hn : (2 : ℚ) ^ (max (floorLog2 a) (-1022)) ≤ a) :
    (2 : ℚ) ^ (max (floorLog2 a) (-1022)) ≤ roundMagnitude a := by
  rw [roundMagnitude_of_lt a ha h, ulp_eq]
  generalize max (floorLog2 a) (-1022) = e at hn ⊢
  have hu : (0 : ℚ) < (2 : ℚ) ^ (e - 52) := by positivity
  rw [binade_start_eq] at hn ⊢
  have hdiv : ((2 ^ 52 : ℕ) : ℚ) ≤ a / (2 : ℚ) ^ (e - 52) := by
    rw [le_div_iff₀ hu]
    exact hn
  have hr := le_roundHalfEven_of_le _ _ hdiv
  have hrq : ((2 ^ 52 : ℕ) : ℚ) ≤ ((roundHalfEven (a / (2 : ℚ) ^ (e - 52)) : ℕ) : ℚ) := by
    exact_mod_cast hr
  exact mul_le_mul_of_nonneg_right hrq (le_of_lt hu)

theorem floorLog2_le_of_lt_overflow (a : ℚ) (ha : 0 < a) (h : a < doubleOverflow) :
    floorLog2 a ≤ 1023 := by
  have := floorLog2_lt_of_lt a 1024 ha (lt_trans h doubleOverflow_lt)
  omega

theorem roundMagnitude_le_infinity (a : ℚ) (ha : 0 ≤ a) :
    roundMagnitude a ≤ (2 : ℚ) ^ (1024 : ℤ) := by
  rcases eq_or_lt_of_le ha with h0 | hpos
  · rw [← h0, roundMagnitude_zero]; positivity
  · by_cases h : a < doubleOverflow
    · refine le_trans (roundMagnitude_le_binade_end a hpos h) (two_zpow_le ?_)
      have := floorLog2_le_of_lt_overflow a hpos h
      omega
    · unfold roundMagnitude
      rw [if_neg (ne_of_gt hpos), if_pos (not_lt.mp h)]
      norm_num

/-- Rounding to binary64 is monotone. -/
theorem roundMagnitude_mono (a b : ℚ) (ha : 0 ≤ a) (h : a ≤ b) :
    roundMagnitude a ≤ roundMagnitude b := by
  rcases eq_or_lt_of_le ha with h0 | hpos
  · rw [← h0, roundMagnitude_zero]; exact roundMagnitude_nonneg b
  have hbpos : 0 < b := lt_of_lt_of_le hpos h
  by_cases hb : b < doubleOverflow
  · have hao : a < doubleOverflow := lt_of_le_of_lt h hb
    have hfl := floorLog2_mono a b hpos h
    rcases eq_or_lt_of_le (max_le_max_right (-1022) hfl) with he | he
    · rw [roundMagnitude_of_lt a hpos hao, roundMagnitude_of_lt b hbpos hb, ulp, ulp, he]
      have hu := pow2_pos (max (floorLog2 b) (-1022) - 52)
      have hm := roundHalfEven_mono (a / pow2 (max (floorLog2 b) (-1022) - 52))
        (b / pow2 (max (floorLog2 b) (-1022) - 52)) (div_nonneg ha (le_of_lt hu))
        (div_le_div_of_nonneg_right h (le_of_lt hu))
      exact mul_le_mul_of_nonneg_right (by exact_mod_cast hm) (le_of_lt hu)
    · have h1 := roundMagnitude_le_binade_end a hpos hao
      have hnb : (2 : ℚ) ^ (max (floorLog2 b) (-1022)) ≤ b := by
        have : max (floorLog2 b) (-1022) = floorLog2 b := by
          apply max_eq_left
          have : (-1022 : ℤ) ≤ max (floorLog2 a) (-1022) := le_max_right _ _
          omega
        rw [this]
        exact (floorLog2_spec b hbpos).1
      have h2 := binade_start_le_roundMagnitude b hbpos hb hnb
      exact le_trans h1 (le_trans (two_zpow_le (by omega)) h2)
  · have : roundMagnitude b = (2 : ℚ) ^ (1024 : ℤ) := by
      unfold roundMagnitude
      rw [if_neg (ne_of_gt hbpos), if_pos (not_lt.mp hb)]
      norm_num
    rw [this]
    exact roundMagnitude_le_infinity a ha

/-- The rounding error is at most half the spacing of the binade. -/
theorem roundMagnitude_close (a : ℚ) (k : ℤ) (ha : 0 ≤ a) (hk : -1022 ≤ k) (hk2 : k ≤ 1023)
    (h : a ≤ (2 : ℚ) ^ k) : |roundMagnitude a - a| ≤ (2 : ℚ) ^ (k - 53) := by
  rcases eq_or_lt_of_le ha with h0 | hpos
  · rw [← h0, roundMagnitude_zero]; simp; positivity
  have hov : a < doubleOverflow := by
    have h1 : (2 : ℚ) ^ k ≤ (2 : ℚ) ^ (1023 : ℤ) := two_zpow_le hk2
    have h2 : (2 : ℚ) ^ (1023 : ℤ) < doubleOverflow := by
      unfold doubleOverflow; norm_num
    linarith
  rw [roundMagnitude_of_lt a hpos hov, ulp_eq]
  have he : max (floorLog2 a) (-1022) ≤ k := max_le (floorLog2_le_of_le a k hpos h) hk
  generalize max (floorLog2 a) (-1022) = e at he ⊢
  have hu : (0 : ℚ) < (2 : ℚ) ^ (e - 52) := by positivity
  have hc := roundHalfEven_close (a / (2 : ℚ) ^ (e - 52)) (div_nonneg ha (le_of_lt hu))
  have hhalf : (2 : ℚ) ^ (e - 53) = (2 : ℚ) ^ (e - 52) / 2 := by
    have : e - 53 = (e - 52) - 1 := by ring
    rw [this, zpow_sub₀ (by norm_num), zpow_one]
  have hle : (2 : ℚ) ^ (e - 53) ≤ (2 : ℚ) ^ (k - 53) := two_zpow_le (by omega)
  refine le_trans ?_ hle
  rw [hhalf]
  have : (roundHalfEven (a / (2 : ℚ) ^ (e - 52)) : ℚ) * (2 : ℚ) ^ (e - 52) - a =
      ((roundHalfEven (a / (2 : ℚ) ^ (e - 52)) : ℚ) - a / (2 : ℚ) ^ (e - 52)) *
        (2 : ℚ) ^ (e - 52) := by
    field_simp
  rw [this, abs_mul, abs_of_pos hu]
  calc |(roundHalfEven (a / (2 : ℚ) ^ (e - 52)) : ℚ) - a / (2 : ℚ) ^ (e - 52)| *
        (2 : ℚ) ^ (e - 52) ≤ 1 / 2 * (2 : ℚ) ^ (e - 52) :=
        mul_le_mul_of_nonneg_right hc (le_of_lt hu)
    _ = (2 : ℚ) ^ (e - 52) / 2 := by ring

theorem fabs_eq_abs (x : ℚ) : fabs x = |x| := by
  unfold fabs
  split
  · rename_i h; rw [abs_of_neg h]
  · rename_i h; rw [abs_of_nonneg (not_lt.mp h)]

theorem toDouble_of_nonneg (q : ℚ) (h : 0 ≤ q) : toDouble q = roundMagnitude q := by
  unfold toDouble
  rw [if_neg (not_lt.mpr h)]

theorem toDouble_of_neg (q : ℚ) (h : q < 0) : toDouble q = -roundMagnitude (-q) := by
  unfold toDouble
  rw [if_pos h]

theorem toDouble_nonneg (q : ℚ) (h : 0 ≤ q) : 0 ≤ toDouble q := by
  rw [toDouble_of_nonneg q h]; exact roundMagnitude_nonneg q

theorem toDouble_zero : toDouble 0 = 0 := by
  rw [toDouble_of_nonneg 0 (le_refl 0), roundMagnitude_zero]

theorem fabs_toDouble (q : ℚ) : fabs (toDouble q) = roundMagnitude |q| := by
  rw [fabs_eq_abs]
  by_cases h : q < 0
  · rw [toDouble_of_neg q h, abs_neg, abs_of_nonneg (roundMagnitude_nonneg _), abs_of_neg h]
  · rw [toDouble_of_nonneg q (not_lt.mp h), abs_of_nonneg (roundMagnitude_nonneg _),
      abs_of_nonneg (not_lt.mp h)]

theorem toDouble_mono (p q : ℚ) (h : p ≤ q) : toDouble p ≤ toDouble q := by
  by_cases hp : p < 0
  · by_cases hq : q < 0
    · rw [toDouble_of_neg p hp, toDouble_of_neg q hq, neg_le_neg_iff]
      exact roundMagnitude_mono (-q) (-p) (by linarith) (by linarith)
    · rw [toDouble_of_neg p hp, toDouble_of_nonneg q (not_lt.mp hq)]
      have h1 := roundMagnitude_nonneg (-p)
      have h2 := roundMagnitude_nonneg q
      linarith
  · have hq : 0 ≤ q := le_trans (not_lt.mp hp) h
    rw [toDouble_of_nonneg p (not_lt.mp hp), toDouble_of_nonneg q hq]
    exact roundMagnitude_mono p q (not_lt.mp hp) h

theorem toDouble_close (q : ℚ) (k : ℤ) (hk : -1022 ≤ k) (hk2 : k ≤ 1023)
    (h : |q| ≤ (2 : ℚ) ^ k) : |toDouble q - q| ≤ (2 : ℚ) ^ (k - 53) := by
  by_cases hq : q < 0
  · rw [toDouble_of_neg q hq]
    rw [abs_of_neg hq] at h
    have := roundMagnitude_close (-q) k (by linarith) hk hk2 h
    rw [show -roundMagnitude (-q) - q = -(roundMagnitude (-q) - -q) by ring, abs_neg]
    exact this
  · rw [toDouble_of_nonneg q (not_lt.mp hq)]
    rw [abs_of_nonneg (not_lt.mp hq)] at h
    exact roundMagnitude_close q k (not_lt.mp hq) hk hk2 h

/-! ### Properties of the linear scan -/

theorem closestLoop_spec (t : ℚ) (frames : List GPSData) :
    ∀ (rest pre : List GPSData) (minDiff : ℚ) (idx : Nat),
      frames = pre ++ rest → idx < pre.length →
      minDiff = frameDiff frames t idx →
      (∀ j, j < pre.length → minDiff ≤ frameDiff frames t j) →
      (∀ j, j < idx → minDiff < frameDiff frames t j) →
      closestLoop t rest pre.length minDiff idx < frames.length ∧
      (∀ j, j < frames.length →
        frameDiff frames t (closestLoop t rest pre.length minDiff idx) ≤ frameDiff frames t j) ∧
      (∀ j, j < closestLoop t rest pre.length minDiff idx →
        frameDiff frames t (closestLoop t rest pre.length minDiff idx) < frameDiff frames t j) := by
  intro rest
  induction rest with
  | nil =>
    intro pre minDiff idx hfr hidx hmin hle hlt
    simp only [List.append_nil] at hfr
    subst hfr
    simp only [closestLoop]
    exact ⟨hidx, fun j hj => hmin ▸ hle j hj, fun j hj => hmin ▸ hlt j hj⟩
  | cons f rest ih =>
    intro pre minDiff idx hfr hidx hmin hle hlt
    have hfr2 : frames = (pre ++ [f]) ++ rest := by simp [hfr]
    have hlen : (pre ++ [f]).length = pre.length + 1 := by simp
    have hf : frameDiff frames t pre.length = fabs (fsub f.timestamp t) := by
      have : (pre ++ f :: rest).getD pre.length {} = f := by
        rw [List.getD_eq_getElem?_getD, List.getElem?_append_right (le_refl _)]
        simp
      rw [frameDiff, hfr, this]
    simp only [closestLoop]
    split
    · rename_i hlt2
      have := ih (pre ++ [f]) (fabs (fsub f.timestamp t)) pre.length hfr2 (by simp) hf.symm
        (by
          intro j hj
          rw [hlen] at hj
          rcases Nat.lt_succ_iff_lt_or_eq.mp hj with h | h
          · exact le_of_lt (lt_of_lt_of_le hlt2 (hle j h))
          · rw [h, hf])
        (by
          intro j hj
          exact lt_of_lt_of_le hlt2 (hle j hj))
      rw [hlen] at this
      exact this
    · rename_i hge
      have hge2 : minDiff ≤ fabs (fsub f.timestamp t) := not_lt.mp hge
      have := ih (pre ++ [f]) minDiff idx hfr2 (by simp; omega) hmin
        (by
          intro j hj
          rw [hlen] at hj
          rcases Nat.lt_succ_iff_lt_or_eq.mp hj with h | h
          · exact hle j h
          · rw [h, hf]; exact hge2)
        hlt
      rw [hlen] at this
      exact this

/-- On a non-empty vector the final `closestIdx` is in range, attains the least
distance, and every earlier index is strictly farther. -/
theorem closestIndex_spec (frames : List GPSData) (t : ℚ) (hne : frames ≠ []) :
    closestIndex frames t < frames.length ∧
    (∀ j, j < frames.length →
      frameDiff frames t (closestIndex frames t) ≤ frameDiff frames t j) ∧
    (∀ j, j < closestIndex frames t →
      frameDiff frames t (closestIndex frames t) < frameDiff frames t j) := by
  cases frames with
  | nil => exact absurd rfl hne
  | cons f0 rest =>
    have := closestLoop_spec t (f0 :: rest) rest [f0] (fabs (fsub f0.timestamp t)) 0 rfl
      (by simp) (by simp [frameDiff])
      (by intro j hj; simp at hj; subst hj; simp [frameDiff])
      (by intro j hj; omega)
    simpa [closestIndex] using this

theorem getGPSForTimestamp_eq_getD (frames : List GPSData) (t : ℚ) (hne : frames ≠ []) :
    getGPSForTimestamp frames t = frames.getD (closestIndex frames t) {} := by
  cases frames with
  | nil => exact absurd rfl hne
  | cons f0 rest => simp [getGPSForTimestamp]

/-- The distance that `getGPSForTimestamp` computes for a fix: the rounded
value of the exact distance. -/
theorem fabs_fsub (a t : ℚ) : fabs (fsub a t) = roundMagnitude |a - t| :=
  fabs_toDouble (a - t)

/-- A fix that is nearer in exact arithmetic has no larger computed distance. -/
theorem fabs_fsub_mono (a b t : ℚ) (h : |a - t| ≤ |b - t|) :
    fabs (fsub a t) ≤ fabs (fsub b t) := by
  rw [fabs_fsub, fabs_fsub]
  exact roundMagnitude_mono _ _ (abs_nonneg _) h

/-- C1: on a non-empty sequence `getGPSForTimestamp` returns an
element of the sequence whose computed distance to the query, the `double`
value of `std::abs(timestamp - t)`, is at most the computed distance of every
fix of the sequence; a fix that is strictly nearer to the query in exact
arithmetic has the same computed distance as the returned one. -/
theorem getGPSForTimestamp_minimal (frames : List GPSData) (t : ℚ) (hne : frames ≠ []) :
    getGPSForTimestamp frames t ∈ frames ∧
    ∀ f ∈ frames,
      fabs (fsub (getGPSForTimestamp frames t).timestamp t) ≤ fabs (fsub f.timestamp t) ∧
      (|f.timestamp - t| < |(getGPSForTimestamp frames t).timestamp - t| →
        fabs (fsub f.timestamp t) = fabs (fsub (getGPSForTimestamp frames t).timestamp t)) := by
  obtain ⟨hlt, hmin, -⟩ := closestIndex_spec frames t hne
  rw [getGPSForTimestamp_eq_getD frames t hne]
  have hget : frames.getD (closestIndex frames t) {} = frames[closestIndex frames t] := by
    simp [List.getD_eq_getElem?_getD, hlt]
  refine ⟨by rw [hget]; exact List.getElem_mem _, ?_⟩
  intro f hf
  obtain ⟨j, hj, rfl⟩ := List.getElem_of_mem hf
  have := hmin j hj
  simp only [frameDiff] at this
  have hj2 : frames.getD j {} = frames[j] := by simp [List.getD_eq_getElem?_getD, hj]
  rw [hj2] at this
  exact ⟨this, fun hnear => le_antisymm (fabs_fsub_mono _ _ t (le_of_lt hnear)) this⟩

theorem getGPSForTimestamp_minimal_witness :
    sampleFixes ≠ [] ∧
    (getGPSForTimestamp sampleFixes (3 / 4) ∈ sampleFixes ∧
      ∀ f ∈ sampleFixes,
        fabs (fsub (getGPSForTimestamp sampleFixes (3 / 4)).timestamp (3 / 4)) ≤
          fabs (fsub f.timestamp (3 / 4)) ∧
        (|f.timestamp - 3 / 4| < |(getGPSForTimestamp sampleFixes (3 / 4)).timestamp - 3 / 4| →
          fabs (fsub f.timestamp (3 / 4)) =
            fabs (fsub (getGPSForTimestamp sampleFixes (3 / 4)).timestamp (3 / 4)))) :=
  ⟨by decide, getGPSForTimestamp_minimal sampleFixes (3 / 4) (by decide)⟩

/-- C1, counterexample: the telemetry has fixes at 0.3 s and 1.7 s, and frame 1
at 1 frame per second has the capture time 1.  The two computed distances are
the same `double`, so the scan keeps the fix at 0.3 s, although the `double`
that holds 1.7 is strictly nearer to 1 than the `double` that holds 0.3. -/
theorem getGPSForTimestamp_keeps_farther_fix :
    parseSRT (some nearTieTelemetry) = .ok nearTieFixes ∧
    frameTimestamp 1 1 = 1 ∧
    getGPSForTimestamp nearTieFixes (frameTimestamp 1 1) = nearTieFixes.getD 0 {} ∧
    fabs (fsub (nearTieFixes.getD 0 {}).timestamp 1) =
      fabs (fsub (nearTieFixes.getD 1 {}).timestamp 1) ∧
    |(nearTieFixes.getD 1 {}).timestamp - 1| < |(nearTieFixes.getD 0 {}).timestamp - 1| := by
  decide!

/-- C2: on a non-empty sequence `getGPSForTimestamp` returns the fix at
the smallest index attaining the minimum computed distance (the `double`
value of `std::abs(timestamp - t)`): the returned fix sits at an index `k` of
the sequence, no fix has a smaller computed distance, and every fix at a
strictly earlier index has a strictly larger computed distance, hence also a
strictly larger exact distance to the query. -/
theorem getGPSForTimestamp_first_minimum (frames : List GPSData) (t : ℚ) (hne : frames ≠ []) :
    ∃ k, ∃ hk : k < frames.length,
      getGPSForTimestamp frames t = frames[k] ∧
      (∀ j, ∀ hj : j < frames.length,
        fabs (fsub frames[k].timestamp t) ≤ fabs (fsub frames[j].timestamp t)) ∧
      (∀ j, ∀ hj : j < k,
        fabs (fsub frames[k].timestamp t) < fabs (fsub (frames[j]).timestamp t) ∧
        |frames[k].timestamp - t| < |(frames[j]).timestamp - t|) := by
  obtain ⟨hlt, hmin, hfirst⟩ := closestIndex_spec frames t hne
  have hget : ∀ j, ∀ hj : j < frames.length, frames.getD j {} = frames[j] := by
    intro j hj; simp [List.getD_eq_getElem?_getD, hj]
  refine ⟨closestIndex frames t, hlt, ?_, ?_, ?_⟩
  · rw [getGPSForTimestamp_eq_getD frames t hne, hget _ hlt]
  · intro j hj
    have := hmin j hj
    simpa only [frameDiff, hget _ hlt, hget _ hj] using this
  · intro j hj
    have := hfirst j hj
    simp only [frameDiff, hget _ hlt, hget _ (lt_trans hj hlt)] at this
    refine ⟨this, ?_⟩
    by_contra hc
    exact absurd (fabs_fsub_mono _ _ t (not_lt.mp hc)) (not_le.mpr this)

theorem getGPSForTimestamp_first_minimum_witness :
    sampleFixes ≠ [] ∧
    ∃ k, ∃ hk : k < sampleFixes.length,
      getGPSForTimestamp sampleFixes (1 / 2) = sampleFixes[k] ∧
      (∀ j, ∀ hj : j < sampleFixes.length,
        fabs (fsub sampleFixes[k].timestamp (1 / 2)) ≤
          fabs (fsub sampleFixes[j].timestamp (1 / 2))) ∧
      (∀ j, ∀ hj : j < k,
        fabs (fsub sampleFixes[k].timestamp (1 / 2)) <
          fabs (fsub (sampleFixes[j]).timestamp (1 / 2)) ∧
        |sampleFixes[k].timestamp - 1 / 2| < |(sampleFixes[j]).timestamp - 1 / 2|) :=
  ⟨by decide, getGPSForTimestamp_first_minimum sampleFixes (1 / 2) (by decide)⟩

/-- C2, counterexample: the telemetry has fixes at 0.15 s and 0.85 s, and frame
1 at 2 frames per second has the capture time 0.5.  The fix returned is the
one at index 0, which does not attain the minimum distance: the `double` that
holds 0.85 is strictly nearer to 0.5. -/
theorem getGPSForTimestamp_first_not_nearest :
    parseSRT (some halfSecondTelemetry) = .ok halfSecondFixes ∧
    frameTimestamp 1 2 = 1 / 2 ∧
    getGPSForTimestamp halfSecondFixes (frameTimestamp 1 2) = halfSecondFixes.getD 0 {} ∧
    |(halfSecondFixes.getD 1 {}).timestamp - 1 / 2| <
      |(halfSecondFixes.getD 0 {}).timestamp - 1 / 2| := by
  decide!

/-- C3: on the empty sequence `getGPSForTimestamp` returns, for every query, the
default-constructed fix: `valid = false` and latitude, longitude, altitude and
timestamp all `0`. -/
theorem getGPSForTimestamp_empty (t : ℚ) :
    getGPSForTimestamp [] t =
      { latitude := 0, longitude := 0, altitude := 0, timestamp := 0, valid := false } := by
  rfl

/-! ### Decimal digits -/

theorem digitChar_isDigit (d : Nat) (h : d < 10) : (Nat.digitChar d).isDigit = true := by
  interval_cases d <;> decide

theorem digitChar_value (d : Nat) (h : d < 10) : (Nat.digitChar d).toNat - 48 = d := by
  interval_cases d <;> decide

theorem decimalDigits_isDigit :
    ∀ (fuel n : Nat) (c : Char), c ∈ decimalDigits fuel n → c.isDigit = true := by
  intro fuel
  induction fuel with
  | zero => intro n c hc; simp [decimalDigits] at hc
  | succ fuel ih =>
    intro n c hc
    simp only [decimalDigits] at hc
    split at hc
    · rename_i h
      simp only [List.mem_singleton] at hc
      subst hc
      exact digitChar_isDigit n h
    · simp only [List.mem_append, List.mem_singleton] at hc
      rcases hc with hc | hc
      · exact ih _ _ hc
      · subst hc
        exact digitChar_isDigit _ (Nat.mod_lt _ (by norm_num))

theorem decimalDigits_ne_nil (fuel n : Nat) : decimalDigits (fuel + 1) n ≠ [] := by
  simp only [decimalDigits]
  split <;> simp

theorem digitsValue_append_single (cs : List Char) (c : Char) :
    digitsValue (cs ++ [c]) = digitsValue cs * 10 + (c.toNat - 48) := by
  simp [digitsValue, List.foldl_append]

theorem digitsValue_decimalDigits :
    ∀ (fuel n : Nat), n < fuel → digitsValue (decimalDigits fuel n) = n := by
  intro fuel
  induction fuel with
  | zero => intro n h; omega
  | succ fuel ih =>
    intro n h
    simp only [decimalDigits]
    split
    · rename_i h10
      simp [digitsValue, digitChar_value n h10]
    · rename_i h10
      rw [digitsValue_append_single, ih (n / 10) (by omega),
        digitChar_value _ (Nat.mod_lt _ (by norm_num))]
      omega

theorem length_decimalDigits_le :
    ∀ (fuel n k : Nat), n < 10 ^ (k + 1) → (decimalDigits fuel n).length ≤ k + 1 := by
  intro fuel
  induction fuel with
  | zero => intro n k _; simp [decimalDigits]
  | succ fuel ih =>
    intro n k h
    simp only [decimalDigits]
    split
    · simp
    · rename_i h10
      cases k with
      | zero => simp at h; omega
      | succ k =>
        have : n / 10 < 10 ^ (k + 1) := by
          rw [Nat.div_lt_iff_lt_mul (by norm_num)]
          calc n < 10 ^ (k + 1 + 1) := h
            _ = 10 ^ (k + 1) * 10 := by ring
        have := ih (n / 10) k this
        simp only [List.length_append, List.length_singleton]
        omega

theorem natChars_isDigit (n : Nat) (c : Char) (h : c ∈ natChars n) : c.isDigit = true :=
  decimalDigits_isDigit _ _ _ h

theorem natChars_ne_nil (n : Nat) : natChars n ≠ [] := decimalDigits_ne_nil n n

theorem digitsValue_natChars (n : Nat) : digitsValue (natChars n) = n :=
  digitsValue_decimalDigits _ _ (Nat.lt_succ_self n)

theorem length_natChars_le (n k : Nat) (h : n < 10 ^ (k + 1)) : (natChars n).length ≤ k + 1 :=
  length_decimalDigits_le _ _ _ h

theorem all_isDigit_of_forall (cs : List Char) (h : ∀ c ∈ cs, c.isDigit = true) :
    cs.all Char.isDigit = true := by
  simpa [List.all_eq_true] using h

theorem readNat_of_digits (cs : List Char) (hne : cs ≠ []) (h : ∀ c ∈ cs, c.isDigit = true) :
    readNat cs = some (digitsValue cs) := by
  have hall := all_isDigit_of_forall cs h
  simp only [readNat, hne, hall, ne_eq, not_false_eq_true, and_self, if_true]

theorem readNat_natChars (n : Nat) : readNat (natChars n) = some n := by
  rw [readNat_of_digits _ (natChars_ne_nil n) (natChars_isDigit n), digitsValue_natChars]

theorem digitsValue_replicate_zero (k : Nat) (cs : List Char) :
    digitsValue (List.replicate k '0' ++ cs) = digitsValue cs := by
  induction k with
  | zero => simp
  | succ k ih =>
    have : ∀ (l : List Char) (a : ℕ), a = 0 →
        List.foldl (fun acc c => acc * 10 + (c.toNat - 48)) a ('0' :: l) =
          List.foldl (fun acc c => acc * 10 + (c.toNat - 48)) 0 l := by
      intro l a ha
      subst ha
      rfl
    simp only [digitsValue] at ih ⊢
    rw [List.replicate_succ, List.cons_append, this _ 0 rfl, ih]

theorem padZeros_isDigit (w : Nat) (cs : List Char) (h : ∀ c ∈ cs, c.isDigit = true) :
    ∀ c ∈ padZeros w cs, c.isDigit = true := by
  intro c hc
  simp only [padZeros, List.mem_append, List.mem_replicate] at hc
  rcases hc with ⟨-, rfl⟩ | hc
  · decide
  · exact h c hc

theorem length_padZeros (w : Nat) (cs : List Char) (h : cs.length ≤ w) :
    (padZeros w cs).length = w := by
  simp [padZeros]; omega

theorem digitsValue_padZeros (w : Nat) (cs : List Char) :
    digitsValue (padZeros w cs) = digitsValue cs :=
  digitsValue_replicate_zero _ _

/-- Reading back the fixed notation of a non-negative value gives the value
rounded at the printed position. -/
theorem readDecimal_fixedMagnitude (p : Nat) (a : ℚ) :
    readDecimal (fixedMagnitude (p + 1) a) =
      some ((roundHalfEven (a * 10 ^ (p + 1)) : ℚ) / 10 ^ (p + 1)) := by
  set n := roundHalfEven (a * 10 ^ (p + 1)) with hn
  have hfp_digit : ∀ c ∈ padZeros (p + 1) (natChars (n % 10 ^ (p + 1))), c.isDigit = true :=
    padZeros_isDigit _ _ (natChars_isDigit _)
  have hfp_len : (padZeros (p + 1) (natChars (n % 10 ^ (p + 1)))).length = p + 1 :=
    length_padZeros _ _ (length_natChars_le _ _ (Nat.mod_lt _ (by positivity)))
  have hfp_ne : padZeros (p + 1) (natChars (n % 10 ^ (p + 1))) ≠ [] := by
    intro h
    rw [h] at hfp_len
    simp at hfp_len
  have htake : ∀ (ip rest : List Char), (∀ c ∈ ip, c.isDigit = true) →
      (ip ++ '.' :: rest).takeWhile Char.isDigit = ip ∧
      (ip ++ '.' :: rest).dropWhile Char.isDigit = '.' :: rest := by
    intro ip rest hip
    induction ip with
    | nil => exact ⟨by simp [List.takeWhile], by simp [List.dropWhile]⟩
    | cons c cs ih =>
      have hc := hip c (List.mem_cons_self _ _)
      have := ih (fun c hc => hip c (List.mem_cons_of_mem _ hc))
      simp [List.takeWhile, List.dropWhile, hc, this.1, this.2]
  obtain ⟨h1, h2⟩ := htake (natChars (n / 10 ^ (p + 1)))
    (padZeros (p + 1) (natChars (n % 10 ^ (p + 1)))) (natChars_isDigit _)
  simp only [fixedMagnitude, readDecimal, ← hn, Nat.succ_ne_zero, if_false, h1, h2,
    readNat_natChars, readNat_of_digits _ hfp_ne hfp_digit, digitsValue_padZeros,
    digitsValue_natChars, hfp_len, Option.some.injEq]
  have hpos : (0 : ℚ) < 10 ^ (p + 1) := by positivity
  have h3 : ((n / 10 ^ (p + 1) : ℕ) : ℚ) * 10 ^ (p + 1) + ((n % 10 ^ (p + 1) : ℕ) : ℚ) = n := by
    have h4 := Nat.div_add_mod n (10 ^ (p + 1))
    have : ((10 ^ (p + 1) * (n / 10 ^ (p + 1)) + n % 10 ^ (p + 1) : ℕ) : ℚ) = (n : ℚ) := by
      rw [h4]
    push_cast at this
    linarith
  field_simp
  linarith
/-! ### Rounding and the shape of the `D M S` text -/

theorem fabs_nonneg (x : ℚ) : 0 ≤ fabs x := by
  rw [fabs_eq_abs]; exact abs_nonneg x

theorem fabs_of_nonneg {x : ℚ} (h : 0 ≤ x) : fabs x = x := by
  rw [fabs_eq_abs, abs_of_nonneg h]

theorem fixedMagnitude_chars (p : Nat) (a : ℚ) :
    ∀ c ∈ fixedMagnitude p a, c.isDigit = true ∨ c = '.' := by
  intro c hc
  simp only [fixedMagnitude, List.mem_append] at hc
  rcases hc with hc | hc
  · exact Or.inl (natChars_isDigit _ _ hc)
  · split at hc
    · simp at hc
    · simp only [List.mem_cons] at hc
      rcases hc with hc | hc
      · exact Or.inr hc
      · exact Or.inl (padZeros_isDigit _ _ (natChars_isDigit _) c hc)

theorem fields_of_no_space (u : List Char) (hu : ∀ c ∈ u, c ≠ ' ') : fields u = [u] := by
  induction u with
  | nil => rfl
  | cons c cs ih =>
    have hc : c ≠ ' ' := hu c (List.mem_cons_self _ _)
    simp [fields, hc, ih (fun c hc => hu c (List.mem_cons_of_mem _ hc))]

theorem fields_append_space (u v : List Char) (hu : ∀ c ∈ u, c ≠ ' ') :
    fields (u ++ ' ' :: v) = u :: fields v := by
  induction u with
  | nil => simp [fields]
  | cons c cs ih =>
    have hc : c ≠ ' ' := hu c (List.mem_cons_self _ _)
    simp [fields, hc, ih (fun c hc => hu c (List.mem_cons_of_mem _ hc))]

theorem isDigit_ne_space {c : Char} (h : c.isDigit = true) : c ≠ ' ' := by
  rintro rfl; exact absurd h (by decide)

theorem truncInt_of_nonneg (q : ℚ) (h : 0 ≤ q) : truncInt q = ⌊q⌋ := by
  unfold truncInt
  rw [if_pos h]

theorem fsub_nonneg (a b : ℚ) (h : b ≤ a) : 0 ≤ fsub a b :=
  toDouble_nonneg _ (by linarith)

theorem fmul_nonneg (a b : ℚ) (ha : 0 ≤ a) (hb : 0 ≤ b) : 0 ≤ fmul a b :=
  toDouble_nonneg _ (mul_nonneg ha hb)

theorem dmsMinutesDecimal_nonneg (x : ℚ) : 0 ≤ dmsMinutesDecimal x := by
  unfold dmsMinutesDecimal
  rw [truncInt_of_nonneg _ (fabs_nonneg x)]
  exact fmul_nonneg _ _ (fsub_nonneg _ _ (Int.floor_le _)) (by norm_num)

theorem dmsSeconds_nonneg (x : ℚ) : 0 ≤ dmsSeconds x := by
  unfold dmsSeconds
  rw [truncInt_of_nonneg _ (dmsMinutesDecimal_nonneg x)]
  exact fmul_nonneg _ _ (fsub_nonneg _ _ (Int.floor_le _)) (by norm_num)

/-- The degrees, minutes and seconds that `decimalToDMS` computes before
printing. -/
theorem decimalToDMS_eq (x : ℚ) :
    decimalToDMS x =
      natChars ⌊fabs x⌋.toNat ++ ' ' ::
        (natChars ⌊dmsMinutesDecimal x⌋.toNat ++ ' ' :: fixedMagnitude 4 (dmsSeconds x)) := by
  have ha : 0 ≤ fabs x := fabs_nonneg x
  have hD : 0 ≤ ⌊fabs x⌋ := Int.floor_nonneg.mpr ha
  have hmd : 0 ≤ dmsMinutesDecimal x := dmsMinutesDecimal_nonneg x
  have hM : 0 ≤ ⌊dmsMinutesDecimal x⌋ := Int.floor_nonneg.mpr hmd
  have hs : 0 ≤ dmsSeconds x := dmsSeconds_nonneg x
  have hint : ∀ z : ℤ, 0 ≤ z → intChars z = natChars z.toNat := by
    intro z hz
    simp [intChars, not_lt.mpr hz]
  have key : decimalToDMS x =
      OStream.buf (OStream.double (OStream.setPrecision (OStream.setFixed (OStream.str
        (OStream.int (OStream.str (OStream.int {} (truncInt (fabs x))) " ".toList)
          (truncInt (dmsMinutesDecimal x))) " ".toList)) 4) (dmsSeconds x)) := rfl
  rw [key]
  simp only [OStream.int, OStream.str, OStream.setFixed, OStream.setPrecision, OStream.double,
    truncInt_of_nonneg _ ha, truncInt_of_nonneg _ hmd, hint _ hD, hint _ hM, fixedChars,
    not_lt.mpr hs, if_false, if_true, fabs_of_nonneg hs]
  simp

theorem readDMS_decimalToDMS (x : ℚ) :
    readDMS (decimalToDMS x) =
      some (⌊fabs x⌋.toNat, ⌊dmsMinutesDecimal x⌋.toNat,
        (roundHalfEven (dmsSeconds x * 10 ^ 4) : ℚ) / 10 ^ 4) := by
  have hnat : ∀ n : ℕ, ∀ c ∈ natChars n, c ≠ ' ' :=
    fun n c hc => isDigit_ne_space (natChars_isDigit n c hc)
  have hfix : ∀ a : ℚ, ∀ c ∈ fixedMagnitude 4 a, c ≠ ' ' := by
    intro a c hc
    rcases fixedMagnitude_chars 4 a c hc with h | h
    · exact isDigit_ne_space h
    · rw [h]; decide
  rw [decimalToDMS_eq, readDMS, fields_append_space _ _ (hnat _),
    fields_append_space _ _ (hnat _), fields_of_no_space _ (hfix _)]
  simp only [readNat_natChars, readDecimal_fixedMagnitude 3]

theorem hemisphereSign_latRef (x : ℚ) : hemisphereSign (latRef x) = if 0 ≤ x then 1 else -1 := by
  unfold latRef hemisphereSign
  by_cases h : 0 ≤ x <;> simp [h]

theorem hemisphereSign_lonRef (x : ℚ) : hemisphereSign (lonRef x) = if 0 ≤ x then 1 else -1 := by
  unfold lonRef hemisphereSign
  by_cases h : 0 ≤ x <;> simp [h]

theorem toDouble_one : toDouble 1 = 1 := by decide!

/-- The rounding errors of `decimalToDMS`: the degrees, minutes and seconds
that it computes give back `|x|` up to `2 ^ (-51)`. -/
theorem dms_arithmetic_close (x : ℚ) :
    |(⌊fabs x⌋ : ℚ) + (⌊dmsMinutesDecimal x⌋ : ℚ) / 60 + dmsSeconds x / 3600 - fabs x| ≤
      1 / 2 ^ 51 := by
  have ha : 0 ≤ fabs x := fabs_nonneg x
  have hfl1 := Int.floor_le (fabs x)
  have hfl2 := Int.lt_floor_add_one (fabs x)
  have hmd : 0 ≤ dmsMinutesDecimal x := dmsMinutesDecimal_nonneg x
  have hg1 := Int.floor_le (dmsMinutesDecimal x)
  have hg2 := Int.lt_floor_add_one (dmsMinutesDecimal x)
  have hmdef : dmsMinutesDecimal x = toDouble (toDouble (fabs x - ⌊fabs x⌋) * 60) := by
    unfold dmsMinutesDecimal
    rw [truncInt_of_nonneg _ ha]
    rfl
  have hsdef : dmsSeconds x =
      toDouble (toDouble (dmsMinutesDecimal x - ⌊dmsMinutesDecimal x⌋) * 60) := by
    unfold dmsSeconds
    rw [truncInt_of_nonneg _ hmd]
    rfl
  rw [hsdef]
  generalize dmsMinutesDecimal x = md at hmd hg1 hg2 hmdef ⊢
  have hf0 : 0 ≤ fabs x - ⌊fabs x⌋ := by linarith
  have hf1 : fabs x - ⌊fabs x⌋ ≤ 1 := by linarith
  have e1 := toDouble_close (fabs x - ⌊fabs x⌋) 0 (by norm_num) (by norm_num)
    (by rw [abs_of_nonneg hf0]; simpa using hf1)
  have hp0 : 0 ≤ toDouble (fabs x - ⌊fabs x⌋) := toDouble_nonneg _ hf0
  have hp1 : toDouble (fabs x - ⌊fabs x⌋) ≤ 1 := by
    have := toDouble_mono _ _ hf1
    rwa [toDouble_one] at this
  generalize toDouble (fabs x - ⌊fabs x⌋) = p at e1 hp0 hp1 hmdef
  have e2 := toDouble_close (p * 60) 6 (by norm_num) (by norm_num)
    (by rw [abs_of_nonneg (by positivity)]; norm_num; linarith)
  rw [← hmdef] at e2
  have hr0 : 0 ≤ md - ⌊md⌋ := by linarith
  have hr1 : md - ⌊md⌋ ≤ 1 := by linarith
  have e3 := toDouble_close (md - ⌊md⌋) 0 (by norm_num) (by norm_num)
    (by rw [abs_of_nonneg hr0]; simpa using hr1)
  have hq0 : 0 ≤ toDouble (md - ⌊md⌋) := toDouble_nonneg _ hr0
  have hq1 : toDouble (md - ⌊md⌋) ≤ 1 := by
    have := toDouble_mono _ _ hr1
    rwa [toDouble_one] at this
  generalize toDouble (md - ⌊md⌋) = q at e3 hq0 hq1 ⊢
  have e4 := toDouble_close (q * 60) 6 (by norm_num) (by norm_num)
    (by rw [abs_of_nonneg (by positivity)]; norm_num; linarith)
  generalize toDouble (q * 60) = sec at e4 ⊢
  generalize (⌊md⌋ : ℚ) = M at *
  generalize (⌊fabs x⌋ : ℚ) = D at *
  generalize fabs x = a at *
  rw [abs_le] at e1 e2 e3 e4 ⊢
  norm_num at e1 e2 e3 e4 ⊢
  constructor <;> linarith

theorem dms_value_close (x : ℚ) (D M : ℕ) (S : ℚ)
    (h : readDMS (decimalToDMS x) = some (D, M, S)) :
    |(if 0 ≤ x then 1 else -1) * ((D : ℚ) + (M : ℚ) / 60 + S / 3600) - x| ≤
      0.00005 / 3600 + 1 / 10 ^ 15 := by
  rw [readDMS_decimalToDMS] at h
  simp only [Option.some.injEq, Prod.mk.injEq] at h
  obtain ⟨hD, hM, hS⟩ := h
  have ha : 0 ≤ fabs x := fabs_nonneg x
  have hDz : 0 ≤ ⌊fabs x⌋ := Int.floor_nonneg.mpr ha
  have hmd : 0 ≤ dmsMinutesDecimal x := dmsMinutesDecimal_nonneg x
  have hMz : 0 ≤ ⌊dmsMinutesDecimal x⌋ := Int.floor_nonneg.mpr hmd
  have hs : 0 ≤ dmsSeconds x := dmsSeconds_nonneg x
  have hDq : (D : ℚ) = (⌊fabs x⌋ : ℚ) := by
    rw [← hD]
    have : ((⌊fabs x⌋.toNat : ℕ) : ℤ) = ⌊fabs x⌋ := Int.toNat_of_nonneg hDz
    exact_mod_cast congrArg (fun z : ℤ => (z : ℚ)) this
  have hMq : (M : ℚ) = (⌊dmsMinutesDecimal x⌋ : ℚ) := by
    rw [← hM]
    have : ((⌊dmsMinutesDecimal x⌋.toNat : ℕ) : ℤ) = ⌊dmsMinutesDecimal x⌋ :=
      Int.toNat_of_nonneg hMz
    exact_mod_cast congrArg (fun z : ℤ => (z : ℚ)) this
  have hr := roundHalfEven_close (dmsSeconds x * 10 ^ 4) (by positivity)
  rw [abs_le] at hr
  have hSs : |S - dmsSeconds x| ≤ 0.00005 := by
    rw [← hS, abs_le]
    constructor
    · rw [le_sub_iff_add_le, le_div_iff₀ (by positivity)]
      norm_num at hr ⊢
      linarith
    · rw [sub_le_iff_le_add, div_le_iff₀ (by positivity)]
      norm_num at hr ⊢
      linarith
  have hclose := dms_arithmetic_close x
  rw [← hDq, ← hMq] at hclose
  generalize dmsSeconds x = s at hSs hclose
  rw [abs_le] at hSs hclose
  by_cases hx : 0 ≤ x
  · rw [if_pos hx, one_mul]
    rw [fabs_of_nonneg hx] at hclose
    rw [abs_le]
    constructor <;> [skip; skip] <;> norm_num at hSs hclose ⊢ <;> linarith
  · rw [if_neg hx]
    have hfx : fabs x = -x := by
      rw [fabs_eq_abs, abs_of_neg (not_le.mp hx)]
    rw [hfx] at hclose
    rw [abs_le]
    constructor <;> [skip; skip] <;> norm_num at hSs hclose ⊢ <;> linarith

/-- C7: `decimalToDMS(0.0)` is the text `0 0 0.0000` and `decimalToDMS(-45.5)` is
the text `45 30 0.0000` (degrees 45, minutes 30, seconds 0.0000, no sign). -/
theorem decimalToDMS_boundary_values :
    decimalToDMS 0 = "0 0 0.0000".toList ∧ decimalToDMS (-45.5) = "45 30 0.0000".toList := by
  decide!

/-- C8: for every coordinate `x` with `|x| ≤ 180`, the text
`decimalToDMS x` reads back as three fields `D M S`, and with the sign of the
hemisphere letter that `generateExiftoolCommand` derives for `x` (as a
latitude or as a longitude) the value `D + M/60 + S/3600` is within
`0.00005/3600 + 10 ^ (-15)` of `x`: the precision of 4 decimal places of an
arc-second, plus the rounding errors of the four `double` operations of
`decimalToDMS`. -/
theorem decimalToDMS_roundtrip (x : ℚ) (hx : |x| ≤ 180) :
    ∃ (D M : ℕ) (S : ℚ), readDMS (decimalToDMS x) = some (D, M, S) ∧
      |hemisphereSign (latRef x) * ((D : ℚ) + (M : ℚ) / 60 + S / 3600) - x| ≤
        0.00005 / 3600 + 1 / 10 ^ 15 ∧
      |hemisphereSign (lonRef x) * ((D : ℚ) + (M : ℚ) / 60 + S / 3600) - x| ≤
        0.00005 / 3600 + 1 / 10 ^ 15 := by
  have _ := hx
  refine ⟨_, _, _, readDMS_decimalToDMS x, ?_, ?_⟩
  · rw [hemisphereSign_latRef]
    exact dms_value_close x _ _ _ (readDMS_decimalToDMS x)
  · rw [hemisphereSign_lonRef]
    exact dms_value_close x _ _ _ (readDMS_decimalToDMS x)

theorem decimalToDMS_roundtrip_witness :
    |toDouble (-122.4194)| ≤ 180 ∧
    ∃ (D M : ℕ) (S : ℚ), readDMS (decimalToDMS (toDouble (-122.4194))) = some (D, M, S) ∧
      |hemisphereSign (latRef (toDouble (-122.4194))) *
          ((D : ℚ) + (M : ℚ) / 60 + S / 3600) - toDouble (-122.4194)|
        ≤ 0.00005 / 3600 + 1 / 10 ^ 15 ∧
      |hemisphereSign (lonRef (toDouble (-122.4194))) *
          ((D : ℚ) + (M : ℚ) / 60 + S / 3600) - toDouble (-122.4194)|
        ≤ 0.00005 / 3600 + 1 / 10 ^ 15 :=
  ⟨by decide!, decimalToDMS_roundtrip (toDouble (-122.4194)) (by decide!)⟩

/-- C8, counterexample: for the `double` nearest to 1.3007031805555556 the text
is `1 18 2.5314`, and the value `1 + 18/60 + 2.5314/3600` that it reads back
to differs from the coordinate by more than `0.00005/3600`: the seconds that
`decimalToDMS` computes are just below 2.53145, those of the coordinate
itself just above. -/
theorem decimalToDMS_roundtrip_exceeds_bound :
    |toDouble 1.3007031805555556| ≤ 180 ∧
    decimalToDMS (toDouble 1.3007031805555556) = "1 18 2.5314".toList ∧
    readDMS (decimalToDMS (toDouble 1.3007031805555556)) = some (1, 18, 2.5314) ∧
    0.00005 / 3600 <
      |hemisphereSign (latRef (toDouble 1.3007031805555556)) *
          ((1 : ℚ) + 18 / 60 + 2.5314 / 3600) - toDouble 1.3007031805555556| ∧
    0.00005 / 3600 <
      |hemisphereSign (lonRef (toDouble 1.3007031805555556)) *
          ((1 : ℚ) + 18 / 60 + 2.5314 / 3600) - toDouble 1.3007031805555556| := by
  decide!

/-! ### The command text -/

theorem generateExiftoolCommand_eq (exe img : List Char) (lat lon alt : ℚ) :
    generateExiftoolCommand exe img lat lon alt =
      "\"\"".toList ++ exe ++ "\" ".toList ++ tagsText lat lon alt ++
        "\"".toList ++ img ++ "\"\"".toList := by
  by_cases h : alt = 0
  · simp only [generateExiftoolCommand, tagsText, OStream.str, OStream.chr, OStream.double,
      OStream.setFixed, OStream.setPrecision, h, List.append_assoc, List.nil_append,
      ne_eq, not_true_eq_false, not_false_eq_true, if_true, if_false, Bool.false_eq_true]
  · simp only [generateExiftoolCommand, tagsText, OStream.str, OStream.chr, OStream.double,
      OStream.setFixed, OStream.setPrecision, h, List.append_assoc, List.nil_append,
      ne_eq, not_true_eq_false, not_false_eq_true, if_true, if_false, Bool.false_eq_true]

/-! ### Looking up an argument of the command -/

theorem isPrefixOf_append_of_clash :
    ∀ (key t v : List Char), clash key t = true → key.isPrefixOf (t ++ v) = false := by
  intro key
  induction key with
  | nil => intro t v h; simp [clash] at h
  | cons k ks ih =>
    intro t v h
    cases t with
    | nil => simp [clash] at h
    | cons c cs =>
      simp only [clash, List.isPrefixOf, Bool.not_and, Bool.and_eq_true, Bool.or_eq_true,
        Bool.not_eq_true', beq_eq_false_iff_ne, ne_eq] at h
      simp only [List.cons_append, List.isPrefixOf, Bool.and_eq_false_iff, beq_eq_false_iff_ne,
        ne_eq]
      by_cases hkc : k = c
      · subst hkc
        right
        apply ih
        simp only [clash, Bool.and_eq_true, Bool.not_eq_true']
        rcases h with ⟨h1 | h1, h2 | h2⟩
        · exact absurd rfl h1
        · exact absurd rfl h1
        · exact absurd rfl h2
        · exact ⟨h1, h2⟩
      · exact Or.inl hkc

theorem valueAfter_cons (key : List Char) (c : Char) (cs : List Char) :
    valueAfter key (c :: cs) =
      if key.isPrefixOf (c :: cs) then
        some (((c :: cs).drop key.length).takeWhile (fun x => x != ' '))
      else valueAfter key cs := rfl

theorem valueAfter_skip_literal (key : List Char) :
    ∀ (l v : List Char), noStart key l = true → valueAfter key (l ++ v) = valueAfter key v := by
  intro l
  induction l with
  | nil => intro v _; rfl
  | cons c cs ih =>
    intro v h
    simp only [noStart, Bool.and_eq_true] at h
    have := isPrefixOf_append_of_clash key (c :: cs) v h.1
    rw [List.cons_append] at this
    rw [List.cons_append, valueAfter_cons, this]
    simp only [Bool.false_eq_true, if_false]
    exact ih v h.2

theorem valueAfter_skip_chars (key : List Char) (k0 k1 : Char) (ks : List Char)
    (hkey : key = k0 :: k1 :: ks) :
    ∀ (u v : List Char), (∀ c ∈ u, c ≠ k1) → (∀ c, v.head? = some c → c ≠ k1) →
      valueAfter key (u ++ v) = valueAfter key v := by
  subst hkey
  intro u
  induction u with
  | nil => intro v _ _; rfl
  | cons c cs ih =>
    intro v hu hv
    have hrest : (k1 :: ks).isPrefixOf (cs ++ v) = false := by
      cases cs with
      | nil =>
        cases v with
        | nil => rfl
        | cons d ds =>
          have := hv d rfl
          simp [List.isPrefixOf, Ne.symm this]
      | cons d ds =>
        have := hu d (by simp)
        simp [List.isPrefixOf, Ne.symm this]
    have hp : (k0 :: k1 :: ks).isPrefixOf (c :: (cs ++ v)) = false := by
      simp only [List.isPrefixOf, hrest, Bool.and_false]
    rw [List.cons_append, valueAfter_cons, hp]
    simp only [Bool.false_eq_true, if_false]
    exact ih v (fun c hc => hu c (List.mem_cons_of_mem _ hc)) hv

theorem valueAfter_hit (key value rest : List Char) (hk : key ≠ [])
    (hv : ∀ c ∈ value, c ≠ ' ') :
    valueAfter key (key ++ (value ++ ' ' :: rest)) = some value := by
  cases key with
  | nil => exact absurd rfl hk
  | cons k ks =>
    have hp : (k :: ks).isPrefixOf (k :: (ks ++ (value ++ ' ' :: rest))) = true := by
      rw [List.isPrefixOf_iff_prefix]
      exact ⟨value ++ ' ' :: rest, by simp⟩
    have hd : (k :: (ks ++ (value ++ ' ' :: rest))).drop (k :: ks).length =
        value ++ ' ' :: rest := by
      simp
    rw [List.cons_append, valueAfter_cons, hp]
    simp only [if_true, hd, Option.some.injEq]
    rw [List.takeWhile_append]
    have h1 : List.takeWhile (fun x => x != ' ') value = value := by
      rw [List.takeWhile_eq_self_iff]
      intro c hc
      simpa using hv c hc
    simp [h1]

theorem decimalToDMS_chars (x : ℚ) :
    ∀ c ∈ decimalToDMS x, c.isDigit = true ∨ c = '.' ∨ c = ' ' := by
  intro c hc
  rw [decimalToDMS_eq] at hc
  simp only [List.mem_append, List.mem_cons] at hc
  rcases hc with hc | hc | hc | hc | hc
  · exact Or.inl (natChars_isDigit _ _ hc)
  · exact Or.inr (Or.inr hc)
  · exact Or.inl (natChars_isDigit _ _ hc)
  · exact Or.inr (Or.inr hc)
  · rcases fixedMagnitude_chars _ _ c hc with h | h
    · exact Or.inl h
    · exact Or.inr (Or.inl h)

theorem ne_of_numChar {c d : Char} (h : numChar c = true) (hd : numChar d = false) : c ≠ d := by
  rintro rfl
  rw [h] at hd
  exact Bool.noConfusion hd

theorem numChar_decimalToDMS (x : ℚ) : ∀ c ∈ decimalToDMS x, numChar c = true := by
  intro c hc
  rcases decimalToDMS_chars x c hc with h | h | h
  · simp [numChar, h]
  · subst h; decide
  · subst h; decide

theorem valueAfter_skip_first (key : List Char) (k0 : Char) (ks : List Char)
    (hkey : key = k0 :: ks) :
    ∀ (u v : List Char), (∀ c ∈ u, c ≠ k0) → valueAfter key (u ++ v) = valueAfter key v := by
  subst hkey
  intro u
  induction u with
  | nil => intro v _; rfl
  | cons c cs ih =>
    intro v hu
    have hc : c ≠ k0 := hu c (List.mem_cons_self _ _)
    have hp : (k0 :: ks).isPrefixOf (c :: (cs ++ v)) = false := by
      simp [List.isPrefixOf, Ne.symm hc]
    rw [List.cons_append, valueAfter_cons, hp]
    simp only [Bool.false_eq_true, if_false]
    exact ih v (fun c hc => hu c (List.mem_cons_of_mem _ hc))

theorem valueAfter_skip_numeric (key : List Char) (k0 k1 : Char) (ks : List Char)
    (hkey : key = k0 :: k1 :: ks) (hk1 : numChar k1 = false) (u v : List Char)
    (hu : ∀ c ∈ u, numChar c = true) (hv : ∀ c, v.head? = some c → c ≠ k1) :
    valueAfter key (u ++ v) = valueAfter key v :=
  valueAfter_skip_chars key k0 k1 ks hkey u v (fun c hc => ne_of_numChar (hu c hc) hk1) hv

theorem latRef_ne_minus (x : ℚ) : ∀ c ∈ [latRef x], c ≠ '-' := by
  intro c hc
  simp only [List.mem_singleton] at hc
  subst hc
  unfold latRef
  split <;> decide

theorem latRef_ne_space (x : ℚ) : ∀ c ∈ [latRef x], c ≠ ' ' := by
  intro c hc
  simp only [List.mem_singleton] at hc
  subst hc
  unfold latRef
  split <;> decide

theorem lonRef_ne_space (x : ℚ) : ∀ c ∈ [lonRef x], c ≠ ' ' := by
  intro c hc
  simp only [List.mem_singleton] at hc
  subst hc
  unfold lonRef
  split <;> decide

theorem valueAfter_latRef (lat lon alt : ℚ) :
    valueAfter "-EXIF:GPSLatitudeRef=".toList (tagsText lat lon alt) = some [latRef lat] := by
  unfold tagsText
  refine (valueAfter_skip_literal _ _ _ (by decide)).trans ?_
  refine (valueAfter_skip_numeric _ '-' 'E' _ rfl (by decide) _ _ (numChar_decimalToDMS _)
    (by intro c hc; simp at hc; subst hc; decide)).trans ?_
  refine (valueAfter_skip_literal _ _ _ (by decide)).trans ?_
  exact valueAfter_hit _ [latRef lat] _ (by simp) (latRef_ne_space lat)

theorem valueAfter_lonRef (lat lon alt : ℚ) :
    valueAfter "-EXIF:GPSLongitudeRef=".toList (tagsText lat lon alt) = some [lonRef lon] := by
  unfold tagsText
  refine (valueAfter_skip_literal _ _ _ (by decide)).trans ?_
  refine (valueAfter_skip_numeric _ '-' 'E' _ rfl (by decide) _ _ (numChar_decimalToDMS _)
    (by intro c hc; simp at hc; subst hc; decide)).trans ?_
  refine (valueAfter_skip_literal _ _ _ (by decide)).trans ?_
  refine (valueAfter_skip_literal _ _ _ (by decide)).trans ?_
  refine (valueAfter_skip_first _ '-' _ rfl _ _ (latRef_ne_minus lat)).trans ?_
  refine (valueAfter_skip_literal _ _ _ (by decide)).trans ?_
  refine (valueAfter_skip_literal _ _ _ (by decide)).trans ?_
  refine (valueAfter_skip_numeric _ '-' 'E' _ rfl (by decide) _ _ (numChar_decimalToDMS _)
    (by intro c hc; simp at hc; subst hc; decide)).trans ?_
  refine (valueAfter_skip_literal _ _ _ (by decide)).trans ?_
  exact valueAfter_hit _ [lonRef lon] _ (by simp) (lonRef_ne_space lon)

/-- C9: in the command built by `generateExiftoolCommand`, the argument
`-EXIF:GPSLatitudeRef=` has the value `N` when `latitude ≥ 0` and `S` when
`latitude < 0`, and the argument `-EXIF:GPSLongitudeRef=` has the value `E`
when `longitude ≥ 0` and `W` when `longitude < 0`; zero maps to `N` and `E`. -/
theorem generateExiftoolCommand_hemisphere_refs (exe img : List Char) (lat lon alt : ℚ) :
    generateExiftoolCommand exe img lat lon alt =
      "\"\"".toList ++ exe ++ "\" ".toList ++ tagsText lat lon alt ++
        "\"".toList ++ img ++ "\"\"".toList ∧
    valueAfter "-EXIF:GPSLatitudeRef=".toList (tagsText lat lon alt) =
      some (if lat < 0 then ['S'] else ['N']) ∧
    valueAfter "-EXIF:GPSLongitudeRef=".toList (tagsText lat lon alt) =
      some (if lon < 0 then ['W'] else ['E']) ∧
    valueAfter "-EXIF:GPSLatitudeRef=".toList (tagsText 0 lon alt) = some ['N'] ∧
    valueAfter "-EXIF:GPSLongitudeRef=".toList (tagsText lat 0 alt) = some ['E'] := by
  refine ⟨generateExiftoolCommand_eq exe img lat lon alt, ?_, ?_, ?_, ?_⟩
  · rw [valueAfter_latRef]
    unfold latRef
    by_cases h : lat < 0
    · simp [h, not_le.mpr h]
    · simp [h, not_lt.mp h]
  · rw [valueAfter_lonRef]
    unfold lonRef
    by_cases h : lon < 0
    · simp [h, not_le.mpr h]
    · simp [h, not_lt.mp h]
  · rw [valueAfter_latRef]; simp [latRef]
  · rw [valueAfter_lonRef]; simp [lonRef]

theorem matchNodes_nil (ic : Bool) (s : List Char) (caps : List (List Char)) :
    matchNodes ic [] s caps = some (caps, s) := rfl

theorem matchNodes_piece (ic : Bool) (p : Piece) (ns : List Node) (s : List Char)
    (caps : List (List Char)) :
    matchNodes ic (.piece p :: ns) s caps =
      (p.splits ic s).findSome? (fun ar => matchNodes ic ns ar.2 caps) := rfl

theorem matchNodes_group (ic : Bool) (p : Piece) (ns : List Node) (s : List Char)
    (caps : List (List Char)) :
    matchNodes ic (.group p :: ns) s caps =
      (p.splits ic s).findSome? (fun ar => matchNodes ic ns ar.2 (caps ++ [ar.1])) := rfl

/-- A literal character of a pattern consumes exactly that character. -/
theorem matchNodes_lit_cons (ic : Bool) (c x : Char) (ns : List Node) (s : List Char)
    (caps : List (List Char)) :
    matchNodes ic (.piece (.one (.lit c)) :: ns) (x :: s) caps =
      if (CharClass.lit c).test ic x then matchNodes ic ns s caps else none := by
  rw [matchNodes_piece]
  simp only [Piece.splits, repSplit]
  split
  · simp only [Option.map_some', Option.toList, List.findSome?_cons, List.findSome?_nil]
    cases matchNodes ic ns s caps <;> rfl
  · rfl

theorem matchNodes_lit_nil (ic : Bool) (c : Char) (ns : List Node) (caps : List (List Char)) :
    matchNodes ic (.piece (.one (.lit c)) :: ns) [] caps = none := by
  rw [matchNodes_piece]
  simp [Piece.splits, repSplit]

/-- The longest repetition is the first one that `atom*` tries. -/
theorem starSplits_append (test : Char → Bool) (u v : List Char)
    (hu : ∀ c ∈ u, test c = true) (hv : ∀ c, v.head? = some c → test c = false) :
    ∃ tail, starSplits test (u ++ v) = (u, v) :: tail := by
  induction u with
  | nil =>
    cases v with
    | nil => exact ⟨[], rfl⟩
    | cons d ds =>
      have := hv d rfl
      exact ⟨[], by simp [starSplits, this]⟩
  | cons c cs ih =>
    obtain ⟨tail, ht⟩ := ih (fun c hc => hu c (List.mem_cons_of_mem _ hc))
    have hc := hu c (List.mem_cons_self _ _)
    refine ⟨tail.map (fun ar => (c :: ar.1, ar.2)) ++ [([], c :: (cs ++ v))], ?_⟩
    simp [starSplits, hc, ht]

theorem matchNodes_star_first (ic : Bool) (cl : CharClass) (ns : List Node) (u v : List Char)
    (caps : List (List Char)) (r : List (List Char) × List Char)
    (hu : ∀ c ∈ u, cl.test ic c = true) (hv : ∀ c, v.head? = some c → cl.test ic c = false)
    (hk : matchNodes ic ns v caps = some r) :
    matchNodes ic (.piece (.star cl) :: ns) (u ++ v) caps = some r := by
  obtain ⟨tail, ht⟩ := starSplits_append (cl.test ic) u v hu hv
  rw [matchNodes_piece]
  simp only [Piece.splits, ht, List.findSome?_cons, hk]

theorem matchNodes_plus_group_first (ic : Bool) (cl : CharClass) (ns : List Node)
    (u v : List Char) (caps : List (List Char)) (r : List (List Char) × List Char)
    (hne : u ≠ []) (hu : ∀ c ∈ u, cl.test ic c = true)
    (hv : ∀ c, v.head? = some c → cl.test ic c = false)
    (hk : matchNodes ic ns v (caps ++ [u]) = some r) :
    matchNodes ic (.group (.plus cl) :: ns) (u ++ v) caps = some r := by
  cases u with
  | nil => exact absurd rfl hne
  | cons c cs =>
    obtain ⟨tail, ht⟩ := starSplits_append (cl.test ic) cs v
      (fun c hc => hu c (List.mem_cons_of_mem _ hc)) hv
    have hc := hu c (List.mem_cons_self _ _)
    rw [matchNodes_group]
    simp only [List.cons_append, Piece.splits, hc, if_true, ht, List.map_cons,
      List.findSome?_cons, hk]

/-- The elements of a literal text match exactly that text (case-sensitive). -/
theorem matchNodes_lits_prefix (w : List Char) (ns : List Node) :
    ∀ (s : List Char) (caps : List (List Char)) (r : List (List Char) × List Char),
      matchNodes false (w.map (fun c => Node.piece (.one (.lit c))) ++ ns) s caps = some r →
      w <+: s := by
  induction w with
  | nil => intro s caps r _; exact List.nil_prefix
  | cons c cs ih =>
    intro s caps r h
    cases s with
    | nil =>
      rw [List.map_cons, List.cons_append, matchNodes_lit_nil] at h
      exact Option.noConfusion h
    | cons x xs =>
      rw [List.map_cons, List.cons_append, matchNodes_lit_cons] at h
      by_cases hx : (CharClass.lit c).test false x = true
      · rw [if_pos hx] at h
        have hxc : x = c := by simpa [CharClass.test] using hx
        subst hxc
        exact (List.prefix_cons_inj x).mpr (ih xs caps r h)
      · rw [if_neg hx] at h
        exact Option.noConfusion h

theorem matchNodes_lits_append (w : List Char) (ns : List Node) :
    ∀ (s : List Char) (caps : List (List Char)),
      matchNodes false (w.map (fun c => Node.piece (.one (.lit c))) ++ ns) (w ++ s) caps =
        matchNodes false ns s caps := by
  induction w with
  | nil => intro s caps; rfl
  | cons c cs ih =>
    intro s caps
    rw [List.map_cons, List.cons_append, List.cons_append, matchNodes_lit_cons]
    simp [CharClass.test, ih]

/-- The elements of a literal text match a text with the same letters
(case-insensitive). -/
theorem matchNodes_lits_prefix_icase (w : List Char) (ns : List Node) :
    ∀ (s : List Char) (caps : List (List Char)) (r : List (List Char) × List Char),
      matchNodes true (w.map (fun c => Node.piece (.one (.lit c))) ++ ns) s caps = some r →
      w.map Char.toLower <+: s.map Char.toLower := by
  induction w with
  | nil => intro s caps r _; exact List.nil_prefix
  | cons c cs ih =>
    intro s caps r h
    cases s with
    | nil =>
      rw [List.map_cons, List.cons_append, matchNodes_lit_nil] at h
      exact Option.noConfusion h
    | cons x xs =>
      rw [List.map_cons, List.cons_append, matchNodes_lit_cons] at h
      by_cases hx : (CharClass.lit c).test true x = true
      · rw [if_pos hx] at h
        have hxc : x.toLower = c.toLower := by simpa [CharClass.test] using hx
        rw [List.map_cons, List.map_cons, hxc]
        exact (List.prefix_cons_inj _).mpr (ih xs caps r h)
      · rw [if_neg hx] at h
        exact Option.noConfusion h

/-! ### regex_search -/

theorem regexSearch_cons (re : Regex) (c : Char) (cs : List Char) :
    regexSearch re (c :: cs) =
      match matchNodes re.icase re.nodes (c :: cs) [] with
      | some r => some ⟨[], r.1, r.2⟩
      | none => (regexSearch re cs).map (fun m => { m with pre := c :: m.pre }) := rfl

/-- A match that is found: the text splits into the part before the match and
the part from the match on, and the pattern matches at no earlier position. -/
theorem regexSearch_some (re : Regex) :
    ∀ (s : List Char) (m : Match), regexSearch re s = some m →
      ∃ t, s = m.pre ++ t ∧ matchNodes re.icase re.nodes t [] = some (m.groups, m.suf) ∧
        ∀ p q, m.pre = p ++ q → q ≠ [] → matchNodes re.icase re.nodes (q ++ t) [] = none := by
  intro s
  induction s with
  | nil =>
    intro m h
    simp only [regexSearch, Option.map_eq_some'] at h
    obtain ⟨r, hr, hm⟩ := h
    subst hm
    refine ⟨[], rfl, hr, ?_⟩
    intro p q hpq hq
    have : q = [] := by
      have := congrArg List.length hpq
      simp only [List.length_nil, List.length_append] at this
      exact List.length_eq_zero.mp (by omega)
    exact absurd this hq
  | cons c cs ih =>
    intro m h
    rw [regexSearch_cons] at h
    cases hmn : matchNodes re.icase re.nodes (c :: cs) [] with
    | some r =>
      rw [hmn] at h
      simp only [Option.some.injEq] at h
      subst h
      refine ⟨c :: cs, rfl, hmn, ?_⟩
      intro p q hpq hq
      have : q = [] := by
        have := congrArg List.length hpq
        simp only [List.length_nil, List.length_append] at this
        exact List.length_eq_zero.mp (by omega)
      exact absurd this hq
    | none =>
      rw [hmn] at h
      simp only [Option.map_eq_some'] at h
      obtain ⟨m', hm', hm⟩ := h
      subst hm
      obtain ⟨t, hs, hmatch, hfirst⟩ := ih m' hm'
      refine ⟨t, by simp [hs], hmatch, ?_⟩
      intro p q hpq hq
      cases p with
      | nil =>
        simp only [List.nil_append] at hpq
        rw [← hpq, List.cons_append, ← hs]
        exact hmn
      | cons x xs =>
        simp only [List.cons_append, List.cons.injEq] at hpq
        exact hfirst xs q hpq.2 hq

/-- The leftmost position where the pattern matches is the one that
`regex_search` reports. -/
theorem regexSearch_of_first (re : Regex) (t : List Char) (g : List (List Char))
    (suf : List Char) (hm : matchNodes re.icase re.nodes t [] = some (g, suf)) :
    ∀ pre : List Char,
      (∀ p q, pre = p ++ q → q ≠ [] → matchNodes re.icase re.nodes (q ++ t) [] = none) →
      regexSearch re (pre ++ t) = some ⟨pre, g, suf⟩ := by
  intro pre
  induction pre with
  | nil =>
    intro _
    cases t with
    | nil => simp [regexSearch, hm]
    | cons c cs => simp [regexSearch_cons, hm]
  | cons c cs ih =>
    intro hfirst
    have h0 := hfirst [] (c :: cs) rfl (by simp)
    rw [List.cons_append] at h0 ⊢
    rw [regexSearch_cons, h0]
    have := ih (fun p q hpq hq => hfirst (c :: p) q (by simp [hpq]) hq)
    simp [this]

theorem regexSearch_none (re : Regex) :
    ∀ s : List Char, (∀ p q, s = p ++ q → matchNodes re.icase re.nodes q [] = none) →
      regexSearch re s = none := by
  intro s
  induction s with
  | nil =>
    intro h
    simp [regexSearch, h [] [] rfl]
  | cons c cs ih =>
    intro h
    rw [regexSearch_cons, h [] (c :: cs) rfl]
    simp [ih (fun p q hpq => h (c :: p) q (by simp [hpq]))]

/-! ### The loop body of parseSRT -/

/-- The block's contribution to the output: the fix it appends, if any. -/
theorem parseBlock_unfold (block : List Char) :
    parseBlock block =
      if (blockLines block).length < 3 then .ok none
      else
        match parseTimestamp ((blockLines block).getD 1 []) with
        | .error e => .error e
        | .ok none => .ok none
        | .ok (some ts) =>
          match parseCoordinates (joinMetadata (blockLines block)) { timestamp := ts } with
          | .error e => .error e
          | .ok d1 =>
            match parseAltitude (joinMetadata (blockLines block)) d1 with
            | .error e => .error e
            | .ok d => if d.valid then .ok (some d) else .ok none := by
  unfold parseBlock
  simp only []
  split
  · rfl
  · cases parseTimestamp ((blockLines block).getD 1 []) with
    | error e => rfl
    | ok o =>
      cases o with
      | none => rfl
      | some ts =>
        simp only [bind, Except.bind]
        cases parseCoordinates (joinMetadata (blockLines block)) { timestamp := ts } with
        | error e => rfl
        | ok d1 =>
          simp only []
          cases parseAltitude (joinMetadata (blockLines block)) d1 with
          | error e => rfl
          | ok d =>
            simp only []
            split <;> rfl

theorem parseAltitude_ok (m : List Char) (d d' : GPSData) (h : parseAltitude m d = .ok d') :
    ∃ alt, d' = { d with altitude := alt } := by
  unfold parseAltitude at h
  split at h
  · rename_i altMatch _
    cases hs : stod (altMatch.group 1) with
    | error e => simp [hs, bind, Except.bind] at h
    | ok alt =>
      simp only [hs, bind, Except.bind, pure, Except.pure, Except.ok.injEq] at h
      exact ⟨alt, h.symm⟩
  · split at h
    · rename_i altMatch _
      cases hs : stod (altMatch.group 1) with
      | error e => simp [hs, bind, Except.bind] at h
      | ok alt =>
        simp only [hs, bind, Except.bind, pure, Except.pure, Except.ok.injEq] at h
        exact ⟨alt, h.symm⟩
    · simp only [pure, Except.pure, Except.ok.injEq] at h
      exact ⟨d.altitude, h.symm⟩

/-- With no match of the three coordinate patterns the record is left as it
was. -/
theorem parseCoordinates_no_match (m : List Char) (d : GPSData)
    (hg : regexSearch gpsRegex m = none) (hlat : regexSearch latRegex m = none)
    (hlon : regexSearch lonRegex m = none) :
    parseCoordinates m d = .ok d := by
  unfold parseCoordinates
  simp only [hg, hlat, hlon]
  rfl

/-- The record leaves the coordinate section valid only after a match of the
combined pattern, or of both the latitude and the longitude pattern. -/
theorem parseCoordinates_valid (m : List Char) (d d' : GPSData) (hd : d.valid = false)
    (h : parseCoordinates m d = .ok d') (hv : d'.valid = true) :
    (regexSearch gpsRegex m).isSome = true ∨
      ((regexSearch latRegex m).isSome = true ∧ (regexSearch lonRegex m).isSome = true) := by
  cases hg : regexSearch gpsRegex m with
  | some g => exact Or.inl rfl
  | none =>
    right
    unfold parseCoordinates at h
    simp only [hg] at h
    cases hlat : regexSearch latRegex m with
    | none =>
      exfalso
      simp only [hlat, Option.isSome_none, Bool.false_and, Bool.false_eq_true, if_false,
        bind, Except.bind, pure, Except.pure] at h
      cases hlon : regexSearch lonRegex m with
      | none =>
        simp only [hlon, Except.ok.injEq] at h
        rw [← h, hd] at hv
        exact Bool.noConfusion hv
      | some ml =>
        simp only [hlon] at h
        cases hs : stod (ml.group 1) with
        | error e => simp [hs] at h
        | ok v =>
          simp only [hs, Except.ok.injEq] at h
          rw [← h] at hv
          simp only [hd] at hv
          exact Bool.noConfusion hv
    | some mla =>
      cases hlon : regexSearch lonRegex m with
      | some mlo => exact ⟨rfl, rfl⟩
      | none =>
        exfalso
        simp only [hlat, hlon, Option.isSome_none, Bool.and_false, Bool.false_eq_true,
          if_false, bind, Except.bind, pure, Except.pure] at h
        cases hs : stod (mla.group 1) with
        | error e => simp [hs] at h
        | ok v =>
          simp only [hs, Except.ok.injEq] at h
          rw [← h] at hv
          simp only [hd] at hv
          exact Bool.noConfusion hv

/-- Inversion of the loop body: a block that appends a fix has at least three
lines, a timestamp in `lines[1]`, and the fix is the record after the
coordinate and altitude sections. -/
theorem parseBlock_some (block : List Char) (d : GPSData)
    (h : parseBlock block = .ok (some d)) :
    3 ≤ (blockLines block).length ∧
    ∃ ts d1, parseTimestamp ((blockLines block).getD 1 []) = .ok (some ts) ∧
      parseCoordinates (joinMetadata (blockLines block)) { timestamp := ts } = .ok d1 ∧
      parseAltitude (joinMetadata (blockLines block)) d1 = .ok d ∧ d.valid = true := by
  rw [parseBlock_unfold] at h
  split at h
  · simp at h
  · rename_i hlen
    refine ⟨by omega, ?_⟩
    split at h
    · simp at h
    · simp at h
    · rename_i ts hts
      split at h
      · simp at h
      · rename_i d1 hd1
        split at h
        · simp at h
        · rename_i d2 hd2
          split at h
          · rename_i hvalid
            simp only [Except.ok.injEq, Option.some.injEq] at h
            subst h
            exact ⟨ts, d1, hts, hd1, hd2, hvalid⟩
          · simp at h

/-- The fix that a block contributes to the output of `parseSRT`. -/
theorem parseBlocks_ok :
    ∀ (bs : List (List Char)) (frames fixes : List GPSData),
      parseBlocks bs frames = .ok fixes → fixes = frames ++ bs.filterMap blockFix := by
  intro bs
  induction bs with
  | nil =>
    intro frames fixes h
    simp only [parseBlocks, pure, Except.pure, Except.ok.injEq] at h
    simp [h]
  | cons b rest ih =>
    intro frames fixes h
    simp only [parseBlocks] at h
    cases hb : parseBlock b with
    | error e => simp [hb] at h
    | ok o =>
      cases o with
      | none =>
        simp only [hb] at h
        simp [ih frames fixes h, blockFix, hb]
      | some d =>
        simp only [hb] at h
        simp [ih _ fixes h, blockFix, hb]

/-! ### Blocks without coordinates -/

theorem lits_eq_map (w : String) :
    lits w = w.toList.map (fun c => Node.piece (.one (.lit c))) := rfl

theorem infix_of_regexSearch (re : Regex) (w : List Char) (ns : List Node)
    (hre : re.nodes = w.map (fun c => Node.piece (.one (.lit c))) ++ ns) (hic : re.icase = false)
    (s : List Char) (m : Match) (h : regexSearch re s = some m) : w <:+: s := by
  obtain ⟨t, hs, hm, -⟩ := regexSearch_some re s m h
  rw [hre, hic] at hm
  obtain ⟨r, hr⟩ := matchNodes_lits_prefix w ns t [] _ hm
  exact ⟨m.pre, r, by rw [hs, ← hr, List.append_assoc]⟩

theorem infix_of_regexSearch_icase (re : Regex) (w : List Char) (ns : List Node)
    (hre : re.nodes = w.map (fun c => Node.piece (.one (.lit c))) ++ ns) (hic : re.icase = true)
    (s : List Char) (m : Match) (h : regexSearch re s = some m) :
    w.map Char.toLower <:+: s.map Char.toLower := by
  obtain ⟨t, hs, hm, -⟩ := regexSearch_some re s m h
  rw [hre, hic] at hm
  obtain ⟨r, hr⟩ := matchNodes_lits_prefix_icase w ns t [] _ hm
  exact ⟨m.pre.map Char.toLower, r, by rw [hs, List.map_append, ← hr, List.append_assoc]⟩

theorem gps_text_of_match (s : List Char) (m : Match) (h : regexSearch gpsRegex s = some m) :
    "GPS:".toList <:+: s :=
  infix_of_regexSearch gpsRegex "GPS:".toList (gpsRegex.nodes.drop 4) (by decide) rfl s m h

theorem latitude_text_of_match (s : List Char) (m : Match)
    (h : regexSearch latRegex s = some m) :
    "[latitude:".toList <:+: s.map Char.toLower :=
  infix_of_regexSearch_icase latRegex "[latitude:".toList (latRegex.nodes.drop 10) (by decide)
    rfl s m h

theorem longtitude_text_of_match (s : List Char) (m : Match)
    (h : regexSearch lonRegex s = some m) :
    "[longtitude:".toList <:+: s.map Char.toLower :=
  infix_of_regexSearch_icase lonRegex "[longtitude:".toList (lonRegex.nodes.drop 12) (by decide)
    rfl s m h

theorem blockFix_eq_some (block : List Char) (d : GPSData) :
    blockFix block = some d ↔ parseBlock block = .ok (some d) := by
  unfold blockFix
  split
  · rename_i d' h
    rw [h]
    simp
  · rename_i h
    constructor
    · intro h'; exact Option.noConfusion h'
    · intro h'; exact absurd h' (h d)

theorem blockFix_valid (block : List Char) (d : GPSData) (h : blockFix block = some d) :
    d.valid = true :=
  ((parseBlock_some block d ((blockFix_eq_some block d).mp h)).2.choose_spec.choose_spec).2.2.2

theorem blockFix_none_of_no_match (block : List Char)
    (hg : regexSearch gpsRegex (joinMetadata (blockLines block)) = none)
    (hlat : regexSearch latRegex (joinMetadata (blockLines block)) = none)
    (hlon : regexSearch lonRegex (joinMetadata (blockLines block)) = none) :
    blockFix block = none := by
  cases hb : blockFix block with
  | none => rfl
  | some d =>
    exfalso
    obtain ⟨-, ts, d1, -, hc, ha, hv⟩ := parseBlock_some block d ((blockFix_eq_some block d).mp hb)
    rw [parseCoordinates_no_match _ _ hg hlat hlon] at hc
    simp only [Except.ok.injEq] at hc
    obtain ⟨alt, hd⟩ := parseAltitude_ok _ _ _ ha
    rw [hd, ← hc] at hv
    exact Bool.noConfusion hv

/-- C5: every fix in the sequence that `parseSRT` returns has `valid = true`;
the sequence consists of the fixes that the blocks of the file contribute, in
order, and a block whose metadata has no match of a coordinate pattern (in
particular one that contains neither `GPS:` nor, in any letter case,
`[latitude:` or `[longtitude:`) contributes no fix. -/
theorem parseSRT_fixes_valid (file : Option (List Char)) (fixes : List GPSData)
    (h : parseSRT file = .ok fixes) :
    (∀ f ∈ fixes, f.valid = true) ∧
    (∀ content, file = some content → fixes = (blocks content).filterMap blockFix) ∧
    (∀ block : List Char,
      regexSearch gpsRegex (joinMetadata (blockLines block)) = none ∧
      regexSearch latRegex (joinMetadata (blockLines block)) = none ∧
      regexSearch lonRegex (joinMetadata (blockLines block)) = none →
      blockFix block = none) ∧
    (∀ block : List Char,
      ¬ "GPS:".toList <:+: joinMetadata (blockLines block) ∧
      ¬ "[latitude:".toList <:+: (joinMetadata (blockLines block)).map Char.toLower ∧
      ¬ "[longtitude:".toList <:+: (joinMetadata (blockLines block)).map Char.toLower →
      blockFix block = none) := by
  have hno : ∀ block : List Char,
      regexSearch gpsRegex (joinMetadata (blockLines block)) = none ∧
      regexSearch latRegex (joinMetadata (blockLines block)) = none ∧
      regexSearch lonRegex (joinMetadata (blockLines block)) = none →
      blockFix block = none :=
    fun block hb => blockFix_none_of_no_match block hb.1 hb.2.1 hb.2.2
  refine ⟨?_, ?_, hno, ?_⟩
  · cases file with
    | none =>
      simp only [parseSRT, pure, Except.pure, Except.ok.injEq] at h
      subst h
      intro f hf
      simp at hf
    | some content =>
      have := parseBlocks_ok _ _ _ h
      rw [List.nil_append] at this
      intro f hf
      rw [this, List.mem_filterMap] at hf
      obtain ⟨b, -, hb⟩ := hf
      exact blockFix_valid b f hb
  · intro content hc
    subst hc
    have := parseBlocks_ok _ _ _ h
    rw [List.nil_append] at this
    exact this
  · intro block hb
    apply hno
    refine ⟨?_, ?_, ?_⟩
    · cases hg : regexSearch gpsRegex (joinMetadata (blockLines block)) with
      | none => rfl
      | some m => exact absurd (gps_text_of_match _ m hg) hb.1
    · cases hg : regexSearch latRegex (joinMetadata (blockLines block)) with
      | none => rfl
      | some m => exact absurd (latitude_text_of_match _ m hg) hb.2.1
    · cases hg : regexSearch lonRegex (joinMetadata (blockLines block)) with
      | none => rfl
      | some m => exact absurd (longtitude_text_of_match _ m hg) hb.2.2

theorem parseSRT_fixes_valid_witness :
    parseSRT (some sampleTelemetry) = .ok sampleFixes ∧
    ((∀ f ∈ sampleFixes, f.valid = true) ∧
    (∀ content, some sampleTelemetry = some content →
      sampleFixes = (blocks content).filterMap blockFix) ∧
    (∀ block : List Char,
      regexSearch gpsRegex (joinMetadata (blockLines block)) = none ∧
      regexSearch latRegex (joinMetadata (blockLines block)) = none ∧
      regexSearch lonRegex (joinMetadata (blockLines block)) = none →
      blockFix block = none) ∧
    (∀ block : List Char,
      ¬ "GPS:".toList <:+: joinMetadata (blockLines block) ∧
      ¬ "[latitude:".toList <:+: (joinMetadata (blockLines block)).map Char.toLower ∧
      ¬ "[longtitude:".toList <:+: (joinMetadata (blockLines block)).map Char.toLower →
      blockFix block = none)) :=
  ⟨by decide!, parseSRT_fixes_valid (some sampleTelemetry) sampleFixes (by decide!)⟩

/-! ### The timestamp of a fix -/

theorem findSome_singleton {α β : Type} (f : α → Option β) (a : α) :
    [a].findSome? f = f a := by
  rw [List.findSome?_cons, List.findSome?_nil]
  cases f a <;> rfl

theorem matchNodes_group_rep_two (ic : Bool) (cl : CharClass) (ns : List Node) (x y : Char)
    (s : List Char) (caps : List (List Char)) :
    matchNodes ic (.group (.rep 2 cl) :: ns) (x :: y :: s) caps =
      if cl.test ic x && cl.test ic y then matchNodes ic ns s (caps ++ [[x, y]]) else none := by
  rw [matchNodes_group]
  simp only [Piece.splits, repSplit]
  by_cases hx : cl.test ic x = true <;> by_cases hy : cl.test ic y = true <;>
    simp [hx, hy, Option.toList, findSome_singleton]

theorem matchNodes_group_rep_three (ic : Bool) (cl : CharClass) (ns : List Node)
    (x y z : Char) (s : List Char) (caps : List (List Char)) :
    matchNodes ic (.group (.rep 3 cl) :: ns) (x :: y :: z :: s) caps =
      if cl.test ic x && cl.test ic y && cl.test ic z then
        matchNodes ic ns s (caps ++ [[x, y, z]])
      else none := by
  rw [matchNodes_group]
  simp only [Piece.splits, repSplit]
  by_cases hx : cl.test ic x = true <;> by_cases hy : cl.test ic y = true <;>
    by_cases hz : cl.test ic z = true <;>
    simp [hx, hy, hz, Option.toList, findSome_singleton]

theorem matchNodes_group_rep_short (ic : Bool) (cl : CharClass) (ns : List Node) (n : Nat)
    (s : List Char) (caps : List (List Char)) (h : s.length < n) :
    matchNodes ic (.group (.rep n cl) :: ns) s caps = none := by
  have hrep : ∀ (n : Nat) (s : List Char), s.length < n → repSplit (cl.test ic) n s = none := by
    intro n
    induction n with
    | zero => intro s h; omega
    | succ n ih =>
      intro s h
      cases s with
      | nil => rfl
      | cons c cs =>
        simp only [repSplit]
        split
        · rw [ih cs (by simpa using h)]; rfl
        · rfl
  rw [matchNodes_group]
  simp [Piece.splits, hrep n s h]

theorem timeRegex_nodes :
    timeRegex.nodes =
      [.group (.rep 2 .digit), .piece (.one (.lit ':')), .group (.rep 2 .digit),
        .piece (.one (.lit ':')), .group (.rep 2 .digit), .piece (.one (.lit ',')),
        .group (.rep 3 .digit)] := rfl

/-- The pattern of timestamps matches at the start of a text exactly when the
text starts with `HH:MM:SS,mmm`; the groups are the four digit fields. -/
theorem matchNodes_timeRegex (s : List Char) :
    matchNodes false timeRegex.nodes s [] =
      if startsWithTimestamp s then
        match s with
        | h1 :: h2 :: _ :: m1 :: m2 :: _ :: s1 :: s2 :: _ :: k1 :: k2 :: k3 :: rest =>
          some ([[h1, h2], [m1, m2], [s1, s2], [k1, k2, k3]], rest)
        | _ => none
      else none := by
  rw [timeRegex_nodes]
  rcases s with _ | ⟨h1, _ | ⟨h2, _ | ⟨c1, _ | ⟨m1, _ | ⟨m2, _ | ⟨c2, _ | ⟨s1, _ | ⟨s2,
    _ | ⟨c3, _ | ⟨k1, _ | ⟨k2, _ | ⟨k3, rest⟩⟩⟩⟩⟩⟩⟩⟩⟩⟩⟩⟩
  case cons.cons.cons.cons.cons.cons.cons.cons.cons.cons.cons.cons =>
    simp only [matchNodes_group_rep_two, matchNodes_group_rep_three, matchNodes_lit_cons,
      matchNodes_nil, CharClass.test, startsWithTimestamp, List.nil_append, List.cons_append,
      Bool.false_eq_true, if_false]
    by_cases a1 : h1.isDigit = true
    swap
    · simp [a1]
    by_cases a2 : h2.isDigit = true
    swap
    · simp [a1, a2]
    by_cases a3 : (c1 == ':') = true
    swap
    · simp [a1, a2, a3]
    by_cases a4 : m1.isDigit = true
    swap
    · simp [a1, a2, a3, a4]
    by_cases a5 : m2.isDigit = true
    swap
    · simp [a1, a2, a3, a4, a5]
    by_cases a6 : (c2 == ':') = true
    swap
    · simp [a1, a2, a3, a4, a5, a6]
    by_cases a7 : s1.isDigit = true
    swap
    · simp [a1, a2, a3, a4, a5, a6, a7]
    by_cases a8 : s2.isDigit = true
    swap
    · simp [a1, a2, a3, a4, a5, a6, a7, a8]
    by_cases a9 : (c3 == ',') = true
    swap
    · simp [a1, a2, a3, a4, a5, a6, a7, a8, a9]
    by_cases a10 : k1.isDigit = true
    swap
    · simp [a1, a2, a3, a4, a5, a6, a7, a8, a9, a10]
    by_cases a11 : k2.isDigit = true
    swap
    · simp [a1, a2, a3, a4, a5, a6, a7, a8, a9, a10, a11]
    by_cases a12 : k3.isDigit = true
    swap
    · simp [a1, a2, a3, a4, a5, a6, a7, a8, a9, a10, a11, a12]
    simp [a1, a2, a3, a4, a5, a6, a7, a8, a9, a10, a11, a12]
  all_goals
    simp [matchNodes_group_rep_two, matchNodes_group_rep_three, matchNodes_lit_cons,
      matchNodes_lit_nil, matchNodes_group_rep_short, CharClass.test, startsWithTimestamp]

theorem isDigit_toNat (c : Char) (h : c.isDigit = true) : 48 ≤ c.toNat ∧ c.toNat ≤ 57 := by
  simp only [Char.isDigit, Bool.and_eq_true, decide_eq_true_eq] at h
  obtain ⟨h1, h2⟩ := h
  rw [ge_iff_le, UInt32.le_def] at h1
  rw [UInt32.le_def] at h2
  simp only [Char.toNat]
  exact ⟨h1, h2⟩

theorem isSpace_false_of_isDigit {c : Char} (h : c.isDigit = true) : isSpace c = false := by
  have := isDigit_toNat c h
  simp only [isSpace, Bool.or_eq_false_iff, beq_eq_false_iff_ne, ne_eq]
  refine ⟨⟨⟨⟨⟨?_, ?_⟩, ?_⟩, ?_⟩, ?_⟩, ?_⟩ <;>
    (rintro rfl; exact absurd h (by decide))

theorem takeWhile_eq_self_of_all {p : Char → Bool} (ds : List Char)
    (h : ∀ c ∈ ds, p c = true) : ds.takeWhile p = ds := by
  rw [List.takeWhile_eq_self_iff]
  exact h

/-- `std::stoi` on a short text of digits is its decimal value. -/
theorem stoi_digits (ds : List Char) (hne : ds ≠ []) (hd : ∀ c ∈ ds, c.isDigit = true)
    (hsmall : digitsValue ds ≤ 2147483647) : stoi ds = .ok (digitsValue ds : ℤ) := by
  cases ds with
  | nil => exact absurd rfl hne
  | cons c cs =>
    have hc := hd c (List.mem_cons_self _ _)
    have hsp : isSpace c = false := isSpace_false_of_isDigit hc
    have hm : c ≠ '-' := by rintro rfl; exact absurd hc (by decide)
    have hp : c ≠ '+' := by rintro rfl; exact absurd hc (by decide)
    have hdrop : (c :: cs).dropWhile isSpace = c :: cs := by
      simp [List.dropWhile, hsp]
    have htake := takeWhile_eq_self_of_all (c :: cs) hd
    have hrange : ¬ (((digitsValue (c :: cs) : ℕ) : ℤ) < -2147483648 ∨
        2147483647 < ((digitsValue (c :: cs) : ℕ) : ℤ)) := by
      omega
    have hs1 : (some c == some '-') = false := by
      rw [beq_eq_false_iff_ne]; simpa using hm
    have hs2 : (some c == some '+') = false := by
      rw [beq_eq_false_iff_ne]; simpa using hp
    simp only [stoi, hdrop, List.head?_cons, hs1, hs2,
      Bool.or_self, Bool.false_eq_true, if_false, htake, List.isEmpty_cons, hrange]

theorem digitsValue_two (a b : Char) :
    digitsValue [a, b] = (a.toNat - 48) * 10 + (b.toNat - 48) := by
  simp [digitsValue]

theorem digitsValue_three (a b c : Char) :
    digitsValue [a, b, c] = ((a.toNat - 48) * 10 + (b.toNat - 48)) * 10 + (c.toNat - 48) := by
  simp [digitsValue]

theorem stoi_two (a b : Char) (ha : a.isDigit = true) (hb : b.isDigit = true) :
    stoi [a, b] = .ok (digitsValue [a, b] : ℤ) := by
  apply stoi_digits _ (by simp)
  · intro c hc
    simp only [List.mem_cons, List.mem_singleton, List.not_mem_nil, or_false] at hc
    rcases hc with rfl | rfl <;> assumption
  · have := isDigit_toNat a ha
    have := isDigit_toNat b hb
    rw [digitsValue_two]
    omega

theorem stoi_three (a b c : Char) (ha : a.isDigit = true) (hb : b.isDigit = true)
    (hc : c.isDigit = true) : stoi [a, b, c] = .ok (digitsValue [a, b, c] : ℤ) := by
  apply stoi_digits _ (by simp)
  · intro x hx
    simp only [List.mem_cons, List.mem_singleton, List.not_mem_nil, or_false] at hx
    rcases hx with rfl | rfl | rfl <;> assumption
  · have := isDigit_toNat a ha
    have := isDigit_toNat b hb
    have := isDigit_toNat c hc
    rw [digitsValue_three]
    omega

/-- The timestamp section reads the first timestamp of the line. -/
theorem parseTimestamp_spec (line : List Char) :
    (∀ ts, parseTimestamp line = .ok (some ts) →
      ∃ pre t, line = pre ++ t ∧ startsWithTimestamp t = true ∧
        (∀ p q, pre = p ++ q → q ≠ [] → startsWithTimestamp (q ++ t) = false) ∧
        ts = timestampSeconds t) ∧
    (∀ e, parseTimestamp line ≠ .error e) := by
  unfold parseTimestamp
  cases hs : regexSearch timeRegex line with
  | none =>
    constructor
    · intro ts h
      simp [pure, Except.pure] at h
    · intro e h
      simp [pure, Except.pure] at h
  | some m =>
    obtain ⟨t, hline, hmatch, hfirst⟩ := regexSearch_some timeRegex line m hs
    have hic : timeRegex.icase = false := rfl
    rw [hic] at hmatch hfirst
    rw [matchNodes_timeRegex] at hmatch
    have hst : startsWithTimestamp t = true := by
      by_contra hcon
      rw [if_neg hcon] at hmatch
      exact Option.noConfusion hmatch
    rw [if_pos hst] at hmatch
    have hearlier : ∀ p q, m.pre = p ++ q → q ≠ [] → startsWithTimestamp (q ++ t) = false := by
      intro p q hpq hq
      have := hfirst p q hpq hq
      rw [matchNodes_timeRegex] at this
      by_contra hcon
      have hcon' : startsWithTimestamp (q ++ t) = true := by
        cases hv : startsWithTimestamp (q ++ t) with
        | true => rfl
        | false => exact absurd hv hcon
      rw [if_pos hcon'] at this
      revert hcon' this
      generalize q ++ t = u
      intro hu hnone
      rcases u with _ | ⟨h1, _ | ⟨h2, _ | ⟨c1, _ | ⟨m1, _ | ⟨m2, _ | ⟨c2, _ | ⟨s1, _ | ⟨s2,
        _ | ⟨c3, _ | ⟨k1, _ | ⟨k2, _ | ⟨k3, rest⟩⟩⟩⟩⟩⟩⟩⟩⟩⟩⟩⟩ <;>
        simp [startsWithTimestamp] at hu hnone
    rcases t with _ | ⟨h1, _ | ⟨h2, _ | ⟨c1, _ | ⟨m1, _ | ⟨m2, _ | ⟨c2, _ | ⟨s1, _ | ⟨s2,
      _ | ⟨c3, _ | ⟨k1, _ | ⟨k2, _ | ⟨k3, rest⟩⟩⟩⟩⟩⟩⟩⟩⟩⟩⟩⟩
    case cons.cons.cons.cons.cons.cons.cons.cons.cons.cons.cons.cons =>
      simp only [Option.some.injEq, Prod.mk.injEq] at hmatch
      obtain ⟨hg, -⟩ := hmatch
      have hst' := hst
      simp only [startsWithTimestamp, Bool.and_eq_true, beq_iff_eq] at hst'
      obtain ⟨⟨⟨⟨⟨⟨⟨⟨⟨⟨⟨d1, d2⟩, -⟩, d3⟩, d4⟩, -⟩, d5⟩, d6⟩, -⟩, d7⟩, d8⟩, d9⟩ := hst'
      have g1 : m.group 1 = [h1, h2] := by simp [Match.group, ← hg]
      have g2 : m.group 2 = [m1, m2] := by simp [Match.group, ← hg]
      have g3 : m.group 3 = [s1, s2] := by simp [Match.group, ← hg]
      have g4 : m.group 4 = [k1, k2, k3] := by simp [Match.group, ← hg]
      simp only [g1, g2, g3, g4, stoi_two _ _ d1 d2, stoi_two _ _ d3 d4, stoi_two _ _ d5 d6,
        stoi_three _ _ _ d7 d8 d9, bind, Except.bind, pure, Except.pure]
      constructor
      · intro ts h
        simp only [Except.ok.injEq, Option.some.injEq] at h
        refine ⟨m.pre, _, hline, hst, hearlier, ?_⟩
        rw [← h]
        simp only [timestampSeconds]
        push_cast
        ring
      · intro e h
        exact Except.noConfusion h
    all_goals simp [startsWithTimestamp] at hst

theorem parseCoordinates_timestamp (m : List Char) (d d' : GPSData)
    (h : parseCoordinates m d = .ok d') : d'.timestamp = d.timestamp := by
  unfold parseCoordinates at h
  cases hg : regexSearch gpsRegex m with
  | some g =>
    simp only [hg, bind, Except.bind, pure, Except.pure] at h
    cases h1 : stod (g.group 1) with
    | error e => simp [h1] at h
    | ok lon =>
      cases h2 : stod (g.group 2) with
      | error e => simp [h1, h2] at h
      | ok lat =>
        simp only [h1, h2, Except.ok.injEq] at h
        rw [← h]
  | none =>
    simp only [hg, bind, Except.bind, pure, Except.pure] at h
    cases hlat : regexSearch latRegex m with
    | none =>
      cases hlon : regexSearch lonRegex m with
      | none =>
        simp only [hlat, hlon, Option.isSome_none, Bool.and_self, Bool.false_eq_true, if_false,
          Except.ok.injEq] at h
        rw [← h]
      | some mlo =>
        cases h2 : stod (mlo.group 1) with
        | error e => simp [hlat, hlon, h2] at h
        | ok lon =>
          simp only [hlat, hlon, h2, Option.isSome_none, Bool.false_and, Bool.false_eq_true,
            if_false, Except.ok.injEq] at h
          rw [← h]
    | some mla =>
      cases h1 : stod (mla.group 1) with
      | error e => simp [hlat, h1] at h
      | ok lat =>
        cases hlon : regexSearch lonRegex m with
        | none =>
          simp only [hlat, hlon, h1, Option.isSome_none, Bool.and_false, Bool.false_eq_true,
            if_false, Except.ok.injEq] at h
          rw [← h]
        | some mlo =>
          cases h2 : stod (mlo.group 1) with
          | error e => simp [hlat, hlon, h1, h2] at h
          | ok lon =>
            simp only [hlat, hlon, h1, h2, Option.isSome_some, Bool.and_self, if_true,
              Except.ok.injEq] at h
            rw [← h]

theorem parseBlock_timestamp (block : List Char) (d : GPSData)
    (h : parseBlock block = .ok (some d)) :
    ∃ l0 l1 rest pre t, blockLines block = l0 :: l1 :: rest ∧ l1 = pre ++ t ∧
      startsWithTimestamp t = true ∧
      (∀ p q, pre = p ++ q → q ≠ [] → startsWithTimestamp (q ++ t) = false) ∧
      d.timestamp = timestampSeconds t := by
  obtain ⟨hlen, ts, d1, hts, hc, ha, -⟩ := parseBlock_some block d h
  obtain ⟨alt, hd⟩ := parseAltitude_ok _ _ _ ha
  have htsd : d.timestamp = ts := by
    rw [hd]
    exact parseCoordinates_timestamp _ _ _ hc
  obtain ⟨pre, t, hline, hst, hfirst, hval⟩ := (parseTimestamp_spec _).1 ts hts
  rcases hl : blockLines block with _ | ⟨l0, _ | ⟨l1, rest⟩⟩
  · rw [hl] at hlen; simp at hlen
  · rw [hl] at hlen; simp at hlen
  · rw [hl] at hline
    simp only [List.getD_cons_succ, List.getD_cons_zero] at hline
    exact ⟨l0, l1, rest, pre, t, rfl, hline, hst, hfirst, by rw [htsd, hval]⟩

theorem blockLines_eq_nonempty (block : List Char)
    (h : ∀ l ∈ getLines block, l ≠ ['\\', 'r']) :
    blockLines block = (getLines block).filter (fun l => !l.isEmpty) := by
  unfold blockLines
  apply List.filter_congr
  intro l hl
  have := h l hl
  simp [this]

/-- Every fix that `parseSRT` emits comes from a block of the file, and its
timestamp is the `double` value of
`hours * 3600 + minutes * 60 + seconds + millis / 1000.0` for the first
occurrence of a timestamp `HH:MM:SS,mmm` in the second line of that block's
vector `lines`; what follows that occurrence (the end time after `-->`) is not
used. The vector `lines` holds the non-empty lines of the block whenever no
line of the block is the two-character text backslash, `r`. -/
theorem parseSRT_timestamp (content : List Char) (fixes : List GPSData) (f : GPSData)
    (h : parseSRT (some content) = .ok fixes) (hf : f ∈ fixes) :
    ∃ block ∈ blocks content, blockFix block = some f ∧
      (∃ l0 l1 rest pre t, blockLines block = l0 :: l1 :: rest ∧ l1 = pre ++ t ∧
        startsWithTimestamp t = true ∧
        (∀ p q, pre = p ++ q → q ≠ [] → startsWithTimestamp (q ++ t) = false) ∧
        f.timestamp = timestampSeconds t) ∧
      ((∀ l ∈ getLines block, l ≠ ['\\', 'r']) →
        blockLines block = (getLines block).filter (fun l => !l.isEmpty)) := by
  have := parseBlocks_ok _ _ _ h
  rw [List.nil_append] at this
  rw [this, List.mem_filterMap] at hf
  obtain ⟨b, hb, hbf⟩ := hf
  exact ⟨b, hb, hbf, parseBlock_timestamp b f ((blockFix_eq_some b f).mp hbf),
    blockLines_eq_nonempty b⟩

theorem parseSRT_timestamp_witness :
    parseSRT (some sampleTelemetry) = .ok sampleFixes ∧ sampleSecondFix ∈ sampleFixes ∧
    ∃ block ∈ blocks sampleTelemetry, blockFix block = some sampleSecondFix ∧
      (∃ l0 l1 rest pre t, blockLines block = l0 :: l1 :: rest ∧ l1 = pre ++ t ∧
        startsWithTimestamp t = true ∧
        (∀ p q, pre = p ++ q → q ≠ [] → startsWithTimestamp (q ++ t) = false) ∧
        sampleSecondFix.timestamp = timestampSeconds t) ∧
      ((∀ l ∈ getLines block, l ≠ ['\\', 'r']) →
        blockLines block = (getLines block).filter (fun l => !l.isEmpty)) :=
  ⟨by decide!, by decide!,
    parseSRT_timestamp sampleTelemetry sampleFixes sampleSecondFix (by decide!) (by decide!)⟩


/-- C6, failing input: the second non-empty line of the block is the
two-character text backslash, `r`, which the test
`!line.empty() && line != "\\r"` drops.  The timestamp of the emitted fix is
read from the third non-empty line: 7 seconds, although the second non-empty
line carries no timestamp (first block), or carries the timestamp of 3 seconds
when the dropped line comes first (second block). -/
theorem parseSRT_timestamp_from_third_line :
    (getLines "1\n\\r\n00:00:07,000 --> 00:00:08,000\nGPS: (1.5, 2.5)".toList).filter
        (fun l => !l.isEmpty) =
      ["1".toList, ['\\', 'r'], "00:00:07,000 --> 00:00:08,000".toList,
        "GPS: (1.5, 2.5)".toList] ∧
    regexSearch timeRegex ['\\', 'r'] = none ∧
    blockLines "1\n\\r\n00:00:07,000 --> 00:00:08,000\nGPS: (1.5, 2.5)".toList =
      ["1".toList, "00:00:07,000 --> 00:00:08,000".toList, "GPS: (1.5, 2.5)".toList] ∧
    parseSRT (some "1\n\\r\n00:00:07,000 --> 00:00:08,000\nGPS: (1.5, 2.5)".toList) =
      .ok [{ latitude := 2.5, longitude := 1.5, altitude := 0, timestamp := 7, valid := true }] ∧
    (getLines "\\r\n00:00:03,000\n00:00:07,000 --> 00:00:08,000\nGPS: (1.5, 2.5)".toList).filter
        (fun l => !l.isEmpty) =
      [['\\', 'r'], "00:00:03,000".toList, "00:00:07,000 --> 00:00:08,000".toList,
        "GPS: (1.5, 2.5)".toList] ∧
    parseTimestamp "00:00:03,000".toList = .ok (some 3) ∧
    parseSRT (some "\\r\n00:00:03,000\n00:00:07,000 --> 00:00:08,000\nGPS: (1.5, 2.5)".toList) =
      .ok [{ latitude := 2.5, longitude := 1.5, altitude := 0, timestamp := 7, valid := true }] := by
  decide!
/-! ### The combined coordinate pair -/

theorem numeric_false_of_isSpace {c : Char} (h : isSpace c = true) :
    CharClass.numeric.test false c = false := by
  simp only [isSpace, Bool.or_eq_true, beq_iff_eq] at h
  rcases h with ((((h | h) | h) | h) | h) | h <;> subst h <;> decide

theorem isSpace_false_of_numeric {c : Char} (h : CharClass.numeric.test false c = true) :
    CharClass.space.test false c = false := by
  cases hs : isSpace c with
  | false => simpa [CharClass.test] using hs
  | true =>
    rw [numeric_false_of_isSpace hs] at h
    exact Bool.noConfusion h

theorem head_append_of_ne_nil {u v : List Char} {c : Char} (hu : u ≠ [])
    (h : (u ++ v).head? = some c) : c ∈ u := by
  cases u with
  | nil => exact absurd rfl hu
  | cons x xs =>
    simp only [List.cons_append, List.head?_cons, Option.some.injEq] at h
    subst h
    exact List.mem_cons_self _ _

theorem head_append_cases {u v : List Char} {c : Char} (h : (u ++ v).head? = some c) :
    c ∈ u ∨ v.head? = some c := by
  cases u with
  | nil => exact Or.inr h
  | cons x xs =>
    simp only [List.cons_append, List.head?_cons, Option.some.injEq] at h
    subst h
    exact Or.inl (List.mem_cons_self _ _)

theorem gpsRegex_nodes :
    gpsRegex.nodes =
      "GPS:".toList.map (fun c => Node.piece (.one (.lit c))) ++
        [.piece (.star .space), .piece (.one (.lit '(')), .group (.plus .numeric),
          .piece (.star .space), .piece (.one (.lit ',')), .piece (.star .space),
          .group (.plus .numeric), .piece (.one (.lit ')'))] := rfl

/-- The combined pattern matches a well-formed pair and captures its two
numbers. -/
theorem matchNodes_gpsRegex (ws1 A ws2 ws3 B post : List Char)
    (hws1 : ∀ c ∈ ws1, isSpace c = true) (hws2 : ∀ c ∈ ws2, isSpace c = true)
    (hws3 : ∀ c ∈ ws3, isSpace c = true)
    (hA : A ≠ []) (hAc : ∀ c ∈ A, CharClass.numeric.test false c = true)
    (hB : B ≠ []) (hBc : ∀ c ∈ B, CharClass.numeric.test false c = true) :
    matchNodes false gpsRegex.nodes
      ("GPS:".toList ++ (ws1 ++ ('(' :: (A ++ (ws2 ++ (',' :: (ws3 ++ (B ++ (')' :: post)))))))))
      [] = some ([A, B], post) := by
  have h1 : matchNodes false [.piece (.one (.lit ')'))] (')' :: post) [A, B] =
      some ([A, B], post) := by
    rw [matchNodes_lit_cons]
    simp [CharClass.test, matchNodes_nil]
  have h2 : matchNodes false [.group (.plus .numeric), .piece (.one (.lit ')'))]
      (B ++ (')' :: post)) [A] = some ([A, B], post) := by
    apply matchNodes_plus_group_first false _ _ B _ _ _ hB hBc
    · intro c hc
      simp only [List.head?_cons, Option.some.injEq] at hc
      subst hc
      decide
    · exact h1
  have h3 : matchNodes false
      [.piece (.star .space), .group (.plus .numeric), .piece (.one (.lit ')'))]
      (ws3 ++ (B ++ (')' :: post))) [A] = some ([A, B], post) := by
    apply matchNodes_star_first false _ _ ws3 _ _ _ (by simpa [CharClass.test] using hws3)
    · intro c hc
      exact isSpace_false_of_numeric (hBc c (head_append_of_ne_nil hB hc))
    · exact h2
  have h4 : matchNodes false
      [.piece (.one (.lit ',')), .piece (.star .space), .group (.plus .numeric),
        .piece (.one (.lit ')'))]
      (',' :: (ws3 ++ (B ++ (')' :: post)))) [A] = some ([A, B], post) := by
    rw [matchNodes_lit_cons]
    simp only [CharClass.test, Bool.false_eq_true, if_false, beq_self_eq_true, if_true]
    exact h3
  have h5 : matchNodes false
      [.piece (.star .space), .piece (.one (.lit ',')), .piece (.star .space),
        .group (.plus .numeric), .piece (.one (.lit ')'))]
      (ws2 ++ (',' :: (ws3 ++ (B ++ (')' :: post))))) [A] = some ([A, B], post) := by
    apply matchNodes_star_first false _ _ ws2 _ _ _ (by simpa [CharClass.test] using hws2)
    · intro c hc
      simp only [List.head?_cons, Option.some.injEq] at hc
      subst hc
      decide
    · exact h4
  have h6 : matchNodes false
      [.group (.plus .numeric), .piece (.star .space), .piece (.one (.lit ',')),
        .piece (.star .space), .group (.plus .numeric), .piece (.one (.lit ')'))]
      (A ++ (ws2 ++ (',' :: (ws3 ++ (B ++ (')' :: post)))))) [] = some ([A, B], post) := by
    apply matchNodes_plus_group_first false _ _ A _ _ _ hA hAc
    · intro c hc
      rcases head_append_cases hc with h | h
      · exact numeric_false_of_isSpace (hws2 c h)
      · simp only [List.head?_cons, Option.some.injEq] at h
        subst h
        decide
    · exact h5
  have h7 : matchNodes false
      [.piece (.one (.lit '(')), .group (.plus .numeric), .piece (.star .space),
        .piece (.one (.lit ',')), .piece (.star .space), .group (.plus .numeric),
        .piece (.one (.lit ')'))]
      ('(' :: (A ++ (ws2 ++ (',' :: (ws3 ++ (B ++ (')' :: post))))))) [] =
        some ([A, B], post) := by
    rw [matchNodes_lit_cons]
    simp only [CharClass.test, Bool.false_eq_true, if_false, beq_self_eq_true, if_true]
    exact h6
  have h8 : matchNodes false
      [.piece (.star .space), .piece (.one (.lit '(')), .group (.plus .numeric),
        .piece (.star .space), .piece (.one (.lit ',')), .piece (.star .space),
        .group (.plus .numeric), .piece (.one (.lit ')'))]
      (ws1 ++ ('(' :: (A ++ (ws2 ++ (',' :: (ws3 ++ (B ++ (')' :: post)))))))) [] =
        some ([A, B], post) := by
    apply matchNodes_star_first false _ _ ws1 _ _ _ (by simpa [CharClass.test] using hws1)
    · intro c hc
      simp only [List.head?_cons, Option.some.injEq] at hc
      subst hc
      decide
    · exact h7
  rw [gpsRegex_nodes, matchNodes_lits_append]
  exact h8

/-- Before the first occurrence of the text `GPS:` the combined pattern does
not match. -/
theorem no_gps_match_before (pre rest : List Char)
    (hfirst : ¬ "GPS:".toList <:+: pre ++ "GPS".toList) :
    ∀ p q, pre = p ++ q → q ≠ [] →
      matchNodes false gpsRegex.nodes (q ++ ("GPS:".toList ++ rest)) [] = none := by
  intro p q hpq hq
  cases hm : matchNodes false gpsRegex.nodes (q ++ ("GPS:".toList ++ rest)) [] with
  | none => rfl
  | some r =>
    exfalso
    rw [gpsRegex_nodes] at hm
    have hpre := matchNodes_lits_prefix _ _ _ _ _ hm
    have h2 : q ++ "GPS".toList <+: q ++ ("GPS:".toList ++ rest) := by
      refine ⟨':' :: rest, ?_⟩
      simp
    have hlen : "GPS:".toList.length ≤ (q ++ "GPS".toList).length := by
      cases q with
      | nil => exact absurd rfl hq
      | cons x xs => simp
    have h3 := List.prefix_of_prefix_length_le hpre h2 hlen
    apply hfirst
    obtain ⟨r3, hr3⟩ := h3
    exact ⟨p, r3, by rw [hpq, List.append_assoc p q, ← hr3, List.append_assoc]⟩

theorem matchNodes_none_of_regexSearch_none (re : Regex) :
    ∀ s : List Char, regexSearch re s = none →
      ∀ p q, s = p ++ q → matchNodes re.icase re.nodes q [] = none := by
  intro s
  induction s with
  | nil =>
    intro h p q hpq
    have hq : q = [] := by
      have := congrArg List.length hpq
      simp only [List.length_nil, List.length_append] at this
      exact List.length_eq_zero.mp (by omega)
    subst hq
    simp only [regexSearch, Option.map_eq_none'] at h
    exact h
  | cons c cs ih =>
    intro h p q hpq
    rw [regexSearch_cons] at h
    cases hm : matchNodes re.icase re.nodes (c :: cs) [] with
    | some r => rw [hm] at h; exact Option.noConfusion h
    | none =>
      rw [hm] at h
      simp only [Option.map_eq_none'] at h
      cases p with
      | nil =>
        simp only [List.nil_append] at hpq
        rw [← hpq]
        exact hm
      | cons x xs =>
        simp only [List.cons_append, List.cons.injEq] at hpq
        exact ih h xs q hpq.2

/-- A line that carries a timestamp gives the block a time. -/
theorem parseTimestamp_of_timestamp (line p t : List Char) (hl : line = p ++ t)
    (hst : startsWithTimestamp t = true) : ∃ ts, parseTimestamp line = .ok (some ts) := by
  cases hs : regexSearch timeRegex line with
  | none =>
    exfalso
    have := matchNodes_none_of_regexSearch_none timeRegex line hs p t hl
    have hic : timeRegex.icase = false := rfl
    rw [hic, matchNodes_timeRegex, if_pos hst] at this
    revert hst this
    rcases t with _ | ⟨h1, _ | ⟨h2, _ | ⟨c1, _ | ⟨m1, _ | ⟨m2, _ | ⟨c2, _ | ⟨s1, _ | ⟨s2,
      _ | ⟨c3, _ | ⟨k1, _ | ⟨k2, _ | ⟨k3, rest⟩⟩⟩⟩⟩⟩⟩⟩⟩⟩⟩⟩ <;>
      simp [startsWithTimestamp]
  | some m =>
    have hne := (parseTimestamp_spec line).2
    cases hp : parseTimestamp line with
    | error e => exact absurd hp (hne e)
    | ok o =>
      cases o with
      | some ts => exact ⟨ts, rfl⟩
      | none =>
        exfalso
        unfold parseTimestamp at hp
        simp only [hs, bind, Except.bind, pure, Except.pure] at hp
        cases h1 : stoi (m.group 1) with
        | error e => simp [h1] at hp
        | ok v1 =>
          cases h2 : stoi (m.group 2) with
          | error e => simp [h1, h2] at hp
          | ok v2 =>
            cases h3 : stoi (m.group 3) with
            | error e => simp [h1, h2, h3] at hp
            | ok v3 =>
              cases h4 : stoi (m.group 4) with
              | error e => simp [h1, h2, h3, h4] at hp
              | ok v4 => simp [h1, h2, h3, h4] at hp

theorem parseAltitude_isOk (m : List Char) (d d' : GPSData)
    (h : (parseAltitude m d).isOk = true) : ∃ r, parseAltitude m d' = .ok r := by
  unfold parseAltitude at h ⊢
  cases h1 : regexSearch altRegex1 m with
  | some am =>
    simp only [h1, bind, Except.bind, pure, Except.pure] at h ⊢
    cases hs : stod (am.group 1) with
    | error e => simp [hs, Except.isOk, Except.toBool] at h
    | ok v => exact ⟨_, rfl⟩
  | none =>
    cases h2 : regexSearch altRegex2 m with
    | some am =>
      simp only [h1, h2, bind, Except.bind, pure, Except.pure] at h ⊢
      cases hs : stod (am.group 1) with
      | error e => simp [hs, Except.isOk, Except.toBool] at h
      | ok v => exact ⟨_, rfl⟩
    | none => exact ⟨_, rfl⟩

theorem parseCoordinates_pair (m : List Char) (g : Match) (d : GPSData) (a b : ℚ)
    (hg : regexSearch gpsRegex m = some g) (ha : stod (g.group 1) = .ok a)
    (hb : stod (g.group 2) = .ok b) :
    parseCoordinates m d = .ok { d with longitude := a, latitude := b, valid := true } := by
  unfold parseCoordinates
  simp only [hg, ha, hb, bind, Except.bind, pure, Except.pure]

/-- C4: a block with an index line, a line that carries a timestamp and at
least one metadata line, whose metadata reads `GPS: (A, B)` at the first
occurrence of `GPS:` with numbers `A` and `B` (and whose altitude tag, if any,
carries a number), makes `parseSRT` emit a fix with `valid = true`, longitude
the value of `A` and latitude the value of `B`. -/
theorem parseBlock_combined_pair (block l0 l1 : List Char) (rest : List (List Char))
    (p t pre ws1 A ws2 ws3 B post : List Char) (a b : ℚ)
    (hlines : blockLines block = l0 :: l1 :: rest) (hrest : rest ≠ [])
    (hl1 : l1 = p ++ t) (hts : startsWithTimestamp t = true)
    (hmeta : joinMetadata (blockLines block) =
      pre ++ ("GPS:".toList ++
        (ws1 ++ ('(' :: (A ++ (ws2 ++ (',' :: (ws3 ++ (B ++ (')' :: post))))))))))
    (hfirst : ¬ "GPS:".toList <:+: pre ++ "GPS".toList)
    (hws1 : ∀ c ∈ ws1, isSpace c = true) (hws2 : ∀ c ∈ ws2, isSpace c = true)
    (hws3 : ∀ c ∈ ws3, isSpace c = true)
    (hAc : ∀ c ∈ A, CharClass.numeric.test false c = true)
    (hBc : ∀ c ∈ B, CharClass.numeric.test false c = true)
    (ha : stod A = .ok a) (hb : stod B = .ok b)
    (halt : (parseAltitude (joinMetadata (blockLines block)) {}).isOk = true) :
    ∃ d, parseBlock block = .ok (some d) ∧ d.valid = true ∧ d.longitude = a ∧ d.latitude = b ∧
      ∀ content fixes, block ∈ blocks content → parseSRT (some content) = .ok fixes →
        d ∈ fixes := by
  have hnil : stod [] = .error .invalidArgument := by decide
  have hA : A ≠ [] := by
    rintro rfl
    rw [hnil] at ha
    exact Except.noConfusion ha
  have hB : B ≠ [] := by
    rintro rfl
    rw [hnil] at hb
    exact Except.noConfusion hb
  have hlen : ¬ (blockLines block).length < 3 := by
    rw [hlines]
    cases rest with
    | nil => exact absurd rfl hrest
    | cons r rs => simp
  obtain ⟨ts, hparse⟩ := parseTimestamp_of_timestamp l1 p t hl1 hts
  have hsearch : regexSearch gpsRegex (joinMetadata (blockLines block)) =
      some ⟨pre, [A, B], post⟩ := by
    rw [hmeta]
    exact regexSearch_of_first gpsRegex _ _ _
      (matchNodes_gpsRegex ws1 A ws2 ws3 B post hws1 hws2 hws3 hA hAc hB hBc) pre
      (no_gps_match_before pre _ hfirst)
  have hcoord := parseCoordinates_pair (joinMetadata (blockLines block)) ⟨pre, [A, B], post⟩
    { timestamp := ts } a b hsearch ha hb
  obtain ⟨r, hr⟩ := parseAltitude_isOk (joinMetadata (blockLines block)) {}
    { timestamp := ts, longitude := a, latitude := b, valid := true } halt
  obtain ⟨alt, hralt⟩ := parseAltitude_ok _ _ _ hr
  have hblock : parseBlock block = .ok (some r) := by
    rw [parseBlock_unfold, if_neg hlen, hlines]
    simp only [List.getD_cons_succ, List.getD_cons_zero, hparse]
    rw [← hlines, hcoord]
    simp only [hr]
    rw [hralt]
    rfl
  refine ⟨r, hblock, by rw [hralt], by rw [hralt], by rw [hralt], ?_⟩
  intro content fixes hmem hfix
  have := parseBlocks_ok _ _ _ hfix
  rw [List.nil_append] at this
  rw [this, List.mem_filterMap]
  exact ⟨block, hmem, (blockFix_eq_some block r).mpr hblock⟩


theorem parseBlock_combined_pair_witness :
    ∃ d, parseBlock sampleBlock = .ok (some d) ∧ d.valid = true ∧ d.longitude = -122.5 ∧
      d.latitude = 37.25 ∧
      ∀ content fixes, sampleBlock ∈ blocks content → parseSRT (some content) = .ok fixes →
        d ∈ fixes :=
  parseBlock_combined_pair sampleBlock "1".toList "00:00:00,000 --> 00:00:01,000".toList
    ["<font size=\"36\">FrameCnt : 1</font>".toList,
      "[iso : 100] GPS: (-122.5, 37.25) H: 12.5m".toList]
    [] "00:00:00,000 --> 00:00:01,000".toList
    "<font size=\"36\">FrameCnt : 1</font> [iso : 100] ".toList " ".toList "-122.5".toList []
    " ".toList "37.25".toList " H: 12.5m ".toList (-122.5) 37.25
    (by decide) (by decide) (by decide) (by decide) (by decide) (by decide) (by decide)
    (by decide) (by decide) (by decide) (by decide) (by decide!) (by decide!) (by decide!)

/-! ### The blocks of a file -/

theorem starSplits_head (test : Char → Bool) :
    ∀ s : List Char, ∃ tail, starSplits test s = (s.takeWhile test, s.dropWhile test) :: tail := by
  intro s
  induction s with
  | nil => exact ⟨[], rfl⟩
  | cons c cs ih =>
    obtain ⟨tail, ht⟩ := ih
    by_cases hc : test c = true
    · exact ⟨tail.map (fun ar => (c :: ar.1, ar.2)) ++ [([], c :: cs)], by
        simp [starSplits, hc, ht, List.takeWhile, List.dropWhile]⟩
    · exact ⟨[], by simp [starSplits, hc, List.takeWhile, List.dropWhile]⟩

theorem blockRegex_nodes :
    blockRegex.nodes = [.piece (.one (.lit '\n')), .piece (.plus (.lit '\n'))] := rfl

/-- The pattern `\n\n+` matches at the start of a text exactly when the text
starts with two newlines, and then consumes the whole run of newlines. -/
theorem matchNodes_blockRegex_run (rest : List Char) :
    matchNodes false blockRegex.nodes ('\n' :: '\n' :: rest) [] =
      some ([], rest.dropWhile (fun c => c == '\n')) := by
  obtain ⟨tail, ht⟩ := starSplits_head ((CharClass.lit '\n').test false) rest
  have htest : (CharClass.lit '\n').test false = fun c => c == '\n' := by
    funext c
    simp [CharClass.test]
  rw [blockRegex_nodes, matchNodes_lit_cons]
  have h1 : (CharClass.lit '\n').test false '\n' = true := by decide
  rw [if_pos h1, matchNodes_piece]
  simp only [Piece.splits, h1, if_true, ht, List.map_cons, List.findSome?_cons, matchNodes_nil]
  rw [htest]

theorem matchNodes_blockRegex_none (s : List Char)
    (h : ∀ rest, s ≠ '\n' :: '\n' :: rest) :
    matchNodes false blockRegex.nodes s [] = none := by
  rw [blockRegex_nodes]
  cases s with
  | nil => exact matchNodes_lit_nil _ _ _ _
  | cons c cs =>
    rw [matchNodes_lit_cons]
    by_cases hc : c = '\n'
    · subst hc
      simp only [CharClass.test, Bool.false_eq_true, if_false, beq_self_eq_true, if_true]
      rw [matchNodes_piece]
      cases cs with
      | nil => simp [Piece.splits]
      | cons d ds =>
        have hd : d ≠ '\n' := by
          rintro rfl
          exact h ds rfl
        simp [Piece.splits, CharClass.test, hd]
    · simp [CharClass.test, hc]

theorem regexSearch_blockRegex_run (rest : List Char) :
    regexSearch blockRegex ('\n' :: '\n' :: rest) =
      some ⟨[], [], rest.dropWhile (fun c => c == '\n')⟩ := by
  rw [regexSearch_cons]
  have hic : blockRegex.icase = false := rfl
  rw [hic, matchNodes_blockRegex_run]

theorem regexSearch_blockRegex_step (c : Char) (cs : List Char)
    (h : ∀ rest, c :: cs ≠ '\n' :: '\n' :: rest) :
    regexSearch blockRegex (c :: cs) =
      (regexSearch blockRegex cs).map (fun m => { m with pre := c :: m.pre }) := by
  rw [regexSearch_cons]
  have hic : blockRegex.icase = false := rfl
  rw [hic, matchNodes_blockRegex_none _ h]

theorem regexSearch_blockRegex_nil : regexSearch blockRegex [] = none := by
  decide

theorem specSplit_cur :
    ∀ (s cur : List Char),
      specSplit false cur s = (specSplit false [] s).modifyHead (fun t => cur ++ t) := by
  intro s
  induction s with
  | nil => intro cur; simp [specSplit]
  | cons c rest ih =>
    intro cur
    cases rest with
    | nil => simp [specSplit]
    | cons d rest' =>
      by_cases hrun : c = '\n' ∧ d = '\n'
      · simp [specSplit, hrun]
      · have h1 : specSplit false cur (c :: d :: rest') =
            specSplit false (cur ++ [c]) (d :: rest') := by
          simp [specSplit, hrun]
        have h2 : specSplit false [] (c :: d :: rest') = specSplit false [c] (d :: rest') := by
          simp [specSplit, hrun]
        rw [h1, h2, ih (cur ++ [c]), ih [c]]
        cases specSplit false [] (d :: rest') with
        | nil => rfl
        | cons t ts => simp

theorem specSplit_true_cons (cur : List Char) (c : Char) (rest : List Char) :
    specSplit true cur (c :: rest) =
      if c = '\n' then specSplit true cur rest else specSplit false (cur ++ [c]) rest := by
  cases rest <;> simp [specSplit]

theorem specSplit_skip :
    ∀ r : List Char,
      specSplit true [] r =
        if r.dropWhile (fun c => c == '\n') = [] then []
        else specSplit false [] (r.dropWhile (fun c => c == '\n')) := by
  intro r
  induction r with
  | nil => simp [specSplit]
  | cons c rest ih =>
    by_cases hc : c = '\n'
    · subst hc
      have e : specSplit true [] ('\n' :: rest) = specSplit true [] rest := by
        rw [specSplit_true_cons, if_pos rfl]
      have e2 : ('\n' :: rest).dropWhile (fun c => c == '\n') =
          rest.dropWhile (fun c => c == '\n') := by
        rw [List.dropWhile_cons]
        rfl
      rw [e, e2]
      exact ih
    · have hd : (c :: rest).dropWhile (fun c => c == '\n') = c :: rest := by
        rw [List.dropWhile_cons]
        simp [hc]
      rw [hd, specSplit_true_cons, if_neg hc]
      cases rest with
      | nil => simp [specSplit, hc]
      | cons d rest' => simp [specSplit, hc]

theorem tokensAfter_succ (fuel : Nat) (s : List Char) :
    tokensAfter (fuel + 1) s =
      if s = [] then []
      else
        match regexSearch blockRegex s with
        | none => [s]
        | some m => m.pre :: tokensAfter fuel m.suf := by
  cases s with
  | nil => simp [tokensAfter, regexSearch_blockRegex_nil]
  | cons c cs =>
    simp only [tokensAfter, reduceCtorEq, if_false, List.isEmpty_cons, Bool.false_eq_true]

/-- With enough fuel the token iterator yields the split on runs of newlines. -/
theorem tokens_eq_specSplit :
    ∀ (n : Nat) (s : List Char), s.length ≤ n → ∀ fuel, s.length ≤ fuel →
      (match regexSearch blockRegex s with
        | none => [s]
        | some m => m.pre :: tokensAfter fuel m.suf) = specSplit false [] s := by
  intro n
  induction n with
  | zero =>
    intro s hs fuel _
    have : s = [] := List.length_eq_zero.mp (by omega)
    subst this
    simp [regexSearch_blockRegex_nil, specSplit]
  | succ n ih =>
    intro s hs fuel hfuel
    cases s with
    | nil => simp [regexSearch_blockRegex_nil, specSplit]
    | cons c cs =>
      by_cases hrun : ∃ rest, c :: cs = '\n' :: '\n' :: rest
      · obtain ⟨rest, hr⟩ := hrun
        rw [hr, regexSearch_blockRegex_run]
        simp only []
        have hlen : (rest.dropWhile (fun c => c == '\n')).length ≤ rest.length :=
          (List.dropWhile_sublist _).length_le
        have hsl : (c :: cs).length = rest.length + 2 := by rw [hr]; simp
        cases fuel with
        | zero => simp at hfuel
        | succ f =>
          have hspec : specSplit false [] ('\n' :: '\n' :: rest) = [] :: specSplit true [] rest := by
            simp [specSplit]
          rw [hspec, specSplit_skip, tokensAfter_succ]
          by_cases hsuf : rest.dropWhile (fun c => c == '\n') = []
          · simp [hsuf]
          · simp only [hsuf, if_false]
            congr 1
            exact ih _ (by omega) f (by omega)
      · have hno : ∀ rest, c :: cs ≠ '\n' :: '\n' :: rest := fun rest h => hrun ⟨rest, h⟩
        rw [regexSearch_blockRegex_step c cs hno]
        have hcs := ih cs (by simpa using hs) fuel (by simp at hfuel; omega)
        have hspec : specSplit false [] (c :: cs) = specSplit false [c] cs := by
          cases cs with
          | nil => simp [specSplit]
          | cons d rest' =>
            have : ¬ (c = '\n' ∧ d = '\n') := by
              rintro ⟨rfl, rfl⟩
              exact hno rest' rfl
            simp [specSplit, this]
        rw [hspec, specSplit_cur cs [c], ← hcs]
        cases regexSearch blockRegex cs <;> simp

theorem blocks_eq_specBlocks (content : List Char) : blocks content = specBlocks content := by
  unfold blocks specBlocks
  exact tokens_eq_specSplit content.length content (le_refl _) content.length (le_refl _)

theorem blockLines_length_le (block : List Char) :
    (blockLines block).length ≤ ((getLines block).filter (fun l => !l.isEmpty)).length := by
  have : blockLines block =
      ((getLines block).filter (fun l => !l.isEmpty)).filter (fun l => l != ['\\', 'r']) := by
    unfold blockLines
    rw [List.filter_filter]
    apply List.filter_congr
    intro l _
    exact Bool.and_comm _ _
  rw [this]
  exact List.length_filter_le _ _

theorem blockFix_none_of_short (block : List Char) (h : (blockLines block).length < 3) :
    blockFix block = none := by
  unfold blockFix
  rw [parseBlock_unfold, if_pos h]

/-- C13: the blocks that `parseSRT` iterates over are the parts of the file
content between runs of two or more newlines (runs of blank lines); a block
with fewer than 3 non-empty lines contributes no fix, whatever it contains;
and the returned fixes are the contributions of the blocks in the order of
the blocks. -/
theorem parseSRT_blocks (content : List Char) :
    blocks content = specBlocks content ∧
    (∀ block : List Char, ((getLines block).filter (fun l => !l.isEmpty)).length < 3 →
      blockFix block = none) ∧
    (∀ fixes, parseSRT (some content) = .ok fixes →
      fixes = (blocks content).filterMap blockFix) := by
  refine ⟨blocks_eq_specBlocks content, ?_, ?_⟩
  · intro block h
    exact blockFix_none_of_short block (lt_of_le_of_lt (blockLines_length_le block) h)
  · intro fixes h
    have := parseBlocks_ok _ _ _ h
    rw [List.nil_append] at this
    exact this

theorem parseSRT_blocks_witness :
    blocks sampleTelemetry = specBlocks sampleTelemetry ∧
    blockFix "00:00:01,000 --> 00:00:02,000\nGPS: (1.5, 2.5)".toList = none ∧
    sampleFixes = (blocks sampleTelemetry).filterMap blockFix :=
  ⟨(parseSRT_blocks sampleTelemetry).1,
    (parseSRT_blocks sampleTelemetry).2.1 _ (by decide),
    (parseSRT_blocks sampleTelemetry).2.2 sampleFixes (by decide!)⟩

/-! ### Priority of the coordinate patterns -/

theorem parseCoordinates_of_pair (m : List Char) (g : Match) (d d' : GPSData)
    (hg : regexSearch gpsRegex m = some g) (h : parseCoordinates m d = .ok d') :
    stod (g.group 1) = .ok d'.longitude ∧ stod (g.group 2) = .ok d'.latitude ∧
      d'.valid = true := by
  unfold parseCoordinates at h
  simp only [hg, bind, Except.bind, pure, Except.pure] at h
  cases h1 : stod (g.group 1) with
  | error e => simp [h1] at h
  | ok lon =>
    cases h2 : stod (g.group 2) with
    | error e => simp [h1, h2] at h
    | ok lat =>
      simp only [h1, h2, Except.ok.injEq] at h
      rw [← h]
      exact ⟨rfl, rfl, rfl⟩

theorem parseCoordinates_of_tags (m : List Char) (mla mlo : Match) (d : GPSData) (lat lon : ℚ)
    (hg : regexSearch gpsRegex m = none) (hla : regexSearch latRegex m = some mla)
    (hlo : regexSearch lonRegex m = some mlo) (h1 : stod (mla.group 1) = .ok lat)
    (h2 : stod (mlo.group 1) = .ok lon) :
    parseCoordinates m d =
      .ok { d with latitude := lat, longitude := lon, valid := true } := by
  unfold parseCoordinates
  simp only [hg, hla, hlo, h1, h2, bind, Except.bind, pure, Except.pure, Option.isSome_some,
    Bool.and_self, if_true]

theorem parseCoordinates_tags_values (m : List Char) (d d' : GPSData)
    (hg : regexSearch gpsRegex m = none) (hd : d.valid = false)
    (h : parseCoordinates m d = .ok d') (hv : d'.valid = true) :
    ∃ mla mlo, regexSearch latRegex m = some mla ∧ regexSearch lonRegex m = some mlo ∧
      stod (mla.group 1) = .ok d'.latitude ∧ stod (mlo.group 1) = .ok d'.longitude := by
  rcases parseCoordinates_valid m d d' hd h hv with hgs | ⟨hla, hlo⟩
  · rw [hg] at hgs
    exact Bool.noConfusion hgs
  · obtain ⟨mla, hmla⟩ := Option.isSome_iff_exists.mp hla
    obtain ⟨mlo, hmlo⟩ := Option.isSome_iff_exists.mp hlo
    refine ⟨mla, mlo, hmla, hmlo, ?_⟩
    unfold parseCoordinates at h
    simp only [hg, hmla, hmlo, bind, Except.bind, pure, Except.pure, Option.isSome_some,
      Bool.and_self, if_true] at h
    cases h1 : stod (mla.group 1) with
    | error e => simp [h1] at h
    | ok lat =>
      cases h2 : stod (mlo.group 1) with
      | error e => simp [h1, h2] at h
      | ok lon =>
        simp only [h1, h2, Except.ok.injEq] at h
        rw [← h]
        exact ⟨rfl, rfl⟩

/-- The loop body appends the record that leaves the altitude section, when
the block has three lines and a timestamp and the record is valid. -/
theorem parseBlock_of_parts (block : List Char) (ts : ℚ) (d1 d : GPSData)
    (hlen : 3 ≤ (blockLines block).length)
    (hts : parseTimestamp ((blockLines block).getD 1 []) = .ok (some ts))
    (hc : parseCoordinates (joinMetadata (blockLines block)) { timestamp := ts } = .ok d1)
    (ha : parseAltitude (joinMetadata (blockLines block)) d1 = .ok d) (hv : d.valid = true) :
    parseBlock block = .ok (some d) := by
  rw [parseBlock_unfold, if_neg (by omega)]
  simp only [hts, hc, ha, hv, if_true]

theorem blockFix_of_coordinates (block : List Char) (p t : List Char) (d1 : GPSData)
    (hlen : 3 ≤ (blockLines block).length)
    (hl1 : (blockLines block).getD 1 [] = p ++ t) (hst : startsWithTimestamp t = true)
    (hc : ∀ ts, parseCoordinates (joinMetadata (blockLines block)) { timestamp := ts } =
      .ok { d1 with timestamp := ts })
    (hv : d1.valid = true)
    (halt : (parseAltitude (joinMetadata (blockLines block)) {}).isOk = true) :
    ∃ d, blockFix block = some d ∧ d.valid = true ∧ d.latitude = d1.latitude ∧
      d.longitude = d1.longitude := by
  obtain ⟨ts, hts⟩ := parseTimestamp_of_timestamp _ p t hl1 hst
  obtain ⟨r, hr⟩ := parseAltitude_isOk (joinMetadata (blockLines block)) {}
    { d1 with timestamp := ts } halt
  obtain ⟨alt, hralt⟩ := parseAltitude_ok _ _ _ hr
  have hb := parseBlock_of_parts block ts _ r hlen hts (hc ts) hr (by rw [hralt]; exact hv)
  exact ⟨r, (blockFix_eq_some block r).mpr hb, by rw [hralt]; exact hv, by rw [hralt],
    by rw [hralt]⟩

/-- C11: coordinate extraction follows the priority order. When the combined
pattern `GPS: (lon, lat)` matches the metadata, an emitted fix has the
coordinates of that pair, whatever separate tags are present, and such a fix is
emitted when the two numbers convert; when it does not match, an emitted fix
has the values of both a latitude tag and a longitude tag (the pattern of the
source spells it `[longtitude:`), one tag alone yields no fix, and both tags
with numbers that convert yield a valid fix. -/
theorem parseBlock_coordinate_priority (block : List Char) :
    (∀ g d, regexSearch gpsRegex (joinMetadata (blockLines block)) = some g →
      blockFix block = some d →
      stod (g.group 1) = .ok d.longitude ∧ stod (g.group 2) = .ok d.latitude) ∧
    (∀ g p t a b, regexSearch gpsRegex (joinMetadata (blockLines block)) = some g →
      3 ≤ (blockLines block).length → (blockLines block).getD 1 [] = p ++ t →
      startsWithTimestamp t = true → stod (g.group 1) = .ok a → stod (g.group 2) = .ok b →
      (parseAltitude (joinMetadata (blockLines block)) {}).isOk = true →
      ∃ d, blockFix block = some d ∧ d.valid = true ∧ d.latitude = b ∧ d.longitude = a) ∧
    (∀ d, regexSearch gpsRegex (joinMetadata (blockLines block)) = none →
      blockFix block = some d →
      ∃ mla mlo, regexSearch latRegex (joinMetadata (blockLines block)) = some mla ∧
        regexSearch lonRegex (joinMetadata (blockLines block)) = some mlo ∧
        stod (mla.group 1) = .ok d.latitude ∧ stod (mlo.group 1) = .ok d.longitude) ∧
    (regexSearch gpsRegex (joinMetadata (blockLines block)) = none →
      regexSearch latRegex (joinMetadata (blockLines block)) = none ∨
        regexSearch lonRegex (joinMetadata (blockLines block)) = none →
      blockFix block = none) ∧
    (∀ mla mlo p t lat lon, regexSearch gpsRegex (joinMetadata (blockLines block)) = none →
      regexSearch latRegex (joinMetadata (blockLines block)) = some mla →
      regexSearch lonRegex (joinMetadata (blockLines block)) = some mlo →
      3 ≤ (blockLines block).length → (blockLines block).getD 1 [] = p ++ t →
      startsWithTimestamp t = true →
      stod (mla.group 1) = .ok lat → stod (mlo.group 1) = .ok lon →
      (parseAltitude (joinMetadata (blockLines block)) {}).isOk = true →
      ∃ d, blockFix block = some d ∧ d.valid = true ∧ d.latitude = lat ∧ d.longitude = lon) := by
  refine ⟨?_, ?_, ?_, ?_, ?_⟩
  · intro g d hg hb
    obtain ⟨-, ts, d1, -, hc, ha, -⟩ := parseBlock_some block d ((blockFix_eq_some block d).mp hb)
    obtain ⟨alt, hd⟩ := parseAltitude_ok _ _ _ ha
    obtain ⟨h1, h2, -⟩ := parseCoordinates_of_pair _ g _ d1 hg hc
    rw [hd]
    exact ⟨h1, h2⟩
  · intro g p t a b hg hlen hl1 hst ha hb halt
    exact blockFix_of_coordinates block p t { longitude := a, latitude := b, valid := true }
      hlen hl1 hst (fun ts => parseCoordinates_pair _ g _ a b hg ha hb) rfl halt
  · intro d hg hb
    obtain ⟨-, ts, d1, -, hc, ha, hv⟩ := parseBlock_some block d ((blockFix_eq_some block d).mp hb)
    obtain ⟨alt, hd⟩ := parseAltitude_ok _ _ _ ha
    have hv1 : d1.valid = true := by rw [hd] at hv; exact hv
    obtain ⟨mla, mlo, h1, h2, h3, h4⟩ := parseCoordinates_tags_values _ _ d1 hg rfl hc hv1
    exact ⟨mla, mlo, h1, h2, by rw [hd]; exact h3, by rw [hd]; exact h4⟩
  · intro hg hone
    cases hb : blockFix block with
    | none => rfl
    | some d =>
      exfalso
      obtain ⟨-, ts, d1, -, hc, ha, hv⟩ :=
        parseBlock_some block d ((blockFix_eq_some block d).mp hb)
      obtain ⟨alt, hd⟩ := parseAltitude_ok _ _ _ ha
      have hv1 : d1.valid = true := by rw [hd] at hv; exact hv
      obtain ⟨mla, mlo, h1, h2, -, -⟩ := parseCoordinates_tags_values _ _ d1 hg rfl hc hv1
      rcases hone with h | h
      · rw [h] at h1; exact Option.noConfusion h1
      · rw [h] at h2; exact Option.noConfusion h2
  · intro mla mlo p t lat lon hg hla hlo hlen hl1 hst h1 h2 halt
    exact blockFix_of_coordinates block p t { latitude := lat, longitude := lon, valid := true }
      hlen hl1 hst (fun ts => parseCoordinates_of_tags _ mla mlo _ lat lon hg hla hlo h1 h2)
      rfl halt

theorem parseBlock_coordinate_priority_witness :
    (∃ d, blockFix sampleMixedBlock = some d ∧ d.valid = true ∧ d.latitude = 4.5 ∧
      d.longitude = 3.5) ∧
    blockFix sampleLatOnlyBlock = none ∧
    (∃ d, blockFix sampleTagBlock = some d ∧ d.valid = true ∧ d.latitude = 37.5 ∧
      d.longitude = -122.25) :=
  ⟨(parseBlock_coordinate_priority sampleMixedBlock).2.1
      ⟨"[latitude: 1.5] [longtitude: 2.5] ".toList, ["3.5".toList, "4.5".toList],
        " [altitude: 30] H: 12.5m ".toList⟩
      [] "00:00:05,000 --> 00:00:06,000".toList 3.5 4.5
      (by decide) (by decide) (by decide) (by decide) (by decide!) (by decide!) (by decide!),
    (parseBlock_coordinate_priority sampleLatOnlyBlock).2.2.2.1 (by decide) (Or.inr (by decide)),
    (parseBlock_coordinate_priority sampleTagBlock).2.2.2.2
      ⟨[], ["37.5".toList], " [longtitude: -122.25] [altitude: 20] ".toList⟩
      ⟨"[latitude: 37.5] ".toList, ["-122.25".toList], " [altitude: 20] ".toList⟩
      [] "00:00:01,000 --> 00:00:02,000".toList 37.5 (-122.25)
      (by decide) (by decide) (by decide) (by decide) (by decide) (by decide)
      (by decide!) (by decide!) (by decide!)⟩


/-- C11, counterexample: the metadata of the block holds a latitude tag and a
longitude tag, `[latitude: 37.5] [longitude: -122.25]`, and no combined pair.
The pattern of the source for the longitude tag is `[longtitude:`, so the tag
is not recognised and the block yields no fix; with the tag spelled
`[longtitude:` the same block yields the fix. -/
theorem parseBlock_longitude_tag_ignored :
    joinMetadata (blockLines sampleLatOnlyBlock) =
      "[latitude: 37.5] [longitude: -122.25] ".toList ∧
    regexSearch gpsRegex (joinMetadata (blockLines sampleLatOnlyBlock)) = none ∧
    (regexSearch latRegex (joinMetadata (blockLines sampleLatOnlyBlock))).isSome = true ∧
    regexSearch lonRegex (joinMetadata (blockLines sampleLatOnlyBlock)) = none ∧
    blockFix sampleLatOnlyBlock = none ∧
    parseSRT (some sampleLatOnlyBlock) = .ok [] ∧
    parseSRT (some sampleTagBlock) = .ok [sampleSecondFix] := by
  decide!
/-! ### The altitude of a fix -/

theorem parseCoordinates_altitude (m : List Char) (d d' : GPSData)
    (h : parseCoordinates m d = .ok d') : d'.altitude = d.altitude := by
  unfold parseCoordinates at h
  cases hg : regexSearch gpsRegex m with
  | some g =>
    simp only [hg, bind, Except.bind, pure, Except.pure] at h
    cases h1 : stod (g.group 1) with
    | error e => simp [h1] at h
    | ok lon =>
      cases h2 : stod (g.group 2) with
      | error e => simp [h1, h2] at h
      | ok lat =>
        simp only [h1, h2, Except.ok.injEq] at h
        rw [← h]
  | none =>
    simp only [hg, bind, Except.bind, pure, Except.pure] at h
    cases hla : regexSearch latRegex m with
    | none =>
      cases hlo : regexSearch lonRegex m with
      | none =>
        simp [hla, hlo] at h
        rw [← h]
      | some mlo =>
        cases h2 : stod (mlo.group 1) with
        | error e => simp [hla, hlo, h2] at h
        | ok lon =>
          simp [hla, hlo, h2] at h
          rw [← h]
    | some mla =>
      cases h1 : stod (mla.group 1) with
      | error e => simp [hla, h1] at h
      | ok lat =>
        cases hlo : regexSearch lonRegex m with
        | none =>
          simp [hla, hlo, h1] at h
          rw [← h]
        | some mlo =>
          cases h2 : stod (mlo.group 1) with
          | error e => simp [hla, hlo, h1, h2] at h
          | ok lon =>
            simp [hla, hlo, h1, h2] at h
            rw [← h]

theorem parseAltitude_of_first (m : List Char) (am : Match) (d d' : GPSData)
    (h1 : regexSearch altRegex1 m = some am) (h : parseAltitude m d = .ok d') :
    stod (am.group 1) = .ok d'.altitude := by
  unfold parseAltitude at h
  simp only [h1, bind, Except.bind, pure, Except.pure] at h
  cases hs : stod (am.group 1) with
  | error e => simp [hs] at h
  | ok alt =>
    simp only [hs, Except.ok.injEq] at h
    rw [← h]

theorem parseAltitude_of_second (m : List Char) (am : Match) (d d' : GPSData)
    (h1 : regexSearch altRegex1 m = none) (h2 : regexSearch altRegex2 m = some am)
    (h : parseAltitude m d = .ok d') :
    stod (am.group 1) = .ok d'.altitude := by
  unfold parseAltitude at h
  simp only [h1, h2, bind, Except.bind, pure, Except.pure] at h
  cases hs : stod (am.group 1) with
  | error e => simp [hs] at h
  | ok alt =>
    simp only [hs, Except.ok.injEq] at h
    rw [← h]

theorem parseAltitude_of_none (m : List Char) (d : GPSData)
    (h1 : regexSearch altRegex1 m = none) (h2 : regexSearch altRegex2 m = none) :
    parseAltitude m d = .ok d := by
  unfold parseAltitude
  simp only [h1, h2]
  rfl

/-- C12: the altitude of an emitted fix is the number of the `H: <meters>m`
form when that form matches the metadata, else the number of the bracketed
altitude tag when that tag matches, else 0; and a block of three lines with a
timestamp whose coordinate section gives a valid record, with neither altitude
form in the metadata, is emitted as that valid record with altitude 0. -/
theorem parseBlock_altitude (block : List Char) :
    (∀ d am, blockFix block = some d →
      regexSearch altRegex1 (joinMetadata (blockLines block)) = some am →
      stod (am.group 1) = .ok d.altitude) ∧
    (∀ d am, blockFix block = some d →
      regexSearch altRegex1 (joinMetadata (blockLines block)) = none →
      regexSearch altRegex2 (joinMetadata (blockLines block)) = some am →
      stod (am.group 1) = .ok d.altitude) ∧
    (∀ d, blockFix block = some d →
      regexSearch altRegex1 (joinMetadata (blockLines block)) = none →
      regexSearch altRegex2 (joinMetadata (blockLines block)) = none →
      d.altitude = 0) ∧
    (∀ ts d1, 3 ≤ (blockLines block).length →
      parseTimestamp ((blockLines block).getD 1 []) = .ok (some ts) →
      parseCoordinates (joinMetadata (blockLines block)) { timestamp := ts } = .ok d1 →
      d1.valid = true →
      regexSearch altRegex1 (joinMetadata (blockLines block)) = none →
      regexSearch altRegex2 (joinMetadata (blockLines block)) = none →
      blockFix block = some d1 ∧ d1.altitude = 0) := by
  refine ⟨?_, ?_, ?_, ?_⟩
  · intro d am hb h1
    obtain ⟨-, ts, d1, -, -, ha, -⟩ := parseBlock_some block d ((blockFix_eq_some block d).mp hb)
    exact parseAltitude_of_first _ am d1 d h1 ha
  · intro d am hb h1 h2
    obtain ⟨-, ts, d1, -, -, ha, -⟩ := parseBlock_some block d ((blockFix_eq_some block d).mp hb)
    exact parseAltitude_of_second _ am d1 d h1 h2 ha
  · intro d hb h1 h2
    obtain ⟨-, ts, d1, -, hc, ha, -⟩ := parseBlock_some block d ((blockFix_eq_some block d).mp hb)
    rw [parseAltitude_of_none _ d1 h1 h2, Except.ok.injEq] at ha
    rw [← ha, parseCoordinates_altitude _ _ d1 hc]
  · intro ts d1 hlen hts hc hv h1 h2
    exact ⟨(blockFix_eq_some block d1).mpr
      (parseBlock_of_parts block ts d1 d1 hlen hts hc (parseAltitude_of_none _ d1 h1 h2) hv),
      parseCoordinates_altitude _ _ d1 hc⟩

theorem parseBlock_altitude_witness :
    stod "12.5".toList = .ok (12.5 : ℚ) ∧ stod "20".toList = .ok (20 : ℚ) ∧
    blockFix sampleNoAltitudeBlock =
      some { latitude := 4.5, longitude := 3.5, altitude := 0, timestamp := 5, valid := true } :=
  ⟨(parseBlock_altitude sampleMixedBlock).1
      { latitude := 4.5, longitude := 3.5, altitude := 12.5, timestamp := 5, valid := true }
      ⟨"[latitude: 1.5] [longtitude: 2.5] GPS: (3.5, 4.5) [altitude: 30] ".toList,
        ["12.5".toList], " ".toList⟩
      (by decide!) (by decide),
    (parseBlock_altitude sampleTagBlock).2.1
      { latitude := 37.5, longitude := -122.25, altitude := 20, timestamp := 1, valid := true }
      ⟨"[latitude: 37.5] [longtitude: -122.25] ".toList, ["20".toList], " ".toList⟩
      (by decide!) (by decide) (by decide),
    ((parseBlock_altitude sampleNoAltitudeBlock).2.2.2 5
      { latitude := 4.5, longitude := 3.5, altitude := 0, timestamp := 5, valid := true }
      (by decide) (by decide!) (by decide!) rfl (by decide) (by decide)).1⟩

/-! ### Operations -/

section OpLemmas

variable {W : Type} {α β : Type}

theorem Op.pure_apply (a : α) (s : PState W) : (pure a : Op W α) s = (.ok a, s) := rfl

theorem Op.bind_apply (m : Op W α) (f : α → Op W β) (s : PState W) :
    (m >>= f) s = match m s with
      | (.ok a, s') => f a s'
      | (.error e, s') => (.error e, s') := rfl

theorem Op.bind_ok (m : Op W α) (f : α → Op W β) (s s' : PState W) (a : α)
    (h : m s = (.ok a, s')) : (m >>= f) s = f a s' := by
  rw [Op.bind_apply, h]

theorem Op.bind_error (m : Op W α) (f : α → Op W β) (s s' : PState W) (e : Exc)
    (h : m s = (.error e, s')) : (m >>= f) s = (.error e, s') := by
  rw [Op.bind_apply, h]

theorem logLine_apply (line : List Char) (s : PState W) :
    logLine line s = (.ok (), { s with trace := s.trace ++ [Event.log line] }) := rfl

theorem logNothing_apply (line : List Char) (s : PState W) :
    (logNothing line : Op W Unit) s = (.ok (), s) := rfl

theorem Op.query_apply (f : W → α) (s : PState W) : Op.query f s = (.ok (f s.world), s) := rfl

theorem Op.queryE_apply (f : W → Except Exc α) (s : PState W) :
    Op.queryE f s = (f s.world, s) := rfl

end OpLemmas

/-! ### The lines that `runCommandHidden` forwards -/

theorem splitStream_of_no_newline (line : List Char) (h : '\n' ∉ line) :
    splitStream line = ([], line) := by
  induction line with
  | nil => rfl
  | cons c rest ih =>
    have hc : c ≠ '\n' := fun hc => h (by simp [hc])
    have hr : '\n' ∉ rest := fun hr => h (List.mem_cons_of_mem _ hr)
    simp [splitStream, hc, ih hr]

theorem splitStream_append_newline (line rest : List Char) (h : '\n' ∉ line) :
    splitStream (line ++ '\n' :: rest) = (line :: (splitStream rest).1, (splitStream rest).2) := by
  induction line with
  | nil => simp [splitStream]
  | cons c l ih =>
    have hc : c ≠ '\n' := fun hc => h (by simp [hc])
    have hr : '\n' ∉ l := fun hr => h (List.mem_cons_of_mem _ hr)
    simp [splitStream, hc, ih hr]

theorem residual_no_newline (stream : List Char) : '\n' ∉ (splitStream stream).2 := by
  induction stream with
  | nil => simp [splitStream]
  | cons c rest ih =>
    by_cases hc : c = '\n'
    · simp [splitStream, hc, ih]
    · cases h1 : (splitStream rest).1 with
      | nil =>
        simp only [splitStream, hc, if_false, h1, List.mem_cons, not_or]
        exact ⟨fun h => hc h.symm, ih⟩
      | cons l ls =>
        simp only [splitStream, hc, if_false, h1]
        exact ih

/-- The stream split after a prefix: the complete lines of the prefix, then
the lines of what is left of it with the rest. -/
theorem splitStream_append (a b : List Char) :
    splitStream (a ++ b) =
      ((splitStream a).1 ++ (splitStream ((splitStream a).2 ++ b)).1,
        (splitStream ((splitStream a).2 ++ b)).2) := by
  induction a with
  | nil => simp [splitStream]
  | cons c rest ih =>
    by_cases hc : c = '\n'
    · simp only [List.cons_append, splitStream, hc, if_true, List.append_eq, ih]
    · cases h1 : (splitStream rest).1 with
      | nil =>
        rw [h1] at ih
        simp only [List.cons_append, splitStream, hc, if_false, h1, List.append_eq, ih,
          List.nil_append]
      | cons l ls =>
        rw [h1] at ih
        simp only [List.cons_append, splitStream, hc, if_false, h1, List.append_eq, ih]

theorem logLines_logLine {W : Type} (out line : List Char) (s : PState W) (hl : '\n' ∉ line) :
    logLines logLine line out s =
      (.ok (splitStream (line ++ out)).2,
        { s with trace := s.trace ++
            ((splitStream (line ++ out)).1.filter
              (fun line => !line.isEmpty && line ≠ ['\r'])).map Event.log }) := by
  induction out generalizing line s with
  | nil =>
    rw [List.append_nil, splitStream_of_no_newline line hl]
    simp [logLines, Op.pure_apply]
  | cons c rest ih =>
    by_cases hc : c = '\n'
    · subst hc
      rw [splitStream_append_newline line rest hl]
      have hrest := fun s' : PState W => ih [] s' (by simp)
      simp only [List.nil_append] at hrest
      rw [logLines, if_pos rfl]
      by_cases hv : (!line.isEmpty && decide (line ≠ ['\r'])) = true
      · rw [if_pos hv, Op.bind_ok _ _ s _ () (logLine_apply line s)]
        dsimp only
        have hf : ((line :: (splitStream rest).1).filter
            (fun line => !line.isEmpty && line ≠ ['\r'])) =
            line :: (splitStream rest).1.filter (fun line => !line.isEmpty && line ≠ ['\r']) :=
          List.filter_cons_of_pos hv
        rw [hrest, hf, List.map_cons, List.append_assoc, List.singleton_append]
      · rw [if_neg hv, Op.bind_ok _ _ s s () (Op.pure_apply _ s)]
        dsimp only
        have hf : ((line :: (splitStream rest).1).filter
            (fun line => !line.isEmpty && line ≠ ['\r'])) =
            (splitStream rest).1.filter (fun line => !line.isEmpty && line ≠ ['\r']) :=
          List.filter_cons_of_neg hv
        rw [hrest, hf]
    · have hl' : '\n' ∉ line ++ [c] := by
        simp only [List.mem_append, List.mem_singleton, not_or]
        exact ⟨hl, fun h => hc h.symm⟩
      rw [logLines, if_neg hc, ih (line ++ [c]) s hl', List.append_assoc, List.singleton_append]

theorem takeWhile_of_no_nul (chunk : List Char) (h : Char.ofNat 0 ∉ chunk) :
    chunk.takeWhile (fun c => c ≠ Char.ofNat 0) = chunk := by
  rw [List.takeWhile_eq_self_iff]
  intro c hc
  exact decide_eq_true (fun hc0 => h (hc0 ▸ hc))

theorem readLoop_logLine {W : Type} (reads : List (List Char)) (output : List Char)
    (s : PState W) (ho : '\n' ∉ output) (hne : ∀ chunk ∈ reads, chunk ≠ [])
    (hnul : ∀ chunk ∈ reads, Char.ofNat 0 ∉ chunk) :
    readLoop logLine reads output s =
      (.ok (splitStream (output ++ reads.flatten)).2,
        { s with trace := s.trace ++
            ((splitStream (output ++ reads.flatten)).1.filter
              (fun line => !line.isEmpty && line ≠ ['\r'])).map Event.log }) := by
  induction reads generalizing output s with
  | nil =>
    rw [List.flatten_nil, List.append_nil, splitStream_of_no_newline output ho]
    simp [readLoop, Op.pure_apply]
  | cons chunk reads ih =>
    have hc : chunk.isEmpty = false := by
      have := hne chunk (List.mem_cons_self _ _)
      cases chunk with
      | nil => exact absurd rfl this
      | cons _ _ => rfl
    rw [readLoop, hc, if_neg Bool.false_ne_true,
      takeWhile_of_no_nul chunk (hnul chunk (List.mem_cons_self _ _)),
      Op.bind_ok _ _ s _ _ (logLines_logLine (output ++ chunk) [] s (by simp))]
    rw [ih _ _ (residual_no_newline _) (fun c hc => hne c (List.mem_cons_of_mem _ hc))
      (fun c hc => hnul c (List.mem_cons_of_mem _ hc))]
    rw [List.flatten_cons, ← List.append_assoc output chunk, splitStream_append (output ++ chunk)]
    simp only [List.nil_append, List.filter_append, List.map_append, List.append_assoc]

/-- C14: for a child whose output has no NUL byte, delivered in non-empty
reads, `runCommandHidden` returns the exit code and gives to the callback, in
stream order, the complete lines of the stream that are neither empty nor a
lone carriage return, and then the residual text after the last newline when
the stream does not end with a newline; whatever the division of the stream
into reads. -/
theorem runCommandHidden_forwards_lines {W : Type} (sys : Sys W) (command : List Char)
    (s : PState W) (reads : List (List Char)) (exitCode : Nat) (w : W)
    (hrun : sys.runProcess command s.world = (.exited reads exitCode, w))
    (hne : ∀ chunk ∈ reads, chunk ≠ [])
    (hnul : ∀ chunk ∈ reads, Char.ofNat 0 ∉ chunk) :
    runCommandHidden sys command logLine s =
      (.ok (toInt32 exitCode),
        { world := w,
          trace := s.trace ++ Event.run command (toInt32 exitCode) ::
            (specForwardedVisible reads.flatten).map Event.log }) := by
  unfold runCommandHidden
  rw [hrun]
  dsimp only [returnCode]
  rw [Op.bind_ok _ _ _ _ _ (readLoop_logLine reads [] _ (by simp) hne hnul)]
  dsimp only
  simp only [List.nil_append, specForwardedVisible, completeLines, residual, List.map_append]
  by_cases hr : (splitStream reads.flatten).2 = []
  · rw [hr]
    simp [Op.bind_apply, Op.pure_apply]
  · have he : (splitStream reads.flatten).2.isEmpty = false := by
      cases h : (splitStream reads.flatten).2 with
      | nil => exact absurd h hr
      | cons _ _ => rfl
    simp [Op.bind_apply, Op.pure_apply, logLine_apply, he, hr]

theorem runCommandHidden_forwards_lines_witness :
    runCommandHidden (simSys chunkedOutput) "tool".toList logLine (PState.start sampleWorld) =
      (.ok 0,
        { world := sampleWorld,
          trace := [Event.run "tool".toList 0, Event.log "frame=1\r".toList,
            Event.log "frame=2".toList, Event.log "done".toList] }) :=
  runCommandHidden_forwards_lines (simSys chunkedOutput) "tool".toList (PState.start sampleWorld)
    ["frame=1\r\n\r".toList, "\nfra".toList, "me=2\n\ndone".toList] 0 sampleWorld
    (by decide) (by decide) (by decide)

/-- C14, counterexample: a child prints `a`, an empty line and `b`; the
complete lines of the stream are `a`, the empty line and `b`, and the callback
receives `a` and `b` only. -/
theorem runCommandHidden_skips_blank_line :
    (simSys blankLineOutput).runProcess "tool".toList sampleWorld =
      (.exited ["a\n\nb\n".toList] 0, sampleWorld) ∧
    specForwarded "a\n\nb\n".toList = ["a".toList, [], "b".toList] ∧
    logged (runCommandHidden (simSys blankLineOutput) "tool".toList logLine
      (PState.start sampleWorld)).2.trace = ["a".toList, "b".toList] := by
  decide

/-! ### Calls of `runCommandHidden` -/

theorem runs_append (t u : List Event) : runs (t ++ u) = runs t ++ runs u := by
  simp [runs, List.filterMap_append]

theorem runs_map_log (lines : List (List Char)) : runs (lines.map Event.log) = [] := by
  induction lines with
  | nil => rfl
  | cons l ls ih =>
    simp only [runs, List.map_cons, List.filterMap_cons] at ih ⊢
    exact ih

theorem logged_append (t u : List Event) : logged (t ++ u) = logged t ++ logged u := by
  simp [logged, List.filterMap_append]

theorem logged_map_log (lines : List (List Char)) : logged (lines.map Event.log) = lines := by
  induction lines with
  | nil => rfl
  | cons l ls ih =>
    simp only [logged, List.map_cons, List.filterMap_cons] at ih ⊢
    rw [ih]

theorem logged_singleton_log (line : List Char) : logged [Event.log line] = [line] := rfl

theorem logged_cons_log (line : List Char) (t : List Event) :
    logged (Event.log line :: t) = line :: logged t := rfl

theorem logLines_logLine_total {W : Type} (out line : List Char) (s : PState W) :
    ∃ (r : List Char) (lines : List (List Char)), logLines logLine line out s =
      (.ok r, { world := s.world, trace := s.trace ++ lines.map Event.log }) := by
  induction out generalizing line s with
  | nil => exact ⟨line, [], by simp [logLines, Op.pure_apply]⟩
  | cons c rest ih =>
    by_cases hc : c = '\n'
    · rw [logLines, if_pos hc]
      by_cases hv : (!line.isEmpty && decide (line ≠ ['\r'])) = true
      · obtain ⟨r, lines, h⟩ := ih [] { s with trace := s.trace ++ [Event.log line] }
        refine ⟨r, line :: lines, ?_⟩
        rw [if_pos hv, Op.bind_ok _ _ s _ () (logLine_apply line s)]
        dsimp only
        rw [h]
        simp
      · obtain ⟨r, lines, h⟩ := ih [] s
        refine ⟨r, lines, ?_⟩
        rw [if_neg hv, Op.bind_ok _ _ s s () (Op.pure_apply _ s)]
        exact h
    · rw [logLines, if_neg hc]
      exact ih _ s

theorem readLoop_logLine_total {W : Type} (reads : List (List Char)) (output : List Char)
    (s : PState W) :
    ∃ (r : List Char) (lines : List (List Char)), readLoop logLine reads output s =
      (.ok r, { world := s.world, trace := s.trace ++ lines.map Event.log }) := by
  induction reads generalizing output s with
  | nil => exact ⟨output, [], by simp [readLoop, Op.pure_apply]⟩
  | cons chunk reads ih =>
    by_cases hc : chunk.isEmpty = true
    · exact ⟨output, [], by simp [readLoop, hc, Op.pure_apply]⟩
    · obtain ⟨r1, l1, h1⟩ := logLines_logLine_total
        (output ++ chunk.takeWhile (fun c => c ≠ Char.ofNat 0)) [] s
      obtain ⟨r2, l2, h2⟩ := ih r1 { world := s.world, trace := s.trace ++ l1.map Event.log }
      refine ⟨r2, l1 ++ l2, ?_⟩
      rw [readLoop, if_neg hc, Op.bind_ok _ _ s _ _ h1, h2]
      simp

/-- A call of `runCommandHidden` with the recording callback returns, and the
trace grows by the call and by lines. -/
theorem runCommandHidden_logLine {W : Type} (sys : Sys W) (command : List Char) (s : PState W) :
    ∃ lines : List (List Char), runCommandHidden sys command logLine s =
      (.ok (runCode sys command s),
        { world := (sys.runProcess command s.world).2,
          trace := s.trace ++ Event.run command (runCode sys command s) ::
            lines.map Event.log }) := by
  unfold runCommandHidden runCode
  cases hr : (sys.runProcess command s.world).1 with
  | pipeFailed =>
    exact ⟨["ERROR: Failed to create pipe".toList], by
      simp [returnCode, Op.bind_apply, logLine_apply, Op.pure_apply]⟩
  | spawnFailed error =>
    exact ⟨["ERROR: Failed to start process (error code: ".toList ++ natChars error ++
      ")".toList], by simp [returnCode, Op.bind_apply, logLine_apply, Op.pure_apply]⟩
  | exited reads exitCode =>
    obtain ⟨r, lines, h⟩ := readLoop_logLine_total reads []
      { world := (sys.runProcess command s.world).2,
        trace := s.trace ++ [Event.run command (toInt32 exitCode)] }
    by_cases he : r.isEmpty = true
    · refine ⟨lines, ?_⟩
      dsimp only [returnCode]
      rw [Op.bind_ok _ _ _ _ _ h]
      simp [he, Op.bind_apply, Op.pure_apply]
    · refine ⟨lines ++ [r], ?_⟩
      dsimp only [returnCode]
      rw [Op.bind_ok _ _ _ _ _ h]
      simp [he, Op.bind_apply, Op.pure_apply, logLine_apply]

theorem runCommand_logLine {W : Type} (sys : Sys W) (command : List Char) (s : PState W) :
    runCommand sys command logLine s = (.ok (runCode sys command s), afterRun sys command s) := by
  obtain ⟨lines, h⟩ := runCommandHidden_logLine sys command s
  unfold runCommand afterRun
  rw [h]

theorem afterRun_world {W : Type} (sys : Sys W) (command : List Char) (s : PState W) :
    (afterRun sys command s).world = (sys.runProcess command s.world).2 := by
  obtain ⟨lines, h⟩ := runCommandHidden_logLine sys command s
  unfold afterRun
  rw [h]

theorem afterRun_runs {W : Type} (sys : Sys W) (command : List Char) (s : PState W) :
    runs (afterRun sys command s).trace = runs s.trace ++ [(command, runCode sys command s)] := by
  obtain ⟨lines, h⟩ := runCommandHidden_logLine sys command s
  unfold afterRun
  rw [h]
  dsimp only
  rw [runs_append, ← List.singleton_append, runs_append, runs_map_log, List.append_nil]
  rfl

theorem logLines_logNothing {W : Type} (out line : List Char) (s : PState W) :
    ∃ r, logLines logNothing line out s = (.ok r, s) := by
  induction out generalizing line with
  | nil => exact ⟨line, rfl⟩
  | cons c rest ih =>
    by_cases hc : c = '\n'
    · obtain ⟨r, h⟩ := ih []
      refine ⟨r, ?_⟩
      rw [logLines, if_pos hc]
      by_cases hv : (!line.isEmpty && decide (line ≠ ['\r'])) = true
      · rw [if_pos hv, Op.bind_ok _ _ s s () (logNothing_apply line s)]
        exact h
      · rw [if_neg hv, Op.bind_ok _ _ s s () (Op.pure_apply _ s)]
        exact h
    · rw [logLines, if_neg hc]
      exact ih _

theorem readLoop_logNothing {W : Type} (reads : List (List Char)) (output : List Char)
    (s : PState W) : ∃ r, readLoop logNothing reads output s = (.ok r, s) := by
  induction reads generalizing output with
  | nil => exact ⟨output, rfl⟩
  | cons chunk reads ih =>
    by_cases hc : chunk.isEmpty = true
    · exact ⟨output, by simp [readLoop, hc, Op.pure_apply]⟩
    · obtain ⟨r1, h1⟩ := logLines_logNothing
        (output ++ chunk.takeWhile (fun c => c ≠ Char.ofNat 0)) [] s
      obtain ⟨r2, h2⟩ := ih r1
      exact ⟨r2, by rw [readLoop, if_neg hc, Op.bind_ok _ _ s _ _ h1, h2]⟩

/-- A call of `runCommandHidden` with the callback that drops its lines
returns, and the trace grows by the call only. -/
theorem runCommandHidden_logNothing {W : Type} (sys : Sys W) (command : List Char)
    (s : PState W) :
    runCommandHidden sys command logNothing s =
      (.ok (runCode sys command s),
        { world := (sys.runProcess command s.world).2,
          trace := s.trace ++ [Event.run command (runCode sys command s)] }) := by
  unfold runCommandHidden runCode
  cases hr : (sys.runProcess command s.world).1 with
  | pipeFailed => simp [returnCode, Op.bind_apply, logNothing_apply, Op.pure_apply]
  | spawnFailed error => simp [returnCode, Op.bind_apply, logNothing_apply, Op.pure_apply]
  | exited reads exitCode =>
    obtain ⟨r, h⟩ := readLoop_logNothing reads []
      { world := (sys.runProcess command s.world).2,
        trace := s.trace ++ [Event.run command (toInt32 exitCode)] }
    dsimp only [returnCode]
    rw [Op.bind_ok _ _ _ _ _ h]
    by_cases he : r.isEmpty = true
    · simp [he, Op.bind_apply, Op.pure_apply]
    · simp [he, Op.bind_apply, Op.pure_apply, logNothing_apply]

/-! ### Reasoning on operations -/

section Holds

variable {W : Type} {α β : Type}

theorem Op.holds_def (m : Op W α) (Q : Except Exc α → PState W → Prop) (s : PState W) :
    Op.holds m Q s ↔ Q (m s).1 (m s).2 := Iff.rfl

theorem Op.holds_mono (m : Op W α) (Q Q' : Except Exc α → PState W → Prop) (s : PState W)
    (h : Op.holds m Q s) (hq : ∀ r s', Q r s' → Q' r s') : Op.holds m Q' s :=
  hq _ _ h

theorem Op.holds_bind (m : Op W α) (f : α → Op W β) (Q : Except Exc β → PState W → Prop)
    (s : PState W) :
    Op.holds (m >>= f) Q s ↔
      Op.holds m (fun r s' => match r with
        | .ok a => Op.holds (f a) Q s'
        | .error e => Q (.error e) s') s := by
  unfold Op.holds
  rw [Op.bind_apply]
  rcases h : m s with ⟨r, s'⟩
  cases r <;> simp

theorem Op.holds_pure (a : α) (Q : Except Exc α → PState W → Prop) (s : PState W) :
    Op.holds (pure a) Q s ↔ Q (.ok a) s := Iff.rfl

theorem Op.holds_logLine (line : List Char) (Q : Except Exc Unit → PState W → Prop)
    (s : PState W) :
    Op.holds (logLine line) Q s ↔
      Q (.ok ()) { world := s.world, trace := s.trace ++ [Event.log line] } := Iff.rfl

theorem Op.holds_query (f : W → α) (Q : Except Exc α → PState W → Prop) (s : PState W) :
    Op.holds (Op.query f) Q s ↔ Q (.ok (f s.world)) s := Iff.rfl

theorem Op.holds_queryE (f : W → Except Exc α) (Q : Except Exc α → PState W → Prop)
    (s : PState W) :
    Op.holds (Op.queryE f) Q s ↔ Q (f s.world) s := Iff.rfl

theorem Op.holds_act (ev : Event) (f : W → Except Exc α × W)
    (Q : Except Exc α → PState W → Prop) (s : PState W) :
    Op.holds (Op.act ev f) Q s ↔
      Q (f s.world).1 { world := (f s.world).2, trace := s.trace ++ [ev] } := Iff.rfl

theorem Op.holds_attempt (m : Op W α) (Q : Except Exc (Except Exc α) → PState W → Prop)
    (s : PState W) :
    Op.holds (Op.attempt m) Q s ↔ Op.holds m (fun r s' => Q (.ok r) s') s := by
  unfold Op.holds Op.attempt
  rcases h : m s with ⟨r, s'⟩
  cases r <;> simp

theorem Op.holds_ite (c : Prop) [Decidable c] (m m' : Op W α)
    (Q : Except Exc α → PState W → Prop) (s : PState W) :
    Op.holds (if c then m else m') Q s ↔ if c then Op.holds m Q s else Op.holds m' Q s := by
  split <;> rfl

theorem Op.holds_runCommand (sys : Sys W) (command : List Char)
    (Q : Except Exc ℤ → PState W → Prop) (s : PState W) :
    Op.holds (runCommand sys command logLine) Q s ↔
      Q (.ok (runCode sys command s)) (afterRun sys command s) := by
  unfold Op.holds
  rw [runCommand_logLine]

/-- After a call of `runCommand` with the recording callback the property
holds, when it holds for the code and the world that the run gives, in every
state whose trace continues the trace before the call and has the call for its
last run. -/
theorem Op.holds_runCommand_of (sys : Sys W) (command : List Char)
    (Q : Except Exc ℤ → PState W → Prop) (s : PState W)
    (h : ∀ s' : PState W, s'.world = (sys.runProcess command s.world).2 →
      (∃ t, s'.trace = s.trace ++ t) →
      runs s'.trace = runs s.trace ++ [(command, runCode sys command s)] →
      Q (.ok (runCode sys command s)) s') :
    Op.holds (runCommand sys command logLine) Q s := by
  rw [Op.holds_runCommand]
  refine h _ (afterRun_world sys command s) ?_ (afterRun_runs sys command s)
  obtain ⟨lines, hl⟩ := runCommandHidden_logLine sys command s
  unfold afterRun
  rw [hl]
  exact ⟨_, rfl⟩

theorem logAll_logLine (lines : List (List Char)) (s : PState W) :
    logAll logLine lines s =
      (.ok (), { world := s.world, trace := s.trace ++ lines.map Event.log }) := by
  induction lines generalizing s with
  | nil => simp [logAll, Op.pure_apply]
  | cons l ls ih =>
    rw [logAll, Op.bind_ok _ _ s _ () (logLine_apply l s), ih]
    simp

theorem Op.holds_logAll (lines : List (List Char)) (Q : Except Exc Unit → PState W → Prop)
    (s : PState W) :
    Op.holds (logAll logLine lines) Q s ↔
      Q (.ok ()) { world := s.world, trace := s.trace ++ lines.map Event.log } := by
  unfold Op.holds
  rw [logAll_logLine]

theorem Op.holds_ite_logAll (c : Prop) [Decidable c] (lines : List (List Char))
    (Q : Except Exc Unit → PState W → Prop) (s : PState W) :
    Op.holds (if c then logAll logLine lines else pure PUnit.unit) Q s ↔
      Q (.ok ()) { world := s.world,
                   trace := s.trace ++ (if c then lines else []).map Event.log } := by
  by_cases h : c
  · simp only [h, if_true, Op.holds_logAll]
  · simp only [h, if_false, Op.holds_pure, List.map_nil, List.append_nil]

theorem Op.holds_ite_logLine (c : Prop) [Decidable c] (line : List Char)
    (Q : Except Exc Unit → PState W → Prop) (s : PState W) :
    Op.holds (if c then logLine line else pure PUnit.unit) Q s ↔
      Q (.ok ()) { world := s.world,
                   trace := s.trace ++ (if c then [line] else []).map Event.log } := by
  by_cases h : c
  · simp only [h, if_true, Op.holds_logLine, List.map_cons, List.map_nil]
  · simp only [h, if_false, Op.holds_pure, List.map_nil, List.append_nil]

theorem runs_append_log (t : List Event) (line : List Char) :
    runs (t ++ [Event.log line]) = runs t := by
  rw [runs_append]
  simp [runs]

theorem runs_append_mkdir (t : List Event) (p : List Char) :
    runs (t ++ [Event.mkdir p]) = runs t := by
  rw [runs_append]
  simp [runs]

theorem runs_append_logs (t : List Event) (lines : List (List Char)) :
    runs (t ++ lines.map Event.log) = runs t := by
  rw [runs_append, runs_map_log, List.append_nil]

end Holds

/-! ### The steps of `runColmap` -/

/-- C16: when the COLMAP launcher is present and the three output directories
are created, `runColmap` returns, and its calls of `runCommand` are, in order:
feature_extractor alone, returning non-zero, with result false; or
feature_extractor returning 0 and exhaustive_matcher returning non-zero, with
result false; or these two returning 0 and mapper returning non-zero, with
result false; or the three returning 0 and then image_undistorter, with result
true whatever image_undistorter returns. -/
theorem runColmap_steps {W : Type} (sys : Sys W) (framesDir outputDir : List Char)
    (s : PState W) (w1 w2 w3 : W)
    (htool : sys.pathExists (colmapPath sys) s.world = true)
    (h1 : sys.createDirectories (sys.parentPath (colmapDbPath sys outputDir)) s.world =
      (.ok (), w1))
    (h2 : sys.createDirectories (sys.join outputDir "sparse".toList) w1 = (.ok (), w2))
    (h3 : sys.createDirectories (sys.join outputDir "images".toList) w2 = (.ok (), w3)) :
    Op.holds (runColmap sys framesDir outputDir logLine) (fun r s' =>
      (∃ c1, c1 ≠ 0 ∧ r = .ok false ∧
        runs s'.trace = runs s.trace ++ [(featureExtractorCommand sys framesDir outputDir, c1)]) ∨
      (∃ c2, c2 ≠ 0 ∧ r = .ok false ∧
        runs s'.trace = runs s.trace ++ [(featureExtractorCommand sys framesDir outputDir, 0),
          (matcherCommand sys outputDir, c2)]) ∨
      (∃ c3, c3 ≠ 0 ∧ r = .ok false ∧
        runs s'.trace = runs s.trace ++ [(featureExtractorCommand sys framesDir outputDir, 0),
          (matcherCommand sys outputDir, 0), (mapperCommand sys framesDir outputDir, c3)]) ∨
      (∃ c4, r = .ok true ∧
        runs s'.trace = runs s.trace ++ [(featureExtractorCommand sys framesDir outputDir, 0),
          (matcherCommand sys outputDir, 0), (mapperCommand sys framesDir outputDir, 0),
          (undistorterCommand sys framesDir outputDir, c4)])) s := by
  simp only [colmapPath, colmapDbPath] at htool h1 h2 h3
  unfold runColmap
  by_cases hsp : ' ' ∈ framesDir ∨ ' ' ∈ outputDir <;>
  · simp only [Op.holds_bind, Op.holds_query, Op.holds_pure, Op.holds_logLine, hsp, if_true,
      Op.holds_logAll, Op.holds_attempt, createDirectories, Op.holds_act, htool, h1, h2, h3,
      Bool.not_true, Bool.false_eq_true, if_false]
    refine Op.holds_runCommand_of _ _ _ _ (fun s1 _ _ hr1 => ?_)
    generalize runCode sys _ _ = c1 at hr1 ⊢
    simp only [runs_append_log, runs_append_logs, runs_append_mkdir] at hr1
    replace hr1 : runs s1.trace =
      runs s.trace ++ [(featureExtractorCommand sys framesDir outputDir, c1)] := hr1
    by_cases hc1 : c1 = 0
    swap
    · simp only [hc1, ne_eq, not_false_eq_true, if_true, Op.holds_bind, Op.holds_logLine,
        Op.holds_pure, runs_append_log]
      exact Or.inl ⟨c1, hc1, trivial, hr1⟩
    subst hc1
    simp only [ne_eq, not_true_eq_false, if_false, Op.holds_bind, Op.holds_logLine]
    refine Op.holds_runCommand_of _ _ _ _ (fun s2 _ _ hr2 => ?_)
    generalize runCode sys _ _ = c2 at hr2 ⊢
    simp only [runs_append_log, hr1] at hr2
    replace hr2 : runs s2.trace = runs s.trace ++
        [(featureExtractorCommand sys framesDir outputDir, 0)] ++
        [(matcherCommand sys outputDir, c2)] := hr2
    simp only [List.append_assoc, List.singleton_append] at hr2
    by_cases hc2 : c2 = 0
    swap
    · simp only [hc2, ne_eq, not_false_eq_true, if_true, Op.holds_bind, Op.holds_logLine,
        Op.holds_pure, runs_append_log]
      exact Or.inr (Or.inl ⟨c2, hc2, trivial, hr2⟩)
    subst hc2
    simp only [ne_eq, not_true_eq_false, if_false, Op.holds_bind, Op.holds_logLine]
    refine Op.holds_runCommand_of _ _ _ _ (fun s3 _ _ hr3 => ?_)
    generalize runCode sys _ _ = c3 at hr3 ⊢
    simp only [runs_append_log, hr2] at hr3
    replace hr3 : runs s3.trace = runs s.trace ++
        [(featureExtractorCommand sys framesDir outputDir, 0), (matcherCommand sys outputDir, 0)] ++
        [(mapperCommand sys framesDir outputDir, c3)] := hr3
    simp only [List.append_assoc, List.cons_append, List.nil_append] at hr3
    by_cases hc3 : c3 = 0
    swap
    · simp only [hc3, ne_eq, not_false_eq_true, if_true, Op.holds_bind, Op.holds_logLine,
        Op.holds_pure, runs_append_log]
      exact Or.inr (Or.inr (Or.inl ⟨c3, hc3, trivial, hr3⟩))
    subst hc3
    simp only [ne_eq, not_true_eq_false, if_false, Op.holds_bind, Op.holds_logLine]
    refine Op.holds_runCommand_of _ _ _ _ (fun s4 _ _ hr4 => ?_)
    generalize runCode sys _ _ = c4 at hr4 ⊢
    simp only [runs_append_log, hr3] at hr4
    replace hr4 : runs s4.trace = runs s.trace ++
        [(featureExtractorCommand sys framesDir outputDir, 0), (matcherCommand sys outputDir, 0),
          (mapperCommand sys framesDir outputDir, 0)] ++
        [(undistorterCommand sys framesDir outputDir, c4)] := hr4
    simp only [List.append_assoc, List.cons_append, List.nil_append] at hr4
    by_cases hc4 : c4 = 0 <;>
    · simp only [hc4, ne_eq, not_false_eq_true, not_true_eq_false, if_true, if_false,
        Op.holds_bind, Op.holds_logLine, Op.holds_pure, runs_append_log]
      exact Or.inr (Or.inr (Or.inr ⟨c4, trivial, hr4⟩))

theorem runColmap_steps_witness :
    Op.holds (runColmap (simSys failingMatcher) "C:/out/frames/flight".toList "C:/out".toList
      logLine) (fun r s' =>
      (∃ c1, c1 ≠ 0 ∧ r = .ok false ∧
        runs s'.trace = runs (PState.start sampleWorld).trace ++
          [(featureExtractorCommand (simSys failingMatcher) "C:/out/frames/flight".toList
            "C:/out".toList, c1)]) ∨
      (∃ c2, c2 ≠ 0 ∧ r = .ok false ∧
        runs s'.trace = runs (PState.start sampleWorld).trace ++
          [(featureExtractorCommand (simSys failingMatcher) "C:/out/frames/flight".toList
            "C:/out".toList, 0),
          (matcherCommand (simSys failingMatcher) "C:/out".toList, c2)]) ∨
      (∃ c3, c3 ≠ 0 ∧ r = .ok false ∧
        runs s'.trace = runs (PState.start sampleWorld).trace ++
          [(featureExtractorCommand (simSys failingMatcher) "C:/out/frames/flight".toList
            "C:/out".toList, 0),
          (matcherCommand (simSys failingMatcher) "C:/out".toList, 0),
          (mapperCommand (simSys failingMatcher) "C:/out/frames/flight".toList
            "C:/out".toList, c3)]) ∨
      (∃ c4, r = .ok true ∧
        runs s'.trace = runs (PState.start sampleWorld).trace ++
          [(featureExtractorCommand (simSys failingMatcher) "C:/out/frames/flight".toList
            "C:/out".toList, 0),
          (matcherCommand (simSys failingMatcher) "C:/out".toList, 0),
          (mapperCommand (simSys failingMatcher) "C:/out/frames/flight".toList
            "C:/out".toList, 0),
          (undistorterCommand (simSys failingMatcher) "C:/out/frames/flight".toList
            "C:/out".toList, c4)])) (PState.start sampleWorld) ∧
    (runColmap (simSys failingMatcher) "C:/out/frames/flight".toList "C:/out".toList logLine
      (PState.start sampleWorld)).1 = .ok false ∧
    runs (runColmap (simSys failingMatcher) "C:/out/frames/flight".toList "C:/out".toList logLine
      (PState.start sampleWorld)).2.trace =
      [(featureExtractorCommand (simSys failingMatcher) "C:/out/frames/flight".toList
          "C:/out".toList, 0),
        (matcherCommand (simSys failingMatcher) "C:/out".toList, 1)] :=
  ⟨runColmap_steps (simSys failingMatcher) "C:/out/frames/flight".toList
    "C:/out".toList (PState.start sampleWorld)
    ((simSys failingMatcher).createDirectories "C:/out/database".toList sampleWorld).2
    ((simSys failingMatcher).createDirectories "C:/out/sparse".toList
      ((simSys failingMatcher).createDirectories "C:/out/database".toList sampleWorld).2).2
    ((simSys failingMatcher).createDirectories "C:/out/images".toList
      ((simSys failingMatcher).createDirectories "C:/out/sparse".toList
        ((simSys failingMatcher).createDirectories "C:/out/database".toList sampleWorld).2).2).2
    (by decide) (by decide) (by decide) (by decide), by decide!, by decide!⟩

/-! ### Operations that only add to the trace -/

section Grows

variable {W : Type} {α β : Type}

theorem Op.grows_pure (a : α) : Op.Grows (pure a : Op W α) := fun s => ⟨[], by
  rw [Op.pure_apply, List.append_nil]⟩

theorem Op.grows_logLine (line : List Char) : Op.Grows (logLine line : Op W Unit) :=
  fun _ => ⟨_, rfl⟩

theorem Op.grows_query (f : W → α) : Op.Grows (Op.query f) := fun s => ⟨[], by
  rw [Op.query_apply, List.append_nil]⟩

theorem Op.grows_queryE (f : W → Except Exc α) : Op.Grows (Op.queryE f) := fun s => ⟨[], by
  rw [Op.queryE_apply, List.append_nil]⟩

theorem Op.grows_act (ev : Event) (f : W → Except Exc α × W) : Op.Grows (Op.act ev f) :=
  fun _ => ⟨_, rfl⟩

theorem Op.grows_bind (m : Op W α) (f : α → Op W β) (hm : Op.Grows m)
    (hf : ∀ a, Op.Grows (f a)) : Op.Grows (m >>= f) := by
  intro s
  obtain ⟨t, ht⟩ := hm s
  rw [Op.bind_apply]
  rcases h : m s with ⟨r, s'⟩
  rw [h] at ht
  cases r with
  | error e => exact ⟨t, ht⟩
  | ok a =>
    obtain ⟨u, hu⟩ := hf a s'
    exact ⟨t ++ u, by dsimp only at ht ⊢; rw [hu, ht, List.append_assoc]⟩

theorem Op.grows_ite (c : Prop) [Decidable c] (m m' : Op W α) (hm : Op.Grows m)
    (hm' : Op.Grows m') : Op.Grows (if c then m else m') := by
  split
  · exact hm
  · exact hm'

theorem Op.grows_attempt (m : Op W α) (hm : Op.Grows m) : Op.Grows (Op.attempt m) := by
  intro s
  obtain ⟨t, ht⟩ := hm s
  unfold Op.attempt
  rcases h : m s with ⟨r, s'⟩
  rw [h] at ht
  cases r <;> exact ⟨t, ht⟩

theorem copyFile_grows (sys : Sys W) (source dest : List Char) :
    Op.Grows (copyFile sys source dest) := Op.grows_act _ _

theorem createDirectories_grows (sys : Sys W) (path : List Char) :
    Op.Grows (createDirectories sys path) := Op.grows_act _ _

theorem copyColmapFiles_grows (sys : Sys W) (imagesDir : List Char) (entries : List DirEntry) :
    Op.Grows (copyColmapFiles sys imagesDir logLine entries) := by
  induction entries with
  | nil => exact Op.grows_pure _
  | cons entry rest ih =>
    unfold copyColmapFiles
    repeat' first
      | exact ih
      | exact Op.grows_pure _
      | exact Op.grows_logLine _
      | exact copyFile_grows _ _ _
      | apply Op.grows_bind
      | apply Op.grows_ite
      | intro _

theorem copyMissingColmapFiles_grows (sys : Sys W) (imagesDir : List Char)
    (entries : List DirEntry) :
    Op.Grows (copyMissingColmapFiles sys imagesDir logLine entries) := by
  induction entries with
  | nil => exact Op.grows_pure _
  | cons entry rest ih =>
    unfold copyMissingColmapFiles
    repeat' first
      | exact ih
      | exact Op.grows_pure _
      | exact Op.grows_logLine _
      | exact Op.grows_query _
      | exact copyFile_grows _ _ _
      | apply Op.grows_bind
      | apply Op.grows_ite
      | intro _

theorem copyExports_grows (sys : Sys W)
    (undistortedDir sparseDir imagesDir registrationFile pointsFile : List Char) :
    Op.Grows (copyExports sys undistortedDir sparseDir imagesDir registrationFile pointsFile
      logLine) := by
  unfold copyExports
  repeat' first
    | exact copyColmapFiles_grows _ _ _
    | exact copyMissingColmapFiles_grows _ _ _
    | exact Op.grows_pure _
    | exact Op.grows_logLine _
    | exact Op.grows_query _
    | exact Op.grows_queryE _
    | exact copyFile_grows _ _ _
    | apply Op.grows_bind
    | apply Op.grows_ite
    | intro _

/-- After a `try` block that only adds to the trace the property holds, when
it holds for every outcome of the block in every state whose trace continues
the trace before the block. -/
theorem Op.holds_attempt_of_grows (m : Op W α) (hm : Op.Grows m)
    (Q : Except Exc (Except Exc α) → PState W → Prop) (s : PState W)
    (h : ∀ (r : Except Exc α) (s' : PState W), (∃ t, s'.trace = s.trace ++ t) → Q (.ok r) s') :
    Op.holds (Op.attempt m) Q s := by
  rw [Op.holds_attempt]
  exact h _ _ (hm s)

end Grows

/-! ### The checks of `runRealityScan` -/

theorem checkExports_spec {W : Type} (sys : Sys W)
    (undistortedDir sparseDir imagesDir registrationFile pointsFile : List Char)
    (s : PState W) (empty : Bool) (entries : List DirEntry)
    (hempty : sys.pathExists imagesDir s.world = true →
      sys.isEmpty imagesDir s.world = .ok empty)
    (hlist : sys.pathExists imagesDir s.world = true → empty = false →
      sys.listDir imagesDir s.world = .ok entries) :
    Op.holds (checkExports sys undistortedDir sparseDir imagesDir registrationFile pointsFile
      logLine) (fun r s' =>
      r = .ok (sys.pathExists registrationFile s.world &&
        (sys.pathExists imagesDir s.world && !empty)) ∧
      ∃ t, s'.trace = s.trace ++ t ∧
        registrationLine (sys.pathExists registrationFile s.world) ∈ logged t ∧
        imagesLine (sys.pathExists imagesDir s.world && !empty) entries.length ∈ logged t) s := by
  unfold checkExports hasExports
  cases hreg : sys.pathExists registrationFile s.world <;>
  cases himg : sys.pathExists imagesDir s.world <;>
  cases hemp : empty
  all_goals
    subst hemp
    simp only [himg, true_implies] at hempty hlist
    simp only [Op.holds_bind, Op.holds_query, Op.holds_queryE, Op.holds_pure, Op.holds_logLine,
      hreg, himg, hempty, hlist, Bool.false_eq_true, if_false, if_true, Bool.not_true,
      Bool.not_false, Bool.and_false, Bool.and_true, Bool.and_self, Bool.false_and,
      registrationLine, imagesLine]
  case true.true.false =>
    refine Op.holds_attempt_of_grows _ (copyExports_grows _ _ _ _ _ _) _ _ (fun r s' ht => ?_)
    obtain ⟨t, ht⟩ := ht
    cases r <;>
    · simp only [Op.holds_bind, Op.holds_pure, Op.holds_logLine, Bool.not_true,
        Bool.false_eq_true, if_false, ht, List.append_assoc]
      exact ⟨trivial, _, rfl, by simp [logged_append, logged_singleton_log, logged_cons_log],
        by simp [logged_append, logged_singleton_log, logged_cons_log]⟩
  all_goals
    simp only [List.append_assoc]
    exact ⟨trivial, _, rfl, by simp [logged_append, logged_singleton_log, logged_cons_log],
      by simp [logged_append, logged_singleton_log, logged_cons_log]⟩

/-- C17: when the executable is present, the directories are created and the
external call returns 0, `runRealityScan` returns, with result true exactly
when, in the world that the call leaves, the registration file exists and the
images directory exists and is not empty; and both checks are made and
logged, each with the line for its own outcome, whatever the outcome of the
other. -/
theorem runRealityScan_postconditions {W : Type} (sys : Sys W)
    (framesDir outputDir realityscanExe : List Char) (s : PState W) (w1 w2 w4 : W)
    (res : ProcResult) (empty : Bool) (entries : List DirEntry)
    (hexe : realityscanExe.isEmpty = false)
    (hexists : sys.pathExists realityscanExe s.world = true)
    (h1 : sys.createDirectories (rsSparseDir sys outputDir) s.world = (.ok (), w1))
    (h2 : sys.createDirectories (rsImagesDir sys outputDir) w1 = (.ok (), w2))
    (hrun : sys.runProcess (realityScanCommand sys framesDir outputDir realityscanExe)
      (sys.writeFile (rsPointsFile sys outputDir) pointsHeader w2).2 = (res, w4))
    (hcode : returnCode res = 0)
    (hempty : sys.pathExists (rsImagesDir sys outputDir) w4 = true →
      sys.isEmpty (rsImagesDir sys outputDir) w4 = .ok empty)
    (hlist : sys.pathExists (rsImagesDir sys outputDir) w4 = true → empty = false →
      sys.listDir (rsImagesDir sys outputDir) w4 = .ok entries) :
    Op.holds (runRealityScan sys framesDir outputDir realityscanExe logLine) (fun r s' =>
      r = .ok (sys.pathExists (rsRegistrationFile sys outputDir) w4 &&
        (sys.pathExists (rsImagesDir sys outputDir) w4 && !empty)) ∧
      registrationLine (sys.pathExists (rsRegistrationFile sys outputDir) w4) ∈
        logged s'.trace ∧
      imagesLine (sys.pathExists (rsImagesDir sys outputDir) w4 && !empty) entries.length ∈
        logged s'.trace) s := by
  unfold runRealityScan
  simp only [rsSparseDir, rsImagesDir, rsRegistrationFile, rsPointsFile, rsUndistortedDir,
    realityScanCommand] at h1 h2 hrun hempty hlist ⊢
  cases hopen : (sys.writeFile (sys.join (sys.join (sys.join (sys.join outputDir
      "undistorted".toList) "sparse".toList) "0".toList) "points3D.txt".toList)
      pointsHeader w2).1 <;>
  · simp only [Op.holds_bind, Op.holds_query, Op.holds_pure, Op.holds_logLine,
      Op.holds_attempt, createDirectories, writeFile, Op.holds_act, hexe, hexists, h1, h2,
      hopen, Bool.not_true, Bool.false_eq_true, if_false, if_true, Bool.or_self, Bool.or_false]
    refine Op.holds_runCommand_of _ _ _ _ (fun s' hw _ _ => ?_)
    simp only [hrun] at hw
    simp only [runCode, hrun, hcode, ne_eq, not_true_eq_false, if_false]
    refine Op.holds_mono _ _ _ _ (checkExports_spec sys _ _ _ _ _ s' empty entries
      (by rw [hw]; exact hempty) (by rw [hw]; exact hlist)) ?_
    rintro r s'' ⟨hr, t, ht, hm1, hm2⟩
    rw [hw] at hr hm1 hm2
    exact ⟨hr, by rw [ht, logged_append]; exact List.mem_append_right _ hm1,
      by rw [ht, logged_append]; exact List.mem_append_right _ hm2⟩

theorem runRealityScan_postconditions_witness :
    Op.holds (runRealityScan (simSys emptyExport) "C:/out/frames/flight".toList "C:/out".toList
      "C:/rs/RealityScan.exe".toList logLine) (fun r s' =>
      r = .ok false ∧
      "✅ Registration exported successfully".toList ∈ logged s'.trace ∧
      "❌ Warning: No undistorted images were exported".toList ∈ logged s'.trace)
      (PState.start realityScanWorld) :=
  runRealityScan_postconditions (simSys emptyExport) "C:/out/frames/flight".toList
    "C:/out".toList "C:/rs/RealityScan.exe".toList (PState.start realityScanWorld)
    ((simSys emptyExport).createDirectories "C:/out/undistorted/sparse/0".toList
      realityScanWorld).2
    ((simSys emptyExport).createDirectories "C:/out/undistorted/images".toList
      ((simSys emptyExport).createDirectories "C:/out/undistorted/sparse/0".toList
        realityScanWorld).2).2
    ((simSys emptyExport).runProcess (realityScanCommand (simSys emptyExport)
      "C:/out/frames/flight".toList "C:/out".toList "C:/rs/RealityScan.exe".toList)
      ((simSys emptyExport).writeFile "C:/out/undistorted/sparse/0/points3D.txt".toList
        pointsHeader
        ((simSys emptyExport).createDirectories "C:/out/undistorted/images".toList
          ((simSys emptyExport).createDirectories "C:/out/undistorted/sparse/0".toList
            realityScanWorld).2).2).2).2
    (.exited ["aligned\n".toList] 0) true []
    (by decide) (by decide) (by decide) (by decide) (by decide) (by decide) (by decide)
    (by decide)

/-! ### The tagging loop -/

theorem Op.holds_runCommandHidden_logNothing {W : Type} (sys : Sys W) (command : List Char)
    (Q : Except Exc ℤ → PState W → Prop) (s : PState W) :
    Op.holds (runCommandHidden sys command logNothing) Q s ↔
      Q (.ok (runCode sys command s))
        { world := (sys.runProcess command s.world).2,
          trace := s.trace ++ [Event.run command (runCode sys command s)] } := by
  unfold Op.holds
  rw [runCommandHidden_logNothing]

theorem runs_append_run (t : List Event) (command : List Char) (code : ℤ) :
    runs (t ++ [Event.run command code]) = runs t ++ [(command, code)] := by
  rw [runs_append]
  rfl

theorem logged_append_run (t : List Event) (command : List Char) (code : ℤ) :
    logged (t ++ [Event.run command code]) = logged t := by
  rw [logged_append]
  exact List.append_nil _

/-- The tagging loop returns; it runs the tagging commands of the frames in
order, whatever they return, gives no line to the callback, and counts the
commands that return 0. -/
theorem embedLoop_spec {W : Type} (sys : Sys W) (exiftoolPath : List Char)
    (gpsFrames : List GPSData) (fps : ℚ) (frameFiles : List (List Char)) :
    ∀ (i embedded : Nat) (s : PState W),
      Op.holds (embedLoop sys exiftoolPath gpsFrames fps frameFiles i embedded) (fun r s' =>
        ∃ codes : List ℤ,
          codes.length = (tagCommands exiftoolPath gpsFrames fps frameFiles i).length ∧
          runs s'.trace = runs s.trace ++
            (tagCommands exiftoolPath gpsFrames fps frameFiles i).zip codes ∧
          logged s'.trace = logged s.trace ∧
          r = .ok (embedded + (codes.filter (fun c => c = 0)).length)) s := by
  induction frameFiles with
  | nil =>
    intro i embedded s
    exact ⟨[], rfl, by simp [tagCommands, embedLoop, Op.pure_apply], rfl, rfl⟩
  | cons frameFile rest ih =>
    intro i embedded s
    unfold embedLoop
    by_cases hv : (getGPSForTimestamp gpsFrames (frameTimestamp i fps)).valid = true
    · simp only [hv, if_true, Op.holds_bind, Op.holds_runCommandHidden_logNothing]
      generalize hcode : runCode sys _ s = code
      by_cases hc : code = 0
      · simp only [hc, if_true]
        refine Op.holds_mono _ _ _ _ (ih (i + 1) (embedded + 1) _) ?_
        rintro r s' ⟨codes, hlen, hruns, hlog, hr⟩
        refine ⟨0 :: codes, ?_, ?_, ?_, ?_⟩
        · simp [tagCommands, hv, hlen]
        · rw [hruns, runs_append_run]
          simp [tagCommands, hv]
        · rw [hlog, logged_append_run]
        · rw [hr]
          simp [List.filter_cons]
          omega
      · simp only [hc, if_false]
        refine Op.holds_mono _ _ _ _ (ih (i + 1) embedded _) ?_
        rintro r s' ⟨codes, hlen, hruns, hlog, hr⟩
        refine ⟨code :: codes, ?_, ?_, ?_, ?_⟩
        · simp [tagCommands, hv, hlen]
        · rw [hruns, runs_append_run]
          simp [tagCommands, hv]
        · rw [hlog, logged_append_run]
        · rw [hr]
          simp [List.filter_cons, hc]
    · simp only [hv, Bool.false_eq_true, if_false]
      refine Op.holds_mono _ _ _ _ (ih (i + 1) embedded s) ?_
      rintro r s' ⟨codes, hlen, hruns, hlog, hr⟩
      exact ⟨codes, by simp [tagCommands, hv, hlen], by simp [tagCommands, hv, hruns], hlog, hr⟩

theorem isEmpty_false_of_ne {α : Type} (l : List α) (h : l ≠ []) : l.isEmpty = false := by
  cases l with
  | nil => exact absurd rfl h
  | cons _ _ => rfl

theorem embedTelemetry_spec {W : Type} (sys : Sys W) (videoPath videoOutputDir : List Char)
    (fps : ℚ) (s : PState W) (gpsFrames : List GPSData) (entries : List DirEntry)
    (hsrt : siblingSrt sys videoPath s.world ≠ [])
    (htool : sys.pathExists (exiftoolPath sys) s.world = true)
    (hparse : parseSRT (sys.readFile (siblingSrt sys videoPath s.world) s.world) = .ok gpsFrames)
    (hne : gpsFrames ≠ [])
    (hlist : sys.listDir videoOutputDir s.world = .ok entries) :
    Op.holds (embedTelemetry sys videoPath videoOutputDir fps logLine) (fun r s' =>
      r = .ok () ∧
      ∃ codes : List ℤ,
        codes.length = (tagCommands (exiftoolPath sys) gpsFrames fps
          (sortPaths sys.pathLess (jpgPaths sys entries)) 0).length ∧
        runs s'.trace = runs s.trace ++
          (tagCommands (exiftoolPath sys) gpsFrames fps
            (sortPaths sys.pathLess (jpgPaths sys entries)) 0).zip codes ∧
        embeddedLine (codes.filter (fun c => c = 0)).length
          (sortPaths sys.pathLess (jpgPaths sys entries)).length ∈ logged s'.trace) s := by
  unfold embedTelemetry
  simp only [siblingSrt, exiftoolPath] at hsrt htool hparse
  have hgne : gpsFrames.isEmpty = false := isEmpty_false_of_ne _ hne
  cases hU : sys.pathExists (sys.replaceExtension videoPath ".SRT".toList) s.world <;>
  cases hL : sys.pathExists (sys.replaceExtension videoPath ".srt".toList) s.world <;>
  simp only [hU, hL, Bool.false_eq_true, if_false, if_true, ne_eq, not_true_eq_false] at hsrt hparse
  all_goals
    have hE := isEmpty_false_of_ne _ hsrt
    simp only [Op.holds_bind, Op.holds_query, Op.holds_queryE, Op.holds_pure, Op.holds_logLine,
      hU, hL, Bool.false_eq_true, if_false, if_true, htool, parseSRTFile, hparse, hlist, hE,
      hgne, Bool.not_false]
    refine Op.holds_mono _ _ _ _ (embedLoop_spec sys _ gpsFrames fps _ 0 0 _) ?_
    rintro r s' ⟨codes, hlen, hruns, hlog, hr⟩
    subst hr
    simp only [Op.holds_logLine, Nat.zero_add]
    refine ⟨trivial, codes, hlen, ?_, ?_⟩
    · simp only [runs_append_log] at hruns ⊢
      exact hruns
    · rw [logged_append, hlog]
      exact List.mem_append_right _ (List.mem_singleton.mpr rfl)

/-! ### The result of `extractFrames` -/

theorem Op.holds_attempt_any {W : Type} {α : Type} (m : Op W α)
    (Q : Except Exc (Except Exc α) → PState W → Prop) (s : PState W)
    (h : ∀ (r : Except Exc α) (s' : PState W), Q (.ok r) s') :
    Op.holds (Op.attempt m) Q s := by
  rw [Op.holds_attempt]
  exact h _ _

/-- The function `extractFrames` up to the return of the extraction command,
when the tool is present and the output directory is created. -/
theorem extractFrames_of_run {W : Type} (sys : Sys W) (videoPath outputDir : List Char)
    (fps : ℚ) (s : PState W) (w1 w2 : W) (res : ProcResult)
    (Q : Except Exc Bool → PState W → Prop)
    (htool : sys.pathExists (ffmpegPath sys) s.world = true)
    (hmk : sys.createDirectories (videoOutputDir sys videoPath outputDir) s.world = (.ok (), w1))
    (hrun : sys.runProcess (ffmpegCommand sys videoPath outputDir fps) w1 = (res, w2))
    (hfail : returnCode res ≠ 0 → ∀ s1 : PState W, Q (.ok false) s1)
    (hok : returnCode res = 0 → ∀ s1 : PState W, s1.world = w2 →
      (∃ t, s1.trace = s.trace ++ t) →
      runs s1.trace = runs s.trace ++ [(ffmpegCommand sys videoPath outputDir fps, 0)] →
      Op.holds (countAndEmbed sys videoPath (videoOutputDir sys videoPath outputDir) fps logLine)
        Q s1) :
    Op.holds (extractFrames sys videoPath outputDir fps logLine) Q s := by
  unfold extractFrames
  simp only [ffmpegPath, videoOutputDir, ffmpegCommand] at htool hmk hrun hok
  simp only [Op.holds_bind, Op.holds_query, Op.holds_pure, Op.holds_logLine, Op.holds_attempt,
    createDirectories, Op.holds_act, htool, hmk, Bool.not_true, Bool.false_eq_true, if_false,
    OStream.str, OStream.double, List.nil_append]
  refine Op.holds_runCommand_of _ _ _ _ (fun s1 hw ht hr => ?_)
  simp only [hrun] at hw
  simp only [runs_append_log, runs_append_mkdir] at hr
  simp only [runCode, hrun] at hr ⊢
  by_cases hc : returnCode res = 0
  · simp only [hc, ne_eq, not_true_eq_false, if_false] at hr ⊢
    refine hok hc s1 hw ?_ hr
    obtain ⟨t, ht⟩ := ht
    simp only [List.append_assoc] at ht
    exact ⟨_, ht⟩
  · simp only [hc, ne_eq, not_false_eq_true, if_true, Op.holds_bind, Op.holds_logLine,
      Op.holds_pure]
    exact hfail hc _

/-- C18: when the extraction tool is present and the output directory of the
video is created, `extractFrames` returns, and its result is true exactly when
the extraction command returns 0 and the number of `.jpg` entries counted in
the output directory is greater than 0, whatever the telemetry step does; when
the command returns non-zero the result is false whatever the directory holds. -/
theorem extractFrames_result {W : Type} (sys : Sys W) (videoPath outputDir : List Char)
    (fps : ℚ) (s : PState W) (w1 w2 : W) (res : ProcResult) (entries : List DirEntry)
    (htool : sys.pathExists (ffmpegPath sys) s.world = true)
    (hmk : sys.createDirectories (videoOutputDir sys videoPath outputDir) s.world = (.ok (), w1))
    (hrun : sys.runProcess (ffmpegCommand sys videoPath outputDir fps) w1 = (res, w2))
    (hlist : returnCode res = 0 →
      sys.listDir (videoOutputDir sys videoPath outputDir) w2 = .ok entries) :
    Op.holds (extractFrames sys videoPath outputDir fps logLine) (fun r _ =>
      r = .ok (decide (returnCode res = 0) && decide (0 < (jpgPaths sys entries).length))) s := by
  refine extractFrames_of_run sys videoPath outputDir fps s w1 w2 res _ htool hmk hrun ?_ ?_
  · intro hc s1
    simp [hc]
  · intro hc s1 hw _ _
    unfold countAndEmbed
    simp only [Op.holds_bind, Op.holds_queryE, Op.holds_logLine, hw, hlist hc]
    refine Op.holds_attempt_any _ _ _ (fun r s' => ?_)
    cases r <;> simp [Op.holds_bind, Op.holds_logLine, Op.holds_pure, hc]

theorem extractFrames_result_witness :
    Op.holds (extractFrames (simSys goodExtraction) "C:/in/flight.mp4".toList
      "C:/out/frames".toList 1 logLine) (fun r _ => r = .ok true) (PState.start sampleWorld) :=
  extractFrames_result (simSys goodExtraction) "C:/in/flight.mp4".toList "C:/out/frames".toList 1
    (PState.start sampleWorld)
    ((simSys goodExtraction).createDirectories "C:/out/frames/flight".toList sampleWorld).2
    ((simSys goodExtraction).runProcess
      (ffmpegCommand (simSys goodExtraction) "C:/in/flight.mp4".toList "C:/out/frames".toList 1)
      ((simSys goodExtraction).createDirectories "C:/out/frames/flight".toList sampleWorld).2).2
    (.exited ["frame=    2\n".toList] 0)
    [{ path := "C:/out/frames/flight/flight_frame_0001.jpg".toList, isRegularFile := true },
      { path := "C:/out/frames/flight/flight_frame_0002.jpg".toList, isRegularFile := true }]
    (by decide) (by decide) (by decide!) (fun _ => by decide!)

/-- C18, counterexample: the extraction tool is present, leaves two frames in
the output directory of the video and exits with 1; `extractFrames` returns
false although two `.jpg` files are in the directory. -/
theorem extractFrames_fails_with_frames :
    (simSys brokenExtraction).pathExists (ffmpegPath (simSys brokenExtraction)) sampleWorld =
      true ∧
    (extractFrames (simSys brokenExtraction) "C:/in/flight.mp4".toList "C:/out/frames".toList 1
      logLine (PState.start sampleWorld)).1 = .ok false ∧
    ((simSys brokenExtraction).listDir "C:/out/frames/flight".toList
      (extractFrames (simSys brokenExtraction) "C:/in/flight.mp4".toList "C:/out/frames".toList 1
        logLine (PState.start sampleWorld)).2.world).map (jpgPaths (simSys brokenExtraction)) =
      .ok ["C:/out/frames/flight/flight_frame_0001.jpg".toList,
        "C:/out/frames/flight/flight_frame_0002.jpg".toList] := by
  decide!

/-! ### Tagging in `extractFrames` -/

theorem insertPath_length (less : List Char → List Char → Bool) (p : List Char)
    (l : List (List Char)) : (insertPath less p l).length = l.length + 1 := by
  induction l with
  | nil => rfl
  | cons q rest ih =>
    unfold insertPath
    split
    · rfl
    · simp [ih]

theorem sortPaths_length (less : List Char → List Char → Bool) (l : List (List Char)) :
    (sortPaths less l).length = l.length := by
  induction l with
  | nil => rfl
  | cons p rest ih =>
    show (insertPath less p (sortPaths less rest)).length = _
    rw [insertPath_length, ih]
    rfl

theorem tagCommands_length_le (exiftoolPath : List Char) (gpsFrames : List GPSData) (fps : ℚ)
    (frameFiles : List (List Char)) :
    ∀ i, (tagCommands exiftoolPath gpsFrames fps frameFiles i).length ≤ frameFiles.length := by
  induction frameFiles with
  | nil => intro i; exact Nat.le_refl _
  | cons f rest ih =>
    intro i
    unfold tagCommands
    split
    · exact Nat.succ_le_succ (ih (i + 1))
    · exact Nat.le_succ_of_le (ih (i + 1))

/-- The run of `extractFrames` when the extraction succeeds, a telemetry file
with fixes is found and the tagging tool is present. -/
theorem extractFrames_tagging {W : Type} (sys : Sys W) (videoPath outputDir : List Char)
    (fps : ℚ) (s : PState W) (w1 w2 : W) (res : ProcResult) (entries : List DirEntry)
    (gpsFrames : List GPSData)
    (htool : sys.pathExists (ffmpegPath sys) s.world = true)
    (hmk : sys.createDirectories (videoOutputDir sys videoPath outputDir) s.world = (.ok (), w1))
    (hrun : sys.runProcess (ffmpegCommand sys videoPath outputDir fps) w1 = (res, w2))
    (hcode : returnCode res = 0)
    (hlist : sys.listDir (videoOutputDir sys videoPath outputDir) w2 = .ok entries)
    (hsrt : siblingSrt sys videoPath w2 ≠ [])
    (hexif : sys.pathExists (exiftoolPath sys) w2 = true)
    (hparse : parseSRT (sys.readFile (siblingSrt sys videoPath w2) w2) = .ok gpsFrames)
    (hne : gpsFrames ≠ []) :
    Op.holds (extractFrames sys videoPath outputDir fps logLine) (fun r s' =>
      r = .ok (decide (0 < (jpgPaths sys entries).length)) ∧
      ∃ codes : List ℤ,
        codes.length = (tagCommands (exiftoolPath sys) gpsFrames fps
          (sortPaths sys.pathLess (jpgPaths sys entries)) 0).length ∧
        runs s'.trace = runs s.trace ++
          (ffmpegCommand sys videoPath outputDir fps, 0) ::
            (tagCommands (exiftoolPath sys) gpsFrames fps
              (sortPaths sys.pathLess (jpgPaths sys entries)) 0).zip codes ∧
        embeddedLine (codes.filter (fun c => c = 0)).length (jpgPaths sys entries).length ∈
          logged s'.trace) s := by
  refine extractFrames_of_run sys videoPath outputDir fps s w1 w2 res _ htool hmk hrun
    (fun hc => absurd hcode hc) ?_
  intro _ s1 hw _ hr
  unfold countAndEmbed
  simp only [Op.holds_bind, Op.holds_queryE, Op.holds_logLine, hw, hlist, Op.holds_attempt]
  refine Op.holds_mono _ _ _ _ (embedTelemetry_spec sys videoPath _ fps _ gpsFrames entries
    hsrt hexif hparse hne hlist) ?_
  rintro r s' ⟨hr', codes, hlen, hruns, hlog⟩
  subst hr'
  simp only [Op.holds_bind, Op.holds_pure, gt_iff_lt]
  refine ⟨trivial, codes, hlen, ?_, ?_⟩
  · rw [hruns, runs_append_log, hr, List.append_assoc]
    rfl
  · rw [sortPaths_length] at hlog
    exact hlog

/-- C19: in a run of `extractFrames` with a frame rate other than 0 in which
the extraction succeeds, a telemetry file with fixes is found and the tagging
tool is present, every tagging command is run, whatever the commands before it
return; the result is whether the number of frames is positive, whatever the
tagging commands return; and the logged count of embedded frames is the number
of tagging commands that return 0, which is at most the number of frames. -/
theorem extractFrames_tagging_best_effort {W : Type} (sys : Sys W)
    (videoPath outputDir : List Char) (fps : ℚ) (s : PState W) (w1 w2 : W) (res : ProcResult)
    (entries : List DirEntry) (gpsFrames : List GPSData)
    (_hfps : fps ≠ 0)
    (htool : sys.pathExists (ffmpegPath sys) s.world = true)
    (hmk : sys.createDirectories (videoOutputDir sys videoPath outputDir) s.world = (.ok (), w1))
    (hrun : sys.runProcess (ffmpegCommand sys videoPath outputDir fps) w1 = (res, w2))
    (hcode : returnCode res = 0)
    (hlist : sys.listDir (videoOutputDir sys videoPath outputDir) w2 = .ok entries)
    (hsrt : siblingSrt sys videoPath w2 ≠ [])
    (hexif : sys.pathExists (exiftoolPath sys) w2 = true)
    (hparse : parseSRT (sys.readFile (siblingSrt sys videoPath w2) w2) = .ok gpsFrames)
    (hne : gpsFrames ≠ []) :
    Op.holds (extractFrames sys videoPath outputDir fps logLine) (fun r s' =>
      r = .ok (decide (0 < (jpgPaths sys entries).length)) ∧
      ∃ codes : List ℤ,
        (runs s'.trace).map Prod.fst = (runs s.trace).map Prod.fst ++
          ffmpegCommand sys videoPath outputDir fps ::
            tagCommands (exiftoolPath sys) gpsFrames fps
              (sortPaths sys.pathLess (jpgPaths sys entries)) 0 ∧
        (runs s'.trace).map Prod.snd = (runs s.trace).map Prod.snd ++ 0 :: codes ∧
        (codes.filter (fun c => c = 0)).length ≤ (jpgPaths sys entries).length ∧
        embeddedLine (codes.filter (fun c => c = 0)).length (jpgPaths sys entries).length ∈
          logged s'.trace) s := by
  refine Op.holds_mono _ _ _ _ (extractFrames_tagging sys videoPath outputDir fps s w1 w2 res
    entries gpsFrames htool hmk hrun hcode hlist hsrt hexif hparse hne) ?_
  rintro r s' ⟨hr, codes, hlen, hruns, hlog⟩
  refine ⟨hr, codes, ?_, ?_, ?_, hlog⟩
  · rw [hruns, List.map_append, List.map_cons, List.map_fst_zip _ _ (Nat.le_of_eq hlen.symm)]
  · rw [hruns, List.map_append, List.map_cons, List.map_snd_zip _ _ (Nat.le_of_eq hlen)]
  · calc (codes.filter (fun c => c = 0)).length ≤ codes.length := List.length_filter_le _ _
      _ = _ := hlen
      _ ≤ (sortPaths sys.pathLess (jpgPaths sys entries)).length := tagCommands_length_le _ _ _ _ 0
      _ = _ := sortPaths_length _ _

theorem extractFrames_tagging_best_effort_witness :
    (extractFrames (simSys taggingRules) "C:/in/flight.mp4".toList "C:/out/frames".toList 1
      logLine (PState.start telemetryWorld)).1 = .ok true ∧
    ∃ codes : List ℤ,
      (runs (extractFrames (simSys taggingRules) "C:/in/flight.mp4".toList
        "C:/out/frames".toList 1 logLine (PState.start telemetryWorld)).2.trace).map Prod.fst =
        ffmpegCommand (simSys taggingRules) "C:/in/flight.mp4".toList "C:/out/frames".toList 1 ::
          tagCommands (exiftoolPath (simSys taggingRules)) threeFixes 1 fiveFrames 0 ∧
      (runs (extractFrames (simSys taggingRules) "C:/in/flight.mp4".toList
        "C:/out/frames".toList 1 logLine (PState.start telemetryWorld)).2.trace).map Prod.snd =
        0 :: codes ∧
      (codes.filter (fun c => c = 0)).length ≤ 5 ∧
      embeddedLine (codes.filter (fun c => c = 0)).length 5 ∈
        logged (extractFrames (simSys taggingRules) "C:/in/flight.mp4".toList
          "C:/out/frames".toList 1 logLine (PState.start telemetryWorld)).2.trace :=
  extractFrames_tagging_best_effort (simSys taggingRules) "C:/in/flight.mp4".toList
    "C:/out/frames".toList 1 (PState.start telemetryWorld)
    ((simSys taggingRules).createDirectories "C:/out/frames/flight".toList telemetryWorld).2
    ((simSys taggingRules).runProcess
      (ffmpegCommand (simSys taggingRules) "C:/in/flight.mp4".toList "C:/out/frames".toList 1)
      ((simSys taggingRules).createDirectories "C:/out/frames/flight".toList
        telemetryWorld).2).2
    (.exited ["frame=    5\n".toList] 0)
    (fiveFrames.reverse.map (fun p => { path := p, isRegularFile := true }))
    threeFixes
    (by decide!) (by decide!) (by decide!) (by decide!) (by decide!) (by decide!) (by decide!)
    (by decide!) (by decide!) (by decide!)

/-! ### Evaluations on sample data -/

theorem parseSRT_sample : parseSRT (some sampleTelemetry) = .ok sampleFixes := by
  decide!

theorem parseSRT_unopened : parseSRT none = .ok [] := rfl

theorem generateExiftoolCommand_sample :
    generateExiftoolCommand "exiftool.exe".toList "a.jpg".toList (toDouble 37.7749)
      (toDouble (-122.4194)) 12.5 =
      ("\"\"exiftool.exe\" -EXIF:GPSLatitude=\"37 46 29.6400\" -EXIF:GPSLatitudeRef=N " ++
       "-EXIF:GPSLongitude=\"122 25 9.8400\" -EXIF:GPSLongitudeRef=W " ++
       "-EXIF:GPSVersionID=\"2.3.0.0\" -EXIF:GPSMapDatum=\"WGS-84\" " ++
       "-EXIF:GPSAltitude=12.5 -EXIF:GPSAltitudeRef=0 " ++
       "-XMP:GPSLatitude=37.77490000 -XMP:GPSLongitude=-122.41940000 " ++
       "-XMP:GPSAltitude=12.50000000 -overwrite_original \"a.jpg\"\"").toList := by
  decide!

theorem blocks_sample :
    blocks "a\n\n\nb\nc\n\n".toList = ["a".toList, "b\nc".toList] := by
  decide

theorem stod_samples :
    stod "-122.5".toList = .ok (-122.5) ∧ stod "1.2.3".toList = .ok (toDouble 1.2) ∧
      stod "0.1".toList = .ok (3602879701896397 / 36028797018963968) ∧
      stod "-".toList = .error .invalidArgument := by
  decide!

/-- A number with 400 zeros after the point underflows, one with 400 digits
overflows: `std::stod` throws `std::out_of_range`, and so does `parseSRT` for
a block with such a coordinate. -/
theorem stod_range :
    stod ("0.".toList ++ List.replicate 400 '0' ++ "1".toList) = .error .outOfRange ∧
    stod ('1' :: List.replicate 400 '0') = .error .outOfRange ∧
    parseSRT (some ("1\n00:00:00,000 --> 00:00:01,000\nGPS: (0.".toList ++
      List.replicate 400 '0' ++ "1, 52.0)".toList)) = .error .outOfRange := by
  decide!
/-! ### Alignment of the frames with the fixes -/

theorem tagCommands_eq_range (exiftoolPath : List Char) (gpsFrames : List GPSData) (fps : ℚ)
    (frameFiles : List (List Char)) :
    ∀ i, tagCommands exiftoolPath gpsFrames fps frameFiles i =
      (List.range frameFiles.length).filterMap (fun j =>
        if (getGPSForTimestamp gpsFrames (frameTimestamp (i + j) fps)).valid then
          some (generateExiftoolCommand exiftoolPath (frameFiles.getD j [])
            (getGPSForTimestamp gpsFrames (frameTimestamp (i + j) fps)).latitude
            (getGPSForTimestamp gpsFrames (frameTimestamp (i + j) fps)).longitude
            (getGPSForTimestamp gpsFrames (frameTimestamp (i + j) fps)).altitude)
        else none) := by
  induction frameFiles with
  | nil => intro i; rfl
  | cons f rest ih =>
    intro i
    rw [List.length_cons, List.range_succ_eq_map, List.filterMap_cons, List.filterMap_map]
    unfold tagCommands
    rw [ih (i + 1)]
    have hfun : ∀ j : ℕ, i + 1 + j = i + (j + 1) := fun j => by omega
    by_cases hv : (getGPSForTimestamp gpsFrames (frameTimestamp i fps)).valid = true
    · simp only [hv, if_true, Nat.add_zero, List.getD_cons_zero,
        Function.comp_def, List.getD_cons_succ, hfun]
    · simp only [hv, Bool.false_eq_true, if_false, Nat.add_zero,
        Function.comp_def, List.getD_cons_succ, hfun]

theorem getD_eq_getElem (frames : List GPSData) (j : Nat) (hj : j < frames.length) :
    frames.getD j {} = frames[j] := by
  simp [List.getD_eq_getElem?_getD, hj]

/-- At or after the last timestamp of fixes with increasing timestamps, the
fix returned has the computed distance of the last fix; it is the last fix when
no earlier fix has that computed distance. -/
theorem getGPSForTimestamp_clamp (frames : List GPSData) (hne : frames ≠ []) (t : ℚ)
    (hinc : frames.Pairwise (fun a b => a.timestamp < b.timestamp))
    (ht : (frames.getLast hne).timestamp ≤ t) :
    fabs (fsub (getGPSForTimestamp frames t).timestamp t) =
      fabs (fsub (frames.getLast hne).timestamp t) ∧
    ((∀ f ∈ frames.dropLast,
        fabs (fsub f.timestamp t) ≠ fabs (fsub (frames.getLast hne).timestamp t)) →
      getGPSForTimestamp frames t = frames.getLast hne) := by
  obtain ⟨hlt, hmin, -⟩ := closestIndex_spec frames t hne
  have hpos : 0 < frames.length := List.length_pos.mpr hne
  have hn : frames.length - 1 < frames.length := by omega
  rw [getGPSForTimestamp_eq_getD frames t hne, List.getLast_eq_getElem,
    getD_eq_getElem frames _ hlt]
  rw [List.getLast_eq_getElem] at ht
  have hm := hmin (frames.length - 1) hn
  unfold frameDiff at hm
  rw [getD_eq_getElem frames _ hlt, getD_eq_getElem frames _ hn] at hm
  have hle : frames[closestIndex frames t].timestamp ≤ frames[frames.length - 1].timestamp := by
    by_cases hk : closestIndex frames t = frames.length - 1
    · simp only [hk, le_refl]
    · exact le_of_lt ((List.pairwise_iff_getElem.mp hinc) _ _ hlt hn (by omega))
  have hge : fabs (fsub frames[frames.length - 1].timestamp t) ≤
      fabs (fsub frames[closestIndex frames t].timestamp t) := by
    apply fabs_fsub_mono
    rw [abs_of_nonpos (by linarith), abs_of_nonpos (by linarith)]
    linarith
  refine ⟨le_antisymm hm hge, fun hdiff => ?_⟩
  by_cases hk : closestIndex frames t = frames.length - 1
  · simp only [hk]
  · exfalso
    have hkl : closestIndex frames t < frames.length - 1 := by omega
    have hmem : frames[closestIndex frames t] ∈ frames.dropLast := by
      rw [List.dropLast_eq_take]
      have hlen : closestIndex frames t < (frames.take (frames.length - 1)).length := by
        rw [List.length_take]; omega
      have : (frames.take (frames.length - 1))[closestIndex frames t] =
          frames[closestIndex frames t] := by
        simp
      rw [← this]
      exact List.getElem_mem _
    exact hdiff _ hmem (le_antisymm hm hge)

theorem closestIndex_congr (a b c : GPSData) (ha : a.timestamp = 0) (hb : b.timestamp = 1)
    (hc : c.timestamp = 2) (t : ℚ) :
    closestIndex [a, b, c] t =
      closestIndex [{ timestamp := 0 }, { timestamp := 1 }, { timestamp := 2 }] t := by
  simp only [closestIndex, closestLoop, ha, hb, hc]

theorem getGPSForTimestamp_three (a b c : GPSData) (ha : a.timestamp = 0)
    (hb : b.timestamp = 1) (hc : c.timestamp = 2) :
    getGPSForTimestamp [a, b, c] (frameTimestamp 0 1) = a ∧
    getGPSForTimestamp [a, b, c] (frameTimestamp 1 1) = b ∧
    getGPSForTimestamp [a, b, c] (frameTimestamp 2 1) = c ∧
    getGPSForTimestamp [a, b, c] (frameTimestamp 3 1) = c ∧
    getGPSForTimestamp [a, b, c] (frameTimestamp 4 1) = c := by
  have h0 : closestIndex [({ timestamp := 0 } : GPSData), { timestamp := 1 },
      { timestamp := 2 }] (frameTimestamp 0 1) = 0 := by decide!
  have h1 : closestIndex [({ timestamp := 0 } : GPSData), { timestamp := 1 },
      { timestamp := 2 }] (frameTimestamp 1 1) = 1 := by decide!
  have h2 : closestIndex [({ timestamp := 0 } : GPSData), { timestamp := 1 },
      { timestamp := 2 }] (frameTimestamp 2 1) = 2 := by decide!
  have h3 : closestIndex [({ timestamp := 0 } : GPSData), { timestamp := 1 },
      { timestamp := 2 }] (frameTimestamp 3 1) = 2 := by decide!
  have h4 : closestIndex [({ timestamp := 0 } : GPSData), { timestamp := 1 },
      { timestamp := 2 }] (frameTimestamp 4 1) = 2 := by decide!
  refine ⟨?_, ?_, ?_, ?_, ?_⟩ <;>
    rw [getGPSForTimestamp_eq_getD _ _ (List.cons_ne_nil _ _),
      closestIndex_congr a b c ha hb hc]
  · rw [h0]; rfl
  · rw [h1]; rfl
  · rw [h2]; rfl
  · rw [h3]; rfl
  · rw [h4]; rfl

/-- C20: in a run of `extractFrames` with a frame rate other than 0
in which the extraction succeeds, a telemetry file with fixes is found and the
tagging tool is present, the tagging commands are those of the frames in
sorted order, frame `i` with the fix that `getGPSForTimestamp` returns for the
`double` quotient `i / fps`; for fixes with increasing timestamps a time at or
after the last timestamp is aligned to a fix with the computed distance of the
last fix, and to the last fix when no earlier fix has that computed distance;
and with fixes at 0, 1 and 2 seconds and 1 frame per second, frames 0, 1 and 2
get the fixes at 0, 1 and 2 and frames 3 and 4 get the fix at 2. -/
theorem extractFrames_alignment {W : Type} (sys : Sys W)
    (videoPath outputDir : List Char) (fps : ℚ) (s : PState W) (w1 w2 : W) (res : ProcResult)
    (entries : List DirEntry) (gpsFrames : List GPSData)
    (_hfps : fps ≠ 0)
    (htool : sys.pathExists (ffmpegPath sys) s.world = true)
    (hmk : sys.createDirectories (videoOutputDir sys videoPath outputDir) s.world = (.ok (), w1))
    (hrun : sys.runProcess (ffmpegCommand sys videoPath outputDir fps) w1 = (res, w2))
    (hcode : returnCode res = 0)
    (hlist : sys.listDir (videoOutputDir sys videoPath outputDir) w2 = .ok entries)
    (hsrt : siblingSrt sys videoPath w2 ≠ [])
    (hexif : sys.pathExists (exiftoolPath sys) w2 = true)
    (hparse : parseSRT (sys.readFile (siblingSrt sys videoPath w2) w2) = .ok gpsFrames)
    (hne : gpsFrames ≠ []) :
    Op.holds (extractFrames sys videoPath outputDir fps logLine) (fun _ s' =>
      (runs s'.trace).map Prod.fst = (runs s.trace).map Prod.fst ++
        ffmpegCommand sys videoPath outputDir fps ::
          (List.range (sortPaths sys.pathLess (jpgPaths sys entries)).length).filterMap (fun i : ℕ =>
            if (getGPSForTimestamp gpsFrames (frameTimestamp i fps)).valid then
              some (generateExiftoolCommand (exiftoolPath sys)
                ((sortPaths sys.pathLess (jpgPaths sys entries)).getD i [])
                (getGPSForTimestamp gpsFrames (frameTimestamp i fps)).latitude
                (getGPSForTimestamp gpsFrames (frameTimestamp i fps)).longitude
                (getGPSForTimestamp gpsFrames (frameTimestamp i fps)).altitude)
            else none)) s ∧
    (∀ (frames : List GPSData) (hframes : frames ≠ []) (t : ℚ),
      frames.Pairwise (fun a b => a.timestamp < b.timestamp) →
      (frames.getLast hframes).timestamp ≤ t →
      fabs (fsub (getGPSForTimestamp frames t).timestamp t) =
        fabs (fsub (frames.getLast hframes).timestamp t) ∧
      ((∀ f ∈ frames.dropLast,
          fabs (fsub f.timestamp t) ≠ fabs (fsub (frames.getLast hframes).timestamp t)) →
        getGPSForTimestamp frames t = frames.getLast hframes)) ∧
    (∀ a b c : GPSData, a.timestamp = 0 → b.timestamp = 1 → c.timestamp = 2 →
      getGPSForTimestamp [a, b, c] (frameTimestamp 0 1) = a ∧
      getGPSForTimestamp [a, b, c] (frameTimestamp 1 1) = b ∧
      getGPSForTimestamp [a, b, c] (frameTimestamp 2 1) = c ∧
      getGPSForTimestamp [a, b, c] (frameTimestamp 3 1) = c ∧
      getGPSForTimestamp [a, b, c] (frameTimestamp 4 1) = c) := by
  refine ⟨?_, getGPSForTimestamp_clamp, getGPSForTimestamp_three⟩
  refine Op.holds_mono _ _ _ _ (extractFrames_tagging sys videoPath outputDir fps s w1 w2 res
    entries gpsFrames htool hmk hrun hcode hlist hsrt hexif hparse hne) ?_
  rintro r s' ⟨-, codes, hlen, hruns, -⟩
  rw [hruns, List.map_append, List.map_cons, List.map_fst_zip _ _ (Nat.le_of_eq hlen.symm),
    tagCommands_eq_range]
  simp only [Nat.zero_add]

theorem extractFrames_alignment_witness :
    Op.holds (extractFrames (simSys taggingRules) "C:/in/flight.mp4".toList
      "C:/out/frames".toList 1 logLine) (fun _ s' =>
      (runs s'.trace).map Prod.fst = (runs (PState.start telemetryWorld).trace).map Prod.fst ++
        ffmpegCommand (simSys taggingRules) "C:/in/flight.mp4".toList "C:/out/frames".toList 1 ::
          (List.range (sortPaths (simSys taggingRules).pathLess
            (jpgPaths (simSys taggingRules) (fiveFrames.reverse.map
              (fun p => { path := p, isRegularFile := true })))).length).filterMap (fun i : ℕ =>
            if (getGPSForTimestamp threeFixes (frameTimestamp i 1)).valid then
              some (generateExiftoolCommand (exiftoolPath (simSys taggingRules))
                ((sortPaths (simSys taggingRules).pathLess
                  (jpgPaths (simSys taggingRules) (fiveFrames.reverse.map
                    (fun p => { path := p, isRegularFile := true })))).getD i [])
                (getGPSForTimestamp threeFixes (frameTimestamp i 1)).latitude
                (getGPSForTimestamp threeFixes (frameTimestamp i 1)).longitude
                (getGPSForTimestamp threeFixes (frameTimestamp i 1)).altitude)
            else none)) (PState.start telemetryWorld) ∧
    (runs (extractFrames (simSys taggingRules) "C:/in/flight.mp4".toList
      "C:/out/frames".toList 1 logLine (PState.start telemetryWorld)).2.trace).map Prod.fst =
      [ffmpegCommand (simSys taggingRules) "C:/in/flight.mp4".toList "C:/out/frames".toList 1,
        generateExiftoolCommand "C:/app/vendor/exiftool/exiftool.exe".toList
          "C:/out/frames/flight/flight_frame_0001.jpg".toList 52 4.5 10,
        generateExiftoolCommand "C:/app/vendor/exiftool/exiftool.exe".toList
          "C:/out/frames/flight/flight_frame_0002.jpg".toList 52.5 4.5 20,
        generateExiftoolCommand "C:/app/vendor/exiftool/exiftool.exe".toList
          "C:/out/frames/flight/flight_frame_0003.jpg".toList 53 4.5 30,
        generateExiftoolCommand "C:/app/vendor/exiftool/exiftool.exe".toList
          "C:/out/frames/flight/flight_frame_0004.jpg".toList 53 4.5 30,
        generateExiftoolCommand "C:/app/vendor/exiftool/exiftool.exe".toList
          "C:/out/frames/flight/flight_frame_0005.jpg".toList 53 4.5 30] :=
  ⟨(extractFrames_alignment (simSys taggingRules) "C:/in/flight.mp4".toList
    "C:/out/frames".toList 1 (PState.start telemetryWorld)
    ((simSys taggingRules).createDirectories "C:/out/frames/flight".toList telemetryWorld).2
    ((simSys taggingRules).runProcess
      (ffmpegCommand (simSys taggingRules) "C:/in/flight.mp4".toList "C:/out/frames".toList 1)
      ((simSys taggingRules).createDirectories "C:/out/frames/flight".toList
        telemetryWorld).2).2
    (.exited ["frame=    5\n".toList] 0)
    (fiveFrames.reverse.map (fun p => { path := p, isRegularFile := true }))
    threeFixes
    (by decide!) (by decide!) (by decide!) (by decide!) (by decide!) (by decide!) (by decide!)
    (by decide!) (by decide!) (by decide!)).1, by decide!⟩


/-- C20, counterexample: the fixes of the scenario, at 0, 1 and 2 seconds, and
the frame rate `2 ^ (-55)`.  The capture time of frame 1 is `2 ^ 55` seconds,
beyond the last timestamp, and the three computed distances are the same
`double`, `2 ^ 55`: the frame is aligned to the first fix, not to the fix with
the last timestamp. -/
theorem getGPSForTimestamp_beyond_last_returns_first :
    parseSRT (some threeFixTelemetry) = .ok threeFixes ∧
    threeFixes.Pairwise (fun a b => a.timestamp < b.timestamp) ∧
    frameTimestamp 1 (1 / 2 ^ 55) = 2 ^ 55 ∧
    (threeFixes.getD 2 {}).timestamp ≤ frameTimestamp 1 (1 / 2 ^ 55) ∧
    getGPSForTimestamp threeFixes (frameTimestamp 1 (1 / 2 ^ 55)) = threeFixes.getD 0 {} ∧
    threeFixes.getD 0 {} ≠ threeFixes.getD 2 {} ∧
    tagCommands "exiftool.exe".toList threeFixes (1 / 2 ^ 55)
        ["f1.jpg".toList, "f2.jpg".toList] 0 =
      [generateExiftoolCommand "exiftool.exe".toList "f1.jpg".toList 52 4.5 10,
        generateExiftoolCommand "exiftool.exe".toList "f2.jpg".toList 52 4.5 10] := by
  decide!
/-! ### Failure of the extraction in `runPipeline` -/

/-- C15, failing input: the extraction tool exits with 1 and leaves no frame,
for the single video and for both videos of a folder.  `extractFrames` returns
false, `runPipeline` logs the warning, then that the extraction completed
successfully, runs the four steps of COLMAP on the combined folder and returns
true. -/
theorem runPipeline_continues_after_failed_extraction :
    (extractFrames (simSys failingExtraction) "C:/in/flight.mp4".toList "C:/out/frames".toList 1
      logLine (PState.start sampleWorld)).1 = .ok false ∧
    ((runPipeline (simSys failingExtraction) sampleConfig logLine (PState.start sampleWorld)).1 =
        .ok true ∧
      (runs (runPipeline (simSys failingExtraction) sampleConfig logLine
        (PState.start sampleWorld)).2.trace) =
        [(ffmpegCommand (simSys failingExtraction) "C:/in/flight.mp4".toList
            "C:/out/frames".toList 1, 1),
          (featureExtractorCommand (simSys failingExtraction) "C:/out/frames/flight".toList
            "C:/out".toList, 0),
          (matcherCommand (simSys failingExtraction) "C:/out".toList, 0),
          (mapperCommand (simSys failingExtraction) "C:/out/frames/flight".toList
            "C:/out".toList, 0),
          (undistorterCommand (simSys failingExtraction) "C:/out/frames/flight".toList
            "C:/out".toList, 0)] ∧
      "WARNING: Frame extraction failed for C:/in/flight.mp4".toList ∈
        logged (runPipeline (simSys failingExtraction) sampleConfig logLine
          (PState.start sampleWorld)).2.trace ∧
      "Frame extraction completed successfully".toList ∈
        logged (runPipeline (simSys failingExtraction) sampleConfig logLine
          (PState.start sampleWorld)).2.trace) ∧
    ((runPipeline (simSys failingExtraction) folderConfig logLine (PState.start folderWorld)).1 =
        .ok true ∧
      (runs (runPipeline (simSys failingExtraction) folderConfig logLine
        (PState.start folderWorld)).2.trace) =
        [(ffmpegCommand (simSys failingExtraction) "C:/in/a.mp4".toList
            "C:/out/frames".toList 1, 1),
          (ffmpegCommand (simSys failingExtraction) "C:/in/b.mp4".toList
            "C:/out/frames".toList 1, 1),
          (featureExtractorCommand (simSys failingExtraction) "C:/out/frames/combined".toList
            "C:/out".toList, 0),
          (matcherCommand (simSys failingExtraction) "C:/out".toList, 0),
          (mapperCommand (simSys failingExtraction) "C:/out/frames/combined".toList
            "C:/out".toList, 0),
          (undistorterCommand (simSys failingExtraction) "C:/out/frames/combined".toList
            "C:/out".toList, 0)] ∧
      "WARNING: Frame extraction failed for C:/in/a.mp4".toList ∈
        logged (runPipeline (simSys failingExtraction) folderConfig logLine
          (PState.start folderWorld)).2.trace ∧
      "WARNING: Frame extraction failed for C:/in/b.mp4".toList ∈
        logged (runPipeline (simSys failingExtraction) folderConfig logLine
          (PState.start folderWorld)).2.trace) := by
  decide!

/-! ### Lines with a lone carriage return -/

/-- C30, failing input: in `parseSRT` a line that consists of a carriage return
passes the test `!line.empty() && line != "\\r"`, whose literal is the two
characters backslash and `r`.  The line is kept in `lines`: it counts toward
the minimum of 3 lines (first block: a fix is emitted from two other lines), it
is taken as the timestamp line `lines[1]` (second block: no fix), and it is
joined into the metadata (third block).  The line that is dropped is the text
backslash, `r`. -/
theorem parseSRT_keeps_carriage_return_line :
    blockLines "\r\n00:00:01,000 --> 00:00:02,000\nGPS: (1.5, 2.5)".toList =
      ["\r".toList, "00:00:01,000 --> 00:00:02,000".toList, "GPS: (1.5, 2.5)".toList] ∧
    parseSRT (some "\r\n00:00:01,000 --> 00:00:02,000\nGPS: (1.5, 2.5)".toList) =
      .ok [{ latitude := 2.5, longitude := 1.5, altitude := 0, timestamp := 1, valid := true }] ∧
    parseSRT (some "00:00:01,000 --> 00:00:02,000\nGPS: (1.5, 2.5)".toList) = .ok [] ∧
    parseSRT (some "1\n\r\n00:00:01,000 --> 00:00:02,000\nGPS: (1.5, 2.5)".toList) = .ok [] ∧
    parseSRT (some "1\n00:00:01,000 --> 00:00:02,000\nGPS: (1.5, 2.5)".toList) =
      .ok [{ latitude := 2.5, longitude := 1.5, altitude := 0, timestamp := 1, valid := true }] ∧
    joinMetadata (blockLines "1\n00:00:01,000 --> 00:00:02,000\n\r\nGPS: (1.5, 2.5)".toList) =
      "\r GPS: (1.5, 2.5) ".toList ∧
    blockLines "\\r\n00:00:01,000 --> 00:00:02,000\nGPS: (1.5, 2.5)".toList =
      ["00:00:01,000 --> 00:00:02,000".toList, "GPS: (1.5, 2.5)".toList] := by
  decide!

/-! ### Seconds that print as 60 -/

/-- C27, failing input: for the `double` nearest to 0.9999999999 the computed
seconds are about 59.9999996, which `std::fixed` with precision 4 prints as
`60.0000`: the text is `0 59 60.0000`, and the seconds field is not less than
60.  The same happens at `179.99999999` and at `-33.99999999`. -/
theorem decimalToDMS_prints_sixty_seconds :
    decimalToDMS (toDouble 0.9999999999) = "0 59 60.0000".toList ∧
    readDMS (decimalToDMS (toDouble 0.9999999999)) = some (0, 59, 60) ∧
    decimalToDMS (toDouble 179.99999999) = "179 59 60.0000".toList ∧
    decimalToDMS (toDouble (-33.99999999)) = "33 59 60.0000".toList := by
  decide!

/-! ### Captures that are not numbers -/

/-- C26, failing input: the patterns capture `[\-\d\.]+`, which a text without
a digit matches.  In the block below `altRegex1` captures `-` from `H: -m`;
`std::stod` throws `std::invalid_argument` and `parseSRT` has no handler, so
it throws as well; the fix of a well-formed block before it is lost with it.
The same happens for a coordinate captured as `.`. -/
theorem parseSRT_throws_on_bare_sign :
    (regexSearch altRegex1 "GPS: (4.5, 52.0) H: -m ".toList).map (fun m => m.group 1) =
      some "-".toList ∧
    stod "-".toList = .error .invalidArgument ∧
    parseSRT (some "1\n00:00:00,000 --> 00:00:01,000\nGPS: (4.5, 52.0) H: -m".toList) =
      .error .invalidArgument ∧
    parseSRT (some "1\n00:00:00,000 --> 00:00:01,000\nGPS: (4.5, 52.0) H: 10m".toList) =
      .ok [{ latitude := 52, longitude := 4.5, altitude := 10, timestamp := 0, valid := true }] ∧
    parseSRT (some ("1\n00:00:00,000 --> 00:00:01,000\nGPS: (4.5, 52.0) H: 10m\n\n" ++
      "2\n00:00:01,000 --> 00:00:02,000\nGPS: (4.5, 52.5) H: -m").toList) =
      .error .invalidArgument ∧
    parseSRT (some "1\n00:00:00,000 --> 00:00:01,000\nGPS: (., 52.0)".toList) =
      .error .invalidArgument := by
  decide!

/-! ### A video without telemetry -/

/-- C21: in a run of `extractFrames` in which the extraction succeeds and
neither sibling file `.SRT` nor `.srt` exists, the only command run is the
extraction command; the last two lines given to the sink are the count of
frames and the line `ℹ No SRT file found for this video - skipping GPS
embedding`, which does not begin with `ERROR` or `WARNING`; and the result is
whether the number of frames is positive. -/
theorem extractFrames_without_telemetry {W : Type} (sys : Sys W)
    (videoPath outputDir : List Char) (fps : ℚ) (s : PState W) (w1 w2 : W) (res : ProcResult)
    (entries : List DirEntry)
    (htool : sys.pathExists (ffmpegPath sys) s.world = true)
    (hmk : sys.createDirectories (videoOutputDir sys videoPath outputDir) s.world = (.ok (), w1))
    (hrun : sys.runProcess (ffmpegCommand sys videoPath outputDir fps) w1 = (res, w2))
    (hcode : returnCode res = 0)
    (hlist : sys.listDir (videoOutputDir sys videoPath outputDir) w2 = .ok entries)
    (hupper : sys.pathExists (sys.replaceExtension videoPath ".SRT".toList) w2 = false)
    (hlower : sys.pathExists (sys.replaceExtension videoPath ".srt".toList) w2 = false) :
    Op.holds (extractFrames sys videoPath outputDir fps logLine) (fun r s' =>
      r = .ok (decide (0 < (jpgPaths sys entries).length)) ∧
      runs s'.trace = runs s.trace ++ [(ffmpegCommand sys videoPath outputDir fps, 0)] ∧
      (∃ t, logged s'.trace = t ++
        ["Extracted ".toList ++ natChars (jpgPaths sys entries).length ++
            " frames to: ".toList ++ videoOutputDir sys videoPath outputDir,
          "ℹ No SRT file found for this video - skipping GPS embedding".toList]) ∧
      "ERROR".toList.isPrefixOf
        "ℹ No SRT file found for this video - skipping GPS embedding".toList = false ∧
      containsText "WARNING".toList
        "ℹ No SRT file found for this video - skipping GPS embedding".toList = false) s := by
  refine extractFrames_of_run sys videoPath outputDir fps s w1 w2 res _ htool hmk hrun
    (fun hc => absurd hcode hc) ?_
  intro _ s1 hw _ hr
  unfold countAndEmbed embedTelemetry
  simp only [Op.holds_bind, Op.holds_queryE, Op.holds_query, Op.holds_logLine, Op.holds_attempt,
    Op.holds_pure, hw, hlist, hupper, hlower, Bool.false_eq_true, if_false, List.isEmpty_nil,
    Bool.not_true, gt_iff_lt]
  refine ⟨trivial, ?_, ⟨logged s1.trace, ?_⟩, by decide, by decide⟩
  · rw [runs_append_log, runs_append_log, hr]
  · rw [logged_append, logged_append, List.append_assoc]
    rfl

theorem extractFrames_without_telemetry_witness :
    Op.holds (extractFrames (simSys goodExtraction) "C:/in/flight.mp4".toList
      "C:/out/frames".toList 1 logLine) (fun r s' =>
      r = .ok true ∧
      runs s'.trace = [(ffmpegCommand (simSys goodExtraction) "C:/in/flight.mp4".toList
        "C:/out/frames".toList 1, 0)] ∧
      (∃ t, logged s'.trace = t ++
        ["Extracted 2 frames to: C:/out/frames/flight".toList,
          "ℹ No SRT file found for this video - skipping GPS embedding".toList]) ∧
      "ERROR".toList.isPrefixOf
        "ℹ No SRT file found for this video - skipping GPS embedding".toList = false ∧
      containsText "WARNING".toList
        "ℹ No SRT file found for this video - skipping GPS embedding".toList = false)
      (PState.start sampleWorld) :=
  extractFrames_without_telemetry (simSys goodExtraction) "C:/in/flight.mp4".toList
    "C:/out/frames".toList 1 (PState.start sampleWorld)
    ((simSys goodExtraction).createDirectories "C:/out/frames/flight".toList sampleWorld).2
    ((simSys goodExtraction).runProcess
      (ffmpegCommand (simSys goodExtraction) "C:/in/flight.mp4".toList "C:/out/frames".toList 1)
      ((simSys goodExtraction).createDirectories "C:/out/frames/flight".toList sampleWorld).2).2
    (.exited ["frame=    2\n".toList] 0)
    [{ path := "C:/out/frames/flight/flight_frame_0001.jpg".toList, isRegularFile := true },
      { path := "C:/out/frames/flight/flight_frame_0002.jpg".toList, isRegularFile := true }]
    (by decide!) (by decide!) (by decide!) (by decide!) (by decide!) (by decide!) (by decide!)

/-! ### The tail of the Metashape log -/

/-- C22: when the executable is present, the directories and the script are
created and the external call returns non-zero, `runMetashape` returns false,
and for a log file that can be read the last lines given to the sink are the
two error lines, the heading, and then, each after two spaces, the last
`min (n, 10)` of the `n` lines of the log file in their order, and no earlier
line of it. -/
theorem runMetashape_log_tail {W : Type} (sys : Sys W)
    (framesDir outputDir metashapeExe : List Char) (s : PState W) (w1 w2 w3 w4 : W)
    (res : ProcResult) (content : List Char)
    (hexe : metashapeExe.isEmpty = false)
    (hexists : sys.pathExists metashapeExe s.world = true)
    (h1 : sys.createDirectories (msSparseDir sys outputDir) s.world = (.ok (), w1))
    (h2 : sys.createDirectories (msImagesDir sys outputDir) w1 = (.ok (), w2))
    (hscript : sys.writeFile (msScriptPath sys outputDir)
      (metashapeScript framesDir outputDir (msSparseDir sys outputDir)
        (msImagesDir sys outputDir)) w2 = (true, w3))
    (hrun : sys.runProcess (metashapeCommand sys outputDir metashapeExe) w3 = (res, w4))
    (hcode : returnCode res ≠ 0)
    (hlog : sys.readFile (msLogPath sys outputDir) w4 = some content) :
    Op.holds (runMetashape sys framesDir outputDir metashapeExe logLine) (fun r s' =>
      r = .ok false ∧
      ∃ (t earlier tail : List (List Char)),
        getLines content = earlier ++ tail ∧
        tail.length = min (getLines content).length 10 ∧
        logged s'.trace = t ++
          ["ERROR: Metashape processing failed".toList,
            "Check log file for details: ".toList ++ msLogPath sys outputDir,
            "Last lines from Metashape log:".toList] ++
          tail.map (fun line => "  ".toList ++ line)) s := by
  unfold runMetashape
  simp only [msSparseDir, msImagesDir, msScriptPath, msLogPath, metashapeCommand]
    at h1 h2 hscript hrun hlog ⊢
  simp only [Op.holds_bind, Op.holds_query, Op.holds_pure, Op.holds_logLine, Op.holds_attempt,
    createDirectories, writeFile, Op.holds_act, hexe, hexists, h1, h2, hscript, Bool.not_true,
    Bool.false_eq_true, if_false, Bool.or_self]
  refine Op.holds_runCommand_of _ _ _ _ (fun s1 hw _ _ => ?_)
  simp only [hrun] at hw
  simp only [runCode, hrun, ne_eq, hcode, not_false_eq_true, if_true, Op.holds_bind,
    Op.holds_logLine, Op.holds_query, hw, hlog, Op.holds_logAll, Op.holds_pure]
  refine ⟨trivial, logged s1.trace,
    (getLines content).take
      (if (getLines content).length > 10 then (getLines content).length - 10 else 0),
    (getLines content).drop
      (if (getLines content).length > 10 then (getLines content).length - 10 else 0),
    (List.take_append_drop _ _).symm, ?_, ?_⟩
  · rw [List.length_drop]
    split <;> omega
  · simp only [logged_append, logged_map_log, logged_singleton_log, logged_cons_log,
      List.append_assoc, List.singleton_append, List.cons_append, List.nil_append]

theorem runMetashape_log_tail_witness :
    Op.holds (runMetashape (simSys failingMetashape) "C:/out/frames/flight".toList
      "C:/out".toList "C:/ms/metashape.exe".toList logLine) (fun r s' =>
      r = .ok false ∧
      ∃ (t earlier tail : List (List Char)),
        getLines twelveLineLog = earlier ++ tail ∧
        tail.length = min (getLines twelveLineLog).length 10 ∧
        logged s'.trace = t ++
          ["ERROR: Metashape processing failed".toList,
            "Check log file for details: ".toList ++
              msLogPath (simSys failingMetashape) "C:/out".toList,
            "Last lines from Metashape log:".toList] ++
          tail.map (fun line => "  ".toList ++ line)) (PState.start metashapeWorld) ∧
    (logged (runMetashape (simSys failingMetashape) "C:/out/frames/flight".toList
      "C:/out".toList "C:/ms/metashape.exe".toList logLine
      (PState.start metashapeWorld)).2.trace).drop 6 =
      ["Last lines from Metashape log:".toList, "  l3".toList, "  l4".toList, "  l5".toList,
        "  l6".toList, "  l7".toList, "  l8".toList, "  l9".toList, "  l10".toList,
        "  l11".toList, "  l12".toList] :=
  ⟨runMetashape_log_tail (simSys failingMetashape) "C:/out/frames/flight".toList
    "C:/out".toList "C:/ms/metashape.exe".toList (PState.start metashapeWorld)
    ((simSys failingMetashape).createDirectories "C:/out/sparse/0".toList metashapeWorld).2
    ((simSys failingMetashape).createDirectories "C:/out/images".toList
      ((simSys failingMetashape).createDirectories "C:/out/sparse/0".toList metashapeWorld).2).2
    ((simSys failingMetashape).writeFile "C:/out/metashape_process.py".toList
      (metashapeScript "C:/out/frames/flight".toList "C:/out".toList "C:/out/sparse/0".toList
        "C:/out/images".toList)
      ((simSys failingMetashape).createDirectories "C:/out/images".toList
        ((simSys failingMetashape).createDirectories "C:/out/sparse/0".toList
          metashapeWorld).2).2).2
    ((simSys failingMetashape).runProcess
      (metashapeCommand (simSys failingMetashape) "C:/out".toList "C:/ms/metashape.exe".toList)
      ((simSys failingMetashape).writeFile "C:/out/metashape_process.py".toList
        (metashapeScript "C:/out/frames/flight".toList "C:/out".toList "C:/out/sparse/0".toList
          "C:/out/images".toList)
        ((simSys failingMetashape).createDirectories "C:/out/images".toList
          ((simSys failingMetashape).createDirectories "C:/out/sparse/0".toList
            metashapeWorld).2).2).2).2
    (.exited [] 1) twelveLineLog
    (by decide!) (by decide!) (by decide!) (by decide!) (by decide!) (by decide!) (by decide!)
    (by decide!), by decide!⟩

/-! ### Invalid configurations -/

theorem onlyLogs_refl (t : List Event) : ∃ lines : List (List Char), t = t ++ lines.map Event.log :=
  ⟨[], (List.append_nil t).symm⟩

theorem onlyLogs_snoc (t u : List Event) (line : List Char)
    (h : ∃ lines : List (List Char), u = t ++ lines.map Event.log) :
    ∃ lines : List (List Char), u ++ [Event.log line] = t ++ lines.map Event.log := by
  obtain ⟨lines, hl⟩ := h
  exact ⟨lines ++ [line], by rw [hl, List.map_append, List.append_assoc]; rfl⟩

/-- C23: when the source path is empty, the output directory is empty, or the
source path does not exist, `runPipeline` returns false; the world is as
before the call, and everything that the run did is giving lines to the sink:
no command is run and no directory is created. -/
theorem runPipeline_invalid_configuration {W : Type} (sys : Sys W) (config : PipelineConfig)
    (s : PState W)
    (h : config.videoPath = [] ∨ config.outputBaseDir = [] ∨
      sys.pathExists config.videoPath s.world = false) :
    Op.holds (runPipeline sys config logLine) (fun r s' =>
      r = .ok false ∧ s'.world = s.world ∧
      ∃ lines : List (List Char), s'.trace = s.trace ++ lines.map Event.log) s := by
  unfold runPipeline checkVendorFiles
  cases hf : sys.pathExists (sys.join (sys.join (sys.join (sys.join sys.exeDir
      "vendor".toList) "ffmpeg".toList) "bin".toList) "ffmpeg.exe".toList) s.world <;>
  cases hc : sys.pathExists (sys.join (sys.join (sys.join (sys.join sys.exeDir
      "vendor".toList) "colmap".toList) "bin".toList) "colmap.bat".toList) s.world <;>
  cases hv : config.videoPath.isEmpty <;>
  cases ho : config.outputBaseDir.isEmpty <;>
  cases he : sys.pathExists config.videoPath s.world
  all_goals
    first
    | (exfalso
       rcases h with h | h | h
       · rw [h] at hv; exact Bool.noConfusion hv
       · rw [h] at ho; exact Bool.noConfusion ho
       · rw [h] at he; exact Bool.noConfusion he)
    | (simp only [Op.holds_bind, Op.holds_query, Op.holds_pure, Op.holds_logLine, hf, hc, hv, ho,
         he, Bool.not_true, Bool.not_false, Bool.false_eq_true, if_false, if_true]
       refine ⟨trivial, trivial, ?_⟩
       repeat' first
         | exact onlyLogs_refl _
         | apply onlyLogs_snoc)

theorem runPipeline_invalid_configuration_witness :
    Op.holds (runPipeline (simSys failingExtraction)
      { sampleConfig with videoPath := "C:/in/missing.mp4".toList } logLine) (fun r s' =>
      r = .ok false ∧ s'.world = sampleWorld ∧
      ∃ lines : List (List Char),
        s'.trace = (PState.start sampleWorld).trace ++ lines.map Event.log)
      (PState.start sampleWorld) :=
  runPipeline_invalid_configuration (simSys failingExtraction)
    { sampleConfig with videoPath := "C:/in/missing.mp4".toList } (PState.start sampleWorld)
    (Or.inr (Or.inr (by decide)))

/-! ### The last line of a failed run -/

theorem Op.holds_of_forall {W : Type} {α : Type} (m : Op W α)
    (Q : Except Exc α → PState W → Prop) (s : PState W)
    (h : ∀ (r : Except Exc α) (s' : PState W), Q r s') : Op.holds m Q s :=
  h _ _

/-- The trace ends with a line given to the sink that begins with `ERROR`. -/
theorem endsWithError_snoc (t : List Event) (line rest : List Char)
    (h : line = "ERROR".toList ++ rest) :
    ∃ (u : List Event) (l : List Char), t ++ [Event.log line] = u ++ [Event.log l] ∧
      "ERROR".toList <+: l :=
  ⟨t, line, rfl, rest, h.symm⟩

/-- When `reconstruct` returns false, the last thing it did is giving a line
that begins with `ERROR` to the sink. -/
theorem reconstruct_error_last {W : Type} (sys : Sys W) (config : PipelineConfig)
    (actualFramesDir : List Char) (s : PState W) :
    Op.holds (reconstruct sys config actualFramesDir logLine) (fun r s' =>
      r = .ok false → ∃ (u : List Event) (l : List Char), s'.trace = u ++ [Event.log l] ∧
        "ERROR".toList <+: l) s := by
  unfold reconstruct
  by_cases hsp : ' ' ∈ config.videoPath ∨ ' ' ∈ config.outputBaseDir <;>
  cases hm : config.method
  all_goals
    simp only [Op.holds_bind, Op.holds_logLine, Op.holds_pure, Op.holds_logAll, Op.holds_act,
      Op.holds_ite, hsp, hm, if_true, if_false, reduceCtorEq]
    refine Op.holds_of_forall _ _ _ (fun r s' => ?_)
    rcases r with e | a
    · simp
    · cases a
      · simp only [Op.holds_bind, Op.holds_logLine, Op.holds_pure, Bool.not_false, if_true]
        exact fun _ => endsWithError_snoc _ _ ": 3D reconstruction failed".toList rfl
      · simp [Op.holds_bind, Op.holds_logLine, Op.holds_pure]

/-- When `extractAndReconstruct` returns false, the last thing it did is giving
a line that begins with `ERROR` to the sink. -/
theorem extractAndReconstruct_error_last {W : Type} (sys : Sys W) (config : PipelineConfig)
    (framesDir : List Char) (videoFiles : List (List Char)) (outputFolderName : List Char)
    (s : PState W) :
    Op.holds (extractAndReconstruct sys config framesDir videoFiles outputFolderName logLine)
      (fun r s' => r = .ok false → ∃ (u : List Event) (l : List Char),
        s'.trace = u ++ [Event.log l] ∧ "ERROR".toList <+: l) s := by
  unfold extractAndReconstruct
  simp only [Op.holds_bind, Op.holds_logLine]
  refine Op.holds_attempt_any _ _ _ (fun r s1 => ?_)
  rcases r with e | _
  · simp only [Op.holds_bind, Op.holds_logLine, Op.holds_pure]
    exact fun _ => endsWithError_snoc _ _
      (" creating combined frames directory: ".toList ++ e.what) rfl
  · simp only [Op.holds_bind]
    refine Op.holds_of_forall _ _ _ (fun r s2 => ?_)
    rcases r with e | totalFrames
    · simp
    · simp only [Op.holds_logLine]
      exact reconstruct_error_last sys config _ _

/-- C24: whenever `runPipeline` returns false, the last thing the run did is
giving a line that begins with `ERROR` to the sink: in a run that starts with
an empty record of the sink, the record ends with that line. -/
theorem runPipeline_false_ends_with_error {W : Type} (sys : Sys W) (config : PipelineConfig)
    (w : W) :
    Op.holds (runPipeline sys config logLine) (fun r s' =>
      r = .ok false → ∃ (u : List Event) (l : List Char), s'.trace = u ++ [Event.log l] ∧
        "ERROR".toList <+: l ∧ l ∈ logged s'.trace) (PState.start w) := by
  refine Op.holds_mono _ (fun r s' => r = .ok false → ∃ (u : List Event) (l : List Char),
    s'.trace = u ++ [Event.log l] ∧ "ERROR".toList <+: l) _ _ ?_ ?_
  · generalize PState.start w = s
    unfold runPipeline checkVendorFiles
    cases hf : sys.pathExists (sys.join (sys.join (sys.join (sys.join sys.exeDir
        "vendor".toList) "ffmpeg".toList) "bin".toList) "ffmpeg.exe".toList) s.world <;>
    cases hc : sys.pathExists (sys.join (sys.join (sys.join (sys.join sys.exeDir
        "vendor".toList) "colmap".toList) "bin".toList) "colmap.bat".toList) s.world <;>
    cases hv : config.videoPath.isEmpty <;>
    cases ho : config.outputBaseDir.isEmpty <;>
    cases he : sys.pathExists config.videoPath s.world <;>
    simp only [Op.holds_bind, Op.holds_query, Op.holds_pure, Op.holds_logLine, hf, hc, hv, ho,
      he, Bool.not_true, Bool.not_false, Bool.false_eq_true, if_false, if_true]
    any_goals exact fun _ => endsWithError_snoc _ _ _ rfl
    refine Op.holds_attempt_any _ _ _ (fun r s1 => ?_)
    rcases r with e | _
    · simp only [Op.holds_bind, Op.holds_logLine, Op.holds_pure]
      exact fun _ => endsWithError_snoc _ _ (" creating directories: ".toList ++ e.what) rfl
    · cases hd : sys.isDirectory config.videoPath s1.world
      · simp only [Op.holds_bind, Op.holds_query, Op.holds_pure, Op.holds_logLine, hd,
          Bool.false_eq_true, if_false]
        exact extractAndReconstruct_error_last sys config _ _ _ _
      · simp only [Op.holds_bind, Op.holds_query, Op.holds_queryE, Op.holds_pure,
          Op.holds_logLine, hd, if_true]
        rcases hl : sys.listDir config.videoPath s1.world with e | entries
        · simp
        · cases hn : (scanVideos sys entries).isEmpty
          · simp only [Op.holds_bind, Op.holds_logLine, Op.holds_logAll, hn,
              Bool.false_eq_true, if_false]
            exact extractAndReconstruct_error_last sys config _ _ _ _
          · simp only [Op.holds_bind, Op.holds_logLine, Op.holds_pure, hn, if_true]
            exact fun _ => endsWithError_snoc _ _ ": No video files found in folder".toList rfl
  · rintro r s' h hr
    obtain ⟨u, l, hu, hl⟩ := h hr
    exact ⟨u, l, hu, hl, by rw [hu, logged_append]; simp [logged_singleton_log]⟩

/-! ### The frames directory of a folder with one video -/

/-- C25, failing input: the source is the folder `C:/in`, which holds the one
video `flight.mp4`; the extraction succeeds and leaves two frames in
`C:/out/frames/flight`.  As `videoFiles.size() > 1` is false the frames are not
copied, and the backend is run on `C:/out/frames/combined`, which holds no
frame, at the end of the run as well. -/
theorem runPipeline_folder_of_one_video :
    (simSys goodExtraction).isDirectory oneVideoFolderConfig.videoPath sampleWorld = true ∧
    scanVideos (simSys goodExtraction) (Sim.entries "C:/in".toList sampleWorld) =
      ["C:/in/flight.mp4".toList] ∧
    (runPipeline (simSys goodExtraction) oneVideoFolderConfig logLine
      (PState.start sampleWorld)).1 = .ok true ∧
    (runs (runPipeline (simSys goodExtraction) oneVideoFolderConfig logLine
      (PState.start sampleWorld)).2.trace) =
      [(ffmpegCommand (simSys goodExtraction) "C:/in/flight.mp4".toList
          "C:/out/frames".toList 1, 0),
        (featureExtractorCommand (simSys goodExtraction) "C:/out/frames/combined".toList
          "C:/out".toList, 0),
        (matcherCommand (simSys goodExtraction) "C:/out".toList, 0),
        (mapperCommand (simSys goodExtraction) "C:/out/frames/combined".toList
          "C:/out".toList, 0),
        (undistorterCommand (simSys goodExtraction) "C:/out/frames/combined".toList
          "C:/out".toList, 0)] ∧
    (simSys goodExtraction).listDir "C:/out/frames/combined".toList
      (runPipeline (simSys goodExtraction) oneVideoFolderConfig logLine
        (PState.start sampleWorld)).2.world = .ok [] ∧
    ((simSys goodExtraction).listDir "C:/out/frames/flight".toList
      (runPipeline (simSys goodExtraction) oneVideoFolderConfig logLine
        (PState.start sampleWorld)).2.world).map (jpgPaths (simSys goodExtraction)) =
      .ok ["C:/out/frames/flight/flight_frame_0001.jpg".toList,
        "C:/out/frames/flight/flight_frame_0002.jpg".toList] ∧
    "Total frames extracted: 2".toList ∈
      logged (runPipeline (simSys goodExtraction) oneVideoFolderConfig logLine
        (PState.start sampleWorld)).2.trace := by
  decide!

/-! ### One tagging command for each frame -/

theorem parseSRT_all_valid (file : Option (List Char)) (fixes : List GPSData)
    (h : parseSRT file = .ok fixes) : ∀ f ∈ fixes, f.valid = true := by
  cases file with
  | none =>
    simp only [parseSRT, pure, Except.pure, Except.ok.injEq] at h
    subst h
    intro f hf
    exact absurd hf (List.not_mem_nil f)
  | some content =>
    have hfix := parseBlocks_ok (blocks content) [] fixes h
    rw [List.nil_append] at hfix
    intro f hf
    rw [hfix, List.mem_filterMap] at hf
    obtain ⟨b, -, hb⟩ := hf
    exact blockFix_valid b f hb

theorem getGPSForTimestamp_mem (frames : List GPSData) (t : ℚ) (hne : frames ≠ []) :
    getGPSForTimestamp frames t ∈ frames := by
  obtain ⟨hlt, -, -⟩ := closestIndex_spec frames t hne
  rw [getGPSForTimestamp_eq_getD frames t hne, getD_eq_getElem frames _ hlt]
  exact List.getElem_mem _

theorem filterMap_some_map {α β : Type} (f : α → β) (l : List α) :
    l.filterMap (fun a => some (f a)) = l.map f := by
  induction l with
  | nil => rfl
  | cons a rest ih => simp [List.filterMap_cons, ih]

theorem tagCommands_of_valid (exiftoolPath : List Char) (gpsFrames : List GPSData) (fps : ℚ)
    (hvalid : ∀ t, (getGPSForTimestamp gpsFrames t).valid = true)
    (frameFiles : List (List Char)) :
    ∀ i, tagCommands exiftoolPath gpsFrames fps frameFiles i =
      (List.range frameFiles.length).map (fun j =>
        generateExiftoolCommand exiftoolPath (frameFiles.getD j [])
          (getGPSForTimestamp gpsFrames (frameTimestamp (i + j) fps)).latitude
          (getGPSForTimestamp gpsFrames (frameTimestamp (i + j) fps)).longitude
          (getGPSForTimestamp gpsFrames (frameTimestamp (i + j) fps)).altitude) := by
  intro i
  rw [tagCommands_eq_range]
  simp only [hvalid, if_true]
  exact filterMap_some_map _ _

/-- C28: in a run of `extractFrames` with a frame rate other than 0 in which
the extraction succeeds, the telemetry file parses to at least one fix and the
tagging tool is present, every fix is valid, the fix aligned with a frame is
one of them, and the commands run after the extraction command are exactly one
tagging command for each of the frames, in sorted order. -/
theorem extractFrames_tags_every_frame {W : Type} (sys : Sys W)
    (videoPath outputDir : List Char) (fps : ℚ) (s : PState W) (w1 w2 : W) (res : ProcResult)
    (entries : List DirEntry) (gpsFrames : List GPSData)
    (_hfps : fps ≠ 0)
    (htool : sys.pathExists (ffmpegPath sys) s.world = true)
    (hmk : sys.createDirectories (videoOutputDir sys videoPath outputDir) s.world = (.ok (), w1))
    (hrun : sys.runProcess (ffmpegCommand sys videoPath outputDir fps) w1 = (res, w2))
    (hcode : returnCode res = 0)
    (hlist : sys.listDir (videoOutputDir sys videoPath outputDir) w2 = .ok entries)
    (hsrt : siblingSrt sys videoPath w2 ≠ [])
    (hexif : sys.pathExists (exiftoolPath sys) w2 = true)
    (hparse : parseSRT (sys.readFile (siblingSrt sys videoPath w2) w2) = .ok gpsFrames)
    (hne : gpsFrames ≠ []) :
    (∀ f ∈ gpsFrames, f.valid = true) ∧
    (∀ t, getGPSForTimestamp gpsFrames t ∈ gpsFrames) ∧
    (sortPaths sys.pathLess (jpgPaths sys entries)).length = (jpgPaths sys entries).length ∧
    Op.holds (extractFrames sys videoPath outputDir fps logLine) (fun _ s' =>
      (runs s'.trace).map Prod.fst = (runs s.trace).map Prod.fst ++
        ffmpegCommand sys videoPath outputDir fps ::
          (List.range (jpgPaths sys entries).length).map (fun i : ℕ =>
            generateExiftoolCommand (exiftoolPath sys)
              ((sortPaths sys.pathLess (jpgPaths sys entries)).getD i [])
              (getGPSForTimestamp gpsFrames (frameTimestamp i fps)).latitude
              (getGPSForTimestamp gpsFrames (frameTimestamp i fps)).longitude
              (getGPSForTimestamp gpsFrames (frameTimestamp i fps)).altitude)) s := by
  have hall := parseSRT_all_valid _ gpsFrames hparse
  have hmem := fun t => getGPSForTimestamp_mem gpsFrames t hne
  refine ⟨hall, hmem, sortPaths_length _ _, ?_⟩
  refine Op.holds_mono _ _ _ _ (extractFrames_tagging sys videoPath outputDir fps s w1 w2 res
    entries gpsFrames htool hmk hrun hcode hlist hsrt hexif hparse hne) ?_
  rintro r s' ⟨-, codes, hlen, hruns, -⟩
  rw [hruns, List.map_append, List.map_cons, List.map_fst_zip _ _ (Nat.le_of_eq hlen.symm),
    tagCommands_of_valid _ _ _ (fun t => hall _ (hmem t)), sortPaths_length]
  simp only [Nat.zero_add]

theorem extractFrames_tags_every_frame_witness :
    (∀ f ∈ threeFixes, f.valid = true) ∧
    (∀ t, getGPSForTimestamp threeFixes t ∈ threeFixes) ∧
    (sortPaths (simSys taggingRules).pathLess (jpgPaths (simSys taggingRules)
      (fiveFrames.reverse.map (fun p => { path := p, isRegularFile := true })))).length =
      (jpgPaths (simSys taggingRules)
        (fiveFrames.reverse.map (fun p => { path := p, isRegularFile := true }))).length ∧
    Op.holds (extractFrames (simSys taggingRules) "C:/in/flight.mp4".toList
      "C:/out/frames".toList 1 logLine) (fun _ s' =>
      (runs s'.trace).map Prod.fst = (runs (PState.start telemetryWorld).trace).map Prod.fst ++
        ffmpegCommand (simSys taggingRules) "C:/in/flight.mp4".toList "C:/out/frames".toList 1 ::
          (List.range (jpgPaths (simSys taggingRules)
            (fiveFrames.reverse.map (fun p => { path := p, isRegularFile := true }))).length).map
            (fun i : ℕ =>
              generateExiftoolCommand (exiftoolPath (simSys taggingRules))
                ((sortPaths (simSys taggingRules).pathLess (jpgPaths (simSys taggingRules)
                  (fiveFrames.reverse.map (fun p => { path := p, isRegularFile := true })))).getD
                  i [])
                (getGPSForTimestamp threeFixes (frameTimestamp i 1)).latitude
                (getGPSForTimestamp threeFixes (frameTimestamp i 1)).longitude
                (getGPSForTimestamp threeFixes (frameTimestamp i 1)).altitude))
      (PState.start telemetryWorld) :=
  extractFrames_tags_every_frame (simSys taggingRules) "C:/in/flight.mp4".toList
    "C:/out/frames".toList 1 (PState.start telemetryWorld)
    ((simSys taggingRules).createDirectories "C:/out/frames/flight".toList telemetryWorld).2
    ((simSys taggingRules).runProcess
      (ffmpegCommand (simSys taggingRules) "C:/in/flight.mp4".toList "C:/out/frames".toList 1)
      ((simSys taggingRules).createDirectories "C:/out/frames/flight".toList
        telemetryWorld).2).2
    (.exited ["frame=    5\n".toList] 0)
    (fiveFrames.reverse.map (fun p => { path := p, isRegularFile := true }))
    threeFixes
    (by decide!) (by decide!) (by decide!) (by decide!) (by decide!) (by decide!) (by decide!)
    (by decide!) (by decide!) (by decide!)

/-! ### Independence of the division into reads -/

theorem completeLines_no_newline (stream : List Char) :
    ∀ line ∈ (splitStream stream).1, '\n' ∉ line := by
  induction stream with
  | nil => intro line h; simp [splitStream] at h
  | cons c rest ih =>
    intro line h
    by_cases hc : c = '\n'
    · simp only [splitStream, hc, if_true, List.mem_cons] at h
      rcases h with h | h
      · rw [h]; simp
      · exact ih line h
    · cases h1 : (splitStream rest).1 with
      | nil => simp [splitStream, hc, h1] at h
      | cons l ls =>
        simp only [splitStream, hc, if_false, h1, List.mem_cons] at h
        rcases h with h | h
        · rw [h]
          simp only [List.mem_cons, not_or]
          exact ⟨fun e => hc e.symm, ih l (by rw [h1]; exact List.mem_cons_self _ _)⟩
        · exact ih line (by rw [h1]; exact List.mem_cons_of_mem _ h)

theorem specForwardedVisible_no_newline (stream : List Char) :
    ∀ line ∈ specForwardedVisible stream, '\n' ∉ line := by
  intro line h
  simp only [specForwardedVisible, completeLines, residual, List.mem_append, List.mem_filter] at h
  rcases h with h | h
  · exact completeLines_no_newline stream line h.1
  · split at h
    · simp at h
    · rw [List.mem_singleton] at h
      rw [h]
      exact residual_no_newline stream

theorem logged_cons_run (command : List Char) (code : ℤ) (t : List Event) :
    logged (Event.run command code :: t) = logged t := rfl

/-- The lines that a child with a NUL-free output gives to the recording
callback. -/
theorem runCommandHidden_logged {W : Type} (sys : Sys W) (command : List Char)
    (s : PState W) (reads : List (List Char)) (exitCode : Nat) (w : W)
    (hrun : sys.runProcess command s.world = (.exited reads exitCode, w))
    (hne : ∀ chunk ∈ reads, chunk ≠ [])
    (hnul : ∀ chunk ∈ reads, Char.ofNat 0 ∉ chunk) :
    logged (runCommandHidden sys command logLine s).2.trace =
      logged s.trace ++ specForwardedVisible reads.flatten := by
  unfold runCommandHidden
  rw [hrun]
  dsimp only [returnCode]
  rw [Op.bind_ok _ _ _ _ _ (readLoop_logLine reads [] _ (by simp) hne hnul)]
  dsimp only
  simp only [List.nil_append, specForwardedVisible, completeLines, residual]
  by_cases hr : (splitStream reads.flatten).2 = []
  · rw [hr]
    simp [Op.bind_apply, Op.pure_apply, logged_append, logged_map_log, logged_append_run,
      logged_cons_run]
  · have he : (splitStream reads.flatten).2.isEmpty = false := isEmpty_false_of_ne _ hr
    simp [Op.bind_apply, Op.pure_apply, logLine_apply, he, hr, logged_append, logged_map_log,
      logged_append_run, logged_singleton_log, logged_cons_run]

/-- C29: two runs of `runCommandHidden` whose children print the same NUL-free
stream, divided into non-empty reads in two ways, give the same lines to the
sink, and none of these lines contains a newline. -/
theorem runCommandHidden_chunking {W : Type} (sys₁ sys₂ : Sys W) (command₁ command₂ : List Char)
    (s₁ s₂ : PState W) (reads₁ reads₂ : List (List Char)) (code₁ code₂ : Nat) (w₁ w₂ : W)
    (hrun₁ : sys₁.runProcess command₁ s₁.world = (.exited reads₁ code₁, w₁))
    (hrun₂ : sys₂.runProcess command₂ s₂.world = (.exited reads₂ code₂, w₂))
    (hne₁ : ∀ chunk ∈ reads₁, chunk ≠ []) (hne₂ : ∀ chunk ∈ reads₂, chunk ≠ [])
    (hnul₁ : ∀ chunk ∈ reads₁, Char.ofNat 0 ∉ chunk)
    (hnul₂ : ∀ chunk ∈ reads₂, Char.ofNat 0 ∉ chunk)
    (hsame : reads₁.flatten = reads₂.flatten) :
    ∃ lines : List (List Char),
      logged (runCommandHidden sys₁ command₁ logLine s₁).2.trace = logged s₁.trace ++ lines ∧
      logged (runCommandHidden sys₂ command₂ logLine s₂).2.trace = logged s₂.trace ++ lines ∧
      ∀ line ∈ lines, '\n' ∉ line := by
  refine ⟨specForwardedVisible reads₁.flatten,
    runCommandHidden_logged sys₁ command₁ s₁ reads₁ code₁ w₁ hrun₁ hne₁ hnul₁, ?_,
    specForwardedVisible_no_newline _⟩
  rw [hsame]
  exact runCommandHidden_logged sys₂ command₂ s₂ reads₂ code₂ w₂ hrun₂ hne₂ hnul₂

theorem runCommandHidden_chunking_witness :
    ∃ lines : List (List Char),
      logged (runCommandHidden (simSys chunkedOutput) "tool".toList logLine
        (PState.start sampleWorld)).2.trace = logged (PState.start sampleWorld).trace ++ lines ∧
      logged (runCommandHidden (simSys wholeOutput) "tool".toList logLine
        (PState.start sampleWorld)).2.trace = logged (PState.start sampleWorld).trace ++ lines ∧
      ∀ line ∈ lines, '\n' ∉ line :=
  runCommandHidden_chunking (simSys chunkedOutput) (simSys wholeOutput) "tool".toList
    "tool".toList (PState.start sampleWorld) (PState.start sampleWorld)
    ["frame=1\r\n\r".toList, "\nfra".toList, "me=2\n\ndone".toList]
    ["frame=1\r\n\r\nframe=2\n\ndone".toList] 0 0 sampleWorld sampleWorld
    (by decide) (by decide) (by decide) (by decide) (by decide) (by decide) (by decide)

end GpsEmbed
